import Mathlib

/-!
# bhyve PCIe-NVMe device emulation (`usr.sbin/bhyve/pci_nvme.c`)

A shallow embedding of the controller logic of `pci_nvme.c`.

* Machine integers are natural numbers; truncation to the width of the C
  field is written out (`% 65536` for `uint16_t`, `% 2 ^ 64` for `uint64_t`).
* A C pointer that may be `NULL` is an `Option`; a queue array that has not
  been allocated is the empty list (an allocated one has `max_queues + 1 ≥ 1`
  entries).
* A run that would dereference `NULL`, index outside an array, fail an
  `assert`, divide by zero, block for ever or exceed the given fuel ends in a
  `Fault`.
* Guest memory is reached through host pointers returned by `vm_map_gpa` /
  `paddr_guest2host`.  It is kept as typed views keyed by host address:
  submission entries, completion entries, identify payloads and plain bytes.
* Mutexes, the semaphore and the condition variable are not modelled: every
  function is run to completion by one thread.
-/

namespace PciNvme

/-- Ways in which a run of the C code does not return normally. -/
inductive Fault where
  | nullDeref
  | outOfBounds
  | assertFail
  | divZero
  | blocked
  | outOfFuel
deriving DecidableEq

/-! ## Constants -/

/-- Modelled from the spec: `PAGE_SIZE` of the host (`machine/param.h` is not among
the sources); the low half of ASQ/ACQ masks off the bottom 12 bits for page alignment. -/
def PAGE_SIZE : Nat := 4096

def NVME_PRP2_ITEMS : Nat := PAGE_SIZE / 8

def NVME_MAX_BLOCKIOVS : Nat := 512

def NVME_CQ_INTEN : Nat := 0x01

def NVME_CQ_INTCOAL : Nat := 0x02

/-- Modelled from the spec: size of the standard 64-byte NVMe submission command
(`struct nvme_command` of `dev/nvme/nvme.h`, which is not among the sources). -/
def SIZEOF_NVME_COMMAND : Nat := 64

/-- Modelled from the spec: size of the standard 16-byte NVMe completion entry
(`struct nvme_completion` of `dev/nvme/nvme.h`, which is not among the sources). -/
def SIZEOF_NVME_COMPLETION : Nat := 16

/-- Modelled from the spec: status code type Generic (`dev/nvme/nvme.h` is not among the sources). -/
def NVME_SCT_GENERIC : Nat := 0

/-- Modelled from the spec: status code type Command-Specific, `sct = 1`. -/
def NVME_SCT_COMMAND_SPECIFIC : Nat := 1

/-- Modelled from the spec: Generic / Success, `sc = 0`. -/
def NVME_SC_SUCCESS : Nat := 0

/-- Modelled from the spec: Generic / Invalid Field, `sc = 0x02`. -/
def NVME_SC_INVALID_FIELD : Nat := 0x02

/-- Modelled from the spec: Generic / Data Transfer Error (NVMe status value 0x04). -/
def NVME_SC_DATA_TRANSFER_ERROR : Nat := 0x04

/-- Modelled from the spec: Generic / Invalid Namespace or Format (NVMe status value 0x0b). -/
def NVME_SC_INVALID_NAMESPACE_OR_FORMAT : Nat := 0x0b

/-- Modelled from the spec: Generic / LBA Out of Range (NVMe status value 0x80). -/
def NVME_SC_LBA_OUT_OF_RANGE : Nat := 0x80

/-- Modelled from the spec: Command-Specific / Invalid Queue Identifier, `sc = 0x01`. -/
def NVME_SC_INVALID_QUEUE_IDENTIFIER : Nat := 0x01

/-- Modelled from the spec: Command-Specific / Async Event Request Limit Exceeded
(NVMe status value 0x05). -/
def NVME_SC_ASYNC_EVENT_REQUEST_LIMIT_EXCEEDED : Nat := 0x05

/-- Modelled from the spec: Command-Specific / Invalid Log Page (NVMe status value 0x09). -/
def NVME_SC_INVALID_LOG_PAGE : Nat := 0x09

/-- Modelled from the spec: admin opcodes of `dev/nvme/nvme.h` (not among the sources),
with the values of the NVMe command set; Identify is opcode 0x06. -/
def NVME_OPC_DELETE_IO_SQ : Nat := 0x00

/-- Modelled from the spec: admin opcode Create I/O Submission Queue. -/
def NVME_OPC_CREATE_IO_SQ : Nat := 0x01

/-- Modelled from the spec: admin opcode Get Log Page. -/
def NVME_OPC_GET_LOG_PAGE : Nat := 0x02

/-- Modelled from the spec: admin opcode Delete I/O Completion Queue. -/
def NVME_OPC_DELETE_IO_CQ : Nat := 0x04

/-- Modelled from the spec: admin opcode Create I/O Completion Queue. -/
def NVME_OPC_CREATE_IO_CQ : Nat := 0x05

/-- Modelled from the spec: admin opcode Identify, 0x06. -/
def NVME_OPC_IDENTIFY : Nat := 0x06

/-- Modelled from the spec: admin opcode Abort. -/
def NVME_OPC_ABORT : Nat := 0x08

/-- Modelled from the spec: admin opcode Set Features. -/
def NVME_OPC_SET_FEATURES : Nat := 0x09

/-- Modelled from the spec: admin opcode Get Features. -/
def NVME_OPC_GET_FEATURES : Nat := 0x0a

/-- Modelled from the spec: admin opcode Asynchronous Event Request. -/
def NVME_OPC_ASYNC_EVENT_REQUEST : Nat := 0x0c

/-- Modelled from the spec: I/O opcode Flush, 0x00. -/
def NVME_OPC_FLUSH : Nat := 0x00

/-- Modelled from the spec: I/O opcode Write, 0x01. -/
def NVME_OPC_WRITE : Nat := 0x01

/-- Modelled from the spec: I/O opcode Read, 0x02. -/
def NVME_OPC_READ : Nat := 0x02

/-- Modelled from the spec: shutdown status "complete" of CSTS.SHST (NVMe value 2). -/
def NVME_SHST_COMPLETE : Nat := 2

/-- Modelled from the spec: `offsetof(struct nvme_registers, doorbell)`; the register
struct of `dev/nvme/nvme.h` is not among the sources, the doorbell array follows the
register block at the offset 0x1000 of the NVMe register map. -/
def NVME_DOORBELL_OFFSET : Nat := 0x1000

def NVME_CR_CAP_LOW : Nat := 0x00
def NVME_CR_CAP_HI : Nat := 0x04
def NVME_CR_VS : Nat := 0x08
def NVME_CR_INTMS : Nat := 0x0c
def NVME_CR_INTMC : Nat := 0x10
def NVME_CR_CC : Nat := 0x14
def NVME_CR_CSTS : Nat := 0x1c
def NVME_CR_NSSR : Nat := 0x20
def NVME_CR_AQA : Nat := 0x24
def NVME_CR_ASQ_LOW : Nat := 0x28
def NVME_CR_ASQ_HI : Nat := 0x2c
def NVME_CR_ACQ_LOW : Nat := 0x30
def NVME_CR_ACQ_HI : Nat := 0x34

/-! ## Bit fields of the register unions -/

/-- Value of the bit field of width `w` that starts at bit `lo` of `raw`. -/
def getbits (raw lo w : Nat) : Nat := (raw / 2 ^ lo) % 2 ^ w

/-- Store `v` (truncated to `w` bits) into the bit field of width `w` at bit `lo`. -/
def setbits (raw lo w v : Nat) : Nat :=
  raw - getbits raw lo w * 2 ^ lo + (v % 2 ^ w) * 2 ^ lo

/-- Modelled from the spec: `union cc_register` of `dev/nvme/nvme.h` (not among the
sources): `en:1, reserved:3, css:3, mps:4, ams:3, shn:2, iosqes:4, iocqes:4`, the layout
under which `CC = 0x00460001` is en = 1, iosqes = 6, iocqes = 4. -/
def cc_en (raw : Nat) : Nat := getbits raw 0 1

def cc_css (raw : Nat) : Nat := getbits raw 4 3

def cc_mps (raw : Nat) : Nat := getbits raw 7 4

def cc_ams (raw : Nat) : Nat := getbits raw 11 3

def cc_shn (raw : Nat) : Nat := getbits raw 14 2

def cc_iosqes (raw : Nat) : Nat := getbits raw 16 4

def cc_iocqes (raw : Nat) : Nat := getbits raw 20 4

def cc_set_en (raw v : Nat) : Nat := setbits raw 0 1 v

def cc_set_css (raw v : Nat) : Nat := setbits raw 4 3 v

def cc_set_mps (raw v : Nat) : Nat := setbits raw 7 4 v

def cc_set_ams (raw v : Nat) : Nat := setbits raw 11 3 v

def cc_set_iosqes (raw v : Nat) : Nat := setbits raw 16 4 v

def cc_set_iocqes (raw v : Nat) : Nat := setbits raw 20 4 v

/-- Modelled from the spec: `union csts_register` of `dev/nvme/nvme.h` (not among the
sources): `rdy:1, cfs:1, shst:2`. -/
def csts_rdy (raw : Nat) : Nat := getbits raw 0 1

def csts_shst (raw : Nat) : Nat := getbits raw 2 2

def csts_set_rdy (raw v : Nat) : Nat := setbits raw 0 1 v

def csts_set_shst (raw v : Nat) : Nat := setbits raw 2 2 v

/-- Modelled from the spec: `union aqa_register` of `dev/nvme/nvme.h` (not among the
sources): `asqs:12, reserved:4, acqs:12`, the layout under which `AQA = 0x001F001F`
gives two 32-entry admin queues. -/
def aqa_asqs (raw : Nat) : Nat := getbits raw 0 12

def aqa_acqs (raw : Nat) : Nat := getbits raw 16 12

/-- Modelled from the spec: `union cap_lo_register` of `dev/nvme/nvme.h` (not among the
sources): `mqes:16, cqr:1, ams:2, reserved:5, to:8`. -/
def cap_lo_set_mqes (raw v : Nat) : Nat := setbits raw 0 16 v

def cap_lo_set_cqr (raw v : Nat) : Nat := setbits raw 16 1 v

def cap_lo_set_ams (raw v : Nat) : Nat := setbits raw 17 2 v

def cap_lo_set_to (raw v : Nat) : Nat := setbits raw 24 8 v

/-- Modelled from the spec: `union cap_hi_register` of `dev/nvme/nvme.h` (not among the
sources): `dstrd:4, reserved:1, css_nvm:1, css_reserved:3, reserved:7, mpsmin:4, mpsmax:4`. -/
def cap_hi_set_dstrd (raw v : Nat) : Nat := setbits raw 0 4 v

def cap_hi_set_css_nvm (raw v : Nat) : Nat := setbits raw 5 1 v

def cap_hi_set_mpsmin (raw v : Nat) : Nat := setbits raw 16 4 v

def cap_hi_set_mpsmax (raw v : Nat) : Nat := setbits raw 20 4 v

/-! ## Data model -/

/-- Status field of a completion entry (`struct nvme_status`): phase tag, status code,
status code type. -/
structure nvme_status where
  p : Bool
  sc : Nat
  sct : Nat
deriving DecidableEq

/-- Completion queue entry (`struct nvme_completion`). -/
structure nvme_completion where
  cdw0 : Nat
  sqhd : Nat
  sqid : Nat
  cid : Nat
  status : nvme_status
deriving DecidableEq

/-- Submission queue entry (`struct nvme_command`), the fields the emulation reads. -/
structure nvme_command where
  opc : Nat
  cid : Nat
  nsid : Nat
  prp1 : Nat
  prp2 : Nat
  cdw10 : Nat
  cdw11 : Nat
  cdw12 : Nat
deriving DecidableEq

structure nvme_completion_queue where
  qbase : Option Nat
  size : Nat
  tail : Nat
  head : Nat
  intr_vec : Nat
  intr_en : Nat
deriving DecidableEq

structure nvme_submission_queue where
  qbase : Option Nat
  size : Nat
  head : Nat
  tail : Nat
  cqid : Nat
  busy : Nat
  qpriority : Nat
deriving DecidableEq

inductive nvme_storage_type where
  | NVME_STOR_BLOCKIF
  | NVME_STOR_RAM
deriving DecidableEq

/-- Backing store (`struct pci_nvme_blockstore`); `ram` is the content of the buffer
`ctx` points to when the store is a RAM disk, byte by byte. -/
structure pci_nvme_blockstore where
  type : nvme_storage_type
  ram : Nat → Nat
  size : Nat
  sectsz : Nat
  sectsz_bits : Nat

structure iovec where
  iov_base : Option Nat
  iov_len : Nat
deriving DecidableEq

/-- Completion callbacks a block request can carry. -/
inductive br_callback_t where
  | unset
  | io_done
  | io_part
deriving DecidableEq

/-- Request handed to the block backend (`struct blockif_req`), with the iovec array
of `NVME_MAX_BLOCKIOVS` entries that `struct pci_nvme_ioreq` pads it to. -/
structure blockif_req where
  br_iov : List iovec
  br_iovcnt : Nat
  br_offset : Nat
  br_resid : Nat
  br_callback : br_callback_t
deriving DecidableEq

/-- I/O request descriptor (`struct pci_nvme_ioreq`); `nvme_sq` is the index of the
submission queue the pointer refers to. -/
structure pci_nvme_ioreq where
  in_use : Bool
  nvme_sq : Option Nat
  sqid : Nat
  opc : Nat
  cid : Nat
  nsid : Nat
  prev_gpaddr : Nat
  prev_size : Nat
  io_req : blockif_req
deriving DecidableEq

structure nvme_registers where
  cap_lo : Nat
  cap_hi : Nat
  vs : Nat
  cc : Nat
  csts : Nat
  aqa : Nat
  asq : Nat
  acq : Nat
deriving DecidableEq

/-- Identify Namespace payload (`struct nvme_namespace_data`), the fields that are set. -/
structure nvme_namespace_data where
  nsze : Nat
  ncap : Nat
  nuse : Nat
  nlbaf : Nat
  lbaf0_ms : Nat
  lbaf0_lbads : Nat
  lbaf0_rp : Nat
  flbas_format : Nat
deriving DecidableEq

/-- Identify Controller payload (`struct nvme_controller_data`), the fields that are set. -/
structure nvme_controller_data where
  vid : Nat
  ssvid : Nat
  mn : List Char
  fr : List Char
  rab : Nat
  ieee : List Nat
  mic : Nat
  mdts : Nat
  ver : Nat
  oacs_format : Nat
  acl : Nat
  aerl : Nat
  lpa_ns_smart : Nat
  elpe : Nat
  npss : Nat
  wctemp : Nat
  sqes_min : Nat
  sqes_max : Nat
  cqes_min : Nat
  cqes_max : Nat
  nn : Nat
  fna : Nat
  power_state0_mp : Nat
deriving DecidableEq

/-- Guest memory as the emulation sees it (`struct vmctx` behind `nsc_pi->pi_vmctx`).
`vm_map_gpa gpa len` is the host pointer for a guest-physical range, `none` when the
range is not mapped (`paddr_guest2host` is the same service).  The content is kept as
typed views keyed by host address: `cmd` for the entries of the submission rings, `cpl`
for the entries of the completion rings, `id_ns` / `id_ctrl` for the Identify pages and
`byte` for the bytes of data buffers and PRP lists.  A view stands for the region of
guest memory that is accessed through it, and the views do not alias: a store through one
view is not seen through another.  The C code has one memory, so the model agrees with it
where these regions do not overlap; a statement that relates the bytes of a data buffer
with commands that also write ring entries states this separation as a hypothesis
(`buffer_off_range`). -/
structure vmctx where
  vm_map_gpa : Nat → Nat → Option Nat
  cmd : Nat → nvme_command
  cpl : Nat → nvme_completion
  byte : Nat → Nat
  id_ns : Nat → Option nvme_namespace_data
  id_ctrl : Nat → Option nvme_controller_data

/-- Device state (`struct pci_nvme_softc`).  `ctx` is the guest memory reached through
`nsc_pi->pi_vmctx`, `msix` the vectors passed to `pci_generate_msix` so far, `blockif_log`
the requests handed to `blockif_read` (`false`) and `blockif_write` (`true`) so far, and
`blockif_rc` the value the block backend returns for a request. -/
structure pci_nvme_softc where
  regs : nvme_registers
  nsdata : nvme_namespace_data
  ctrldata : nvme_controller_data
  nvstore : pci_nvme_blockstore
  max_qentries : Nat
  max_queues : Nat
  num_cqueues : Nat
  num_squeues : Nat
  ioreqs : List pci_nvme_ioreq
  ioreqs_free : List Nat
  pending_ios : Nat
  ioslots : Nat
  compl_queues : List nvme_completion_queue
  submit_queues : List nvme_submission_queue
  intr_coales_aggr_time : Nat
  intr_coales_aggr_thresh : Nat
  async_ev_config : Nat
  ctx : vmctx
  msix : List Nat
  blockif_log : List (Bool × blockif_req)
  blockif_rc : blockif_req → Nat

/-! ## Small helpers -/

/-- Array element `l[i]`, a fault when `i` is outside the array. -/
def idx {α : Type} (l : List α) (i : Nat) : Except Fault α :=
  match l[i]? with
  | some a => .ok a
  | none => .error .outOfBounds

/-- Host pointer arithmetic `&base[i]` for elements of `sz` bytes. -/
def elem_addr (base sz i : Nat) : Nat := base + sz * i

/-! ## Posting a completion -/

/-- Embedding of `pci_nvme_set_completion`.  `sq` is the index of the submission queue
the pointer argument refers to.  The argument `cdw0` is not used by the C function. -/
def pci_nvme_set_completion (sc : pci_nvme_softc) (sq : Nat) (sqid : Nat) (cid : Nat)
    (_cdw0 : Nat) (status : nvme_status) (ignore_busy : Bool) : Except Fault pci_nvme_softc :=
  match sc.submit_queues[sq]? with
  | none => .error .outOfBounds
  | some q =>
    match sc.compl_queues[q.cqid]? with
    | none => .error .outOfBounds
    | some cq =>
      match cq.qbase with
      | none => .error .assertFail
      | some base =>
        let a := elem_addr base SIZEOF_NVME_COMPLETION cq.tail
        let old := sc.ctx.cpl a
        let compl : nvme_completion :=
          { old with
            sqhd := q.head
            sqid := sqid % 65536
            cid := cid % 65536
            status := { p := !old.status.p, sc := status.sc % 256, sct := status.sct % 8 } }
        if cq.size = 0 then .error .divZero
        else
          let cq1 : nvme_completion_queue :=
            { cq with tail := ((cq.tail + 1) % cq.size) % 65536 }
          let do_intr : Bool := decide (cq.intr_en % 2 = 1)
          let fire : Bool := (ignore_busy || decide (q.busy = 0)) && do_intr
          .ok { sc with
                ctx := { sc.ctx with cpl := Function.update sc.ctx.cpl a compl }
                compl_queues := sc.compl_queues.set q.cqid cq1
                msix := if fire then sc.msix ++ [cq.intr_vec] else sc.msix }

/-- Arguments of one call of `pci_nvme_set_completion` on a given submission queue. -/
structure post_args where
  sqid : Nat
  cid : Nat
  cdw0 : Nat
  status : nvme_status
  ignore_busy : Bool

/-- Back-to-back calls of `pci_nvme_set_completion` for the submission queue `sq`,
one per element of the list, in order. -/
def post_all (sc : pci_nvme_softc) (sq : Nat) : List post_args → Except Fault pci_nvme_softc
  | [] => .ok sc
  | a :: rest =>
    match pci_nvme_set_completion sc sq a.sqid a.cid a.cdw0 a.status a.ignore_busy with
    | .ok sc1 => post_all sc1 sq rest
    | .error e => .error e

/-! ## Zero-filled objects (`calloc`) -/

def zero_status : nvme_status := { p := false, sc := 0, sct := 0 }

def zero_completion : nvme_completion :=
  { cdw0 := 0, sqhd := 0, sqid := 0, cid := 0, status := zero_status }

def zero_command : nvme_command :=
  { opc := 0, cid := 0, nsid := 0, prp1 := 0, prp2 := 0, cdw10 := 0, cdw11 := 0, cdw12 := 0 }

def zero_cq : nvme_completion_queue :=
  { qbase := none, size := 0, tail := 0, head := 0, intr_vec := 0, intr_en := 0 }

def zero_sq : nvme_submission_queue :=
  { qbase := none, size := 0, head := 0, tail := 0, cqid := 0, busy := 0, qpriority := 0 }

def zero_iovec : iovec := { iov_base := none, iov_len := 0 }

def zero_ioreq : pci_nvme_ioreq :=
  { in_use := false, nvme_sq := none, sqid := 0, opc := 0, cid := 0, nsid := 0,
    prev_gpaddr := 0, prev_size := 0,
    io_req := { br_iov := List.replicate NVME_MAX_BLOCKIOVS zero_iovec, br_iovcnt := 0,
                br_offset := 0, br_resid := 0, br_callback := br_callback_t.unset } }

/-! ## Reset and enable -/

/-- What the loop body of `pci_nvme_reset` does to `submit_queues[i]`. -/
def reset_sq (i : Nat) (sq : nvme_submission_queue) : nvme_submission_queue :=
  let sq1 : nvme_submission_queue :=
    if i ≠ 0 then { sq with qbase := none, size := 0, cqid := 0 } else sq
  { sq1 with tail := 0, head := 0, busy := 0 }

/-- What the loop body of `pci_nvme_reset` does to `compl_queues[i]`.  The second
assignment of `NULL` in the `i != 0` branch goes to `submit_queues[i].qbase` again, as in
the source; `compl_queues[i].qbase` is not assigned. -/
def reset_cq (i : Nat) (cq : nvme_completion_queue) : nvme_completion_queue :=
  let cq1 : nvme_completion_queue := if i ≠ 0 then { cq with size := 0 } else cq
  { cq1 with tail := 0, head := 0 }

/-- Body of the queue loop of `pci_nvme_reset` for index `i`. -/
def reset_queue (sc : pci_nvme_softc) (i : Nat) : Except Fault pci_nvme_softc :=
  match sc.submit_queues[i]?, sc.compl_queues[i]? with
  | some sq, some cq =>
    .ok { sc with
          submit_queues := sc.submit_queues.set i (reset_sq i sq)
          compl_queues := sc.compl_queues.set i (reset_cq i cq) }
  | none, _ => .error .outOfBounds
  | some _, none => .error (if sc.compl_queues = [] then .nullDeref else .outOfBounds)

/-- The loop `for (i = start; i <= max_queues; i++)` of `pci_nvme_reset`, with `n`
iterations left. -/
def reset_queues (sc : pci_nvme_softc) (start : Nat) : Nat → Except Fault pci_nvme_softc
  | 0 => .ok sc
  | n + 1 =>
    match reset_queue sc start with
    | .ok sc1 => reset_queues sc1 (start + 1) n
    | .error e => .error e

/-- Embedding of `pci_nvme_reset`.  When the completion queue array is allocated here
(`max_queues + 1` elements), the loop that follows initialises the mutex of the elements
`0 .. num_cqueues`: with `num_cqueues > max_queues` it writes past the end of the array. -/
def pci_nvme_reset (sc : pci_nvme_softc) : Except Fault pci_nvme_softc :=
  let cap_lo := cap_lo_set_to (cap_lo_set_ams (cap_lo_set_cqr
    (cap_lo_set_mqes 0 sc.max_qentries) 1) 0) 60
  let cap_hi := cap_hi_set_mpsmax (cap_hi_set_mpsmin (cap_hi_set_css_nvm
    (cap_hi_set_dstrd 0 0) 1) 0) 0
  let sc0 : pci_nvme_softc :=
    { sc with regs := { sc.regs with
                        cap_lo := cap_lo, cap_hi := cap_hi, vs := 0x00010300, cc := 0, csts := 0 } }
  let r1 : Except Fault pci_nvme_softc :=
    if sc0.submit_queues ≠ [] then
      reset_queues { sc0 with num_cqueues := sc0.max_queues, num_squeues := sc0.max_queues }
        0 (sc0.max_queues + 1)
    else
      .ok { sc0 with submit_queues := List.replicate (sc0.max_queues + 1) zero_sq }
  match r1 with
  | .error e => .error e
  | .ok sc1 =>
    if sc1.compl_queues = [] then
      if sc1.num_cqueues ≤ sc1.max_queues then
        .ok { sc1 with compl_queues := List.replicate (sc1.max_queues + 1) zero_cq }
      else .error .outOfBounds
    else .ok sc1

/-- Embedding of `pci_nvme_init_controller`. -/
def pci_nvme_init_controller (sc : pci_nvme_softc) : Except Fault pci_nvme_softc :=
  match sc.submit_queues[0]? with
  | none => .error .nullDeref
  | some sq0 =>
    let asqs1 := aqa_asqs sc.regs.aqa + 1
    let sq1 : nvme_submission_queue :=
      { sq0 with size := asqs1
                 qbase := sc.ctx.vm_map_gpa sc.regs.asq (SIZEOF_NVME_COMMAND * asqs1) }
    match sc.compl_queues[0]? with
    | none => .error .nullDeref
    | some cq0 =>
      let acqs1 := aqa_acqs sc.regs.aqa + 1
      let cq1 : nvme_completion_queue :=
        { cq0 with size := acqs1
                   qbase := sc.ctx.vm_map_gpa sc.regs.acq (SIZEOF_NVME_COMPLETION * acqs1) }
      .ok { sc with submit_queues := sc.submit_queues.set 0 sq1
                    compl_queues := sc.compl_queues.set 0 cq1 }

/-! ## Admin opcodes

Each handler gets the command and the local completion `compl` of the caller and returns
the new device state, the updated `compl` and its C return value. -/

/-- Set `status.sct` and `status.sc` of a completion, leaving the phase bit. -/
def set_status (compl : nvme_completion) (sct sc : Nat) : nvme_completion :=
  { compl with status := { compl.status with sct := sct % 8, sc := sc % 256 } }

/-- Embedding of `nvme_opc_delete_io_sq`.  The range check is against `num_cqueues`, as
in the source. -/
def nvme_opc_delete_io_sq (sc : pci_nvme_softc) (command : nvme_command)
    (compl : nvme_completion) : Except Fault (pci_nvme_softc × nvme_completion × Nat) :=
  let qid := command.cdw10 % 65536
  if qid = 0 ∨ qid > sc.num_cqueues then
    .ok (sc, set_status compl NVME_SCT_COMMAND_SPECIFIC NVME_SC_INVALID_QUEUE_IDENTIFIER, 1)
  else
    match sc.submit_queues[qid]? with
    | none => .error .outOfBounds
    | some sq =>
      .ok ({ sc with submit_queues := sc.submit_queues.set qid { sq with qbase := none } },
           set_status compl NVME_SCT_GENERIC NVME_SC_SUCCESS, 1)

/-- Embedding of `nvme_opc_create_io_sq`. -/
def nvme_opc_create_io_sq (sc : pci_nvme_softc) (command : nvme_command)
    (compl : nvme_completion) : Except Fault (pci_nvme_softc × nvme_completion × Nat) :=
  if command.cdw11 % 2 = 1 then
    let qid := command.cdw10 % 65536
    if qid > sc.num_squeues then
      .ok (sc, set_status compl NVME_SCT_COMMAND_SPECIFIC NVME_SC_INVALID_QUEUE_IDENTIFIER, 1)
    else
      match sc.submit_queues[qid]? with
      | none => .error .outOfBounds
      | some nsq =>
        let size := (command.cdw10 / 65536) % 65536 + 1
        let nsq1 : nvme_submission_queue :=
          { nsq with size := size
                     qbase := sc.ctx.vm_map_gpa command.prp1 (SIZEOF_NVME_COMMAND * size)
                     cqid := (command.cdw11 / 65536) % 65536
                     qpriority := (command.cdw11 / 2) % 4 }
        .ok ({ sc with submit_queues := sc.submit_queues.set qid nsq1 },
             set_status compl NVME_SCT_GENERIC NVME_SC_SUCCESS, 1)
  else
    .ok (sc, set_status compl NVME_SCT_GENERIC NVME_SC_INVALID_FIELD, 1)

/-- Embedding of `nvme_opc_delete_io_cq`. -/
def nvme_opc_delete_io_cq (sc : pci_nvme_softc) (command : nvme_command)
    (compl : nvme_completion) : Except Fault (pci_nvme_softc × nvme_completion × Nat) :=
  let qid := command.cdw10 % 65536
  if qid = 0 ∨ qid > sc.num_cqueues then
    .ok (sc, set_status compl NVME_SCT_COMMAND_SPECIFIC NVME_SC_INVALID_QUEUE_IDENTIFIER, 1)
  else
    match sc.compl_queues[qid]? with
    | none => .error .outOfBounds
    | some cq =>
      .ok ({ sc with compl_queues := sc.compl_queues.set qid { cq with qbase := none } },
           set_status compl NVME_SCT_GENERIC NVME_SC_SUCCESS, 1)

/-- Embedding of `nvme_opc_create_io_cq`.  The mapped length uses the size of a
submission command, and the non-contiguous case answers status code `0x12`, both as in
the source. -/
def nvme_opc_create_io_cq (sc : pci_nvme_softc) (command : nvme_command)
    (compl : nvme_completion) : Except Fault (pci_nvme_softc × nvme_completion × Nat) :=
  if command.cdw11 % 2 = 1 then
    let qid := command.cdw10 % 65536
    if qid > sc.num_cqueues then
      .ok (sc, set_status compl NVME_SCT_COMMAND_SPECIFIC NVME_SC_INVALID_QUEUE_IDENTIFIER, 1)
    else
      match sc.compl_queues[qid]? with
      | none => .error .outOfBounds
      | some ncq =>
        let size := (command.cdw10 / 65536) % 65536 + 1
        let ncq1 : nvme_completion_queue :=
          { ncq with intr_en := (command.cdw11 / 2) % 2
                     intr_vec := (command.cdw11 / 65536) % 65536
                     size := size
                     qbase := sc.ctx.vm_map_gpa command.prp1 (SIZEOF_NVME_COMMAND * size) }
        .ok ({ sc with compl_queues := sc.compl_queues.set qid ncq1 },
             set_status compl NVME_SCT_GENERIC NVME_SC_SUCCESS, 1)
  else
    .ok (sc, set_status compl NVME_SCT_GENERIC 0x12, 1)

/-- Modelled from the spec: size of the identify payloads `struct nvme_namespace_data`
and `struct nvme_controller_data` (`dev/nvme/nvme.h` is not among the sources); an NVMe
identify structure is one 4096-byte page. -/
def SIZEOF_IDENTIFY_DATA : Nat := 4096

/-- Modelled from the spec: feature identifiers of Set/Get Features (`dev/nvme/nvme.h` is
not among the sources): Arbitration 0x01 up to Async Event Configuration 0x0B, Software
Progress Marker 0x80. -/
def NVME_FEAT_ARBITRATION : Nat := 0x01

def NVME_FEAT_POWER_MANAGEMENT : Nat := 0x02

def NVME_FEAT_LBA_RANGE_TYPE : Nat := 0x03

def NVME_FEAT_TEMPERATURE_THRESHOLD : Nat := 0x04

def NVME_FEAT_ERROR_RECOVERY : Nat := 0x05

def NVME_FEAT_VOLATILE_WRITE_CACHE : Nat := 0x06

def NVME_FEAT_NUMBER_OF_QUEUES : Nat := 0x07

def NVME_FEAT_INTERRUPT_COALESCING : Nat := 0x08

def NVME_FEAT_INTERRUPT_VECTOR_CONFIGURATION : Nat := 0x09

def NVME_FEAT_WRITE_ATOMICITY : Nat := 0x0A

def NVME_FEAT_ASYNC_EVENT_CONFIGURATION : Nat := 0x0B

def NVME_FEAT_SOFTWARE_PROGRESS_MARKER : Nat := 0x80

/-- The bytes `memset(p, 0, len)` leaves in memory. -/
def memset_zero (byte : Nat → Nat) (p len : Nat) : Nat → Nat :=
  fun a => if p ≤ a ∧ a < p + len then 0 else byte a

/-- Store of a 32-bit value at host address `p`, little endian. -/
def write32 (byte : Nat → Nat) (p v : Nat) : Nat → Nat :=
  fun a => if p ≤ a ∧ a < p + 4 then (v / 256 ^ (a - p)) % 256 else byte a

/-- Load of a 64-bit value from host address `p`, little endian. -/
def read64 (byte : Nat → Nat) (p : Nat) : Nat :=
  (List.range 8).foldr (fun k acc => byte (p + k) % 256 + 256 * acc) 0

/-- Embedding of `nvme_opc_get_log_page`. -/
def nvme_opc_get_log_page (sc : pci_nvme_softc) (command : nvme_command)
    (compl : nvme_completion) : Except Fault (pci_nvme_softc × nvme_completion × Nat) :=
  let logsize := ((1 + (command.cdw10 / 65536) % 4096) * 2) % 2 ^ 32
  let logpage := command.cdw10 % 256
  let data : Option Nat :=
    if 1 ≤ logpage ∧ logpage ≤ 3 then sc.ctx.vm_map_gpa command.prp1 PAGE_SIZE else none
  let compl1 := set_status compl NVME_SCT_GENERIC NVME_SC_SUCCESS
  if logpage = 0x01 ∨ logpage = 0x02 ∨ logpage = 0x03 then
    match data with
    | none => .error .nullDeref
    | some p =>
      let len := if logsize > PAGE_SIZE then PAGE_SIZE else logsize
      .ok ({ sc with ctx := { sc.ctx with byte := memset_zero sc.ctx.byte p len } }, compl1, 1)
  else
    .ok (sc, set_status compl1 NVME_SCT_COMMAND_SPECIFIC NVME_SC_INVALID_LOG_PAGE, 1)

/-- Embedding of `nvme_opc_identify`. -/
def nvme_opc_identify (sc : pci_nvme_softc) (command : nvme_command)
    (compl : nvme_completion) : Except Fault (pci_nvme_softc × nvme_completion × Nat) :=
  let cns := command.cdw10 % 256
  if cns = 0x00 then
    match sc.ctx.vm_map_gpa command.prp1 SIZEOF_IDENTIFY_DATA with
    | none => .error .nullDeref
    | some dest =>
      .ok ({ sc with ctx := { sc.ctx with
                              id_ns := Function.update sc.ctx.id_ns dest (some sc.nsdata) } },
           set_status compl NVME_SCT_GENERIC NVME_SC_SUCCESS, 1)
  else if cns = 0x01 then
    match sc.ctx.vm_map_gpa command.prp1 SIZEOF_IDENTIFY_DATA with
    | none => .error .nullDeref
    | some dest =>
      .ok ({ sc with ctx := { sc.ctx with
                              id_ctrl := Function.update sc.ctx.id_ctrl dest (some sc.ctrldata) } },
           set_status compl NVME_SCT_GENERIC NVME_SC_SUCCESS, 1)
  else if cns = 0x02 then
    match sc.ctx.vm_map_gpa command.prp1 (4 * 1024) with
    | none => .error .nullDeref
    | some dest =>
      .ok ({ sc with ctx := { sc.ctx with
                              byte := write32 (write32 sc.ctx.byte dest 1) (dest + 4) 0 } },
           set_status compl NVME_SCT_GENERIC NVME_SC_SUCCESS, 1)
  else if cns = 0x11 then
    .ok (sc, set_status compl NVME_SCT_GENERIC NVME_SC_INVALID_NAMESPACE_OR_FORMAT, 1)
  else
    .ok (sc, set_status compl NVME_SCT_GENERIC NVME_SC_INVALID_FIELD, 1)

/-- Body of the loop of Set Features / Interrupt Vector Configuration for the
completion queue `i`. -/
def set_intcoal (sc : pci_nvme_softc) (command : nvme_command) (i : Nat) :
    Except Fault pci_nvme_softc :=
  match sc.compl_queues[i]? with
  | none => .error .outOfBounds
  | some cq =>
    if cq.intr_vec = command.cdw11 % 65536 then
      let en := if (command.cdw11 / 65536) % 2 = 1 then cq.intr_en ||| NVME_CQ_INTCOAL
                else cq.intr_en &&& (2 ^ 32 - 1 - NVME_CQ_INTCOAL)
      .ok { sc with compl_queues := sc.compl_queues.set i { cq with intr_en := en } }
    else .ok sc

/-- The loop `for (i = start; i <= num_cqueues; i++)` of Set Features / Interrupt Vector
Configuration, with `n` iterations left. -/
def set_intcoal_loop (sc : pci_nvme_softc) (command : nvme_command) (start : Nat) :
    Nat → Except Fault pci_nvme_softc
  | 0 => .ok sc
  | n + 1 =>
    match set_intcoal sc command start with
    | .ok sc1 => set_intcoal_loop sc1 command (start + 1) n
    | .error e => .error e

/-- Embedding of `nvme_opc_set_features`.  The feature is `cdw10 & 0x0F`, as in the
source, so the case for the Software Progress Marker (0x80) is never taken. -/
def nvme_opc_set_features (sc : pci_nvme_softc) (command : nvme_command)
    (compl : nvme_completion) : Except Fault (pci_nvme_softc × nvme_completion × Nat) :=
  let feature := command.cdw10 % 16
  let compl0 : nvme_completion := { compl with cdw0 := 0 }
  let ok (sc1 : pci_nvme_softc) (c : nvme_completion) :
      Except Fault (pci_nvme_softc × nvme_completion × Nat) :=
    .ok (sc1, set_status c NVME_SCT_GENERIC NVME_SC_SUCCESS, 1)
  if feature = NVME_FEAT_ARBITRATION ∨ feature = NVME_FEAT_POWER_MANAGEMENT ∨
      feature = NVME_FEAT_LBA_RANGE_TYPE ∨ feature = NVME_FEAT_TEMPERATURE_THRESHOLD ∨
      feature = NVME_FEAT_ERROR_RECOVERY ∨ feature = NVME_FEAT_VOLATILE_WRITE_CACHE then
    ok sc compl0
  else if feature = NVME_FEAT_NUMBER_OF_QUEUES then
    let nsq0 := command.cdw11 % 65536
    let ncq0 := (command.cdw11 / 65536) % 65536
    let nsq := if nsq0 = 0 ∨ nsq0 > sc.max_queues then sc.max_queues else nsq0
    let ncq := if ncq0 = 0 ∨ ncq0 > sc.max_queues then sc.max_queues else ncq0
    ok { sc with num_squeues := nsq, num_cqueues := ncq }
      { compl0 with cdw0 := ((nsq % 65536) ||| ((ncq % 65536) * 65536)) % 2 ^ 32 }
  else if feature = NVME_FEAT_INTERRUPT_COALESCING then
    ok { sc with intr_coales_aggr_time := ((command.cdw11 / 256) % 256) * 100
                 intr_coales_aggr_thresh := command.cdw11 % 256 } compl0
  else if feature = NVME_FEAT_INTERRUPT_VECTOR_CONFIGURATION then
    match set_intcoal_loop sc command 0 (sc.num_cqueues + 1) with
    | .error e => .error e
    | .ok sc1 => ok sc1 compl0
  else if feature = NVME_FEAT_WRITE_ATOMICITY then
    ok sc compl0
  else if feature = NVME_FEAT_ASYNC_EVENT_CONFIGURATION then
    ok { sc with async_ev_config := command.cdw11 % 2 ^ 32 } compl0
  else if feature = NVME_FEAT_SOFTWARE_PROGRESS_MARKER then
    ok sc compl0
  else if feature = 0x0C then
    ok sc compl0
  else
    .ok (sc, set_status compl0 NVME_SCT_GENERIC NVME_SC_INVALID_FIELD, 1)

/-- Embedding of `nvme_opc_get_features`.  The Async Event Configuration case stores
`cdw11` into `async_ev_config`, as in the source. -/
def nvme_opc_get_features (sc : pci_nvme_softc) (command : nvme_command)
    (compl : nvme_completion) : Except Fault (pci_nvme_softc × nvme_completion × Nat) :=
  let feature := command.cdw10 % 16
  let compl0 : nvme_completion := { compl with cdw0 := 0 }
  let ok (sc1 : pci_nvme_softc) (c : nvme_completion) :
      Except Fault (pci_nvme_softc × nvme_completion × Nat) :=
    .ok (sc1, set_status c NVME_SCT_GENERIC NVME_SC_SUCCESS, 1)
  if feature = NVME_FEAT_ARBITRATION ∨ feature = NVME_FEAT_POWER_MANAGEMENT ∨
      feature = NVME_FEAT_LBA_RANGE_TYPE then
    ok sc compl0
  else if feature = NVME_FEAT_TEMPERATURE_THRESHOLD then
    let sel := (command.cdw11 / 2 ^ 20) % 4
    if sel = 0 then ok sc { compl0 with cdw0 := 0xFFFF }
    else if sel = 1 then ok sc { compl0 with cdw0 := 0 }
    else .ok (sc, set_status compl0 NVME_SCT_GENERIC NVME_SC_INVALID_FIELD, 1)
  else if feature = NVME_FEAT_ERROR_RECOVERY ∨ feature = NVME_FEAT_VOLATILE_WRITE_CACHE then
    ok sc compl0
  else if feature = NVME_FEAT_NUMBER_OF_QUEUES then
    let lo := if sc.num_squeues = 0 then sc.max_queues % 65536 else sc.num_squeues % 65536
    let hi := if sc.num_cqueues = 0 then (sc.max_queues % 65536) * 65536
              else (sc.num_cqueues % 65536) * 65536
    ok sc { compl0 with cdw0 := (lo ||| hi) % 2 ^ 32 }
  else if feature = NVME_FEAT_INTERRUPT_COALESCING ∨
      feature = NVME_FEAT_INTERRUPT_VECTOR_CONFIGURATION ∨
      feature = NVME_FEAT_WRITE_ATOMICITY then
    ok sc compl0
  else if feature = NVME_FEAT_ASYNC_EVENT_CONFIGURATION then
    ok { sc with async_ev_config := command.cdw11 % 2 ^ 32 } compl0
  else if feature = NVME_FEAT_SOFTWARE_PROGRESS_MARKER then
    ok sc compl0
  else if feature = 0x0C then
    ok sc compl0
  else
    .ok (sc, set_status compl0 NVME_SCT_GENERIC NVME_SC_INVALID_FIELD, 1)

/-- Embedding of `nvme_opc_abort`. -/
def nvme_opc_abort (sc : pci_nvme_softc) (_command : nvme_command)
    (compl : nvme_completion) : Except Fault (pci_nvme_softc × nvme_completion × Nat) :=
  .ok (sc, set_status { compl with cdw0 := 1 } NVME_SCT_GENERIC NVME_SC_SUCCESS, 1)

/-- Embedding of `nvme_opc_async_event_req` (its call in the admin loop is commented
out in the source). -/
def nvme_opc_async_event_req (sc : pci_nvme_softc) (_command : nvme_command)
    (compl : nvme_completion) : Except Fault (pci_nvme_softc × nvme_completion × Nat) :=
  .ok (sc, set_status compl NVME_SCT_COMMAND_SPECIFIC
    NVME_SC_ASYNC_EVENT_REQUEST_LIMIT_EXCEEDED, 0)

/-! ## Admin executor -/

/-- Modelled from the spec: `atomic_testandset_int(&sq->busy, 1)` of `machine/atomic.h`
(not among the sources), the try-lock "try-set `sq.busy` from 0 to 1; if already 1,
return": the result is whether the flag was already set, and the flag is set afterwards. -/
def atomic_testandset_busy (busy : Nat) : Bool × Nat :=
  if busy = 0 then (false, 1) else (true, busy)

/-- Dispatch of one admin command by opcode (the `switch (cmd->opc)` of
`pci_nvme_handle_admin_cmd`), returning the new state, the local completion and the
value or-ed into `do_intr`. -/
def admin_dispatch (sc : pci_nvme_softc) (cmd : nvme_command) (compl : nvme_completion) :
    Except Fault (pci_nvme_softc × nvme_completion × Nat) :=
  if cmd.opc = NVME_OPC_DELETE_IO_SQ then nvme_opc_delete_io_sq sc cmd compl
  else if cmd.opc = NVME_OPC_CREATE_IO_SQ then nvme_opc_create_io_sq sc cmd compl
  else if cmd.opc = NVME_OPC_DELETE_IO_CQ then nvme_opc_delete_io_cq sc cmd compl
  else if cmd.opc = NVME_OPC_CREATE_IO_CQ then nvme_opc_create_io_cq sc cmd compl
  else if cmd.opc = NVME_OPC_GET_LOG_PAGE then nvme_opc_get_log_page sc cmd compl
  else if cmd.opc = NVME_OPC_IDENTIFY then nvme_opc_identify sc cmd compl
  else if cmd.opc = NVME_OPC_ABORT then nvme_opc_abort sc cmd compl
  else if cmd.opc = NVME_OPC_SET_FEATURES then nvme_opc_set_features sc cmd compl
  else if cmd.opc = NVME_OPC_GET_FEATURES then nvme_opc_get_features sc cmd compl
  else if cmd.opc = NVME_OPC_ASYNC_EVENT_REQUEST then .ok (sc, compl, 0)
  else .ok (sc, set_status compl 0 0, 0)

/-- The write of the completion entry at the tail of the admin completion queue that
ends an iteration of the loop of `pci_nvme_handle_admin_cmd`. -/
def admin_post (sc : pci_nvme_softc) (sqhead : Nat) (cmd : nvme_command)
    (compl : nvme_completion) : Except Fault pci_nvme_softc :=
  match sc.compl_queues[0]? with
  | none => .error .nullDeref
  | some cq =>
    match cq.qbase with
    | none => .error .nullDeref
    | some base =>
      let a := elem_addr base SIZEOF_NVME_COMPLETION cq.tail
      let old := sc.ctx.cpl a
      let cp : nvme_completion :=
        { old with
          sqid := 0
          sqhd := sqhead
          cid := cmd.cid % 65536
          status := { p := !old.status.p, sc := compl.status.sc, sct := compl.status.sct } }
      if cq.size = 0 then .error .divZero
      else
        .ok { sc with
              ctx := { sc.ctx with cpl := Function.update sc.ctx.cpl a cp }
              compl_queues := sc.compl_queues.set 0
                { cq with tail := ((cq.tail + 1) % cq.size) % 65536 } }

/-- One iteration of the `while` loop of `pci_nvme_handle_admin_cmd`: the command at
`sqhead` is read, dispatched and, unless it is an Async Event Request, answered; the
result carries the advanced `sqhead`. -/
def admin_step (sc : pci_nvme_softc) (sqhead : Nat) (compl : nvme_completion) (do_intr : Nat) :
    Except Fault (pci_nvme_softc × Nat × nvme_completion × Nat) :=
  match sc.submit_queues[0]? with
  | none => .error .nullDeref
  | some sq =>
    match sq.qbase with
    | none => .error .nullDeref
    | some base =>
      let cmd := sc.ctx.cmd (elem_addr base SIZEOF_NVME_COMMAND sqhead)
      match admin_dispatch sc cmd (set_status compl 0 0) with
      | .error e => .error e
      | .ok (sc1, compl1, r) =>
        let posted : Except Fault pci_nvme_softc :=
          if cmd.opc ≠ NVME_OPC_ASYNC_EVENT_REQUEST then admin_post sc1 sqhead cmd compl1
          else .ok sc1
        match posted with
        | .error e => .error e
        | .ok sc2 =>
          match sc2.submit_queues[0]? with
          | none => .error .nullDeref
          | some sq2 =>
            if sq2.size = 0 then .error .divZero
            else .ok (sc2, ((sqhead + 1) % sq2.size) % 65536, compl1, do_intr ||| r)

/-- The `while (sqhead != sq->tail)` loop of `pci_nvme_handle_admin_cmd`; a run that
needs more than `fuel` iterations ends in `Fault.outOfFuel`. -/
def admin_loop : Nat → pci_nvme_softc → Nat → nvme_completion → Nat →
    Except Fault (pci_nvme_softc × Nat × Nat)
  | fuel, sc, sqhead, compl, do_intr =>
    match sc.submit_queues[0]? with
    | none => .error .nullDeref
    | some sq =>
      if sqhead = sq.tail then .ok (sc, sqhead, do_intr)
      else
        match fuel with
        | 0 => .error .outOfFuel
        | fuel1 + 1 =>
          match admin_step sc sqhead compl do_intr with
          | .error e => .error e
          | .ok (sc1, sqhead1, compl1, do_intr1) => admin_loop fuel1 sc1 sqhead1 compl1 do_intr1

/-- Embedding of `pci_nvme_handle_admin_cmd`, with `fuel` bounding the iterations of its
loop.  The local `compl` starts as an arbitrary value (here all zero); its status is
cleared before every dispatch. -/
def pci_nvme_handle_admin_cmd (fuel : Nat) (sc : pci_nvme_softc) (_value : Nat) :
    Except Fault pci_nvme_softc :=
  match sc.submit_queues[0]? with
  | none => .error .nullDeref
  | some sq =>
    let sqhead := sq.head
    match atomic_testandset_busy sq.busy with
    | (true, _) => .ok sc
    | (false, busy1) =>
      let sc0 : pci_nvme_softc :=
        { sc with submit_queues := sc.submit_queues.set 0 { sq with busy := busy1 } }
      match admin_loop fuel sc0 sqhead zero_completion 0 with
      | .error e => .error e
      | .ok (sc1, sqhead1, do_intr) =>
        match sc1.submit_queues[0]? with
        | none => .error .nullDeref
        | some sq1 =>
          let sc2 : pci_nvme_softc :=
            { sc1 with submit_queues := sc1.submit_queues.set 0
                         { sq1 with head := sqhead1, busy := 0 } }
          .ok (if do_intr ≠ 0 then { sc2 with msix := sc2.msix ++ [0] } else sc2)

/-! ## I/O requests and the PRP walk -/

/-- Embedding of `pci_nvme_release_ioreq`; `req` is the index of the descriptor in
`ioreqs`. -/
def pci_nvme_release_ioreq (sc : pci_nvme_softc) (req : Nat) : Except Fault pci_nvme_softc :=
  match sc.ioreqs[req]? with
  | none => .error .outOfBounds
  | some rq =>
    let rq1 : pci_nvme_ioreq := { rq with in_use := false, nvme_sq := none, sqid := 0 }
    let pending := (sc.pending_ios + 2 ^ 32 - 1) % 2 ^ 32
    let csts :=
      if pending = 0 ∧ cc_en sc.regs.cc ≠ 0 ∧ csts_rdy sc.regs.csts = 0
      then csts_set_rdy sc.regs.csts 1 else sc.regs.csts
    .ok { sc with
          ioreqs := sc.ioreqs.set req rq1
          ioreqs_free := req :: sc.ioreqs_free
          pending_ios := pending
          regs := { sc.regs with csts := csts } }

/-- Embedding of `pci_nvme_get_ioreq`; with no free descriptor the semaphore wait does
not return. -/
def pci_nvme_get_ioreq (sc : pci_nvme_softc) : Except Fault (pci_nvme_softc × Nat) :=
  match sc.ioreqs_free with
  | [] => .error .blocked
  | req :: rest =>
    match sc.ioreqs[req]? with
    | none => .error .outOfBounds
    | some rq =>
      let rq1 : pci_nvme_ioreq :=
        { rq with in_use := true
                  prev_gpaddr := 0
                  prev_size := 0
                  io_req := { rq.io_req with br_iovcnt := 0, br_offset := 0, br_resid := 0 } }
      .ok ({ sc with
             ioreqs := sc.ioreqs.set req rq1
             ioreqs_free := rest
             pending_ios := (sc.pending_ios + 1) % 2 ^ 32 }, req)

/-- Hand a request to `blockif_read` (`do_write = false`) or `blockif_write`: the request
as it is at the call is recorded, the result is the value the backend returns. -/
def blockif_submit (sc : pci_nvme_softc) (do_write : Bool) (br : blockif_req) :
    pci_nvme_softc × Nat :=
  ({ sc with blockif_log := sc.blockif_log ++ [(do_write, br)] }, sc.blockif_rc br)

/-- The bytes of the RAM store after `memcpy(p + lba, gptr, size)`. -/
def ram_write (ram byte : Nat → Nat) (lba gptr size : Nat) : Nat → Nat :=
  fun o => if lba ≤ o ∧ o < lba + size then byte (gptr + (o - lba)) else ram o

/-- The bytes of guest memory after `memcpy(gptr, p + lba, size)`. -/
def ram_read (ram byte : Nat → Nat) (lba gptr size : Nat) : Nat → Nat :=
  fun a => if gptr ≤ a ∧ a < gptr + size then ram (lba + (a - gptr)) else byte a

/-- The RAM branch of `pci_nvme_append_iov_req` (`req == NULL`). -/
def append_iov_ram (sc : pci_nvme_softc) (gpaddr size : Nat) (do_write : Bool) (lba : Nat) :
    Except Fault (pci_nvme_softc × Int) :=
  if (lba + size) % 2 ^ 64 > sc.nvstore.size then .ok (sc, -1)
  else
    match sc.ctx.vm_map_gpa gpaddr size with
    | none => .error .nullDeref
    | some gptr =>
      if do_write then
        .ok ({ sc with nvstore := { sc.nvstore with
                                    ram := ram_write sc.nvstore.ram sc.ctx.byte lba gptr size } }, 0)
      else
        .ok ({ sc with ctx := { sc.ctx with
                                byte := ram_read sc.nvstore.ram sc.ctx.byte lba gptr size } }, 0)

/-- The block branch of `pci_nvme_append_iov_req` for the descriptor `req`. -/
def append_iov_blk (sc : pci_nvme_softc) (req : Nat) (gpaddr size : Nat) (do_write : Bool)
    (lba : Nat) : Except Fault (pci_nvme_softc × Int) :=
  match sc.ioreqs[req]? with
  | none => .error .outOfBounds
  | some rq =>
    if ¬ rq.in_use then .error .nullDeref
    else if (rq.prev_gpaddr + rq.prev_size) % 2 ^ 64 = gpaddr then
      if rq.io_req.br_iovcnt = 0 ∨ rq.io_req.br_iovcnt - 1 ≥ rq.io_req.br_iov.length then
        .error .outOfBounds
      else
        let iovidx := rq.io_req.br_iovcnt - 1
        let prev_size := rq.prev_size + size
        let iov : iovec :=
          { iov_base := sc.ctx.vm_map_gpa rq.prev_gpaddr size, iov_len := prev_size }
        let rq1 : pci_nvme_ioreq :=
          { rq with prev_size := prev_size
                    io_req := { rq.io_req with br_resid := rq.io_req.br_resid + size
                                               br_iov := rq.io_req.br_iov.set iovidx iov } }
        .ok ({ sc with ioreqs := sc.ioreqs.set req rq1 }, 0)
    else
      let flushed : pci_nvme_softc × pci_nvme_ioreq × Nat :=
        if rq.io_req.br_iovcnt = NVME_MAX_BLOCKIOVS then
          let rq1 : pci_nvme_ioreq :=
            { rq with io_req := { rq.io_req with br_iovcnt := 0
                                                 br_callback := br_callback_t.io_part } }
          ((blockif_submit sc do_write rq1.io_req).1, rq1, 0)
        else (sc, rq, rq.io_req.br_iovcnt)
      let sc1 := flushed.1
      let rq2 := flushed.2.1
      let iovidx := flushed.2.2
      let rq3 : pci_nvme_ioreq :=
        if iovidx = 0 then { rq2 with io_req := { rq2.io_req with br_offset := lba, br_resid := 0 } }
        else rq2
      if iovidx ≥ rq3.io_req.br_iov.length then .error .outOfBounds
      else
        let iov : iovec := { iov_base := sc1.ctx.vm_map_gpa gpaddr size, iov_len := size }
        let rq4 : pci_nvme_ioreq :=
          { rq3 with prev_gpaddr := gpaddr
                     prev_size := size
                     io_req := { rq3.io_req with br_iov := rq3.io_req.br_iov.set iovidx iov
                                                 br_resid := rq3.io_req.br_resid + size
                                                 br_iovcnt := rq3.io_req.br_iovcnt + 1 } }
        .ok ({ sc1 with ioreqs := sc1.ioreqs.set req rq4 }, 0)

/-- Embedding of `pci_nvme_append_iov_req`; `req = none` is the `NULL` request of the RAM
store. -/
def pci_nvme_append_iov_req (sc : pci_nvme_softc) (req : Option Nat) (gpaddr size : Nat)
    (do_write : Bool) (lba : Nat) : Except Fault (pci_nvme_softc × Int) :=
  match req with
  | some r => append_iov_blk sc r gpaddr size do_write lba
  | none => append_iov_ram sc gpaddr size do_write lba

/-- The step "move to linked physical region page list in last item" of the PRP list
loop of `pci_nvme_handle_io_cmd`: at index `NVME_PRP2_ITEMS - 1` with more than a page
left, the entry is asserted to be page aligned and becomes the new list; the result is
the list pointer and index to use. -/
def prp_list_next (sc : pci_nvme_softc) (prp_list : Option Nat) (i size : Nat) :
    Except Fault (Option Nat × Nat) :=
  if i = NVME_PRP2_ITEMS - 1 ∧ size > PAGE_SIZE then
    match prp_list with
    | none => .error .nullDeref
    | some p =>
      if read64 sc.ctx.byte (p + 8 * i) % PAGE_SIZE ≠ 0 then .error .assertFail
      else .ok (sc.ctx.vm_map_gpa (read64 sc.ctx.byte (p + 8 * i)) PAGE_SIZE, 0)
  else .ok (prp_list, i)

/-- The loop `while (size != 0)` over a PRP list in `pci_nvme_handle_io_cmd`.  `prp_list`
is the host pointer of the current list, `i` the index in it and `err` the current value
of the C variable `err`.  Every iteration takes at least one byte off `size`, so a fuel
of `size` is never used up. -/
def prp_list_loop : Nat → pci_nvme_softc → Option Nat → Bool → Option Nat → Nat → Nat → Nat →
    Int → Except Fault (pci_nvme_softc × Int)
  | fuel, sc, req, do_write, prp_list, i, size, lba, err =>
    if size = 0 then .ok (sc, err)
    else
      match fuel with
      | 0 => .error .outOfFuel
      | fuel1 + 1 =>
        let cpsz := min size PAGE_SIZE
        match prp_list_next sc prp_list i size with
        | .error e => .error e
        | .ok (none, _) => .error .nullDeref
        | .ok (some p, i1) =>
          let e := read64 sc.ctx.byte (p + 8 * i1)
          if e = 0 then .ok (sc, 1)
          else
            match pci_nvme_append_iov_req sc req e cpsz do_write lba with
            | .error f => .error f
            | .ok (sc1, err1) =>
              if err1 ≠ 0 then .ok (sc1, err1)
              else
                prp_list_loop fuel1 sc1 req do_write (some p) (i1 + 1) (size - cpsz)
                  ((lba + cpsz) % 2 ^ 64) err1

/-! ## I/O executor -/

def status_of (sct sc : Nat) : nvme_status := { p := false, sct := sct, sc := sc }

/-- Embedding of `pci_nvme_io_done`, the callback of a finished block request; `req` is
the descriptor in `br_param`. -/
def pci_nvme_io_done (sc : pci_nvme_softc) (req : Nat) (err : Nat) :
    Except Fault pci_nvme_softc :=
  match sc.ioreqs[req]? with
  | none => .error .outOfBounds
  | some rq =>
    match rq.nvme_sq with
    | none => .error .nullDeref
    | some sq =>
      let status := status_of NVME_SCT_GENERIC
        (if err ≠ 0 then NVME_SC_DATA_TRANSFER_ERROR else NVME_SC_SUCCESS)
      match pci_nvme_set_completion sc sq rq.sqid rq.cid 0 status false with
      | .error e => .error e
      | .ok sc1 => pci_nvme_release_ioreq sc1 req

/-- The PRP walk in the loop body of `pci_nvme_handle_io_cmd`, from the first
`pci_nvme_append_iov_req` (for `prp1`) to the label `iodone`: the first segment runs to
the end of the page of `prp1`; what is left is nothing, or one segment at `prp2` when it
fits in a page, or the segments of the PRP list at `prp2`.  The result is the new state
and the final value of `err`. -/
def io_prp_walk (sc : pci_nvme_softc) (req : Option Nat) (prp1 prp2 bytes : Nat)
    (do_write : Bool) (lba : Nat) : Except Fault (pci_nvme_softc × Int) :=
  let cpsz0 := PAGE_SIZE - prp1 % PAGE_SIZE
  let cpsz := if cpsz0 > bytes then bytes else cpsz0
  match pci_nvme_append_iov_req sc req prp1 cpsz do_write lba with
  | .error e => .error e
  | .ok (sc4, err0) =>
    let lba1 := (lba + cpsz) % 2 ^ 64
    let size := bytes - cpsz
    if size = 0 then .ok (sc4, err0)
    else if size ≤ PAGE_SIZE then pci_nvme_append_iov_req sc4 req prp2 size do_write lba1
    else
      prp_list_loop size sc4 req do_write (sc4.ctx.vm_map_gpa prp2 PAGE_SIZE) 0 size lba1 err0

/-- The part of the loop body of `pci_nvme_handle_io_cmd` that handles a command which
is neither Flush nor opcode 0x08: request set-up, PRP walk, and completion or submission
to the block backend.  `cmdaddr` is the host address of the command. -/
def io_cmd_rw (sc : pci_nvme_softc) (idx : Nat) (cmdaddr : Nat) : Except Fault pci_nvme_softc :=
  let cmd := sc.ctx.cmd cmdaddr
  let lba0 := (cmd.cdw11 % 2 ^ 32) * 2 ^ 32 + cmd.cdw10 % 2 ^ 32
  let nblocks := cmd.cdw12 % 65536 + 1
  let bytes := (nblocks * sc.nvstore.sectsz) % 2 ^ 64
  let got : Except Fault (pci_nvme_softc × Option Nat) :=
    if sc.nvstore.type = nvme_storage_type.NVME_STOR_BLOCKIF then
      match pci_nvme_get_ioreq sc with
      | .error e => .error e
      | .ok (sc1, r) =>
        match sc1.ioreqs[r]? with
        | none => .error .outOfBounds
        | some rq =>
          .ok ({ sc1 with ioreqs := sc1.ioreqs.set r { rq with nvme_sq := some idx, sqid := idx } },
               some r)
    else .ok (sc, none)
  match got with
  | .error e => .error e
  | .ok (sc1, req) =>
    let prp1 := cmd.prp1 - cmd.prp1 % 4
    let prp2 := cmd.prp2 - cmd.prp2 % 4
    let cmd1 : nvme_command := { cmd with prp1 := prp1, prp2 := prp2 }
    let sc2 : pci_nvme_softc :=
      { sc1 with ctx := { sc1.ctx with cmd := Function.update sc1.ctx.cmd cmdaddr cmd1 } }
    let lba := (lba0 * sc.nvstore.sectsz) % 2 ^ 64
    let prepared : Except Fault pci_nvme_softc :=
      match req with
      | none => .ok sc2
      | some r =>
        match sc2.ioreqs[r]? with
        | none => .error .outOfBounds
        | some rq =>
          let rq1 : pci_nvme_ioreq :=
            { rq with opc := cmd.opc, cid := cmd.cid, nsid := cmd.nsid
                      io_req := { rq.io_req with br_offset := lba0 } }
          .ok { sc2 with ioreqs := sc2.ioreqs.set r rq1 }
    match prepared with
    | .error e => .error e
    | .ok sc3 =>
      let do_write : Bool := decide (cmd.opc = NVME_OPC_WRITE)
      match io_prp_walk sc3 req prp1 prp2 bytes do_write lba with
      | .error e => .error e
      | .ok (sc5, err) =>
        if sc5.nvstore.type = nvme_storage_type.NVME_STOR_RAM then
          pci_nvme_set_completion sc5 idx idx cmd.cid 0
            (status_of NVME_SCT_GENERIC
              (if err = 0 then NVME_SC_SUCCESS else NVME_SC_LBA_OUT_OF_RANGE)) true
        else
          match req with
          | none => .error .nullDeref
          | some r =>
            let submitted : Except Fault (pci_nvme_softc × Int) :=
              if err ≠ 0 then .ok (sc5, err)
              else
                match sc5.ioreqs[r]? with
                | none => .error .outOfBounds
                | some rq =>
                  let rq1 : pci_nvme_ioreq :=
                    { rq with io_req := { rq.io_req with
                                          br_callback := br_callback_t.io_done } }
                  let sc6 : pci_nvme_softc := { sc5 with ioreqs := sc5.ioreqs.set r rq1 }
                  if cmd.opc = NVME_OPC_READ then
                    .ok ((blockif_submit sc6 false rq1.io_req).1,
                         ((blockif_submit sc6 false rq1.io_req).2 : Int))
                  else if cmd.opc = NVME_OPC_WRITE then
                    .ok ((blockif_submit sc6 true rq1.io_req).1,
                         ((blockif_submit sc6 true rq1.io_req).2 : Int))
                  else .ok (sc6, 1)
            match submitted with
            | .error e => .error e
            | .ok (sc7, err2) =>
              if err2 ≠ 0 then
                match pci_nvme_set_completion sc7 idx idx cmd.cid 0
                    (status_of NVME_SCT_GENERIC NVME_SC_DATA_TRANSFER_ERROR) true with
                | .error e => .error e
                | .ok sc8 => pci_nvme_release_ioreq sc8 r
              else .ok sc7

/-- One iteration of the `while` loop of `pci_nvme_handle_io_cmd` for the submission
queue `idx`, returning the advanced `sqhead`. -/
def io_step (sc : pci_nvme_softc) (idx sqhead : Nat) : Except Fault (pci_nvme_softc × Nat) :=
  match sc.submit_queues[idx]? with
  | none => .error .outOfBounds
  | some sq =>
    match sq.qbase with
    | none => .error .nullDeref
    | some base =>
      let cmdaddr := elem_addr base SIZEOF_NVME_COMMAND sqhead
      let cmd := sc.ctx.cmd cmdaddr
      if sq.size = 0 then .error .divZero
      else
        let sqhead1 := ((sqhead + 1) % sq.size) % 65536
        let r : Except Fault pci_nvme_softc :=
          if cmd.opc = NVME_OPC_FLUSH then
            pci_nvme_set_completion sc idx idx cmd.cid 0
              (status_of NVME_SCT_GENERIC NVME_SC_SUCCESS) true
          else if cmd.opc = 0x08 then
            pci_nvme_set_completion sc idx idx cmd.cid 0
              (status_of NVME_SCT_GENERIC NVME_SC_SUCCESS) true
          else io_cmd_rw sc idx cmdaddr
        match r with
        | .error e => .error e
        | .ok sc1 => .ok (sc1, sqhead1)

/-- The `while (sqhead != sq->tail)` loop of `pci_nvme_handle_io_cmd`; a run that needs
more than `fuel` iterations ends in `Fault.outOfFuel`. -/
def io_loop : Nat → pci_nvme_softc → Nat → Nat → Except Fault (pci_nvme_softc × Nat)
  | 0, sc, idx, sqhead =>
    match sc.submit_queues[idx]? with
    | none => .error .outOfBounds
    | some sq => if sqhead = sq.tail then .ok (sc, sqhead) else .error .outOfFuel
  | fuel1 + 1, sc, idx, sqhead =>
    match sc.submit_queues[idx]? with
    | none => .error .outOfBounds
    | some sq =>
      if sqhead = sq.tail then .ok (sc, sqhead)
      else
        match io_step sc idx sqhead with
        | .error e => .error e
        | .ok (sc1, sqhead1) => io_loop fuel1 sc1 idx sqhead1

/-- Embedding of `pci_nvme_handle_io_cmd`, with `fuel` bounding the iterations of its
loop. -/
def pci_nvme_handle_io_cmd (fuel : Nat) (sc : pci_nvme_softc) (idx : Nat) :
    Except Fault pci_nvme_softc :=
  match sc.submit_queues[idx]? with
  | none => .error .outOfBounds
  | some sq =>
    match atomic_testandset_busy sq.busy with
    | (true, _) => .ok sc
    | (false, busy1) =>
      let sc0 : pci_nvme_softc :=
        { sc with submit_queues := sc.submit_queues.set idx { sq with busy := busy1 } }
      match io_loop fuel sc0 idx sq.head with
      | .error e => .error e
      | .ok (sc1, sqhead1) =>
        match sc1.submit_queues[idx]? with
        | none => .error .outOfBounds
        | some sq1 =>
          let sq2 : nvme_submission_queue := { sq1 with head := sqhead1, busy := 0 }
          .ok { sc1 with submit_queues := sc1.submit_queues.set idx sq2 }

/-! ## Doorbells and BAR 0 -/

/-- Embedding of `pci_nvme_handle_doorbell`. -/
def pci_nvme_handle_doorbell (fuel : Nat) (sc : pci_nvme_softc) (idx : Nat) (is_sq : Bool)
    (value : Nat) : Except Fault pci_nvme_softc :=
  if is_sq then
    match sc.submit_queues[idx]? with
    | none => .error .outOfBounds
    | some sq =>
      let sc1 : pci_nvme_softc :=
        { sc with submit_queues := sc.submit_queues.set idx { sq with tail := value % 65536 } }
      if idx = 0 then pci_nvme_handle_admin_cmd fuel sc1 value
      else if idx > sc1.num_squeues then .ok sc1
      else pci_nvme_handle_io_cmd fuel sc1 (idx % 65536)
  else
    if idx > sc.num_cqueues then .ok sc
    else
      match sc.compl_queues[idx]? with
      | none => .error .outOfBounds
      | some cq =>
        .ok { sc with compl_queues := sc.compl_queues.set idx { cq with head := value % 65536 } }

/-- First statement of the `case NVME_CR_CC` of `pci_nvme_write_bar_0`: a non-zero SHN
field of the written value sets CSTS.SHST to "complete". -/
def write_cc_shn (sc : pci_nvme_softc) (ccreg : Nat) : pci_nvme_softc :=
  if cc_shn ccreg ≠ 0 then
    { sc with regs := { sc.regs with csts := csts_set_shst sc.regs.csts NVME_SHST_COMPLETE } }
  else sc

/-- Rest of the `case NVME_CR_CC` of `pci_nvme_write_bar_0`: reset or enable on a change
of EN, then the fields of the written value are latched and CSTS.RDY is updated. -/
def write_cc_en (sc1 : pci_nvme_softc) (ccreg : Nat) : Except Fault pci_nvme_softc :=
  let r : Except Fault pci_nvme_softc :=
    if cc_en ccreg ≠ cc_en sc1.regs.cc then
      if cc_en ccreg = 0 then pci_nvme_reset sc1 else pci_nvme_init_controller sc1
    else .ok sc1
  match r with
  | .error e => .error e
  | .ok sc2 =>
    let cc1 := cc_set_en (cc_set_iosqes (cc_set_iocqes sc2.regs.cc (cc_iocqes ccreg))
      (cc_iosqes ccreg)) (cc_en ccreg)
    if cc_en ccreg = 0 then
      let cc2 := cc_set_css (cc_set_mps (cc_set_ams (cc_set_ams cc1 (cc_ams ccreg))
        (cc_ams ccreg)) (cc_mps ccreg)) (cc_css ccreg)
      .ok { sc2 with regs := { sc2.regs with cc := cc2, csts := csts_set_rdy sc2.regs.csts 0 } }
    else if sc2.pending_ios = 0 then
      .ok { sc2 with regs := { sc2.regs with cc := cc1, csts := csts_set_rdy sc2.regs.csts 1 } }
    else .ok { sc2 with regs := { sc2.regs with cc := cc1 } }

/-- The `case NVME_CR_CC` of `pci_nvme_write_bar_0`. -/
def write_cc (sc : pci_nvme_softc) (value : Nat) : Except Fault pci_nvme_softc :=
  write_cc_en (write_cc_shn sc (value % 2 ^ 32)) (value % 2 ^ 32)

/-- Embedding of `pci_nvme_write_bar_0`; `fuel` bounds the loop of the executor a
doorbell write starts. -/
def pci_nvme_write_bar_0 (fuel : Nat) (sc : pci_nvme_softc) (offset size value : Nat) :
    Except Fault pci_nvme_softc :=
  if offset ≥ NVME_DOORBELL_OFFSET then
    let belloffset := offset - NVME_DOORBELL_OFFSET
    let idx := belloffset / 8
    let is_sq : Bool := decide (belloffset % 8 < 4)
    if belloffset > ((sc.max_queues + 1) * 8 + 2 ^ 32 - 4) % 2 ^ 32 then .ok sc
    else pci_nvme_handle_doorbell fuel sc idx is_sq value
  else if size ≠ 4 then .ok sc
  else if offset = NVME_CR_CAP_LOW ∨ offset = NVME_CR_CAP_HI then .ok sc
  else if offset = NVME_CR_VS then .ok sc
  else if offset = NVME_CR_INTMS then .ok sc
  else if offset = NVME_CR_INTMC then .ok sc
  else if offset = NVME_CR_CC then write_cc sc value
  else if offset = NVME_CR_CSTS then .ok sc
  else if offset = NVME_CR_NSSR then .ok sc
  else if offset = NVME_CR_AQA then
    .ok { sc with regs := { sc.regs with aqa := value % 2 ^ 32 } }
  else if offset = NVME_CR_ASQ_LOW then
    .ok { sc with regs := { sc.regs with
            asq := (sc.regs.asq &&& 0xFFFFFFFF00000000) ||| (0xFFFFF000 &&& value) } }
  else if offset = NVME_CR_ASQ_HI then
    .ok { sc with regs := { sc.regs with
            asq := (sc.regs.asq &&& 0x00000000FFFFFFFF) ||| ((value * 2 ^ 32) % 2 ^ 64) } }
  else if offset = NVME_CR_ACQ_LOW then
    .ok { sc with regs := { sc.regs with
            acq := (sc.regs.acq &&& 0xFFFFFFFF00000000) ||| (0xFFFFF000 &&& value) } }
  else if offset = NVME_CR_ACQ_HI then
    .ok { sc with regs := { sc.regs with
            acq := (sc.regs.acq &&& 0x00000000FFFFFFFF) ||| ((value * 2 ^ 32) % 2 ^ 64) } }
  else .ok sc

/-! ## Identify payloads -/

def zero_nsdata : nvme_namespace_data :=
  { nsze := 0, ncap := 0, nuse := 0, nlbaf := 0, lbaf0_ms := 0, lbaf0_lbads := 0,
    lbaf0_rp := 0, flbas_format := 0 }

def zero_ctrldata : nvme_controller_data :=
  { vid := 0, ssvid := 0, mn := [], fr := [], rab := 0, ieee := [], mic := 0, mdts := 0,
    ver := 0, oacs_format := 0, acl := 0, aerl := 0, lpa_ns_smart := 0, elpe := 0, npss := 0,
    wctemp := 0, sqes_min := 0, sqes_max := 0, cqes_min := 0, cqes_max := 0, nn := 0, fna := 0,
    power_state0_mp := 0 }

/-- Embedding of `pci_nvme_init_ctrldata`. -/
def pci_nvme_init_ctrldata (sc : pci_nvme_softc) : pci_nvme_softc :=
  { sc with ctrldata :=
      { sc.ctrldata with
        vid := 0xFB5D, ssvid := 0x0000
        mn := ['b', 'h', 'y', 'v', 'e', '-', 'N', 'V', 'M', 'e']
        fr := ['1', '.', '0']
        rab := 4
        ieee := [0x58, 0x9c, 0xfc]
        mic := 0, mdts := 9, ver := 0x00010300, oacs_format := 1, acl := 2, aerl := 4
        lpa_ns_smart := 0, elpe := 0, npss := 1, wctemp := 0x0157
        sqes_min := 6, sqes_max := 6, cqes_min := 4, cqes_max := 4, nn := 1, fna := 0x03
        power_state0_mp := 10 } }

/-- Embedding of `pci_nvme_init_nsdata`; a sector size of 0 is a division by zero. -/
def pci_nvme_init_nsdata (sc : pci_nvme_softc) : Except Fault pci_nvme_softc :=
  if sc.nvstore.sectsz = 0 then .error .divZero
  else
    let nsze := sc.nvstore.size / sc.nvstore.sectsz
    .ok { sc with nsdata :=
            { sc.nsdata with
              nsze := nsze, ncap := nsze, nuse := nsze, nlbaf := 1, lbaf0_ms := 0
              lbaf0_lbads := sc.nvstore.sectsz_bits % 256, lbaf0_rp := 0, flbas_format := 0 } }

/-! ## Device creation -/

def NVME_IOSLOTS : Nat := 8

def NVME_QUEUES : Nat := 16

def NVME_MAX_QENTRIES : Nat := 2048

/-- Modelled from the spec: `sizeof(struct nvme_registers)` (`dev/nvme/nvme.h` is not
among the sources): the register region up to `offsetof(registers, doorbell)` followed by
the doorbell pair of the admin queues, two 32-bit slots. -/
def SIZEOF_NVME_REGISTERS : Nat := NVME_DOORBELL_OFFSET + 8

/-- Modelled from the spec: the block backing store of `block_if.h` (not among the
sources), "an abstract `BlockBackend` with `read(iovec)`, `write(iovec)`, `size()`,
`sectsz()`": what `blockif_size` and `blockif_sectsz` return for an opened backend. -/
structure BlockBackend where
  size : Nat
  sectsz : Nat
deriving DecidableEq

/-- Modelled from the spec: the services outside the controller that device creation
calls (`block_if.h` and `pci_emul.h` are not among the sources): `blockif_open` of a path,
which gives a backend or fails, the values `pci_emul_alloc_bar` (given the BAR size) and
`pci_emul_add_msixcap` (given the vector count) return, and the value the block backend
returns for a request. -/
structure host_services where
  blockif_open : List Char → Option BlockBackend
  pci_emul_alloc_bar : Nat → Int
  pci_emul_add_msixcap : Nat → Int
  blockif_rc : blockif_req → Nat

/-- One element of the comma-separated configuration string as `pci_nvme_parse_opts`
tells them apart, with the number `atoi` or `strtoull` reads from its text; an element
that is none of the named options is `other`, the path of a backing file or device. -/
inductive nvme_opt where
  | maxq (n : Nat)
  | qsz (n : Nat)
  | ioslots (n : Nat)
  | sectsz (n : Nat)
  | ser (s : List Char)
  | ram (mb : Nat)
  | other (name : List Char)
deriving DecidableEq

/-- The locals of `pci_nvme_parse_opts` next to the device state: `sectsz`, `optidx`, and
what `nvstore.ctx` points to (`ctx_set` is `nvstore.ctx != NULL`, `backend` the block
backend when it is one). -/
structure parse_state where
  sc : pci_nvme_softc
  sectsz : Nat
  optidx : Nat
  ctx_set : Bool
  backend : Option BlockBackend

/-- Body of the option loop of `pci_nvme_parse_opts` for one element; `none` is the
`return (-1)` inside the loop.  The serial number `ctrldata.sn` is not part of the
model, so `ser` changes nothing, and the `calloc` of the RAM disk is taken to succeed. -/
def parse_opt (host : host_services) (st : parse_state) (o : nvme_opt) : Option parse_state :=
  let next (st1 : parse_state) : Option parse_state :=
    some { st1 with optidx := st1.optidx + 1 }
  match o with
  | .maxq n => next { st with sc := { st.sc with max_queues := n % 2 ^ 32 } }
  | .qsz n => next { st with sc := { st.sc with max_qentries := n % 65536 } }
  | .ioslots n => next { st with sc := { st.sc with ioslots := n % 2 ^ 32 } }
  | .sectsz n => next { st with sectsz := n % 2 ^ 32 }
  | .ser _ => next st
  | .ram mb =>
    next { st with
           sc := { st.sc with
                   nvstore := { st.sc.nvstore with
                                type := nvme_storage_type.NVME_STOR_RAM
                                size := (mb * 1024 * 1024) % 2 ^ 64
                                ram := fun _ => 0
                                sectsz := 4096
                                sectsz_bits := 12 } }
           ctx_set := true
           backend := none }
  | .other name =>
    if st.optidx = 0 then
      match host.blockif_open name with
      | none => none
      | some b =>
        next { st with
               sc := { st.sc with
                       nvstore := { st.sc.nvstore with
                                    type := nvme_storage_type.NVME_STOR_BLOCKIF
                                    size := b.size % 2 ^ 64 } }
               ctx_set := true
               backend := some b }
    else none

/-- The option loop of `pci_nvme_parse_opts`: the state after the last element, or, with
`false`, the state at the `return (-1)` inside the loop. -/
def parse_opt_loop (host : host_services) (st : parse_state) :
    List nvme_opt → Bool × parse_state
  | [] => (true, st)
  | o :: rest =>
    match parse_opt host st o with
    | none => (false, st)
    | some st1 => parse_opt_loop host st1 rest

/-- The loop `for (bits = 9; (1 << bits) < sectsz; bits++)` of `pci_nvme_parse_opts`, with
`fuel` iterations left; `1 << bits` is an `int`, so the loop has no defined result from
`bits = 31` on. -/
def sectsz_bits_loop : Nat → Nat → Nat → Except Fault Nat
  | 0, _, _ => .error .outOfFuel
  | fuel + 1, bits, sectsz =>
    if 2 ^ bits < sectsz then sectsz_bits_loop fuel (bits + 1) sectsz else .ok bits

/-- Embedding of `pci_nvme_parse_opts`: the result is the C return value and the device
state.  `num_squeues` and `num_cqueues` are set from `max_queues` before the options are
read, as in the source. -/
def pci_nvme_parse_opts (host : host_services) (sc : pci_nvme_softc) (opts : List nvme_opt) :
    Except Fault (Int × pci_nvme_softc) :=
  let sc0 : pci_nvme_softc :=
    { sc with max_queues := NVME_QUEUES, max_qentries := NVME_MAX_QENTRIES,
              ioslots := NVME_IOSLOTS, num_squeues := NVME_QUEUES,
              num_cqueues := NVME_QUEUES }
  match parse_opt_loop host
      { sc := sc0, sectsz := 0, optidx := 0, ctx_set := false, backend := none } opts with
  | (false, st) => .ok (-1, st.sc)
  | (true, st) =>
    if st.ctx_set = false ∨ st.sc.nvstore.size = 0 then .ok (-1, st.sc)
    else
      let sectsz1 : Nat :=
        if st.sectsz = 512 ∨ st.sectsz = 4096 ∨ st.sectsz = 8192 then st.sectsz
        else if st.sc.nvstore.type ≠ nvme_storage_type.NVME_STOR_RAM then
          match st.backend with
          | some b => b.sectsz % 2 ^ 32
          | none => st.sc.nvstore.sectsz
        else st.sc.nvstore.sectsz
      match sectsz_bits_loop 23 9 sectsz1 with
      | .error e => .error e
      | .ok bits =>
        let sc1 : pci_nvme_softc :=
          { st.sc with nvstore := { st.sc.nvstore with sectsz := sectsz1, sectsz_bits := bits } }
        if sc1.max_queues = 0 then .ok (-1, sc1)
        else if sc1.max_qentries = 0 then .ok (-1, sc1)
        else if sc1.ioslots = 0 then .ok (-1, sc1)
        else .ok (0, sc1)

/-- The zero-filled device state `calloc` gives `pci_nvme_init`, with the guest memory
`ctx` behind `pi->pi_vmctx`. -/
def zero_softc (host : host_services) (ctx : vmctx) : pci_nvme_softc :=
  { regs := { cap_lo := 0, cap_hi := 0, vs := 0, cc := 0, csts := 0, aqa := 0, asq := 0,
              acq := 0 }
    nsdata := zero_nsdata
    ctrldata := zero_ctrldata
    nvstore := { type := nvme_storage_type.NVME_STOR_BLOCKIF, ram := fun _ => 0, size := 0,
                 sectsz := 0, sectsz_bits := 0 }
    max_qentries := 0
    max_queues := 0
    num_cqueues := 0
    num_squeues := 0
    ioreqs := []
    ioreqs_free := []
    pending_ios := 0
    ioslots := 0
    compl_queues := []
    submit_queues := []
    intr_coales_aggr_time := 0
    intr_coales_aggr_thresh := 0
    async_ev_config := 0
    ctx := ctx
    msix := []
    blockif_log := []
    blockif_rc := host.blockif_rc }

/-- Embedding of `pci_nvme_init`: the result is the C return value and the device state
it leaves in `pi->pi_arg`.  The free list links the `ioslots` descriptors in array
order. -/
def pci_nvme_init (host : host_services) (ctx : vmctx) (opts : List nvme_opt) :
    Except Fault (Int × pci_nvme_softc) :=
  match pci_nvme_parse_opts host (zero_softc host ctx) opts with
  | .error e => .error e
  | .ok (error, sc1) =>
    if error < 0 then .ok (error, sc1)
    else
      let sc2 : pci_nvme_softc :=
        { sc1 with ioreqs := List.replicate sc1.ioslots zero_ioreq
                   ioreqs_free := List.range sc1.ioslots
                   intr_coales_aggr_thresh := 1 }
      let pci_membar_sz := (SIZEOF_NVME_REGISTERS + 2 * 4 * sc2.max_queues) % 2 ^ 32
      let e1 := host.pci_emul_alloc_bar pci_membar_sz
      if e1 ≠ 0 then .ok (e1, sc2)
      else
        let e2 := host.pci_emul_add_msixcap sc2.max_queues
        if e2 ≠ 0 then .ok (e2, sc2)
        else
          match pci_nvme_reset sc2 with
          | .error e => .error e
          | .ok sc3 =>
            match pci_nvme_init_nsdata (pci_nvme_init_ctrldata sc3) with
            | .error e => .error e
            | .ok sc4 => .ok (0, sc4)

/-! ## Proof invariants and example states -/

/-- State of a completion ring of `n` slots at `base` after `n * r + t` completions
have been posted to it from the all-zero phase state: the tail is at slot `t`, the slots
before the tail have been written `r + 1` times and the others `r` times. -/
def PhaseInv (sc : pci_nvme_softc) (sq : Nat) (q : nvme_submission_queue) (base n r t : Nat) :
    Prop :=
  sc.submit_queues[sq]? = some q ∧
  (∃ cq, sc.compl_queues[q.cqid]? = some cq ∧ cq.qbase = some base ∧ cq.size = n ∧
    cq.tail = t) ∧
  t < n ∧
  ∀ i, i < n →
    (sc.ctx.cpl (elem_addr base SIZEOF_NVME_COMPLETION i)).status.p =
      if i < t then decide (r % 2 = 0) else decide (r % 2 = 1)

/-- Guest memory of the examples: the first GiB of guest-physical space is mapped at the
same host addresses, all of it zero. -/
def demo_ctx : vmctx :=
  { vm_map_gpa := fun gpa len => if gpa + len ≤ 0x40000000 then some gpa else none
    cmd := fun _ => zero_command
    cpl := fun _ => zero_completion
    byte := fun _ => 0
    id_ns := fun _ => none
    id_ctrl := fun _ => none }

/-- Example device: a 1 MiB RAM disk with 4096-byte sectors, `maxq = 4`, queue arrays
allocated and zero, the controller disabled, and the admin queue registers of the
"enable and identify" scenario (`ASQ = 0x100000`, `ACQ = 0x200000`, `AQA = 0x001F001F`). -/
def demo_softc : pci_nvme_softc :=
  { regs := { cap_lo := 0, cap_hi := 0, vs := 0x00010300, cc := 0, csts := 0,
              aqa := 0x001F001F, asq := 0x100000, acq := 0x200000 }
    nsdata := zero_nsdata
    ctrldata := zero_ctrldata
    nvstore := { type := nvme_storage_type.NVME_STOR_RAM, ram := fun _ => 0,
                 size := 0x100000, sectsz := 4096, sectsz_bits := 12 }
    max_qentries := 2048
    max_queues := 4
    num_cqueues := 4
    num_squeues := 4
    ioreqs := List.replicate 8 zero_ioreq
    ioreqs_free := List.range 8
    pending_ios := 0
    ioslots := 8
    compl_queues := List.replicate 5 zero_cq
    submit_queues := List.replicate 5 zero_sq
    intr_coales_aggr_time := 0
    intr_coales_aggr_thresh := 1
    async_ev_config := 0
    ctx := demo_ctx
    msix := []
    blockif_log := []
    blockif_rc := fun _ => 0 }

/-- Example I/O queue pair: completion queue 1 with 4 entries at host address 0x300000,
interrupts enabled on vector 1, and submission queue 1 with 4 entries at 0x310000 linked
to it. -/
def demo_cq1 : nvme_completion_queue :=
  { qbase := some 0x300000, size := 4, tail := 0, head := 0, intr_vec := 1, intr_en := 1 }

def demo_sq1 : nvme_submission_queue :=
  { qbase := some 0x310000, size := 4, head := 0, tail := 0, cqid := 1, busy := 0,
    qpriority := 0 }

/-- Example device with the admin queues of `demo_softc` enabled (32 entries each) and
the I/O queue pair `demo_sq1` / `demo_cq1` created. -/
def demo_io : pci_nvme_softc :=
  { demo_softc with
    regs := { demo_softc.regs with cc := 0x00460001, csts := 1 }
    compl_queues := [{ zero_cq with qbase := some 0x200000, size := 32 }, demo_cq1,
                     zero_cq, zero_cq, zero_cq]
    submit_queues := [{ zero_sq with qbase := some 0x100000, size := 32 }, demo_sq1,
                      zero_sq, zero_sq, zero_sq] }

/-- An example completion request: command id 7, Generic / Success. -/
def demo_post : post_args :=
  { sqid := 1, cid := 7, cdw0 := 0, status := zero_status, ignore_busy := true }

/-- After the completions `pre` have been posted back to back for submission queue `sq`
(whose completion ring is at `base`), the tail of its completion queue is `slot`, and
posting `a` next writes the entry at `slot` and no other, leaving there the command id of
`a` and the phase bit `phase`. -/
def posts_next_at (sc : pci_nvme_softc) (sq : Nat) (q : nvme_submission_queue) (base : Nat)
    (pre : List post_args) (a : post_args) (slot : Nat) (phase : Bool) : Prop :=
  ∃ sc1 sc2 cq1, post_all sc sq pre = .ok sc1 ∧
    sc1.compl_queues[q.cqid]? = some cq1 ∧ cq1.tail = slot ∧
    pci_nvme_set_completion sc1 sq a.sqid a.cid a.cdw0 a.status a.ignore_busy = .ok sc2 ∧
    (∀ x, x ≠ elem_addr base SIZEOF_NVME_COMPLETION slot → sc2.ctx.cpl x = sc1.ctx.cpl x) ∧
    (sc2.ctx.cpl (elem_addr base SIZEOF_NVME_COMPLETION slot)).cid = a.cid % 65536 ∧
    (sc2.ctx.cpl (elem_addr base SIZEOF_NVME_COMPLETION slot)).status.p = phase

/-- Example admin command: Create I/O Submission Queue with `CDW11.PC = 1`, queue
identifier 0, queue size field 3 (4 entries) and its ring at guest address 0x500000. -/
def demo_create_sq0 : nvme_command :=
  { zero_command with opc := NVME_OPC_CREATE_IO_SQ, cid := 9, prp1 := 0x500000,
                      cdw10 := 0x00030000, cdw11 := 1 }

/-- Example admin command: Create I/O Completion Queue with `CDW11.PC = 1`, queue
identifier 0, queue size field 3 (4 entries) and its ring at guest address 0x600000. -/
def demo_create_cq0 : nvme_command :=
  { zero_command with opc := NVME_OPC_CREATE_IO_CQ, cid := 10, prp1 := 0x600000,
                      cdw10 := 0x00030000, cdw11 := 1 }

/-- Example admin command: Create I/O Submission Queue with `CDW11.PC = 1`, queue
identifier 0, queue size field 0 (1 entry) and its ring at the admin submission queue's
own guest address 0x100000. -/
def demo_shrink_sq0 : nvme_command :=
  { zero_command with opc := NVME_OPC_CREATE_IO_SQ, cid := 9, prp1 := 0x100000,
                      cdw10 := 0, cdw11 := 1 }

/-- Example device: `demo_io` with `demo_shrink_sq0` written into slot 0 of the admin
submission queue. -/
def demo_shrink : pci_nvme_softc :=
  { demo_io with
    ctx := { demo_ctx with cmd := fun a => if a = 0x100000 then demo_shrink_sq0
                                            else zero_command } }

/-- Loop invariant of the admin executor on `demo_shrink` after the tail doorbell has been
written with 1: slot 0 of the admin ring holds `demo_shrink_sq0`, the tail is 1, and the
admin completion queue is usable. -/
def ShrinkInv (s : pci_nvme_softc) : Prop :=
  (∃ sq, s.submit_queues[0]? = some sq ∧ sq.qbase = some 0x100000 ∧ sq.tail = 1) ∧
  s.ctx.cmd 0x100000 = demo_shrink_sq0 ∧
  s.ctx.vm_map_gpa = demo_ctx.vm_map_gpa ∧
  (∃ cq cb, s.compl_queues[0]? = some cq ∧ cq.qbase = some cb ∧ cq.size ≠ 0)

/-! ## PRP description of a guest buffer (specification side)

The walk over `prp1`, `prp2` and the PRP lists written as a function of guest memory
alone, after the PRP Walker of the design: it yields the segments of the buffer in
transfer order and the PRP list pages it has read. -/

/-- Result of following the PRPs of a command: the segments `(host address, length)` of
the data buffer, in transfer order, and the host addresses of the PRP list pages read. -/
structure prp_desc where
  segs : List (Nat × Nat)
  pages : List Nat

/-- The list page and index to read next: at index `NVME_PRP2_ITEMS - 1` with more than
a page of data left, the entry is the (page-aligned, mapped) pointer to the next list page,
which is also reported as a page read. -/
def prp_list_move (byte : Nat → Nat) (map : Nat → Nat → Option Nat) (pl i size : Nat) :
    Option (Nat × Nat × List Nat) :=
  if i = NVME_PRP2_ITEMS - 1 ∧ size > PAGE_SIZE then
    if read64 byte (pl + 8 * i) % PAGE_SIZE ≠ 0 then none
    else
      match map (read64 byte (pl + 8 * i)) PAGE_SIZE with
      | none => none
      | some p => some (p, 0, [p])
  else some (pl, i, [])

/-- Walk of a PRP list: `pl` is the host address of the current list page, `i` the next
index in it and `size` the number of bytes still to describe.  Entry `NVME_PRP2_ITEMS - 1`
of a page is the pointer to the next list page when more than a page of data remains.
The result is `none` when an entry is zero, when a data page or list page is not mapped,
or when a pointer to a next list page is not page aligned. -/
def prp_list_walk :
    Nat → (Nat → Nat) → (Nat → Nat → Option Nat) → Nat → Nat → Nat → Option prp_desc
  | fuel, byte, map, pl, i, size =>
    if size = 0 then some { segs := [], pages := [] }
    else
      match fuel with
      | 0 => none
      | fuel1 + 1 =>
        match prp_list_move byte map pl i size with
        | none => none
        | some (p, i1, pg) =>
          if read64 byte (p + 8 * i1) = 0 then none
          else
            match map (read64 byte (p + 8 * i1)) (min size PAGE_SIZE) with
            | none => none
            | some g =>
              match prp_list_walk fuel1 byte map p (i1 + 1) (size - min size PAGE_SIZE) with
              | none => none
              | some d =>
                some { segs := (g, min size PAGE_SIZE) :: d.segs, pages := pg ++ d.pages }

/-- The buffer of `bytes` bytes that the (dword-aligned) `prp1` and `prp2` of a command
describe: a first segment up to the end of the page of `prp1`; then nothing, or the rest
at `prp2` when it fits in one page, or the segments of the PRP list at `prp2`. -/
def prp_walk (byte : Nat → Nat) (map : Nat → Nat → Option Nat) (prp1 prp2 bytes : Nat) :
    Option prp_desc :=
  let cpsz0 := PAGE_SIZE - prp1 % PAGE_SIZE
  let cpsz := if cpsz0 > bytes then bytes else cpsz0
  match map prp1 cpsz with
  | none => none
  | some g1 =>
    let size := bytes - cpsz
    if size = 0 then some { segs := [(g1, cpsz)], pages := [] }
    else if size ≤ PAGE_SIZE then
      match map prp2 size with
      | none => none
      | some g2 => some { segs := [(g1, cpsz), (g2, size)], pages := [] }
    else
      match map prp2 PAGE_SIZE with
      | none => none
      | some pl =>
        match prp_list_walk size byte map pl 0 size with
        | none => none
        | some d => some { segs := (g1, cpsz) :: d.segs, pages := pl :: d.pages }

/-- The 64-bit starting LBA of a Read/Write command, `(cdw11 << 32) | cdw10`. -/
def cmd_lba (cmd : nvme_command) : Nat := (cmd.cdw11 % 2 ^ 32) * 2 ^ 32 + cmd.cdw10 % 2 ^ 32

/-- The number of blocks of a Read/Write command, `(cdw12 & 0xFFFF) + 1`. -/
def cmd_nblocks (cmd : nvme_command) : Nat := cmd.cdw12 % 65536 + 1

/-- The guest buffer of a Read/Write command on the device `sc`: the PRP description of
`nblocks * sectsz` bytes from `prp1` and `prp2` with their low 2 bits cleared, read from
the guest memory of `sc`. -/
def cmd_buffer (sc : pci_nvme_softc) (cmd : nvme_command) : Option prp_desc :=
  prp_walk sc.ctx.byte sc.ctx.vm_map_gpa (cmd.prp1 - cmd.prp1 % 4) (cmd.prp2 - cmd.prp2 % 4)
    (cmd_nblocks cmd * sc.nvstore.sectsz)

/-- The bytes of a buffer given by its segments, in transfer order. -/
def gather (byte : Nat → Nat) : List (Nat × Nat) → List Nat
  | [] => []
  | s :: rest => (List.range s.2).map (fun k => byte (s.1 + k)) ++ gather byte rest

/-- Total length of a list of segments. -/
def segs_len : List (Nat × Nat) → Nat
  | [] => 0
  | s :: rest => s.2 + segs_len rest

/-- The RAM store after the segments of a buffer have been copied into it one after the
other, starting at byte offset `lba`. -/
def store_segs (ram byte : Nat → Nat) (lba : Nat) : List (Nat × Nat) → Nat → Nat
  | [] => ram
  | s :: rest => store_segs (ram_write ram byte lba s.1 s.2) byte (lba + s.2) rest

/-- Guest memory after the segments of a buffer have been filled one after the other from
the RAM store, starting at byte offset `lba`. -/
def load_segs (ram byte : Nat → Nat) (lba : Nat) : List (Nat × Nat) → Nat → Nat
  | [] => byte
  | s :: rest => load_segs ram (ram_read ram byte lba s.1 s.2) (lba + s.2) rest

/-- Two address ranges `[a, a + la)` and `[b, b + lb)` do not overlap. -/
def disjoint_range (a la b lb : Nat) : Prop := a + la ≤ b ∨ b + lb ≤ a

/-- The segments of a buffer do not overlap one another. -/
def segs_disjoint : List (Nat × Nat) → Prop
  | [] => True
  | s :: rest => (∀ t ∈ rest, disjoint_range s.1 s.2 t.1 t.2) ∧ segs_disjoint rest

/-- No segment of the buffer overlaps a PRP list page. -/
def segs_off_pages (segs : List (Nat × Nat)) (pages : List Nat) : Prop :=
  ∀ s ∈ segs, ∀ p ∈ pages, disjoint_range s.1 s.2 p PAGE_SIZE

/-- Neither a data segment nor a PRP list page of the buffer `d` overlaps the range of
`len` bytes at the host address `a` (a submission or completion ring). -/
def buffer_off_range (d : prp_desc) (a len : Nat) : Prop :=
  (∀ s ∈ d.segs, disjoint_range s.1 s.2 a len) ∧
  (∀ p ∈ d.pages, disjoint_range p PAGE_SIZE a len)

/-- Little-endian byte `k` of the 64-bit PRP entry `v`. -/
def le_byte (v k : Nat) : Nat := (v / 256 ^ k) % 256

/-- Guest bytes of the read/write example: a PRP list at 0x600000 naming the data pages
0x401000, 0x402000, 0x403000, a PRP list at 0x610000 naming 0x501000, 0x502000, 0x503000,
and a byte pattern everywhere else. -/
def demo_bytes (a : Nat) : Nat :=
  if 0x600000 ≤ a ∧ a < 0x600018 then
    le_byte (0x401000 + 0x1000 * ((a - 0x600000) / 8)) ((a - 0x600000) % 8)
  else if 0x610000 ≤ a ∧ a < 0x610018 then
    le_byte (0x501000 + 0x1000 * ((a - 0x610000) / 8)) ((a - 0x610000) % 8)
  else a % 251

/-- Example Write: 4 blocks at LBA 3 from the buffer at 0x400000 with the PRP list at
0x600000. -/
def demo_write_cmd : nvme_command :=
  { zero_command with opc := NVME_OPC_WRITE, cid := 11, prp1 := 0x400000, prp2 := 0x600000,
                      cdw10 := 3, cdw12 := 3 }

/-- Example Read: 4 blocks at LBA 3 into the buffer at 0x500000 with the PRP list at
0x610000. -/
def demo_read_cmd : nvme_command :=
  { zero_command with opc := NVME_OPC_READ, cid := 12, prp1 := 0x500000, prp2 := 0x610000,
                      cdw10 := 3, cdw12 := 3 }

/-- Example device: `demo_io` with `demo_write_cmd` in slot 0 and `demo_read_cmd` in slot
1 of submission queue 1, and the guest bytes `demo_bytes`. -/
def demo_rw : pci_nvme_softc :=
  { demo_io with
    ctx := { demo_ctx with
             byte := demo_bytes
             cmd := fun a => if a = 0x310000 then demo_write_cmd
                             else if a = 0x310040 then demo_read_cmd else zero_command } }

/-- The buffer of `demo_write_cmd`. -/
def demo_write_buf : prp_desc :=
  { segs := [(0x400000, 4096), (0x401000, 4096), (0x402000, 4096), (0x403000, 4096)]
    pages := [0x600000] }

/-- The buffer of `demo_read_cmd`. -/
def demo_read_buf : prp_desc :=
  { segs := [(0x500000, 4096), (0x501000, 4096), (0x502000, 4096), (0x503000, 4096)]
    pages := [0x610000] }

/-- Example Read whose LBA `2 ^ 52` times the sector size 4096 is `2 ^ 64`: one block into
the buffer at 0x400000. -/
def demo_wrap_cmd : nvme_command :=
  { zero_command with opc := NVME_OPC_READ, cid := 5, prp1 := 0x400000,
                      cdw10 := 0, cdw11 := 0x100000, cdw12 := 0 }

/-- Example device: `demo_io` with `demo_wrap_cmd` in slot 0 of submission queue 1. -/
def demo_wrap : pci_nvme_softc :=
  { demo_io with
    ctx := { demo_ctx with cmd := fun a => if a = 0x310000 then demo_wrap_cmd
                                            else zero_command } }

/-- The device `demo_wrap` after the value 1 has been stored as the tail of submission
queue 1. -/
def demo_wrap_rung : pci_nvme_softc :=
  { demo_wrap with
    submit_queues := [{ zero_sq with qbase := some 0x100000, size := 32 },
                      { demo_sq1 with tail := 1 }, zero_sq, zero_sq, zero_sq] }

/-- The device `demo_wrap_rung` with the busy flag of submission queue 1 taken. -/
def demo_wrap_busy : pci_nvme_softc :=
  { demo_wrap with
    submit_queues := [{ zero_sq with qbase := some 0x100000, size := 32 },
                      { demo_sq1 with tail := 1, busy := 1 }, zero_sq, zero_sq, zero_sq] }

/-- Example Write: 2 blocks at LBA 3 from the two pages 0x400000 and 0x401000. -/
def demo_alias_write : nvme_command :=
  { zero_command with opc := NVME_OPC_WRITE, cid := 21, prp1 := 0x400000, prp2 := 0x401000,
                      cdw10 := 3, cdw12 := 1 }

/-- Example Read: 2 blocks at LBA 3 into a buffer whose `prp1` and `prp2` both name the
page 0x500000. -/
def demo_alias_read : nvme_command :=
  { zero_command with opc := NVME_OPC_READ, cid := 22, prp1 := 0x500000, prp2 := 0x500000,
                      cdw10 := 3, cdw12 := 1 }

/-- Example device: `demo_io` with `demo_alias_write` in slot 0 and `demo_alias_read` in
slot 1 of submission queue 1, and the guest bytes `demo_bytes`. -/
def demo_alias : pci_nvme_softc :=
  { demo_io with
    ctx := { demo_ctx with
             byte := demo_bytes
             cmd := fun a => if a = 0x310000 then demo_alias_write
                             else if a = 0x310040 then demo_alias_read else zero_command } }

/-- The buffer of `demo_alias_write`. -/
def demo_alias_wbuf : prp_desc :=
  { segs := [(0x400000, 4096), (0x401000, 4096)], pages := [] }

/-- The buffer of `demo_alias_read`: the same page twice. -/
def demo_alias_rbuf : prp_desc :=
  { segs := [(0x500000, 4096), (0x500000, 4096)], pages := [] }

/-- Example admin command: Create I/O Completion Queue for queue 2 with 4 entries at guest
address 0x600000, `CDW11.PC = 1`, `CDW11.IEN = 1` and interrupt vector 1. -/
def demo_create_cq2 : nvme_command :=
  { zero_command with opc := NVME_OPC_CREATE_IO_CQ, cid := 11, prp1 := 0x600000,
                      cdw10 := 0x00030002, cdw11 := 0x00010003 }

/-- Example admin command: a create command for queue 2 that asks for a non-contiguous
queue (`CDW11.PC = 0`). -/
def demo_create_noncontig : nvme_command :=
  { zero_command with cid := 12, prp1 := 0x600000, cdw10 := 0x00030002, cdw11 := 0x00010002 }

/-- Example device: `demo_io` at a moment when submission queue 1 is being processed
(`busy = 1`), as it is while `pci_nvme_handle_io_cmd` runs. -/
def demo_busy : pci_nvme_softc :=
  { demo_io with
    submit_queues := [{ zero_sq with qbase := some 0x100000, size := 32 },
                      { demo_sq1 with busy := 1 }, zero_sq, zero_sq, zero_sq] }

/-- Example admin command: Delete I/O Completion Queue for queue 1. -/
def demo_delete_cq1 : nvme_command :=
  { zero_command with opc := NVME_OPC_DELETE_IO_CQ, cid := 13, cdw10 := 1 }

/-- Example admin command: Create I/O Completion Queue for queue 1 with 4 entries at guest
address 0x600000, `CDW11.PC = 1`, `CDW11.IEN = 1` and interrupt vector 1. -/
def demo_create_cq1 : nvme_command :=
  { zero_command with opc := NVME_OPC_CREATE_IO_CQ, cid := 14, prp1 := 0x600000,
                      cdw10 := 0x00030001, cdw11 := 0x00010003 }

/-- Example admin command: Set Features / Number of Queues asking for 2 submission and 3
completion queues. -/
def demo_set_nq : nvme_command :=
  { zero_command with opc := NVME_OPC_SET_FEATURES, cid := 21,
                      cdw10 := NVME_FEAT_NUMBER_OF_QUEUES, cdw11 := 0x00030002 }

/-- Example admin command: Abort. -/
def demo_abort : nvme_command :=
  { zero_command with opc := NVME_OPC_ABORT, cid := 22, cdw10 := 0x00070001 }

/-- Example device: `demo_io` with the command `c` in slot 0 of the admin submission
queue, the tail doorbell already at 1, and the value 0x5A5A left in `cdw0` of every entry
of the completion rings. -/
def demo_admin1 (c : nvme_command) : pci_nvme_softc :=
  { demo_io with
    submit_queues := [{ zero_sq with qbase := some 0x100000, size := 32, tail := 1 }, demo_sq1,
                      zero_sq, zero_sq, zero_sq]
    ctx := { demo_ctx with
             cmd := fun a => if a = 0x100000 then c else zero_command
             cpl := fun _ => { zero_completion with cdw0 := 0x5A5A } } }

/-- Example admin command: Set Features whose feature identifier `cdw10[7:0] = 0x17` is
none of the recognised ones, with `cdw11 = 0x00010002`. -/
def demo_set_feature_17 : nvme_command :=
  { zero_command with opc := NVME_OPC_SET_FEATURES, cid := 23, cdw10 := 0x17,
                      cdw11 := 0x00010002 }

/-- Example admin command: Identify Controller (CNS 0x01) into the page at 0x300000. -/
def demo_identify_ctrl : nvme_command :=
  { zero_command with opc := NVME_OPC_IDENTIFY, cid := 24, prp1 := 0x300000, cdw10 := 1 }

/-- Example host: no block backend can be opened, the BAR and the MSI-X capability are
granted, the block backend reports success. -/
def demo_host : host_services :=
  { blockif_open := fun _ => none
    pci_emul_alloc_bar := fun _ => 0
    pci_emul_add_msixcap := fun _ => 0
    blockif_rc := fun _ => 0 }

/-- Load of a 32-bit value from host address `p`, little endian. -/
def read32 (byte : Nat → Nat) (p : Nat) : Nat :=
  (List.range 4).foldr (fun k acc => byte (p + k) % 256 + 256 * acc) 0

/-- Example admin command: Identify with CNS 0x02 (active namespace list) into the page
at 0x300000. -/
def demo_identify_nslist : nvme_command :=
  { zero_command with opc := NVME_OPC_IDENTIFY, cid := 25, prp1 := 0x300000, cdw10 := 2 }

/-- Example device: `demo_io` whose guest page at 0x300000 holds the 32-bit value 0xFF in
entry 2 (byte offset 8) from earlier use. -/
def demo_stale_page : pci_nvme_softc :=
  { demo_io with
    ctx := { demo_ctx with byte := fun a => if a = 0x300008 then 0xFF else 0 } }

/-- Example device: `demo_io` after Set Features / Number of Queues has set both queue
counts to 2 (`max_queues` is 4). -/
def demo_nq2 : pci_nvme_softc :=
  { demo_io with num_squeues := 2, num_cqueues := 2 }

/-- Example admin command: Identify Namespace (CNS 0x00) into the page at 0x300000. -/
def demo_identify_ns : nvme_command :=
  { zero_command with opc := NVME_OPC_IDENTIFY, cid := 26, prp1 := 0x300000, cdw10 := 0 }

/-- Example I/O command with opcode 0x05 (none of Flush, Write, Read, Write Zeroes): one
block at LBA 0 with `prp1 = 0x400000`. -/
def demo_other_cmd : nvme_command :=
  { zero_command with opc := 0x05, cid := 31, prp1 := 0x400000, cdw10 := 0, cdw12 := 0 }

/-- Example device: `demo_io` whose RAM store holds the byte `o mod 251 + 1` at offset `o`,
with `demo_other_cmd` in slot 0 of submission queue 1 and all guest bytes zero. -/
def demo_other : pci_nvme_softc :=
  { demo_io with
    nvstore := { demo_io.nvstore with ram := fun o => o % 251 + 1 }
    ctx := { demo_ctx with cmd := fun a => if a = 0x310000 then demo_other_cmd
                                            else zero_command } }

/-- Example device: `demo_other` with a block backend of the same size in place of the
RAM store. -/
def demo_other_blk : pci_nvme_softc :=
  { demo_other with
    nvstore := { demo_other.nvstore with type := nvme_storage_type.NVME_STOR_BLOCKIF } }


/-- One call of `pci_nvme_append_iov_req` made by the PRP walk of a command: the guest
address and the length passed, and the index of the PRP list entry the address was read
from (`none` for `prp1` and `prp2`). -/
structure prp_call where
  idx : Option Nat
  gpaddr : Nat
  size : Nat
deriving DecidableEq

/-- The loop `while (size != 0)` over a PRP list in `pci_nvme_handle_io_cmd`, as
`prp_list_loop`, returning also the calls of `pci_nvme_append_iov_req` it has made, in
order. -/
def prp_list_loop_calls : Nat → pci_nvme_softc → Option Nat → Bool → Option Nat → Nat → Nat →
    Nat → Int → List prp_call × Except Fault (pci_nvme_softc × Int)
  | fuel, sc, req, do_write, prp_list, i, size, lba, err =>
    if size = 0 then ([], .ok (sc, err))
    else
      match fuel with
      | 0 => ([], .error .outOfFuel)
      | fuel1 + 1 =>
        let cpsz := min size PAGE_SIZE
        match prp_list_next sc prp_list i size with
        | .error e => ([], .error e)
        | .ok (none, _) => ([], .error .nullDeref)
        | .ok (some p, i1) =>
          let e := read64 sc.ctx.byte (p + 8 * i1)
          if e = 0 then ([], .ok (sc, 1))
          else
            let c : prp_call := { idx := some i1, gpaddr := e, size := cpsz }
            match pci_nvme_append_iov_req sc req e cpsz do_write lba with
            | .error f => ([c], .error f)
            | .ok (sc1, err1) =>
              if err1 ≠ 0 then ([c], .ok (sc1, err1))
              else
                let r := prp_list_loop_calls fuel1 sc1 req do_write (some p) (i1 + 1)
                  (size - cpsz) ((lba + cpsz) % 2 ^ 64) err1
                (c :: r.1, r.2)

/-- The PRP walk in the loop body of `pci_nvme_handle_io_cmd`, as `io_prp_walk`,
returning also the calls of `pci_nvme_append_iov_req` it has made, in order. -/
def io_prp_walk_calls (sc : pci_nvme_softc) (req : Option Nat) (prp1 prp2 bytes : Nat)
    (do_write : Bool) (lba : Nat) : List prp_call × Except Fault (pci_nvme_softc × Int) :=
  let cpsz0 := PAGE_SIZE - prp1 % PAGE_SIZE
  let cpsz := if cpsz0 > bytes then bytes else cpsz0
  let c1 : prp_call := { idx := none, gpaddr := prp1, size := cpsz }
  match pci_nvme_append_iov_req sc req prp1 cpsz do_write lba with
  | .error e => ([c1], .error e)
  | .ok (sc4, err0) =>
    let lba1 := (lba + cpsz) % 2 ^ 64
    let size := bytes - cpsz
    if size = 0 then ([c1], .ok (sc4, err0))
    else if size ≤ PAGE_SIZE then
      ([c1, { idx := none, gpaddr := prp2, size := size }],
        pci_nvme_append_iov_req sc4 req prp2 size do_write lba1)
    else
      let r := prp_list_loop_calls size sc4 req do_write (sc4.ctx.vm_map_gpa prp2 PAGE_SIZE) 0
        size lba1 err0
      (c1 :: r.1, r.2)

/-- The calls of `pci_nvme_append_iov_req` that the PRP walk of `pci_nvme_handle_io_cmd`
makes for the command `cmd` and the request `req`, with the outcome of the walk: as in
`io_cmd_rw`, the walk is run on `prp1` and `prp2` with their low two bits cleared, for
`nblocks * sectsz` bytes, writing when the opcode is Write, from the byte offset `lba`. -/
def cmd_prp_calls (sc : pci_nvme_softc) (req : Option Nat) (cmd : nvme_command) (lba : Nat) :
    List prp_call × Except Fault (pci_nvme_softc × Int) :=
  io_prp_walk_calls sc req (cmd.prp1 - cmd.prp1 % 4) (cmd.prp2 - cmd.prp2 % 4)
    ((cmd_nblocks cmd * sc.nvstore.sectsz) % 2 ^ 64) (decide (cmd.opc = NVME_OPC_WRITE)) lba

/-- Example admin command: Get Features for Async Event Configuration (feature 0x0B) with
`cdw11 = 0x1234`. -/
def demo_get_aec : nvme_command :=
  { zero_command with opc := NVME_OPC_GET_FEATURES, cid := 51, cdw10 := 0x0B, cdw11 := 0x1234 }

/-- Example admin command: Create I/O Submission Queue with `CDW11.PC = 1` for queue 2,
4 entries at guest address 0x500000, linked to completion queue 9. -/
def demo_create_sq2_cq9 : nvme_command :=
  { zero_command with opc := NVME_OPC_CREATE_IO_SQ, cid := 61, prp1 := 0x500000,
                      cdw10 := 0x00030002, cdw11 := 0x00090001 }

/-- Example admin command: Create I/O Submission Queue with `CDW11.PC = 1` for queue 2,
4 entries at guest address 0x500000, linked to completion queue 3, which has not been
created. -/
def demo_create_sq2_cq3 : nvme_command :=
  { zero_command with opc := NVME_OPC_CREATE_IO_SQ, cid := 62, prp1 := 0x500000,
                      cdw10 := 0x00030002, cdw11 := 0x00030001 }

/-- Example Read: one block at LBA 0 into the guest page at address 0 (`prp1 = 0`). -/
def demo_prp0_cmd : nvme_command :=
  { zero_command with opc := NVME_OPC_READ, cid := 71, prp1 := 0, cdw10 := 0, cdw12 := 0 }

/-- Example device: `demo_io` with a block backend of the same size in place of the RAM
store and `demo_prp0_cmd` in slot 0 of submission queue 1. -/
def demo_prp0 : pci_nvme_softc :=
  { demo_io with
    nvstore := { demo_io.nvstore with type := nvme_storage_type.NVME_STOR_BLOCKIF }
    ctx := { demo_ctx with cmd := fun a => if a = 0x310000 then demo_prp0_cmd
                                            else zero_command } }

/-- Example Write: one block at LBA `2 ^ 52 - 1` (`cdw11 = 0x000FFFFF`,
`cdw10 = 0xFFFFFFFF`) from the guest page at 0x400000. -/
def demo_below_cmd : nvme_command :=
  { zero_command with opc := NVME_OPC_WRITE, cid := 81, prp1 := 0x400000,
                      cdw10 := 0xFFFFFFFF, cdw11 := 0x000FFFFF, cdw12 := 0 }

/-- Example device: `demo_io` (RAM store of 1 MiB, all zero) with `demo_below_cmd` in
slot 0 of submission queue 1 and the guest bytes `demo_bytes`. -/
def demo_below : pci_nvme_softc :=
  { demo_io with
    ctx := { demo_ctx with
             byte := demo_bytes
             cmd := fun a => if a = 0x310000 then demo_below_cmd else zero_command } }

/-- Example request descriptor in use whose iovec holds `NVME_MAX_BLOCKIOVS` entries of
4096 bytes, for the guest pages 0x400000, 0x402000, ..., 0x7FE000 (no two of them
adjacent), 0x200000 bytes in all, to be transferred from byte offset 0. -/
def demo_full_req : pci_nvme_ioreq :=
  { zero_ioreq with
    in_use := true, nvme_sq := some 1, sqid := 1, opc := NVME_OPC_READ, cid := 91,
    prev_gpaddr := 0x7FE000, prev_size := 4096,
    io_req := { br_iov := (List.range 512).map
                  (fun i => { iov_base := some (0x400000 + 0x2000 * i), iov_len := 4096 })
                br_iovcnt := 512, br_offset := 0, br_resid := 0x200000,
                br_callback := br_callback_t.unset } }

/-- Example device: `demo_io` with a block backend, whose descriptor 0 is `demo_full_req`
(taken off the free list). -/
def demo_full : pci_nvme_softc :=
  { demo_io with
    nvstore := { demo_io.nvstore with type := nvme_storage_type.NVME_STOR_BLOCKIF
                                      size := 0x1000000 }
    ioreqs := demo_full_req :: List.replicate 7 zero_ioreq
    ioreqs_free := [1, 2, 3, 4, 5, 6, 7]
    pending_ios := 1 }

/-- A call on the pool of request descriptors: `pci_nvme_get_ioreq`, or
`pci_nvme_release_ioreq` for the descriptor with the given index. -/
inductive pool_op where
  | get
  | release (req : Nat)
deriving DecidableEq

/-- One call on the pool of request descriptors, carried out on the device state. -/
def pool_step (sc : pci_nvme_softc) : pool_op → Except Fault pci_nvme_softc
  | .get =>
    match pci_nvme_get_ioreq sc with
    | .error e => .error e
    | .ok (sc1, _) => .ok sc1
  | .release req => pci_nvme_release_ioreq sc req

/-- A sequence of calls on the pool of request descriptors, carried out in order. -/
def pool_run : pci_nvme_softc → List pool_op → Except Fault pci_nvme_softc
  | sc, [] => .ok sc
  | sc, op :: rest =>
    match pool_step sc op with
    | .error e => .error e
    | .ok sc1 => pool_run sc1 rest

/-- The condition under which a pool call is made: `pci_nvme_get_ioreq` with a
non-empty free list, `pci_nvme_release_ioreq` for a descriptor of the array that is
currently held, that is, not on the free list. -/
def pool_call_allowed (sc : pci_nvme_softc) : pool_op → Bool
  | .get => !sc.ioreqs_free.isEmpty
  | .release req => decide (req < sc.ioslots) && !sc.ioreqs_free.contains req

/-- Every call of the sequence is made under its condition, in the state the calls
before it have left. -/
def pool_calls_allowed : pci_nvme_softc → List pool_op → Bool
  | _, [] => true
  | sc, op :: rest =>
    pool_call_allowed sc op &&
      match pool_step sc op with
      | .error _ => true
      | .ok sc1 => pool_calls_allowed sc1 rest

/-- Invariant of the pool of request descriptors: the array has `ioslots` descriptors,
the free list names descriptors of the array, none of them twice, and `pending_ios`
counts the descriptors that are not on it. -/
def PoolInv (sc : pci_nvme_softc) : Prop :=
  sc.ioreqs.length = sc.ioslots ∧ sc.ioslots < 2 ^ 32 ∧ sc.ioreqs_free.Nodup ∧
  (∀ r ∈ sc.ioreqs_free, r < sc.ioslots) ∧
  sc.pending_ios + sc.ioreqs_free.length = sc.ioslots

/-- Sum of `iov_len` over the entries `0 .. n - 1` of an iovec array. -/
def iov_total (iov : List iovec) (n : Nat) : Nat :=
  ((iov.take n).map (fun v => v.iov_len)).sum

/-- Example request descriptor in use that holds one entry: the 4096 bytes of the guest
page 0x400000, to be transferred from byte offset 0x3000. -/
def demo_one_req : pci_nvme_ioreq :=
  { zero_ioreq with
    in_use := true, nvme_sq := some 1, sqid := 1, opc := NVME_OPC_READ, cid := 92,
    prev_gpaddr := 0x400000, prev_size := 4096,
    io_req := { zero_ioreq.io_req with
                br_iov := zero_ioreq.io_req.br_iov.set 0
                  { iov_base := some 0x400000, iov_len := 4096 }
                br_iovcnt := 1, br_offset := 0x3000, br_resid := 4096 } }

/-- Example device: `demo_io` with a block backend, whose descriptor 0 is `demo_one_req`
(taken off the free list). -/
def demo_one : pci_nvme_softc :=
  { demo_io with
    nvstore := { demo_io.nvstore with type := nvme_storage_type.NVME_STOR_BLOCKIF }
    ioreqs := demo_one_req :: List.replicate 7 zero_ioreq
    ioreqs_free := [1, 2, 3, 4, 5, 6, 7]
    pending_ios := 1 }

/-- Loop invariant of the I/O executor on the example device after the tail doorbell of
submission queue 1 has been written with 7: the queue has 4 entries at 0x310000 with
tail 7 and is linked to completion queue 1, every command slot holds a Flush, and
completion queue 1 is usable. -/
def DrainInv (s : pci_nvme_softc) : Prop :=
  (∃ sq, s.submit_queues[1]? = some sq ∧ sq.qbase = some 0x310000 ∧ sq.size = 4 ∧
    sq.tail = 7 ∧ sq.cqid = 1) ∧
  (∀ a, (s.ctx.cmd a).opc = NVME_OPC_FLUSH) ∧
  (∃ cq cb, s.compl_queues[1]? = some cq ∧ cq.qbase = some cb ∧ cq.size ≠ 0)
/-- An event that changes the device state: a guest write to BAR 0, or the completion
callback `pci_nvme_io_done` of the block backend for the request descriptor `req` with
the result `err`. -/
inductive nvme_event where
  | bar0_write (offset size value : Nat)
  | io_done (req err : Nat)
deriving DecidableEq

/-- One event carried out on the device state; `fuel` bounds the loop of the executor a
doorbell write starts. -/
def nvme_event_step (fuel : Nat) (sc : pci_nvme_softc) : nvme_event → Except Fault pci_nvme_softc
  | .bar0_write offset size value => pci_nvme_write_bar_0 fuel sc offset size value
  | .io_done req err => pci_nvme_io_done sc req err

/-- A sequence of events carried out in order. -/
def nvme_events_run (fuel : Nat) : pci_nvme_softc → List nvme_event → Except Fault pci_nvme_softc
  | sc, [] => .ok sc
  | sc, ev :: rest =>
    match nvme_event_step fuel sc ev with
    | .error e => .error e
    | .ok sc1 => nvme_events_run fuel sc1 rest

/-- The interlock between CSTS.RDY and CC.EN: a ready controller is an enabled one. -/
def RdyInv (sc : pci_nvme_softc) : Prop :=
  csts_rdy sc.regs.csts = 1 → cc_en sc.regs.cc = 1
/-- Example device: the disabled `demo_softc` while one request is still outstanding
(`pending_ios = 1`, CC.EN = 0, CSTS.RDY = 0). -/
def demo_pending : pci_nvme_softc :=
  { demo_softc with pending_ios := 1 }

/-- The state `demo_pending` is in after the guest has written `CC = 0x00460001`
(EN = 1). -/
def demo_pending_en : pci_nvme_softc :=
  match pci_nvme_write_bar_0 0 demo_pending NVME_CR_CC 4 0x00460001 with
  | .ok s => s
  | .error _ => demo_pending

/-! ## Guest segments of a buffer (specification side)

The PRP walk written as a function of guest memory alone, giving each segment by its
guest-physical address, the address the block branch of `pci_nvme_append_iov_req`
compares with the end of the previous segment. -/

/-- Walk of a PRP list as in `prp_list_walk`, giving the segments `(guest address,
length)` in transfer order.  The result is `none` when an entry is zero, when a list page
is not mapped, or when a pointer to a next list page is not page aligned. -/
def prp_list_gsegs :
    Nat → (Nat → Nat) → (Nat → Nat → Option Nat) → Nat → Nat → Nat → Option (List (Nat × Nat))
  | fuel, byte, map, pl, i, size =>
    if size = 0 then some []
    else
      match fuel with
      | 0 => none
      | fuel1 + 1 =>
        match prp_list_move byte map pl i size with
        | none => none
        | some (p, i1, _) =>
          if read64 byte (p + 8 * i1) = 0 then none
          else
            match prp_list_gsegs fuel1 byte map p (i1 + 1) (size - min size PAGE_SIZE) with
            | none => none
            | some d => some ((read64 byte (p + 8 * i1), min size PAGE_SIZE) :: d)

/-- The guest segments of the buffer of `bytes` bytes that the (dword-aligned) `prp1` and
`prp2` of a command describe: a first segment up to the end of the page of `prp1`; then
nothing, or the rest at `prp2` when it fits in one page, or the segments of the PRP list
at `prp2`. -/
def prp_gsegs (byte : Nat → Nat) (map : Nat → Nat → Option Nat) (prp1 prp2 bytes : Nat) :
    Option (List (Nat × Nat)) :=
  let cpsz0 := PAGE_SIZE - prp1 % PAGE_SIZE
  let cpsz := if cpsz0 > bytes then bytes else cpsz0
  let size := bytes - cpsz
  if size = 0 then some [(prp1, cpsz)]
  else if size ≤ PAGE_SIZE then some [(prp1, cpsz), (prp2, size)]
  else
    match map prp2 PAGE_SIZE with
    | none => none
    | some pl =>
      match prp_list_gsegs size byte map pl 0 size with
      | none => none
      | some d => some ((prp1, cpsz) :: d)

/-- The guest segments of the buffer of a Read/Write command on the device `sc`, as
`cmd_buffer`. -/
def cmd_gsegs (sc : pci_nvme_softc) (cmd : nvme_command) : Option (List (Nat × Nat)) :=
  prp_gsegs sc.ctx.byte sc.ctx.vm_map_gpa (cmd.prp1 - cmd.prp1 % 4) (cmd.prp2 - cmd.prp2 % 4)
    (cmd_nblocks cmd * sc.nvstore.sectsz)

/-- The number of iovec entries a list of guest segments takes when a segment that
starts at `pe`, the end of the segment before it, is joined to that one. -/
def iov_entries : Nat → List (Nat × Nat) → Nat
  | _, [] => 0
  | pe, s :: rest => (if pe = s.1 then 0 else 1) + iov_entries ((s.1 + s.2) % 2 ^ 64) rest

/-- The block request `r` of `sc` is in use with an iovec array of `NVME_MAX_BLOCKIOVS`
entries, of which `cnt` are filled, with `br_resid = resid`, `br_offset = off`, and its
last segment ends at the guest address `pe`. -/
def BlkReq (sc : pci_nvme_softc) (r cnt resid off pe : Nat) : Prop :=
  ∃ rq, sc.ioreqs[r]? = some rq ∧ rq.in_use = true ∧
    rq.io_req.br_iov.length = NVME_MAX_BLOCKIOVS ∧ rq.io_req.br_iovcnt = cnt ∧
    rq.io_req.br_resid = resid ∧ rq.io_req.br_offset = off ∧
    (rq.prev_gpaddr + rq.prev_size) % 2 ^ 64 = pe

/-- Example device: `demo_rw` with a block backend of the same size in place of the RAM
store. -/
def demo_blk : pci_nvme_softc :=
  { demo_rw with
    nvstore := { demo_rw.nvstore with type := nvme_storage_type.NVME_STOR_BLOCKIF } }

/-- Example device with the queue counts that device creation with `maxq=4` leaves:
`demo_io` (`max_queues = 4`, queue arrays of `max_queues + 1 = 5` elements) with
`num_squeues = num_cqueues = 16`, the values `pci_nvme_parse_opts` sets from the default
`max_queues` before it reads the option; nothing lowers them before the first reset of an
enabled controller. -/
def demo_counts16 : pci_nvme_softc :=
  { demo_io with num_squeues := 16, num_cqueues := 16 }

/-- Example admin command: Delete I/O Submission Queue for queue 7. -/
def demo_delete_sq7 : nvme_command :=
  { zero_command with opc := NVME_OPC_DELETE_IO_SQ, cid := 15, cdw10 := 7 }

/-- Example admin command: Delete I/O Completion Queue for queue 7. -/
def demo_delete_cq7 : nvme_command :=
  { zero_command with opc := NVME_OPC_DELETE_IO_CQ, cid := 16, cdw10 := 7 }

/-- Example admin command: Create I/O Submission Queue with `CDW11.PC = 1` for queue 7,
with 4 entries at guest address 0x500000, linked to completion queue 1. -/
def demo_create_sq7 : nvme_command :=
  { zero_command with opc := NVME_OPC_CREATE_IO_SQ, cid := 17, prp1 := 0x500000,
                      cdw10 := 0x00030007, cdw11 := 0x00010001 }

/-- Create I/O CQ for queue 7 with 4 entries at 0x500000 and `CDW11.PC = 1`. -/
def demo_create_cq7 : nvme_command :=
  { zero_command with opc := NVME_OPC_CREATE_IO_CQ, cid := 18, prp1 := 0x500000,
                      cdw10 := 0x00030007, cdw11 := 0x00010001 }

/-- Guest bytes of the chained-list example: in the PRP list page at 0x600000 the entry
510 names the data page 0x401000 and the entry 511, the last one, holds 0x620000; in the
PRP list page at 0x620000 the entries 0 and 1 name the data pages 0x402000 and 0x403000;
a byte pattern everywhere else. -/
def demo_chain_bytes (a : Nat) : Nat :=
  if 0x600FF0 ≤ a ∧ a < 0x600FF8 then le_byte 0x401000 (a - 0x600FF0)
  else if 0x600FF8 ≤ a ∧ a < 0x601000 then le_byte 0x620000 (a - 0x600FF8)
  else if 0x620000 ≤ a ∧ a < 0x620010 then
    le_byte (0x402000 + 0x1000 * ((a - 0x620000) / 8)) ((a - 0x620000) % 8)
  else a % 251

/-- Example device: `demo_io` with the guest bytes `demo_chain_bytes`. -/
def demo_chain : pci_nvme_softc :=
  { demo_io with ctx := { demo_ctx with byte := demo_chain_bytes } }

/-- Example Write: 2 blocks at LBA `2 ^ 52 - 2` from the two pages 0x400000 and 0x401000;
with 4096-byte sectors the byte offset is `2 ^ 64 - 8192`. -/
def demo_drop_cmd : nvme_command :=
  { zero_command with opc := NVME_OPC_WRITE, cid := 42, prp1 := 0x400000, prp2 := 0x401000,
                      cdw10 := 0xFFFFFFFE, cdw11 := 0xFFFFF, cdw12 := 1 }

/-- Example Read: 3 blocks at LBA 0 into a buffer whose first page, 0x600000, is also the
page of its PRP list. -/
def demo_self_cmd : nvme_command :=
  { zero_command with opc := NVME_OPC_READ, cid := 43, prp1 := 0x600000, prp2 := 0x600000,
                      cdw10 := 0, cdw12 := 2 }

/-- Example device: `demo_rw` (a PRP list at 0x600000 naming the data pages 0x401000,
0x402000) with a RAM store whose first 16 bytes are the little-endian values 0x501000 and
0x502000. -/
def demo_self : pci_nvme_softc :=
  { demo_rw with
    nvstore := { demo_rw.nvstore with
                 ram := fun o => if o < 16 then le_byte (0x501000 + 0x1000 * (o / 8)) (o % 8)
                                 else 0 } }

/-- Guest bytes of the example of a read buffer that holds its own PRP list: a PRP list at
0x600000 naming the data pages 0x401000 and 0x402000; a PRP list at 0x610000 whose entry 0
names 0x610000, the page of the list itself, and whose entry 1 names 0x502000; the bytes
8 .. 15 of the data page 0x401000 are zero; a byte pattern everywhere else. -/
def demo_inlist_bytes (a : Nat) : Nat :=
  if 0x600000 ≤ a ∧ a < 0x600010 then
    le_byte (0x401000 + 0x1000 * ((a - 0x600000) / 8)) ((a - 0x600000) % 8)
  else if 0x610000 ≤ a ∧ a < 0x610008 then le_byte 0x610000 (a - 0x610000)
  else if 0x610008 ≤ a ∧ a < 0x610010 then le_byte 0x502000 (a - 0x610008)
  else if 0x401008 ≤ a ∧ a < 0x401010 then 0
  else a % 251

/-- Example Write: 3 blocks at LBA 3 from the pages 0x400000, 0x401000, 0x402000, the last
two named by the PRP list at 0x600000. -/
def demo_inlist_write : nvme_command :=
  { zero_command with opc := NVME_OPC_WRITE, cid := 31, prp1 := 0x400000, prp2 := 0x600000,
                      cdw10 := 3, cdw12 := 2 }

/-- Example Read: 3 blocks at LBA 3 into the pages 0x500000, 0x610000, 0x502000, the last
two named by the PRP list at 0x610000: the second page of the buffer is the page of the
list. -/
def demo_inlist_read : nvme_command :=
  { zero_command with opc := NVME_OPC_READ, cid := 32, prp1 := 0x500000, prp2 := 0x610000,
                      cdw10 := 3, cdw12 := 2 }

/-- Example device: `demo_io` with `demo_inlist_write` in slot 0 and `demo_inlist_read` in
slot 1 of submission queue 1, and the guest bytes `demo_inlist_bytes`. -/
def demo_inlist : pci_nvme_softc :=
  { demo_io with
    ctx := { demo_ctx with
             byte := demo_inlist_bytes
             cmd := fun a => if a = 0x310000 then demo_inlist_write
                             else if a = 0x310040 then demo_inlist_read else zero_command } }

/-- The buffer of `demo_inlist_write`. -/
def demo_inlist_wbuf : prp_desc :=
  { segs := [(0x400000, 4096), (0x401000, 4096), (0x402000, 4096)], pages := [0x600000] }

/-- The buffer of `demo_inlist_read`, as its PRPs describe it when the command is
submitted. -/
def demo_inlist_rbuf : prp_desc :=
  { segs := [(0x500000, 4096), (0x610000, 4096), (0x502000, 4096)], pages := [0x610000] }
/-- The device `demo_inlist` after the loop body of `pci_nvme_handle_io_cmd` has run for
the Write in slot 0. -/
def demo_inlist_written : pci_nvme_softc :=
  match io_step demo_inlist 1 0 with
  | .ok (s, _) => s
  | .error _ => demo_inlist

/-- The device `demo_inlist_written` after the loop body of `pci_nvme_handle_io_cmd` has
run for the Read in slot 1. -/
def demo_inlist_done : pci_nvme_softc :=
  match io_step demo_inlist_written 1 1 with
  | .ok (s, _) => s
  | .error _ => demo_inlist_written

/-! ## Theorems -/

theorem elem_addr_inj (base sz i j : Nat) (hsz : 0 < sz) :
    elem_addr base sz i = elem_addr base sz j ↔ i = j := by
  unfold elem_addr
  constructor
  · intro h
    have h2 : sz * i = sz * j := by omega
    exact Nat.eq_of_mul_eq_mul_left hsz h2
  · intro h
    rw [h]

/-- The state `pci_nvme_set_completion` returns when the completion queue of `sq` is
mapped and has a non-zero size. -/
theorem set_completion_ok (sc : pci_nvme_softc) (sq sqid cid cdw0 : Nat)
    (status : nvme_status) (ib : Bool)
    (q : nvme_submission_queue) (cq : nvme_completion_queue) (base : Nat)
    (hq : sc.submit_queues[sq]? = some q)
    (hcq : sc.compl_queues[q.cqid]? = some cq)
    (hbase : cq.qbase = some base) (hsize : cq.size ≠ 0) :
    pci_nvme_set_completion sc sq sqid cid cdw0 status ib =
      .ok { sc with
            ctx := { sc.ctx with
                     cpl := Function.update sc.ctx.cpl
                       (elem_addr base SIZEOF_NVME_COMPLETION cq.tail)
                       { sc.ctx.cpl (elem_addr base SIZEOF_NVME_COMPLETION cq.tail) with
                         sqhd := q.head
                         sqid := sqid % 65536
                         cid := cid % 65536
                         status :=
                           { p := !(sc.ctx.cpl
                                     (elem_addr base SIZEOF_NVME_COMPLETION cq.tail)).status.p
                             sc := status.sc % 256
                             sct := status.sct % 8 } } }
            compl_queues := sc.compl_queues.set q.cqid
              { cq with tail := ((cq.tail + 1) % cq.size) % 65536 }
            msix := if ((ib || decide (q.busy = 0)) && decide (cq.intr_en % 2 = 1)) = true
              then sc.msix ++ [cq.intr_vec] else sc.msix } := by
  unfold pci_nvme_set_completion
  simp only [hq, hcq, hbase, hsize, if_false]

/-- C2: for a completion queue with non-null `qbase` and `1 ≤ size` (at most 65536, the
largest size the 16-bit size field of a create command can give),
`pci_nvme_set_completion` returns normally and writes exactly one completion entry, the
one at index `old tail`: it gets `sqhd = sq.head`, the given `sqid`, `cid`, `sct`, `sc`
and the negation of the phase bit stored there before; no other entry of guest memory
(so no other slot of the queue) changes; the queue's tail becomes
`(old tail + 1) mod size`, its other fields (head included) and all other queues are
unchanged. -/
theorem set_completion_writes_one_entry (sc : pci_nvme_softc) (sq sqid cid cdw0 : Nat)
    (status : nvme_status) (ib : Bool)
    (q : nvme_submission_queue) (cq : nvme_completion_queue) (base : Nat)
    (hq : sc.submit_queues[sq]? = some q)
    (hcq : sc.compl_queues[q.cqid]? = some cq)
    (hbase : cq.qbase = some base) (hsize : 1 ≤ cq.size) (hsize16 : cq.size ≤ 65536)
    (hsqid : sqid < 65536) (hcid : cid < 65536)
    (hsc : status.sc < 256) (hsct : status.sct < 8) :
    ∃ sc1, pci_nvme_set_completion sc sq sqid cid cdw0 status ib = .ok sc1 ∧
      (sc1.ctx.cpl (elem_addr base SIZEOF_NVME_COMPLETION cq.tail)).sqhd = q.head ∧
      (sc1.ctx.cpl (elem_addr base SIZEOF_NVME_COMPLETION cq.tail)).sqid = sqid ∧
      (sc1.ctx.cpl (elem_addr base SIZEOF_NVME_COMPLETION cq.tail)).cid = cid ∧
      (sc1.ctx.cpl (elem_addr base SIZEOF_NVME_COMPLETION cq.tail)).status.sct = status.sct ∧
      (sc1.ctx.cpl (elem_addr base SIZEOF_NVME_COMPLETION cq.tail)).status.sc = status.sc ∧
      (sc1.ctx.cpl (elem_addr base SIZEOF_NVME_COMPLETION cq.tail)).status.p =
        !(sc.ctx.cpl (elem_addr base SIZEOF_NVME_COMPLETION cq.tail)).status.p ∧
      (∀ a, a ≠ elem_addr base SIZEOF_NVME_COMPLETION cq.tail →
        sc1.ctx.cpl a = sc.ctx.cpl a) ∧
      (∀ i, i ≠ cq.tail →
        sc1.ctx.cpl (elem_addr base SIZEOF_NVME_COMPLETION i) =
          sc.ctx.cpl (elem_addr base SIZEOF_NVME_COMPLETION i)) ∧
      sc1.compl_queues[q.cqid]? = some { cq with tail := (cq.tail + 1) % cq.size } ∧
      (∀ j, j ≠ q.cqid → sc1.compl_queues[j]? = sc.compl_queues[j]?) ∧
      sc1.submit_queues = sc.submit_queues := by
  have hne : cq.size ≠ 0 := by omega
  refine ⟨_, set_completion_ok sc sq sqid cid cdw0 status ib q cq base hq hcq hbase hne, ?_⟩
  have hlt : q.cqid < sc.compl_queues.length := by
    rcases List.getElem?_eq_some.mp hcq with ⟨h, _⟩
    exact h
  have htl : ((cq.tail + 1) % cq.size) % 65536 = (cq.tail + 1) % cq.size := by
    have : (cq.tail + 1) % cq.size < cq.size := Nat.mod_lt _ (by omega)
    exact Nat.mod_eq_of_lt (by omega)
  refine ⟨?_, ?_, ?_, ?_, ?_, ?_, ?_, ?_, ?_, ?_, ?_⟩
  · simp
  · simp [Nat.mod_eq_of_lt hsqid]
  · simp [Nat.mod_eq_of_lt hcid]
  · simp [Nat.mod_eq_of_lt hsct]
  · simp [Nat.mod_eq_of_lt hsc]
  · simp
  · intro a ha
    simp [Function.update, ha]
  · intro i hi
    have : elem_addr base SIZEOF_NVME_COMPLETION i ≠
        elem_addr base SIZEOF_NVME_COMPLETION cq.tail := by
      intro h
      exact hi ((elem_addr_inj base SIZEOF_NVME_COMPLETION i cq.tail (by decide)).mp h)
    simp [Function.update, this]
  · simp [List.getElem?_set_self hlt, htl]
  · intro j hj
    simp [List.getElem?_set_ne (Ne.symm hj)]
  · rfl

theorem phaseInv_step (sc : pci_nvme_softc) (sq : Nat) (q : nvme_submission_queue)
    (base n r t : Nat) (hn16 : n ≤ 65536) (a : post_args)
    (hinv : PhaseInv sc sq q base n r t) :
    ∃ sc1, pci_nvme_set_completion sc sq a.sqid a.cid a.cdw0 a.status a.ignore_busy = .ok sc1 ∧
      (∀ x, x ≠ elem_addr base SIZEOF_NVME_COMPLETION t → sc1.ctx.cpl x = sc.ctx.cpl x) ∧
      (sc1.ctx.cpl (elem_addr base SIZEOF_NVME_COMPLETION t)).status.p = decide (r % 2 = 0) ∧
      (sc1.ctx.cpl (elem_addr base SIZEOF_NVME_COMPLETION t)).cid = a.cid % 65536 ∧
      ∃ r1 t1, PhaseInv sc1 sq q base n r1 t1 ∧ n * r1 + t1 = n * r + t + 1 := by
  obtain ⟨hq, ⟨cq, hcq, hbase, hsize, htail⟩, htn, hph⟩ := hinv
  subst htail
  have hne : cq.size ≠ 0 := by omega
  have hlt : q.cqid < sc.compl_queues.length := by
    rcases List.getElem?_eq_some.mp hcq with ⟨h, _⟩
    exact h
  have hold : (sc.ctx.cpl (elem_addr base SIZEOF_NVME_COMPLETION cq.tail)).status.p =
      decide (r % 2 = 1) := by
    have := hph cq.tail htn
    simpa using this
  have hflip : (!decide (r % 2 = 1)) = decide (r % 2 = 0) := by
    rcases Nat.mod_two_eq_zero_or_one r with h | h <;> simp [h]
  have hflip2 : decide ((r + 1) % 2 = 1) = decide (r % 2 = 0) := by
    rcases Nat.mod_two_eq_zero_or_one r with h | h <;> simp [h, Nat.add_mod]
  refine ⟨_, set_completion_ok sc sq a.sqid a.cid a.cdw0 a.status a.ignore_busy q cq base
    hq hcq hbase hne, ?_, ?_, ?_, ?_⟩
  · intro x hx
    simp only [Function.update_noteq hx]
  · simp only [Function.update_same, hold, hflip]
  · simp only [Function.update_same]
  · by_cases hw : cq.tail + 1 < n
    · refine ⟨r, cq.tail + 1, ⟨hq, ⟨{ cq with tail := ((cq.tail + 1) % cq.size) % 65536 }, ?_,
        hbase, hsize, ?_⟩, hw, ?_⟩, by ring⟩
      · simp only [List.getElem?_set_self hlt]
      · simp only [hsize]
        rw [Nat.mod_eq_of_lt hw]
        exact Nat.mod_eq_of_lt (by omega)
      · intro i hi
        by_cases hit : i = cq.tail
        · have hlt1 : i < cq.tail + 1 := by omega
          rw [hit] at hlt1 ⊢
          simp only [Function.update_same, hold, hlt1, if_true, hflip]
        · have hx : elem_addr base SIZEOF_NVME_COMPLETION i ≠
              elem_addr base SIZEOF_NVME_COMPLETION cq.tail := by
            intro h
            exact hit ((elem_addr_inj base SIZEOF_NVME_COMPLETION i cq.tail (by decide)).mp h)
          simp only [Function.update_noteq hx, hph i hi]
          by_cases h1 : i < cq.tail
          · have h2 : i < cq.tail + 1 := by omega
            simp only [h1, h2, if_true]
          · have h2 : ¬ i < cq.tail + 1 := by omega
            simp only [h1, h2, if_false]
    · have hw2 : cq.tail + 1 = n := by omega
      refine ⟨r + 1, 0, ⟨hq, ⟨{ cq with tail := ((cq.tail + 1) % cq.size) % 65536 }, ?_,
        hbase, hsize, ?_⟩, by omega, ?_⟩, ?_⟩
      · simp only [List.getElem?_set_self hlt]
      · simp only [hsize, hw2, Nat.mod_self, Nat.zero_mod]
      · intro i hi
        have h0 : ¬ i < 0 := by omega
        simp only [h0, if_false, hflip2]
        by_cases hit : i = cq.tail
        · rw [hit]
          simp only [Function.update_same, hold, hflip]
        · have hx : elem_addr base SIZEOF_NVME_COMPLETION i ≠
              elem_addr base SIZEOF_NVME_COMPLETION cq.tail := by
            intro h
            exact hit ((elem_addr_inj base SIZEOF_NVME_COMPLETION i cq.tail (by decide)).mp h)
          have h1 : i < cq.tail := by omega
          simp only [Function.update_noteq hx, hph i hi, h1, if_true]
      · rw [← hw2]
        ring

theorem phaseInv_post_all (sq : Nat) (q : nvme_submission_queue) (base n : Nat)
    (hn16 : n ≤ 65536) (pre : List post_args) :
    ∀ (sc : pci_nvme_softc) (r t : Nat), PhaseInv sc sq q base n r t →
      ∃ sc1 r1 t1, post_all sc sq pre = .ok sc1 ∧ PhaseInv sc1 sq q base n r1 t1 ∧
        n * r1 + t1 = n * r + t + pre.length := by
  induction pre with
  | nil =>
    intro sc r t hinv
    exact ⟨sc, r, t, rfl, hinv, by simp⟩
  | cons a rest ih =>
    intro sc r t hinv
    obtain ⟨sc1, hstep, _, _, _, r1, t1, hinv1, hcount⟩ :=
      phaseInv_step sc sq q base n r t hn16 a hinv
    obtain ⟨sc2, r2, t2, hall, hinv2, hcount2⟩ := ih sc1 r1 t1 hinv1
    refine ⟨sc2, r2, t2, ?_, hinv2, ?_⟩
    · simp only [post_all, hstep]
      exact hall
    · simp only [List.length_cons]
      omega

/-- C1: phase tag across wrap.  Start from a completion queue of size `n`
(`1 ≤ n ≤ 65536`, the sizes a queue can be created with) whose tail is 0 and whose `n`
entries all have phase bit 0.  After any `k` completions have been posted back to back by
`pci_nvme_set_completion`, the tail is at slot `k mod n`, so the next completion (the
`k`-th, counting from 0) is written at slot `k mod n` and nowhere else, and the entry it
leaves there carries phase bit 1 exactly when `floor(k / n)` is even. -/
theorem phase_tag_across_wrap (sc : pci_nvme_softc) (sq : Nat) (q : nvme_submission_queue)
    (cq : nvme_completion_queue) (base n : Nat)
    (hq : sc.submit_queues[sq]? = some q)
    (hcq : sc.compl_queues[q.cqid]? = some cq)
    (hbase : cq.qbase = some base) (hsize : cq.size = n) (hn : 1 ≤ n) (hn16 : n ≤ 65536)
    (htail : cq.tail = 0)
    (hphase : ∀ i, i < n →
      (sc.ctx.cpl (elem_addr base SIZEOF_NVME_COMPLETION i)).status.p = false)
    (pre : List post_args) (a : post_args) :
    posts_next_at sc sq q base pre a (pre.length % n)
      (decide ((pre.length / n) % 2 = 0)) := by
  unfold posts_next_at
  have hinv0 : PhaseInv sc sq q base n 0 0 := by
    refine ⟨hq, ⟨cq, hcq, hbase, hsize, htail⟩, by omega, ?_⟩
    intro i hi
    simp [hphase i hi]
  obtain ⟨sc1, r1, t1, hall, hinv1, hcount⟩ :=
    phaseInv_post_all sq q base n hn16 pre sc 0 0 hinv0
  have ht1 : t1 < n := hinv1.2.2.1
  have hk : pre.length = n * r1 + t1 := by omega
  have hmod : pre.length % n = t1 := by
    rw [hk, Nat.mul_add_mod]
    exact Nat.mod_eq_of_lt ht1
  have hdiv : pre.length / n = r1 := by
    rw [hk, Nat.mul_add_div (by omega), Nat.div_eq_of_lt ht1]
    simp
  obtain ⟨sc2, hstep, hothers, hp, hcid, _⟩ := phaseInv_step sc1 sq q base n r1 t1 hn16 a hinv1
  obtain ⟨_, ⟨cq1, hcq1, _, _, htail1⟩, _, _⟩ := hinv1
  refine ⟨sc1, sc2, cq1, hall, hcq1, ?_, hstep, ?_, ?_, ?_⟩
  · rw [hmod]
    exact htail1
  · rw [hmod]
    exact hothers
  · rw [hmod]
    exact hcid
  · rw [hmod, hdiv]
    exact hp

/-! ### Register bit fields -/

theorem cc_en_set_en (raw v : Nat) : cc_en (cc_set_en raw v) = v % 2 := by
  simp only [cc_en, cc_set_en, getbits, setbits, Nat.reducePow, pow_zero, pow_one]
  omega

theorem csts_rdy_set_rdy (raw v : Nat) : csts_rdy (csts_set_rdy raw v) = v % 2 := by
  simp only [csts_rdy, csts_set_rdy, getbits, setbits, Nat.reducePow, pow_zero, pow_one]
  omega

theorem csts_set_rdy_zero : csts_set_rdy 0 0 = 0 := by decide

theorem cc_en_le_one (raw : Nat) : cc_en raw = 0 ∨ cc_en raw = 1 := by
  simp only [cc_en, getbits, Nat.reducePow, pow_zero, pow_one]
  omega

theorem cc_en_mod (value : Nat) : cc_en (value % 2 ^ 32) = value % 2 := by
  simp only [cc_en, getbits, Nat.reducePow, pow_zero, pow_one]
  omega

/-! ### Enable -/

/-- C4: enable.  A 4-byte write to CC with EN = 1, made while the stored CC.EN is 0 and
no I/O is pending (queue arrays allocated), returns normally and leaves CC.EN = 1 and
CSTS.RDY = 1; the admin submission queue gets size AQA.ASQS + 1 and the base mapped from
ASQ, the admin completion queue size AQA.ACQS + 1 and the base mapped from ACQ, their
other fields unchanged. -/
theorem enable_sets_ready (fuel : Nat) (sc : pci_nvme_softc) (value : Nat)
    (sq0 : nvme_submission_queue) (cq0 : nvme_completion_queue)
    (hsq : sc.submit_queues[0]? = some sq0) (hcq : sc.compl_queues[0]? = some cq0)
    (hen : cc_en (value % 2 ^ 32) = 1) (hold : cc_en sc.regs.cc = 0)
    (hpend : sc.pending_ios = 0) :
    ∃ sc1, pci_nvme_write_bar_0 fuel sc NVME_CR_CC 4 value = .ok sc1 ∧
      cc_en sc1.regs.cc = 1 ∧ csts_rdy sc1.regs.csts = 1 ∧
      sc1.submit_queues[0]? = some
        { sq0 with size := aqa_asqs sc.regs.aqa + 1
                   qbase := sc.ctx.vm_map_gpa sc.regs.asq
                     (SIZEOF_NVME_COMMAND * (aqa_asqs sc.regs.aqa + 1)) } ∧
      sc1.compl_queues[0]? = some
        { cq0 with size := aqa_acqs sc.regs.aqa + 1
                   qbase := sc.ctx.vm_map_gpa sc.regs.acq
                     (SIZEOF_NVME_COMPLETION * (aqa_acqs sc.regs.aqa + 1)) } := by
  have hl1 : 0 < sc.submit_queues.length := by
    rcases List.getElem?_eq_some.mp hsq with ⟨h, _⟩
    exact h
  have hl2 : 0 < sc.compl_queues.length := by
    rcases List.getElem?_eq_some.mp hcq with ⟨h, _⟩
    exact h
  have hne : cc_en (value % 2 ^ 32) ≠ 0 := by omega
  have hinit : ∀ s : pci_nvme_softc, s.submit_queues = sc.submit_queues →
      s.compl_queues = sc.compl_queues → s.regs.aqa = sc.regs.aqa → s.regs.asq = sc.regs.asq →
      s.regs.acq = sc.regs.acq → s.ctx = sc.ctx →
      pci_nvme_init_controller s = .ok
        { s with
          submit_queues := sc.submit_queues.set 0
            { sq0 with size := aqa_asqs sc.regs.aqa + 1
                       qbase := sc.ctx.vm_map_gpa sc.regs.asq
                         (SIZEOF_NVME_COMMAND * (aqa_asqs sc.regs.aqa + 1)) }
          compl_queues := sc.compl_queues.set 0
            { cq0 with size := aqa_acqs sc.regs.aqa + 1
                       qbase := sc.ctx.vm_map_gpa sc.regs.acq
                         (SIZEOF_NVME_COMPLETION * (aqa_acqs sc.regs.aqa + 1)) } } := by
    intro s h1 h2 h3 h4 h5 h6
    simp only [pci_nvme_init_controller, h1, h2, h3, h4, h5, h6, hsq, hcq]
  have hcc : ∀ s : pci_nvme_softc, cc_en s.regs.cc = cc_en sc.regs.cc →
      s.pending_ios = sc.pending_ios → s.submit_queues = sc.submit_queues →
      s.compl_queues = sc.compl_queues → s.regs.aqa = sc.regs.aqa → s.regs.asq = sc.regs.asq →
      s.regs.acq = sc.regs.acq → s.ctx = sc.ctx →
      ∃ sc1, write_cc_en s (value % 2 ^ 32) = .ok sc1 ∧
        cc_en sc1.regs.cc = 1 ∧ csts_rdy sc1.regs.csts = 1 ∧
        sc1.submit_queues[0]? = some
          { sq0 with size := aqa_asqs sc.regs.aqa + 1
                     qbase := sc.ctx.vm_map_gpa sc.regs.asq
                       (SIZEOF_NVME_COMMAND * (aqa_asqs sc.regs.aqa + 1)) } ∧
        sc1.compl_queues[0]? = some
          { cq0 with size := aqa_acqs sc.regs.aqa + 1
                     qbase := sc.ctx.vm_map_gpa sc.regs.acq
                       (SIZEOF_NVME_COMPLETION * (aqa_acqs sc.regs.aqa + 1)) } := by
    intro s h0 hp h1 h2 h3 h4 h5 h6
    have hdiff : cc_en (value % 2 ^ 32) ≠ cc_en s.regs.cc := by omega
    have hp0 : s.pending_ios = 0 := by omega
    simp only [write_cc_en, hdiff, hne, hinit s h1 h2 h3 h4 h5 h6, hp0, ne_eq,
      not_false_eq_true, if_true, if_false]
    refine ⟨_, rfl, ?_, ?_, ?_, ?_⟩
    · simp only [cc_en_set_en, hen]
    · simp only [csts_rdy_set_rdy]
    · simp only [List.getElem?_set_self hl1]
    · simp only [List.getElem?_set_self hl2]
  have hoff : pci_nvme_write_bar_0 fuel sc NVME_CR_CC 4 value = write_cc sc value := by
    simp [pci_nvme_write_bar_0, NVME_CR_CC, NVME_DOORBELL_OFFSET, NVME_CR_CAP_LOW,
      NVME_CR_CAP_HI, NVME_CR_VS, NVME_CR_INTMS, NVME_CR_INTMC]
  rw [hoff]
  unfold write_cc write_cc_shn
  exact hcc _ (by split <;> rfl) (by split <;> rfl) (by split <;> rfl) (by split <;> rfl)
    (by split <;> rfl) (by split <;> rfl) (by split <;> rfl) (by split <;> rfl)

/-- Witness for C4, the enabling write `CC = 0x00460001` of the "enable and identify"
scenario with `AQA = 0x001F001F`: both admin queues get 32 entries. -/
theorem enable_sets_ready_witness :
    ∃ sc1, pci_nvme_write_bar_0 0 demo_softc NVME_CR_CC 4 0x00460001 = .ok sc1 ∧
      cc_en sc1.regs.cc = 1 ∧ csts_rdy sc1.regs.csts = 1 ∧
      sc1.submit_queues[0]? = some { zero_sq with size := 32, qbase := some 0x100000 } ∧
      sc1.compl_queues[0]? = some { zero_cq with size := 32, qbase := some 0x200000 } :=
  enable_sets_ready 0 demo_softc 0x00460001 zero_sq zero_cq rfl rfl (by decide) (by decide) rfl

/-! ### Reset -/

theorem reset_queue_ok (sc : pci_nvme_softc) (i : Nat) (sq : nvme_submission_queue)
    (cq : nvme_completion_queue) (hsq : sc.submit_queues[i]? = some sq)
    (hcq : sc.compl_queues[i]? = some cq) :
    reset_queue sc i = .ok
      { sc with submit_queues := sc.submit_queues.set i (reset_sq i sq)
                compl_queues := sc.compl_queues.set i (reset_cq i cq) } := by
  simp only [reset_queue, hsq, hcq]

/-- The queue loop of `pci_nvme_reset` over allocated arrays: it returns, touches nothing
but the two queue arrays, and applies `reset_sq` / `reset_cq` to the entries in its range. -/
theorem reset_queues_spec (n : Nat) :
    ∀ (sc : pci_nvme_softc) (start : Nat), start + n ≤ sc.submit_queues.length →
      start + n ≤ sc.compl_queues.length →
      ∃ sc1, reset_queues sc start n = .ok sc1 ∧
        sc1 = { sc with submit_queues := sc1.submit_queues, compl_queues := sc1.compl_queues } ∧
        sc1.submit_queues.length = sc.submit_queues.length ∧
        sc1.compl_queues.length = sc.compl_queues.length ∧
        (∀ i, sc1.submit_queues[i]? =
          if start ≤ i ∧ i < start + n then (sc.submit_queues[i]?).map (reset_sq i)
          else sc.submit_queues[i]?) ∧
        (∀ i, sc1.compl_queues[i]? =
          if start ≤ i ∧ i < start + n then (sc.compl_queues[i]?).map (reset_cq i)
          else sc.compl_queues[i]?) := by
  induction n with
  | zero =>
    intro sc start _ _
    refine ⟨sc, rfl, rfl, rfl, rfl, ?_, ?_⟩
    · intro i
      have : ¬ (start ≤ i ∧ i < start + 0) := by omega
      simp only [this, if_false]
    · intro i
      have : ¬ (start ≤ i ∧ i < start + 0) := by omega
      simp only [this, if_false]
  | succ n ih =>
    intro sc start h1 h2
    have hs : start < sc.submit_queues.length := by omega
    have hc : start < sc.compl_queues.length := by omega
    have hsq : sc.submit_queues[start]? = some sc.submit_queues[start] :=
      List.getElem?_eq_getElem hs
    have hcq : sc.compl_queues[start]? = some sc.compl_queues[start] :=
      List.getElem?_eq_getElem hc
    obtain ⟨sc2, hrun, hrest, hl1, hl2, hsqs, hcqs⟩ :=
      ih { sc with
           submit_queues := sc.submit_queues.set start (reset_sq start sc.submit_queues[start])
           compl_queues := sc.compl_queues.set start (reset_cq start sc.compl_queues[start]) }
        (start + 1) (by simp only [List.length_set]; omega) (by simp only [List.length_set]; omega)
    refine ⟨sc2, ?_, ?_, ?_, ?_, ?_, ?_⟩
    · simp only [reset_queues, reset_queue_ok sc start _ _ hsq hcq]
      exact hrun
    · rw [hrest]
    · rw [hl1, List.length_set]
    · rw [hl2, List.length_set]
    · intro i
      rw [hsqs i]
      by_cases hi : i = start
      · subst hi
        have c1 : ¬ (i + 1 ≤ i ∧ i < i + 1 + n) := by omega
        have c2 : i ≤ i ∧ i < i + (n + 1) := by omega
        rw [if_neg c1, if_pos c2, List.getElem?_set_self hs, hsq]
        rfl
      · have hne : start ≠ i := fun h => hi h.symm
        simp only [List.getElem?_set_ne hne]
        by_cases hr : start + 1 ≤ i ∧ i < start + 1 + n
        · have c2 : start ≤ i ∧ i < start + (n + 1) := by omega
          rw [if_pos hr, if_pos c2]
        · have c2 : ¬ (start ≤ i ∧ i < start + (n + 1)) := by omega
          rw [if_neg hr, if_neg c2]
    · intro i
      rw [hcqs i]
      by_cases hi : i = start
      · subst hi
        have c1 : ¬ (i + 1 ≤ i ∧ i < i + 1 + n) := by omega
        have c2 : i ≤ i ∧ i < i + (n + 1) := by omega
        rw [if_neg c1, if_pos c2, List.getElem?_set_self hc, hcq]
        rfl
      · have hne : start ≠ i := fun h => hi h.symm
        simp only [List.getElem?_set_ne hne]
        by_cases hr : start + 1 ≤ i ∧ i < start + 1 + n
        · have c2 : start ≤ i ∧ i < start + (n + 1) := by omega
          rw [if_pos hr, if_pos c2]
        · have c2 : ¬ (start ≤ i ∧ i < start + (n + 1)) := by omega
          rw [if_neg hr, if_neg c2]

/-- The value of `pci_nvme_reset` on a device whose queue arrays are allocated with
`max_queues + 1` entries: registers re-initialised with CC and CSTS zero, the queue
counts back at `max_queues`, every queue entry passed through `reset_sq` / `reset_cq`,
and nothing else changed. -/
theorem pci_nvme_reset_spec (sc : pci_nvme_softc)
    (hlen1 : sc.submit_queues.length = sc.max_queues + 1)
    (hlen2 : sc.compl_queues.length = sc.max_queues + 1) :
    ∃ sc1, pci_nvme_reset sc = .ok sc1 ∧
      sc1.regs.cc = 0 ∧ sc1.regs.csts = 0 ∧ sc1.regs.vs = 0x00010300 ∧
      sc1.regs.aqa = sc.regs.aqa ∧ sc1.regs.asq = sc.regs.asq ∧ sc1.regs.acq = sc.regs.acq ∧
      sc1.num_squeues = sc.max_queues ∧ sc1.num_cqueues = sc.max_queues ∧
      sc1.max_queues = sc.max_queues ∧ sc1.max_qentries = sc.max_qentries ∧
      sc1.pending_ios = sc.pending_ios ∧ sc1.ioreqs_free = sc.ioreqs_free ∧
      sc1.ioreqs = sc.ioreqs ∧ sc1.ioslots = sc.ioslots ∧ sc1.ctx = sc.ctx ∧
      sc1.nvstore = sc.nvstore ∧ sc1.msix = sc.msix ∧
      sc1.submit_queues.length = sc.max_queues + 1 ∧
      sc1.compl_queues.length = sc.max_queues + 1 ∧
      (∀ i, sc1.submit_queues[i]? = (sc.submit_queues[i]?).map (reset_sq i)) ∧
      (∀ i, sc1.compl_queues[i]? = (sc.compl_queues[i]?).map (reset_cq i)) := by
  have hne : sc.submit_queues ≠ [] := by
    intro h
    rw [h] at hlen1
    simp at hlen1
  have hne2 : sc.compl_queues ≠ [] := by
    intro h
    rw [h] at hlen2
    simp at hlen2
  obtain ⟨sc2, hrun, hrest, hl1, hl2, hsqs, hcqs⟩ := reset_queues_spec (sc.max_queues + 1)
    { sc with
      regs := { sc.regs with
                cap_lo := cap_lo_set_to (cap_lo_set_ams (cap_lo_set_cqr
                  (cap_lo_set_mqes 0 sc.max_qentries) 1) 0) 60
                cap_hi := cap_hi_set_mpsmax (cap_hi_set_mpsmin (cap_hi_set_css_nvm
                  (cap_hi_set_dstrd 0 0) 1) 0) 0
                vs := 0x00010300, cc := 0, csts := 0 }
      num_cqueues := sc.max_queues, num_squeues := sc.max_queues }
    0 (by simp only [hlen1]; omega) (by simp only [hlen2]; omega)
  have hne3 : sc2.compl_queues ≠ [] := by
    intro h
    rw [h] at hl2
    simp only [List.length_nil] at hl2
    omega
  refine ⟨sc2, ?_, ?_⟩
  · simp only [pci_nvme_reset, hne, ne_eq, not_false_eq_true, if_true, hrun, hne3, if_false]
  · rw [hrest]
    refine ⟨rfl, rfl, rfl, rfl, rfl, rfl, rfl, rfl, rfl, rfl, rfl, rfl, rfl, rfl, rfl, rfl,
      rfl, ?_, ?_, ?_, ?_⟩
    · exact hl1.trans hlen1
    · exact hl2.trans hlen2
    · intro i
      show sc2.submit_queues[i]? = _
      rw [hsqs i]
      by_cases hi : i < sc.max_queues + 1
      · have : 0 ≤ i ∧ i < 0 + (sc.max_queues + 1) := by omega
        rw [if_pos this]
      · have : ¬ (0 ≤ i ∧ i < 0 + (sc.max_queues + 1)) := by omega
        rw [if_neg this]
        have hnone : sc.submit_queues[i]? = none :=
          List.getElem?_eq_none (by omega)
        simp only [hnone, Option.map_none']
    · intro i
      show sc2.compl_queues[i]? = _
      rw [hcqs i]
      by_cases hi : i < sc.max_queues + 1
      · have : 0 ≤ i ∧ i < 0 + (sc.max_queues + 1) := by omega
        rw [if_pos this]
      · have : ¬ (0 ≤ i ∧ i < 0 + (sc.max_queues + 1)) := by omega
        rw [if_neg this]
        have hnone : sc.compl_queues[i]? = none :=
          List.getElem?_eq_none (by omega)
        simp only [hnone, Option.map_none']

theorem cc_en_set_css (raw v : Nat) : cc_en (cc_set_css raw v) = cc_en raw := by
  simp only [cc_en, cc_set_css, getbits, setbits, Nat.reducePow, pow_zero, pow_one]
  omega

theorem cc_en_set_mps (raw v : Nat) : cc_en (cc_set_mps raw v) = cc_en raw := by
  simp only [cc_en, cc_set_mps, getbits, setbits, Nat.reducePow, pow_zero, pow_one]
  omega

theorem cc_en_set_ams (raw v : Nat) : cc_en (cc_set_ams raw v) = cc_en raw := by
  simp only [cc_en, cc_set_ams, getbits, setbits, Nat.reducePow, pow_zero, pow_one]
  omega

theorem write_cc_shn_same (sc : pci_nvme_softc) (ccreg : Nat) :
    write_cc_shn sc ccreg =
      { sc with regs := { sc.regs with csts := (write_cc_shn sc ccreg).regs.csts } } := by
  unfold write_cc_shn
  split <;> rfl

/-- C6: a 4-byte write to CC that changes CC.EN from 1 to 0 (queue arrays allocated with
`max_queues + 1` entries) returns normally and leaves CSTS entirely zero, hence
CSTS.RDY = 0, CC.EN = 0, head = tail = 0 for every submission and completion queue of
index 0..max_queues, busy = 0 for every submission queue, and
`num_squeues = num_cqueues = max_queues`; `pending_ios`, the free list and the request
descriptors are unchanged. -/
theorem disable_resets_controller (fuel : Nat) (sc : pci_nvme_softc) (value : Nat)
    (hlen1 : sc.submit_queues.length = sc.max_queues + 1)
    (hlen2 : sc.compl_queues.length = sc.max_queues + 1)
    (hold : cc_en sc.regs.cc = 1) (hen : cc_en (value % 2 ^ 32) = 0) :
    ∃ sc1, pci_nvme_write_bar_0 fuel sc NVME_CR_CC 4 value = .ok sc1 ∧
      sc1.regs.csts = 0 ∧ csts_rdy sc1.regs.csts = 0 ∧ cc_en sc1.regs.cc = 0 ∧
      (∀ i, i ≤ sc.max_queues → ∃ sq, sc1.submit_queues[i]? = some sq ∧
        sq.head = 0 ∧ sq.tail = 0 ∧ sq.busy = 0) ∧
      (∀ i, i ≤ sc.max_queues → ∃ cq, sc1.compl_queues[i]? = some cq ∧
        cq.head = 0 ∧ cq.tail = 0) ∧
      sc1.num_squeues = sc.max_queues ∧ sc1.num_cqueues = sc.max_queues ∧
      sc1.max_queues = sc.max_queues ∧
      sc1.pending_ios = sc.pending_ios ∧ sc1.ioreqs_free = sc.ioreqs_free ∧
      sc1.ioreqs = sc.ioreqs ∧ sc1.ioslots = sc.ioslots := by
  have hoff : pci_nvme_write_bar_0 fuel sc NVME_CR_CC 4 value = write_cc sc value := by
    simp [pci_nvme_write_bar_0, NVME_CR_CC, NVME_DOORBELL_OFFSET, NVME_CR_CAP_LOW,
      NVME_CR_CAP_HI, NVME_CR_VS, NVME_CR_INTMS, NVME_CR_INTMC]
  rw [hoff]
  unfold write_cc
  have hsame := write_cc_shn_same sc (value % 2 ^ 32)
  generalize write_cc_shn sc (value % 2 ^ 32) = s at hsame
  have e1 : s.submit_queues = sc.submit_queues := by rw [hsame]
  have e2 : s.compl_queues = sc.compl_queues := by rw [hsame]
  have e3 : s.max_queues = sc.max_queues := by rw [hsame]
  have e4 : s.regs.cc = sc.regs.cc := by rw [hsame]
  have e5 : s.pending_ios = sc.pending_ios := by rw [hsame]
  have e6 : s.ioreqs_free = sc.ioreqs_free := by rw [hsame]
  have e7 : s.ioreqs = sc.ioreqs := by rw [hsame]
  have e8 : s.ioslots = sc.ioslots := by rw [hsame]
  obtain ⟨r, hreset, hcc, hcsts, _, _, _, _, hnsq, hncq, hmq, _, hpend, hfree, hreqs, hslots,
      _, _, _, hl1, hl2, hsqs, hcqs⟩ :=
    pci_nvme_reset_spec s (by rw [e1, e3]; exact hlen1) (by rw [e2, e3]; exact hlen2)
  have hdiff : ¬ (0 = cc_en s.regs.cc) := by
    rw [e4]
    omega
  simp only [write_cc_en, hen, hdiff, hreset, ne_eq, not_false_eq_true, if_true]
  refine ⟨_, rfl, ?_, ?_, ?_, ?_, ?_, ?_, ?_, ?_, ?_, ?_, ?_, ?_⟩
  · simp only [hcsts]
    exact csts_set_rdy_zero
  · simp only [csts_rdy_set_rdy]
  · simp only [cc_en_set_css, cc_en_set_mps, cc_en_set_ams, cc_en_set_en]
  · intro i hi
    have hlt : i < sc.submit_queues.length := by omega
    refine ⟨reset_sq i sc.submit_queues[i], ?_, rfl, rfl, rfl⟩
    show r.submit_queues[i]? = _
    rw [hsqs i, e1, List.getElem?_eq_getElem hlt]
    rfl
  · intro i hi
    have hlt : i < sc.compl_queues.length := by omega
    refine ⟨reset_cq i sc.compl_queues[i], ?_, rfl, rfl⟩
    show r.compl_queues[i]? = _
    rw [hcqs i, e2, List.getElem?_eq_getElem hlt]
    rfl
  · exact hnsq.trans e3
  · exact hncq.trans e3
  · exact hmq.trans e3
  · exact hpend.trans e5
  · exact hfree.trans e6
  · exact hreqs.trans e7
  · exact hslots.trans e8

/-- Witness for C6: the disabling write `CC = 0` on the enabled example device. -/
theorem disable_resets_controller_witness :
    ∃ sc1, pci_nvme_write_bar_0 0 demo_io NVME_CR_CC 4 0 = .ok sc1 ∧
      sc1.regs.csts = 0 ∧ cc_en sc1.regs.cc = 0 ∧
      sc1.num_squeues = 4 ∧ sc1.num_cqueues = 4 ∧ sc1.pending_ios = 0 := by
  obtain ⟨sc1, h, hcsts, _, hcc, _, _, hnsq, hncq, _, hpend, _, _, _⟩ :=
    disable_resets_controller 0 demo_io 0 rfl rfl (by decide) (by decide)
  exact ⟨sc1, h, hcsts, hcc, hnsq, hncq, hpend⟩

/-- What `pci_nvme_reset` does establish for the I/O queues: every submission queue of
index 1..max_queues ends with `qbase == NULL` and size 0, and every completion queue of
index 1..max_queues with size 0 and the `qbase` it had before. -/
theorem reset_io_queues (sc : pci_nvme_softc)
    (hlen1 : sc.submit_queues.length = sc.max_queues + 1)
    (hlen2 : sc.compl_queues.length = sc.max_queues + 1) :
    ∃ sc1, pci_nvme_reset sc = .ok sc1 ∧
      (∀ i, 1 ≤ i → i ≤ sc.max_queues → ∃ sq, sc1.submit_queues[i]? = some sq ∧
        sq.qbase = none ∧ sq.size = 0) ∧
      (∀ i, 1 ≤ i → i ≤ sc.max_queues → ∃ cq0 cq, sc.compl_queues[i]? = some cq0 ∧
        sc1.compl_queues[i]? = some cq ∧ cq.size = 0 ∧ cq.qbase = cq0.qbase) := by
  obtain ⟨r, hreset, _, _, _, _, _, _, _, _, _, _, _, _, _, _, _, _, _, _, _, hsqs, hcqs⟩ :=
    pci_nvme_reset_spec sc hlen1 hlen2
  refine ⟨r, hreset, ?_, ?_⟩
  · intro i h1 hi
    have hlt : i < sc.submit_queues.length := by omega
    have hne : i ≠ 0 := by omega
    refine ⟨reset_sq i sc.submit_queues[i], ?_, ?_, ?_⟩
    · rw [hsqs i, List.getElem?_eq_getElem hlt]
      rfl
    · simp only [reset_sq, hne, ne_eq, not_false_eq_true, if_true]
    · simp only [reset_sq, hne, ne_eq, not_false_eq_true, if_true]
  · intro i h1 hi
    have hlt : i < sc.compl_queues.length := by omega
    have hne : i ≠ 0 := by omega
    refine ⟨sc.compl_queues[i], reset_cq i sc.compl_queues[i],
      List.getElem?_eq_getElem hlt, ?_, ?_, ?_⟩
    · rw [hcqs i, List.getElem?_eq_getElem hlt]
      rfl
    · simp only [reset_cq, hne, ne_eq, not_false_eq_true, if_true]
    · simp only [reset_cq, hne, ne_eq, not_false_eq_true, if_true]

/-- C5: evaluation at the failing input.  On the example device with I/O completion
queue 1 created at host address 0x300000, the reset triggered by the write `CC = 0`
(EN 1 -> 0) returns normally and leaves `compl_queues[1].qbase` at 0x300000, not null,
although its size is now 0; `submit_queues[1]` does end with a null `qbase` and size 0. -/
theorem reset_leaves_cq_mapped :
    ∃ sc1 sq cq, pci_nvme_write_bar_0 0 demo_io NVME_CR_CC 4 0 = .ok sc1 ∧
      sc1.compl_queues[1]? = some cq ∧ cq.qbase = some 0x300000 ∧ cq.size = 0 ∧
      sc1.submit_queues[1]? = some sq ∧ sq.qbase = none ∧ sq.size = 0 :=
  ⟨_, _, _, rfl, rfl, rfl, rfl, rfl, rfl, rfl⟩

/-! ### Queue creation and deletion -/

/-- The delete commands on queue identifiers inside the queue array.  Delete I/O SQ with
`qid = cdw10[15:0]` equal to 0 or greater than `num_cqueues` answers Command-Specific /
Invalid Queue Identifier (`sct = 1`, `sc = 0x01`) and returns the device state unchanged;
for any other `qid` that indexes an element of the queue array it sets
`submit_queues[qid].qbase` to null, changes no other field of that queue, no other
submission queue and no completion queue, and answers Generic / Success.  Delete I/O CQ
does the same on `compl_queues`.  The test `qid > num_cqueues` alone does not put `qid`
inside the array: see `delete_io_queue_past_array`. -/
theorem delete_io_queue_spec (sc : pci_nvme_softc) (command : nvme_command)
    (compl : nvme_completion) :
    ((command.cdw10 % 65536 = 0 ∨ command.cdw10 % 65536 > sc.num_cqueues) →
      (∃ c, nvme_opc_delete_io_sq sc command compl = .ok (sc, c, 1) ∧
        c.status.sct = 1 ∧ c.status.sc = 0x01) ∧
      (∃ c, nvme_opc_delete_io_cq sc command compl = .ok (sc, c, 1) ∧
        c.status.sct = 1 ∧ c.status.sc = 0x01)) ∧
    (∀ sq, ¬ (command.cdw10 % 65536 = 0 ∨ command.cdw10 % 65536 > sc.num_cqueues) →
      sc.submit_queues[command.cdw10 % 65536]? = some sq →
      ∃ sc1 c, nvme_opc_delete_io_sq sc command compl = .ok (sc1, c, 1) ∧
        c.status.sct = NVME_SCT_GENERIC ∧ c.status.sc = NVME_SC_SUCCESS ∧
        sc1.submit_queues[command.cdw10 % 65536]? = some { sq with qbase := none } ∧
        (∀ j, j ≠ command.cdw10 % 65536 → sc1.submit_queues[j]? = sc.submit_queues[j]?) ∧
        sc1.compl_queues = sc.compl_queues) ∧
    (∀ cq, ¬ (command.cdw10 % 65536 = 0 ∨ command.cdw10 % 65536 > sc.num_cqueues) →
      sc.compl_queues[command.cdw10 % 65536]? = some cq →
      ∃ sc1 c, nvme_opc_delete_io_cq sc command compl = .ok (sc1, c, 1) ∧
        c.status.sct = NVME_SCT_GENERIC ∧ c.status.sc = NVME_SC_SUCCESS ∧
        sc1.compl_queues[command.cdw10 % 65536]? = some { cq with qbase := none } ∧
        (∀ j, j ≠ command.cdw10 % 65536 → sc1.compl_queues[j]? = sc.compl_queues[j]?) ∧
        sc1.submit_queues = sc.submit_queues) := by
  refine ⟨?_, ?_, ?_⟩
  · intro h
    refine ⟨⟨set_status compl NVME_SCT_COMMAND_SPECIFIC NVME_SC_INVALID_QUEUE_IDENTIFIER,
      ?_, rfl, rfl⟩,
      ⟨set_status compl NVME_SCT_COMMAND_SPECIFIC NVME_SC_INVALID_QUEUE_IDENTIFIER,
      ?_, rfl, rfl⟩⟩
    · simp only [nvme_opc_delete_io_sq, h, if_true]
    · simp only [nvme_opc_delete_io_cq, h, if_true]
  · intro sq h hsq
    have hlt : command.cdw10 % 65536 < sc.submit_queues.length := by
      rcases List.getElem?_eq_some.mp hsq with ⟨h, _⟩
      exact h
    refine ⟨{ sc with submit_queues :=
                sc.submit_queues.set (command.cdw10 % 65536) { sq with qbase := none } },
      set_status compl NVME_SCT_GENERIC NVME_SC_SUCCESS, ?_, rfl, rfl, ?_, ?_, rfl⟩
    · simp only [nvme_opc_delete_io_sq, h, if_false, hsq]
    · simp only [List.getElem?_set_self hlt]
    · intro j hj
      simp only [List.getElem?_set_ne (Ne.symm hj)]
  · intro cq h hcq
    have hlt : command.cdw10 % 65536 < sc.compl_queues.length := by
      rcases List.getElem?_eq_some.mp hcq with ⟨h, _⟩
      exact h
    refine ⟨{ sc with compl_queues :=
                sc.compl_queues.set (command.cdw10 % 65536) { cq with qbase := none } },
      set_status compl NVME_SCT_GENERIC NVME_SC_SUCCESS, ?_, rfl, rfl, ?_, ?_, rfl⟩
    · simp only [nvme_opc_delete_io_cq, h, if_false, hcq]
    · simp only [List.getElem?_set_self hlt]
    · intro j hj
      simp only [List.getElem?_set_ne (Ne.symm hj)]

/-- The delete commands on the example device: Delete I/O SQ / CQ with `qid = 0` is refused
and leaves the state as it was, Delete I/O SQ with `qid = 1` unmaps submission queue 1. -/
theorem delete_io_queue_spec_witness :
    ((∃ c, nvme_opc_delete_io_sq demo_io zero_command zero_completion = .ok (demo_io, c, 1) ∧
        c.status.sct = 1 ∧ c.status.sc = 0x01) ∧
      (∃ c, nvme_opc_delete_io_cq demo_io zero_command zero_completion = .ok (demo_io, c, 1) ∧
        c.status.sct = 1 ∧ c.status.sc = 0x01)) ∧
    (∃ sc1 c, nvme_opc_delete_io_sq demo_io { zero_command with cdw10 := 1 } zero_completion =
        .ok (sc1, c, 1) ∧
      c.status.sct = NVME_SCT_GENERIC ∧ c.status.sc = NVME_SC_SUCCESS ∧
      sc1.submit_queues[1]? = some { demo_sq1 with qbase := none } ∧
      (∀ j, j ≠ 1 → sc1.submit_queues[j]? = demo_io.submit_queues[j]?) ∧
      sc1.compl_queues = demo_io.compl_queues) :=
  ⟨(delete_io_queue_spec demo_io zero_command zero_completion).1 (by decide),
   (delete_io_queue_spec demo_io { zero_command with cdw10 := 1 } zero_completion).2.1
     demo_sq1 (by decide) rfl⟩

/-- The out-of-range half of the queue identifier check of the create commands: Create
I/O SQ with `qid > num_squeues` and Create I/O CQ with `qid > num_cqueues` (both with
`CDW11.PC = 1`) answer Command-Specific / Invalid Queue Identifier and return the device
state unchanged. -/
theorem create_io_queue_out_of_range (sc : pci_nvme_softc) (command : nvme_command)
    (compl : nvme_completion) (hpc : command.cdw11 % 2 = 1) :
    (command.cdw10 % 65536 > sc.num_squeues →
      ∃ c, nvme_opc_create_io_sq sc command compl = .ok (sc, c, 1) ∧
        c.status.sct = 1 ∧ c.status.sc = 0x01) ∧
    (command.cdw10 % 65536 > sc.num_cqueues →
      ∃ c, nvme_opc_create_io_cq sc command compl = .ok (sc, c, 1) ∧
        c.status.sct = 1 ∧ c.status.sc = 0x01) := by
  constructor
  · intro h
    refine ⟨set_status compl NVME_SCT_COMMAND_SPECIFIC NVME_SC_INVALID_QUEUE_IDENTIFIER,
      ?_, rfl, rfl⟩
    simp only [nvme_opc_create_io_sq, hpc, h, if_true]
  · intro h
    refine ⟨set_status compl NVME_SCT_COMMAND_SPECIFIC NVME_SC_INVALID_QUEUE_IDENTIFIER,
      ?_, rfl, rfl⟩
    simp only [nvme_opc_create_io_cq, hpc, h, if_true]

/-- The create commands have no check for queue identifier 0: Create I/O SQ with
`CDW11.PC = 1` and `qid = 0` answers Generic / Success and overwrites the size, base,
completion queue link and priority of the admin submission queue. -/
theorem create_io_sq_qid_zero (sc : pci_nvme_softc) (command : nvme_command)
    (compl : nvme_completion) (sq0 : nvme_submission_queue)
    (hpc : command.cdw11 % 2 = 1) (hqid : command.cdw10 % 65536 = 0)
    (hsq : sc.submit_queues[0]? = some sq0) :
    nvme_opc_create_io_sq sc command compl = .ok
      ({ sc with
         submit_queues := sc.submit_queues.set 0
           { sq0 with size := (command.cdw10 / 65536) % 65536 + 1
                      qbase := sc.ctx.vm_map_gpa command.prp1
                        (SIZEOF_NVME_COMMAND * ((command.cdw10 / 65536) % 65536 + 1))
                      cqid := (command.cdw11 / 65536) % 65536
                      qpriority := (command.cdw11 / 2) % 4 } },
       set_status compl NVME_SCT_GENERIC NVME_SC_SUCCESS, 1) := by
  have h0 : ¬ (0 > sc.num_squeues) := by omega
  simp only [nvme_opc_create_io_sq, hpc, hqid, h0, if_true, if_false, hsq]

/-- C9: evaluation at the failing input.  On the enabled example device, Create I/O SQ
and Create I/O CQ with `CDW11.PC = 1` and queue identifier 0 both answer Generic /
Success (`sct = 0`, `sc = 0`), and they replace the admin queues at index 0: the admin
submission queue becomes a 4-entry queue at 0x500000, the admin completion queue a
4-entry queue at 0x600000. -/
theorem create_io_queue_accepts_qid_zero :
    (∃ sc1 c sq, nvme_opc_create_io_sq demo_io demo_create_sq0 zero_completion =
        .ok (sc1, c, 1) ∧
      c.status.sct = 0 ∧ c.status.sc = 0 ∧
      demo_io.submit_queues[0]? = some { zero_sq with qbase := some 0x100000, size := 32 } ∧
      sc1.submit_queues[0]? = some sq ∧ sq.size = 4 ∧ sq.qbase = some 0x500000) ∧
    (∃ sc1 c cq, nvme_opc_create_io_cq demo_io demo_create_cq0 zero_completion =
        .ok (sc1, c, 1) ∧
      c.status.sct = 0 ∧ c.status.sc = 0 ∧
      demo_io.compl_queues[0]? = some { zero_cq with qbase := some 0x200000, size := 32 } ∧
      sc1.compl_queues[0]? = some cq ∧ cq.size = 4 ∧ cq.qbase = some 0x600000) :=
  ⟨⟨_, _, _, rfl, rfl, rfl, rfl, rfl, rfl, rfl⟩, ⟨_, _, _, rfl, rfl, rfl, rfl, rfl, rfl, rfl⟩⟩

/-! ### Admin executor -/

theorem shrink_step (s : pci_nvme_softc) (compl : nvme_completion) (do_intr : Nat)
    (hinv : ShrinkInv s) :
    ∃ s1 c1 d1, admin_step s 0 compl do_intr = .ok (s1, 0, c1, d1) ∧ ShrinkInv s1 := by
  obtain ⟨⟨sq, hsq, hbase, htail⟩, hcmd, hmap, ⟨cq, cb, hcq, hcb, hsz⟩⟩ := hinv
  have hl1 : 0 < s.submit_queues.length := by
    rcases List.getElem?_eq_some.mp hsq with ⟨h, _⟩
    exact h
  have hl2 : 0 < s.compl_queues.length := by
    rcases List.getElem?_eq_some.mp hcq with ⟨h, _⟩
    exact h
  have haddr : elem_addr 0x100000 SIZEOF_NVME_COMMAND 0 = 0x100000 := by decide
  have hcreate := create_io_sq_qid_zero s demo_shrink_sq0 (set_status compl 0 0) sq
    (by decide) (by decide) hsq
  have hdisp : admin_dispatch s demo_shrink_sq0 (set_status compl 0 0) =
      nvme_opc_create_io_sq s demo_shrink_sq0 (set_status compl 0 0) := by
    simp [admin_dispatch, demo_shrink_sq0, NVME_OPC_CREATE_IO_SQ, NVME_OPC_DELETE_IO_SQ]
  have hopc : demo_shrink_sq0.opc ≠ NVME_OPC_ASYNC_EVENT_REQUEST := by decide
  have hmapv : s.ctx.vm_map_gpa demo_shrink_sq0.prp1
      (SIZEOF_NVME_COMMAND * ((demo_shrink_sq0.cdw10 / 65536) % 65536 + 1)) = some 0x100000 := by
    rw [hmap]
    decide
  have h1 : ((demo_shrink_sq0.cdw10 / 65536) % 65536 + 1 = 0) = False := by decide
  have h2 : ((0 + 1) % ((demo_shrink_sq0.cdw10 / 65536) % 65536 + 1)) % 65536 = 0 := by decide
  simp only [admin_step, hsq, hbase, haddr, hcmd, hdisp, hcreate, hopc, ne_eq,
    not_false_eq_true, if_true, admin_post, hcq, hcb, hsz, if_false,
    List.getElem?_set_self hl1, hmapv, h1, h2]
  refine ⟨_, _, _, rfl, ?_⟩
  · exact ⟨⟨_, List.getElem?_set_self hl1, rfl, htail⟩, hcmd, hmap,
      ⟨_, cb, List.getElem?_set_self hl2, rfl, hsz⟩⟩

theorem shrink_loop (fuel : Nat) :
    ∀ (s : pci_nvme_softc) (compl : nvme_completion) (do_intr : Nat), ShrinkInv s →
      admin_loop fuel s 0 compl do_intr = .error .outOfFuel := by
  induction fuel with
  | zero =>
    intro s compl do_intr hinv
    obtain ⟨⟨sq, hsq, _, htail⟩, _⟩ := hinv
    have hne : ¬ (0 = sq.tail) := by omega
    unfold admin_loop
    simp only [hsq, hne, if_false]
  | succ fuel ih =>
    intro s compl do_intr hinv
    obtain ⟨s1, c1, d1, hstep, hinv1⟩ := shrink_step s compl do_intr hinv
    obtain ⟨⟨sq, hsq, _, htail⟩, _⟩ := hinv
    have hne : ¬ (0 = sq.tail) := by omega
    unfold admin_loop
    simp only [hsq, hne, if_false, hstep]
    exact ih s1 c1 d1 hinv1

/-- C3: evaluation at the failing input.  On the enabled example device whose admin
submission ring (32 entries, head 0, busy 0) holds at slot 0 a Create I/O Submission Queue
command with `CDW11.PC = 1`, queue identifier 0, size field 0 and `prp1` equal to the
ring's own address, the tail doorbell write of 1 (head = 0 < 32, tail = 1 < 32) starts an
admin executor that does not terminate: the command shrinks the admin queue to one entry,
so `sqhead` is advanced to `(0 + 1) mod 1 = 0` and never reaches the tail; whatever the
fuel, the run of `pci_nvme_handle_admin_cmd` exceeds it. -/
theorem admin_drain_diverges (fuel : Nat) :
    pci_nvme_write_bar_0 fuel demo_shrink NVME_DOORBELL_OFFSET 4 1 = .error .outOfFuel := by
  have hbell : pci_nvme_write_bar_0 fuel demo_shrink NVME_DOORBELL_OFFSET 4 1 =
      pci_nvme_handle_doorbell fuel demo_shrink 0 true 1 := by
    simp [pci_nvme_write_bar_0, NVME_DOORBELL_OFFSET, demo_shrink, demo_io, demo_softc]
  rw [hbell]
  have hinv : ShrinkInv
      { demo_shrink with
        submit_queues := (demo_shrink.submit_queues.set 0
          { zero_sq with qbase := some 0x100000, size := 32, tail := 1 }).set 0
          { zero_sq with qbase := some 0x100000, size := 32, tail := 1, busy := 1 } } := by
    refine ⟨⟨_, rfl, rfl, rfl⟩, rfl, rfl, ⟨_, 0x200000, rfl, rfl, by decide⟩⟩
  have hloop := shrink_loop fuel _ zero_completion 0 hinv
  have hrun : pci_nvme_handle_doorbell fuel demo_shrink 0 true 1 =
      match admin_loop fuel
        { demo_shrink with
          submit_queues := (demo_shrink.submit_queues.set 0
            { zero_sq with qbase := some 0x100000, size := 32, tail := 1 }).set 0
            { zero_sq with qbase := some 0x100000, size := 32, tail := 1, busy := 1 } } 0
        zero_completion 0 with
      | .error e => .error e
      | .ok (sc1, sqhead1, do_intr) =>
        match sc1.submit_queues[0]? with
        | none => .error .nullDeref
        | some sq1 =>
          .ok (if do_intr ≠ 0 then
                { sc1 with submit_queues := sc1.submit_queues.set 0
                                              { sq1 with head := sqhead1, busy := 0 }
                           msix := sc1.msix ++ [0] }
              else { sc1 with submit_queues := sc1.submit_queues.set 0
                                                 { sq1 with head := sqhead1, busy := 0 } }) := by
    rfl
  rw [hrun, hloop]

/-! ### RAM store: PRP walk and round trip -/

theorem append_ram_write (sc : pci_nvme_softc) (gpaddr size lba g : Nat)
    (hmap : sc.ctx.vm_map_gpa gpaddr size = some g)
    (hin : lba + size ≤ sc.nvstore.size) (hst : sc.nvstore.size < 2 ^ 64) :
    pci_nvme_append_iov_req sc none gpaddr size true lba =
      .ok ({ sc with nvstore := { sc.nvstore with
                                  ram := ram_write sc.nvstore.ram sc.ctx.byte lba g size } }, 0) := by
  have h1 : (lba + size) % 2 ^ 64 = lba + size := Nat.mod_eq_of_lt (by omega)
  have h2 : ¬ (lba + size > sc.nvstore.size) := by omega
  simp only [pci_nvme_append_iov_req, append_iov_ram, h1, h2, if_false, hmap, if_true]

theorem append_ram_read (sc : pci_nvme_softc) (gpaddr size lba g : Nat)
    (hmap : sc.ctx.vm_map_gpa gpaddr size = some g)
    (hin : lba + size ≤ sc.nvstore.size) (hst : sc.nvstore.size < 2 ^ 64) :
    pci_nvme_append_iov_req sc none gpaddr size false lba =
      .ok ({ sc with ctx := { sc.ctx with
                              byte := ram_read sc.nvstore.ram sc.ctx.byte lba g size } }, 0) := by
  have h1 : (lba + size) % 2 ^ 64 = lba + size := Nat.mod_eq_of_lt (by omega)
  have h2 : ¬ (lba + size > sc.nvstore.size) := by omega
  simp only [pci_nvme_append_iov_req, append_iov_ram, h1, h2, if_false, hmap,
    Bool.false_eq_true]

theorem read64_congr (byte byte1 : Nat → Nat) (p : Nat)
    (h : ∀ k, k < 8 → byte1 (p + k) = byte (p + k)) : read64 byte1 p = read64 byte p := by
  simp only [read64, List.range, List.range.loop, List.foldr]
  rw [h 0 (by omega), h 1 (by omega), h 2 (by omega), h 3 (by omega), h 4 (by omega),
    h 5 (by omega), h 6 (by omega), h 7 (by omega)]

theorem read64_congr_page (byte byte1 : Nat → Nat) (p i : Nat) (hi : i ≤ NVME_PRP2_ITEMS - 1)
    (h : ∀ k, k < PAGE_SIZE → byte1 (p + k) = byte (p + k)) :
    read64 byte1 (p + 8 * i) = read64 byte (p + 8 * i) := by
  apply read64_congr
  intro k hk
  have hi2 : i ≤ 511 := hi
  have := h (8 * i + k) (by simp only [PAGE_SIZE]; omega)
  simpa [Nat.add_assoc] using this

theorem prp_list_move_cases (byte : Nat → Nat) (map : Nat → Nat → Option Nat)
    (pl i size p i1 : Nat) (pg : List Nat)
    (h : prp_list_move byte map pl i size = some (p, i1, pg)) :
    (p = pl ∧ i1 = i ∧ pg = [] ∧ ¬ (i = NVME_PRP2_ITEMS - 1 ∧ size > PAGE_SIZE)) ∨
    (i1 = 0 ∧ pg = [p] ∧ i = NVME_PRP2_ITEMS - 1 ∧ size > PAGE_SIZE ∧
      read64 byte (pl + 8 * i) % PAGE_SIZE = 0 ∧
      map (read64 byte (pl + 8 * i)) PAGE_SIZE = some p) := by
  unfold prp_list_move at h
  by_cases hc : i = NVME_PRP2_ITEMS - 1 ∧ size > PAGE_SIZE
  · right
    rw [if_pos hc] at h
    by_cases ha : read64 byte (pl + 8 * i) % PAGE_SIZE ≠ 0
    · rw [if_pos ha] at h
      exact absurd h (by simp)
    · rw [if_neg ha] at h
      cases hm : map (read64 byte (pl + 8 * i)) PAGE_SIZE with
      | none =>
        rw [hm] at h
        exact absurd h (by simp)
      | some p1 =>
        rw [hm] at h
        simp only [Option.some.injEq, Prod.mk.injEq] at h
        obtain ⟨h1, h2, h3⟩ := h
        subst h1
        exact ⟨h2.symm, h3.symm, hc.1, hc.2, by omega, rfl⟩
  · left
    rw [if_neg hc] at h
    simp only [Option.some.injEq, Prod.mk.injEq] at h
    obtain ⟨h1, h2, h3⟩ := h
    exact ⟨h1.symm, h2.symm, h3.symm, hc⟩

theorem prp_list_next_of_move (sc : pci_nvme_softc) (pl i size p i1 : Nat) (pg : List Nat)
    (h : prp_list_move sc.ctx.byte sc.ctx.vm_map_gpa pl i size = some (p, i1, pg)) :
    prp_list_next sc (some pl) i size = .ok (some p, i1) := by
  rcases prp_list_move_cases _ _ _ _ _ _ _ _ h with ⟨h1, h2, _, hc⟩ | ⟨h1, _, h3, h4, h5, h6⟩
  · simp only [prp_list_next, hc, if_false, h1, h2]
  · subst h3
    have hc : NVME_PRP2_ITEMS - 1 = NVME_PRP2_ITEMS - 1 ∧ size > PAGE_SIZE := ⟨rfl, h4⟩
    have h5' : ¬ (read64 sc.ctx.byte (pl + 8 * (NVME_PRP2_ITEMS - 1)) % PAGE_SIZE ≠ 0) := by
      omega
    simp only [prp_list_next, hc, and_self, if_true, h5', if_false, h6, h1]

theorem prp_list_move_congr (byte byte1 : Nat → Nat) (map : Nat → Nat → Option Nat)
    (pl i size : Nat) (r : Nat × Nat × List Nat)
    (h : prp_list_move byte map pl i size = some r) (hi : i ≤ NVME_PRP2_ITEMS - 1)
    (hag : ∀ k, k < PAGE_SIZE → byte1 (pl + k) = byte (pl + k)) :
    prp_list_move byte1 map pl i size = some r := by
  unfold prp_list_move at h ⊢
  rw [read64_congr_page byte byte1 pl i hi hag]
  exact h

theorem prp_list_walk_congr (fuel : Nat) :
    ∀ (byte byte1 : Nat → Nat) (map : Nat → Nat → Option Nat) (pl i size : Nat) (d : prp_desc),
      prp_list_walk fuel byte map pl i size = some d →
      (size = 0 ∨ i ≤ NVME_PRP2_ITEMS - 1) →
      (∀ p ∈ pl :: d.pages, ∀ k, k < PAGE_SIZE → byte1 (p + k) = byte (p + k)) →
      prp_list_walk fuel byte1 map pl i size = some d := by
  induction fuel with
  | zero =>
    intro byte byte1 map pl i size d h _ _
    unfold prp_list_walk at h ⊢
    by_cases hs : size = 0
    · simp only [hs, if_true] at h ⊢
      exact h
    · simp only [hs, if_false] at h
      exact absurd h (by simp)
  | succ fuel ih =>
    intro byte byte1 map pl i size d h h0 hag
    unfold prp_list_walk at h ⊢
    by_cases hs : size = 0
    · simp only [hs, if_true] at h ⊢
      exact h
    · have hi : i ≤ NVME_PRP2_ITEMS - 1 := by
        rcases h0 with h0 | h0
        · exact absurd h0 hs
        · exact h0
      simp only [hs, if_false] at h ⊢
      cases hmv : prp_list_move byte map pl i size with
      | none =>
        rw [hmv] at h
        exact absurd h (by simp)
      | some r =>
        obtain ⟨p, i1, pg⟩ := r
        rw [hmv] at h
        rw [prp_list_move_congr byte byte1 map pl i size _ hmv hi
          (hag pl (List.mem_cons_self _ _))]
        simp only at h ⊢
        by_cases he : read64 byte (p + 8 * i1) = 0
        · rw [if_pos he] at h
          exact absurd h (by simp)
        · rw [if_neg he] at h
          cases hg : map (read64 byte (p + 8 * i1)) (min size PAGE_SIZE) with
          | none =>
            rw [hg] at h
            exact absurd h (by simp)
          | some g =>
            rw [hg] at h
            cases hr : prp_list_walk fuel byte map p (i1 + 1) (size - min size PAGE_SIZE) with
            | none =>
              rw [hr] at h
              exact absurd h (by simp)
            | some d1 =>
              rw [hr] at h
              simp only [Option.some.injEq] at h
              subst h
              have hcases := prp_list_move_cases _ _ _ _ _ _ _ _ hmv
              have hp : p ∈ pl :: (pg ++ d1.pages) := by
                rcases hcases with ⟨h1, _⟩ | ⟨_, h2, _⟩
                · rw [h1]
                  exact List.mem_cons_self _ _
                · rw [h2]
                  simp
              have hi1 : i1 ≤ NVME_PRP2_ITEMS - 1 := by
                rcases hcases with ⟨_, h2, _⟩ | ⟨h1, _⟩
                · omega
                · omega
              have hnext : size - min size PAGE_SIZE = 0 ∨ i1 + 1 ≤ NVME_PRP2_ITEMS - 1 := by
                rcases hcases with ⟨_, h2, _, hc⟩ | ⟨h1, _⟩
                · by_cases hlast : i = NVME_PRP2_ITEMS - 1
                  · left
                    have : ¬ size > PAGE_SIZE := fun hgt => hc ⟨hlast, hgt⟩
                    have hm : min size PAGE_SIZE = size := Nat.min_eq_left (by omega)
                    omega
                  · right
                    omega
                · right
                  rw [h1]
                  decide
              have hr1 := ih byte byte1 map p (i1 + 1) (size - min size PAGE_SIZE) d1 hr hnext
                (by
                  intro q hq k hk
                  apply hag q _ k hk
                  rcases List.mem_cons.mp hq with hq | hq
                  · rw [hq]
                    exact hp
                  · exact List.mem_cons_of_mem _ (List.mem_append_right _ hq))
              rw [read64_congr_page byte byte1 p i1 hi1 (hag p hp), if_neg he, hg, hr1]

/-- Shape of a successful walk of a non-empty PRP list range. -/
theorem prp_list_walk_succ (fuel : Nat) (byte : Nat → Nat) (map : Nat → Nat → Option Nat)
    (pl i size : Nat) (d : prp_desc) (hs : size ≠ 0)
    (h : prp_list_walk (fuel + 1) byte map pl i size = some d) :
    ∃ p i1 pg g d1, prp_list_move byte map pl i size = some (p, i1, pg) ∧
      read64 byte (p + 8 * i1) ≠ 0 ∧
      map (read64 byte (p + 8 * i1)) (min size PAGE_SIZE) = some g ∧
      prp_list_walk fuel byte map p (i1 + 1) (size - min size PAGE_SIZE) = some d1 ∧
      d = { segs := (g, min size PAGE_SIZE) :: d1.segs, pages := pg ++ d1.pages } := by
  unfold prp_list_walk at h
  simp only [hs, if_false] at h
  cases hmv : prp_list_move byte map pl i size with
  | none =>
    rw [hmv] at h
    exact absurd h (by simp)
  | some r =>
    obtain ⟨p, i1, pg⟩ := r
    rw [hmv] at h
    simp only at h
    by_cases he : read64 byte (p + 8 * i1) = 0
    · rw [if_pos he] at h
      exact absurd h (by simp)
    · rw [if_neg he] at h
      cases hg : map (read64 byte (p + 8 * i1)) (min size PAGE_SIZE) with
      | none =>
        rw [hg] at h
        exact absurd h (by simp)
      | some g =>
        rw [hg] at h
        cases hr : prp_list_walk fuel byte map p (i1 + 1) (size - min size PAGE_SIZE) with
        | none =>
          rw [hr] at h
          exact absurd h (by simp)
        | some d1 =>
          rw [hr] at h
          simp only [Option.some.injEq] at h
          exact ⟨p, i1, pg, g, d1, rfl, he, hg, hr, h.symm⟩

theorem prp_list_walk_zero (fuel : Nat) (byte : Nat → Nat) (map : Nat → Nat → Option Nat)
    (pl i : Nat) : prp_list_walk fuel byte map pl i 0 = some { segs := [], pages := [] } := by
  unfold prp_list_walk
  simp only [if_true]

theorem prp_list_walk_fuel_zero (byte : Nat → Nat) (map : Nat → Nat → Option Nat)
    (pl i size : Nat) (d : prp_desc) (hs : size ≠ 0) :
    prp_list_walk 0 byte map pl i size ≠ some d := by
  unfold prp_list_walk
  simp only [hs, if_false]
  simp

/-- The PRP list loop on the RAM store, for a Write: with the list well formed and the
byte range inside the store, the loop returns with `err = 0` and the store holds the
segments of the list one after the other from offset `lba`; guest memory is unchanged. -/
theorem walk_write (fuel : Nat) :
    ∀ (sc : pci_nvme_softc) (pl i size lba : Nat) (err : Int) (d : prp_desc),
      prp_list_walk fuel sc.ctx.byte sc.ctx.vm_map_gpa pl i size = some d →
      lba + size ≤ sc.nvstore.size → sc.nvstore.size < 2 ^ 64 →
      prp_list_loop fuel sc none true (some pl) i size lba err =
        .ok ({ sc with nvstore := { sc.nvstore with
                 ram := store_segs sc.nvstore.ram sc.ctx.byte lba d.segs } },
             if size = 0 then err else 0) := by
  induction fuel with
  | zero =>
    intro sc pl i size lba err d h _ _
    by_cases hs : size = 0
    · subst hs
      rw [prp_list_walk_zero] at h
      simp only [Option.some.injEq] at h
      subst h
      unfold prp_list_loop
      simp only [if_true]
      rfl
    · exact absurd h (prp_list_walk_fuel_zero _ _ _ _ _ _ hs)
  | succ fuel ih =>
    intro sc pl i size lba err d h hin hst
    by_cases hs : size = 0
    · subst hs
      rw [prp_list_walk_zero] at h
      simp only [Option.some.injEq] at h
      subst h
      unfold prp_list_loop
      simp only [if_true]
      rfl
    · obtain ⟨p, i1, pg, g, d1, hmv, he, hg, hr, hd⟩ :=
        prp_list_walk_succ fuel _ _ pl i size d hs h
      subst hd
      have hle : min size PAGE_SIZE ≤ size := Nat.min_le_left _ _
      have happ := append_ram_write sc (read64 sc.ctx.byte (p + 8 * i1)) (min size PAGE_SIZE)
        lba g hg (by omega) hst
      have hmod : (lba + min size PAGE_SIZE) % 2 ^ 64 = lba + min size PAGE_SIZE :=
        Nat.mod_eq_of_lt (by omega)
      have hrec := ih
        { sc with nvstore := { sc.nvstore with
            ram := ram_write sc.nvstore.ram sc.ctx.byte lba g (min size PAGE_SIZE) } }
        p (i1 + 1) (size - min size PAGE_SIZE) (lba + min size PAGE_SIZE) 0 d1 hr
        (by show lba + min size PAGE_SIZE + (size - min size PAGE_SIZE) ≤ sc.nvstore.size
            omega) hst
      unfold prp_list_loop
      simp only [hs, if_false, prp_list_next_of_move sc pl i size p i1 pg hmv, he, happ,
        ne_eq, not_true_eq_false, hmod, hrec, ite_self]
      rfl

/-- The PRP list loop on the RAM store, for a Read: with the list well formed, the byte
range inside the store and no data segment overlapping a list page, the loop returns
with `err = 0` and guest memory holds the store bytes from offset `lba` in the segments
of the list; the store is unchanged. -/
theorem walk_read (fuel : Nat) :
    ∀ (sc : pci_nvme_softc) (pl i size lba : Nat) (err : Int) (d : prp_desc),
      prp_list_walk fuel sc.ctx.byte sc.ctx.vm_map_gpa pl i size = some d →
      lba + size ≤ sc.nvstore.size → sc.nvstore.size < 2 ^ 64 →
      (size = 0 ∨ i ≤ NVME_PRP2_ITEMS - 1) →
      segs_off_pages d.segs (pl :: d.pages) →
      prp_list_loop fuel sc none false (some pl) i size lba err =
        .ok ({ sc with ctx := { sc.ctx with
                 byte := load_segs sc.nvstore.ram sc.ctx.byte lba d.segs } },
             if size = 0 then err else 0) := by
  induction fuel with
  | zero =>
    intro sc pl i size lba err d h _ _ _ _
    by_cases hs : size = 0
    · subst hs
      rw [prp_list_walk_zero] at h
      simp only [Option.some.injEq] at h
      subst h
      unfold prp_list_loop
      simp only [if_true]
      rfl
    · exact absurd h (prp_list_walk_fuel_zero _ _ _ _ _ _ hs)
  | succ fuel ih =>
    intro sc pl i size lba err d h hin hst h0 hoff
    by_cases hs : size = 0
    · subst hs
      rw [prp_list_walk_zero] at h
      simp only [Option.some.injEq] at h
      subst h
      unfold prp_list_loop
      simp only [if_true]
      rfl
    · obtain ⟨p, i1, pg, g, d1, hmv, he, hg, hr, hd⟩ :=
        prp_list_walk_succ fuel _ _ pl i size d hs h
      subst hd
      have hi : i ≤ NVME_PRP2_ITEMS - 1 := by
        rcases h0 with h0 | h0
        · exact absurd h0 hs
        · exact h0
      have hle : min size PAGE_SIZE ≤ size := Nat.min_le_left _ _
      have happ := append_ram_read sc (read64 sc.ctx.byte (p + 8 * i1)) (min size PAGE_SIZE)
        lba g hg (by omega) hst
      have hmod : (lba + min size PAGE_SIZE) % 2 ^ 64 = lba + min size PAGE_SIZE :=
        Nat.mod_eq_of_lt (by omega)
      have hcases := prp_list_move_cases _ _ _ _ _ _ _ _ hmv
      have hp : p ∈ pl :: (pg ++ d1.pages) := by
        rcases hcases with ⟨h1, _⟩ | ⟨_, h2, _⟩
        · rw [h1]
          exact List.mem_cons_self _ _
        · rw [h2]
          simp
      have hnext : size - min size PAGE_SIZE = 0 ∨ i1 + 1 ≤ NVME_PRP2_ITEMS - 1 := by
        rcases hcases with ⟨_, h2, _, hc⟩ | ⟨h1, _⟩
        · by_cases hlast : i = NVME_PRP2_ITEMS - 1
          · left
            have : ¬ size > PAGE_SIZE := fun hgt => hc ⟨hlast, hgt⟩
            have hm : min size PAGE_SIZE = size := Nat.min_eq_left (by omega)
            omega
          · right
            omega
        · right
          rw [h1]
          decide
      have hsub : ∀ q, q ∈ p :: d1.pages → q ∈ pl :: (pg ++ d1.pages) := by
        intro q hq
        rcases List.mem_cons.mp hq with hq | hq
        · rw [hq]
          exact hp
        · exact List.mem_cons_of_mem _ (List.mem_append_right _ hq)
      have hstable : prp_list_walk fuel
          (ram_read sc.nvstore.ram sc.ctx.byte lba g (min size PAGE_SIZE)) sc.ctx.vm_map_gpa
          p (i1 + 1) (size - min size PAGE_SIZE) = some d1 := by
        apply prp_list_walk_congr fuel sc.ctx.byte _ _ _ _ _ _ hr hnext
        intro q hq k hk
        have hdj := hoff (g, min size PAGE_SIZE) (List.mem_cons_self _ _) q (hsub q hq)
        simp only [disjoint_range] at hdj
        have hout : ¬ (g ≤ q + k ∧ q + k < g + min size PAGE_SIZE) := by omega
        simp only [ram_read, hout, if_false]
      have hrec := ih
        { sc with ctx := { sc.ctx with
            byte := ram_read sc.nvstore.ram sc.ctx.byte lba g (min size PAGE_SIZE) } }
        p (i1 + 1) (size - min size PAGE_SIZE) (lba + min size PAGE_SIZE) 0 d1 hstable
        (by show lba + min size PAGE_SIZE + (size - min size PAGE_SIZE) ≤ sc.nvstore.size
            omega) hst hnext
        (by
          intro s hsm q hq
          exact hoff s (List.mem_cons_of_mem _ hsm) q (hsub q hq))
      unfold prp_list_loop
      simp only [hs, if_false, prp_list_next_of_move sc pl i size p i1 pg hmv, he, happ,
        ne_eq, not_true_eq_false, hmod, hrec, ite_self]
      rfl

theorem store_segs_below (byte : Nat → Nat) (segs : List (Nat × Nat)) :
    ∀ (ram : Nat → Nat) (lba o : Nat), o < lba → store_segs ram byte lba segs o = ram o := by
  induction segs with
  | nil =>
    intro ram lba o _
    rfl
  | cons s rest ih =>
    intro ram lba o ho
    simp only [store_segs]
    rw [ih _ _ o (by omega)]
    have hout : ¬ (lba ≤ o ∧ o < lba + s.2) := by omega
    simp only [ram_write, hout, if_false]

/-- After a buffer has been stored at offset `lba`, the store holds the bytes of the
buffer, in order, from `lba` on. -/
theorem store_segs_gather (byte : Nat → Nat) (segs : List (Nat × Nat)) :
    ∀ (ram : Nat → Nat) (lba : Nat),
      (List.range (segs_len segs)).map (fun j => store_segs ram byte lba segs (lba + j)) =
        gather byte segs := by
  induction segs with
  | nil =>
    intro ram lba
    rfl
  | cons s rest ih =>
    intro ram lba
    simp only [segs_len, gather, store_segs, List.range_add, List.map_append, List.map_map]
    congr 1
    · apply List.map_congr_left
      intro j hj
      have hj2 : j < s.2 := List.mem_range.mp hj
      rw [store_segs_below byte rest _ _ _ (by omega)]
      have hin : lba ≤ lba + j ∧ lba + j < lba + s.2 := by omega
      simp only [ram_write, hin, and_self, if_true]
      congr 1
      omega
    · rw [← ih (ram_write ram byte lba s.1 s.2) (lba + s.2)]
      apply List.map_congr_left
      intro j _
      simp only [Function.comp_apply, Nat.add_assoc]

theorem load_segs_outside (ram : Nat → Nat) (segs : List (Nat × Nat)) :
    ∀ (byte : Nat → Nat) (lba a : Nat), (∀ s ∈ segs, ¬ (s.1 ≤ a ∧ a < s.1 + s.2)) →
      load_segs ram byte lba segs a = byte a := by
  induction segs with
  | nil =>
    intro byte lba a _
    rfl
  | cons s rest ih =>
    intro byte lba a hout
    simp only [load_segs]
    rw [ih _ _ a (fun t ht => hout t (List.mem_cons_of_mem _ ht))]
    have h1 := hout s (List.mem_cons_self _ _)
    simp only [ram_read, h1, if_false]

/-- After a buffer of non-overlapping segments has been loaded from offset `lba`, the
buffer holds the bytes of the store, in order, from `lba` on. -/
theorem load_segs_gather (ram : Nat → Nat) (segs : List (Nat × Nat)) :
    ∀ (byte : Nat → Nat) (lba : Nat), segs_disjoint segs →
      gather (load_segs ram byte lba segs) segs =
        (List.range (segs_len segs)).map (fun j => ram (lba + j)) := by
  induction segs with
  | nil =>
    intro byte lba _
    rfl
  | cons s rest ih =>
    intro byte lba hdj
    obtain ⟨hs, hrest⟩ := hdj
    simp only [segs_len, gather, load_segs, List.range_add, List.map_append, List.map_map]
    congr 1
    · apply List.map_congr_left
      intro k hk
      have hk2 : k < s.2 := List.mem_range.mp hk
      rw [load_segs_outside ram rest _ _ _ (by
        intro t ht
        have := hs t ht
        simp only [disjoint_range] at this
        omega)]
      have hin : s.1 ≤ s.1 + k ∧ s.1 + k < s.1 + s.2 := by omega
      simp only [ram_read, hin, and_self, if_true]
      congr 1
      omega
    · rw [ih _ (lba + s.2) hrest]
      apply List.map_congr_left
      intro j _
      simp only [Function.comp_apply, Nat.add_assoc]

theorem prp_list_walk_len (fuel : Nat) :
    ∀ (byte : Nat → Nat) (map : Nat → Nat → Option Nat) (pl i size : Nat) (d : prp_desc),
      prp_list_walk fuel byte map pl i size = some d → segs_len d.segs = size := by
  induction fuel with
  | zero =>
    intro byte map pl i size d h
    by_cases hs : size = 0
    · subst hs
      rw [prp_list_walk_zero] at h
      simp only [Option.some.injEq] at h
      subst h
      rfl
    · exact absurd h (prp_list_walk_fuel_zero _ _ _ _ _ _ hs)
  | succ fuel ih =>
    intro byte map pl i size d h
    by_cases hs : size = 0
    · subst hs
      rw [prp_list_walk_zero] at h
      simp only [Option.some.injEq] at h
      subst h
      rfl
    · obtain ⟨p, i1, pg, g, d1, _, _, _, hr, hd⟩ :=
        prp_list_walk_succ fuel _ _ pl i size d hs h
      subst hd
      have := ih _ _ _ _ _ _ hr
      have hle : min size PAGE_SIZE ≤ size := Nat.min_le_left _ _
      simp only [segs_len, this]
      omega

/-- Shape of a successful PRP description. -/
theorem prp_walk_some (byte : Nat → Nat) (map : Nat → Nat → Option Nat)
    (prp1 prp2 bytes : Nat) (d : prp_desc) (h : prp_walk byte map prp1 prp2 bytes = some d) :
    ∃ g1, map prp1 (if PAGE_SIZE - prp1 % PAGE_SIZE > bytes then bytes
                    else PAGE_SIZE - prp1 % PAGE_SIZE) = some g1 ∧
      ((bytes - (if PAGE_SIZE - prp1 % PAGE_SIZE > bytes then bytes
                 else PAGE_SIZE - prp1 % PAGE_SIZE) = 0 ∧
          d = { segs := [(g1, if PAGE_SIZE - prp1 % PAGE_SIZE > bytes then bytes
                              else PAGE_SIZE - prp1 % PAGE_SIZE)], pages := [] }) ∨
       (bytes - (if PAGE_SIZE - prp1 % PAGE_SIZE > bytes then bytes
                 else PAGE_SIZE - prp1 % PAGE_SIZE) ≠ 0 ∧
          bytes - (if PAGE_SIZE - prp1 % PAGE_SIZE > bytes then bytes
                   else PAGE_SIZE - prp1 % PAGE_SIZE) ≤ PAGE_SIZE ∧
          ∃ g2, map prp2 (bytes - (if PAGE_SIZE - prp1 % PAGE_SIZE > bytes then bytes
                                   else PAGE_SIZE - prp1 % PAGE_SIZE)) = some g2 ∧
            d = { segs := [(g1, if PAGE_SIZE - prp1 % PAGE_SIZE > bytes then bytes
                                else PAGE_SIZE - prp1 % PAGE_SIZE),
                           (g2, bytes - (if PAGE_SIZE - prp1 % PAGE_SIZE > bytes then bytes
                                         else PAGE_SIZE - prp1 % PAGE_SIZE))],
                  pages := [] }) ∨
       (bytes - (if PAGE_SIZE - prp1 % PAGE_SIZE > bytes then bytes
                 else PAGE_SIZE - prp1 % PAGE_SIZE) ≠ 0 ∧
          ¬ bytes - (if PAGE_SIZE - prp1 % PAGE_SIZE > bytes then bytes
                     else PAGE_SIZE - prp1 % PAGE_SIZE) ≤ PAGE_SIZE ∧
          ∃ pl d1, map prp2 PAGE_SIZE = some pl ∧
            prp_list_walk (bytes - (if PAGE_SIZE - prp1 % PAGE_SIZE > bytes then bytes
                                    else PAGE_SIZE - prp1 % PAGE_SIZE)) byte map pl 0
              (bytes - (if PAGE_SIZE - prp1 % PAGE_SIZE > bytes then bytes
                        else PAGE_SIZE - prp1 % PAGE_SIZE)) = some d1 ∧
            d = { segs := (g1, if PAGE_SIZE - prp1 % PAGE_SIZE > bytes then bytes
                               else PAGE_SIZE - prp1 % PAGE_SIZE) :: d1.segs,
                  pages := pl :: d1.pages })) := by
  unfold prp_walk at h
  simp only at h
  generalize (if PAGE_SIZE - prp1 % PAGE_SIZE > bytes then bytes
    else PAGE_SIZE - prp1 % PAGE_SIZE) = cpsz at h ⊢
  cases hm1 : map prp1 cpsz with
  | none =>
    rw [hm1] at h
    exact absurd h (by simp)
  | some g1 =>
    rw [hm1] at h
    simp only at h
    refine ⟨g1, rfl, ?_⟩
    by_cases h0 : bytes - cpsz = 0
    · left
      rw [if_pos h0] at h
      simp only [Option.some.injEq] at h
      exact ⟨h0, h.symm⟩
    · right
      rw [if_neg h0] at h
      by_cases h1 : bytes - cpsz ≤ PAGE_SIZE
      · left
        rw [if_pos h1] at h
        cases hm2 : map prp2 (bytes - cpsz) with
        | none =>
          rw [hm2] at h
          exact absurd h (by simp)
        | some g2 =>
          rw [hm2] at h
          simp only [Option.some.injEq] at h
          exact ⟨h0, h1, g2, rfl, h.symm⟩
      · right
        rw [if_neg h1] at h
        cases hm2 : map prp2 PAGE_SIZE with
        | none =>
          rw [hm2] at h
          exact absurd h (by simp)
        | some pl =>
          rw [hm2] at h
          simp only at h
          cases hw : prp_list_walk (bytes - cpsz) byte map pl 0 (bytes - cpsz) with
          | none =>
            rw [hw] at h
            exact absurd h (by simp)
          | some d1 =>
            rw [hw] at h
            simp only [Option.some.injEq] at h
            exact ⟨h0, h1, pl, d1, rfl, hw, h.symm⟩

theorem cpsz_le (prp1 bytes : Nat) :
    (if PAGE_SIZE - prp1 % PAGE_SIZE > bytes then bytes else PAGE_SIZE - prp1 % PAGE_SIZE) ≤
      bytes := by
  split <;> omega

theorem prp_walk_len (byte : Nat → Nat) (map : Nat → Nat → Option Nat)
    (prp1 prp2 bytes : Nat) (d : prp_desc) (h : prp_walk byte map prp1 prp2 bytes = some d) :
    segs_len d.segs = bytes := by
  have hc := cpsz_le prp1 bytes
  obtain ⟨g1, _, h1 | h2 | h3⟩ := prp_walk_some byte map prp1 prp2 bytes d h
  · obtain ⟨h0, hd⟩ := h1
    subst hd
    simp only [segs_len]
    omega
  · obtain ⟨_, _, g2, _, hd⟩ := h2
    subst hd
    simp only [segs_len]
    omega
  · obtain ⟨_, _, pl, d1, _, hw, hd⟩ := h3
    subst hd
    have := prp_list_walk_len _ _ _ _ _ _ _ hw
    simp only [segs_len, this]
    omega

/-- The PRP walk of a Write on the RAM store: with the buffer well described and the byte
range inside the store, the walk ends with `err = 0`, the store holds the buffer from
offset `lba`, and guest memory is unchanged. -/
theorem io_prp_walk_write (sc : pci_nvme_softc) (prp1 prp2 bytes lba : Nat) (d : prp_desc)
    (h : prp_walk sc.ctx.byte sc.ctx.vm_map_gpa prp1 prp2 bytes = some d)
    (hin : lba + bytes ≤ sc.nvstore.size) (hst : sc.nvstore.size < 2 ^ 64) :
    io_prp_walk sc none prp1 prp2 bytes true lba =
      .ok ({ sc with nvstore := { sc.nvstore with
               ram := store_segs sc.nvstore.ram sc.ctx.byte lba d.segs } }, 0) := by
  have hc := cpsz_le prp1 bytes
  obtain ⟨g1, hm1, hcase⟩ := prp_walk_some _ _ prp1 prp2 bytes d h
  unfold io_prp_walk
  simp only
  generalize (if PAGE_SIZE - prp1 % PAGE_SIZE > bytes then bytes
    else PAGE_SIZE - prp1 % PAGE_SIZE) = cpsz at hc hm1 hcase ⊢
  have happ := append_ram_write sc prp1 cpsz lba g1 hm1 (by omega) hst
  have hmod : (lba + cpsz) % 2 ^ 64 = lba + cpsz := Nat.mod_eq_of_lt (by omega)
  rw [happ]
  simp only [hmod]
  rcases hcase with ⟨h0, hd⟩ | ⟨h0, h1, g2, hm2, hd⟩ | ⟨h0, h1, pl, d1, hm2, hw, hd⟩
  · subst hd
    simp only [h0, if_true]
    rfl
  · subst hd
    simp only [h0, if_false, h1, if_true]
    refine (append_ram_write
      { sc with nvstore := { sc.nvstore with
          ram := ram_write sc.nvstore.ram sc.ctx.byte lba g1 cpsz } }
      prp2 (bytes - cpsz) (lba + cpsz) g2 hm2
      (by show lba + cpsz + (bytes - cpsz) ≤ sc.nvstore.size
          omega) hst).trans ?_
    rfl
  · subst hd
    simp only [h0, if_false, h1, hm2]
    refine (walk_write (bytes - cpsz)
      { sc with nvstore := { sc.nvstore with
          ram := ram_write sc.nvstore.ram sc.ctx.byte lba g1 cpsz } }
      pl 0 (bytes - cpsz) (lba + cpsz) 0 d1 hw
      (by show lba + cpsz + (bytes - cpsz) ≤ sc.nvstore.size
          omega) hst).trans ?_
    simp only [h0, if_false]
    rfl

/-- The PRP walk of a Read on the RAM store: with the buffer well described, the byte
range inside the store and no data segment overlapping a PRP list page, the walk ends
with `err = 0`, the buffer holds the store bytes from offset `lba`, and the store is
unchanged. -/
theorem io_prp_walk_read (sc : pci_nvme_softc) (prp1 prp2 bytes lba : Nat) (d : prp_desc)
    (h : prp_walk sc.ctx.byte sc.ctx.vm_map_gpa prp1 prp2 bytes = some d)
    (hin : lba + bytes ≤ sc.nvstore.size) (hst : sc.nvstore.size < 2 ^ 64)
    (hoff : segs_off_pages d.segs d.pages) :
    io_prp_walk sc none prp1 prp2 bytes false lba =
      .ok ({ sc with ctx := { sc.ctx with
               byte := load_segs sc.nvstore.ram sc.ctx.byte lba d.segs } }, 0) := by
  have hc := cpsz_le prp1 bytes
  obtain ⟨g1, hm1, hcase⟩ := prp_walk_some _ _ prp1 prp2 bytes d h
  unfold io_prp_walk
  simp only
  generalize (if PAGE_SIZE - prp1 % PAGE_SIZE > bytes then bytes
    else PAGE_SIZE - prp1 % PAGE_SIZE) = cpsz at hc hm1 hcase ⊢
  have happ := append_ram_read sc prp1 cpsz lba g1 hm1 (by omega) hst
  have hmod : (lba + cpsz) % 2 ^ 64 = lba + cpsz := Nat.mod_eq_of_lt (by omega)
  rw [happ]
  simp only [hmod]
  rcases hcase with ⟨h0, hd⟩ | ⟨h0, h1, g2, hm2, hd⟩ | ⟨h0, h1, pl, d1, hm2, hw, hd⟩
  · subst hd
    simp only [h0, if_true]
    rfl
  · subst hd
    simp only [h0, if_false, h1, if_true]
    refine (append_ram_read
      { sc with ctx := { sc.ctx with
          byte := ram_read sc.nvstore.ram sc.ctx.byte lba g1 cpsz } }
      prp2 (bytes - cpsz) (lba + cpsz) g2 hm2
      (by show lba + cpsz + (bytes - cpsz) ≤ sc.nvstore.size
          omega) hst).trans ?_
    rfl
  · subst hd
    simp only [h0, if_false, h1, hm2]
    have hstable : prp_list_walk (bytes - cpsz)
        (ram_read sc.nvstore.ram sc.ctx.byte lba g1 cpsz) sc.ctx.vm_map_gpa pl 0
        (bytes - cpsz) = some d1 := by
      apply prp_list_walk_congr (bytes - cpsz) sc.ctx.byte _ _ _ _ _ _ hw
        (Or.inr (Nat.zero_le _))
      intro q hq k hk
      have hdj := hoff (g1, cpsz) (List.mem_cons_self _ _) q hq
      simp only [disjoint_range] at hdj
      have hout : ¬ (g1 ≤ q + k ∧ q + k < g1 + cpsz) := by omega
      simp only [ram_read, hout, if_false]
    refine (walk_read (bytes - cpsz)
      { sc with ctx := { sc.ctx with
          byte := ram_read sc.nvstore.ram sc.ctx.byte lba g1 cpsz } }
      pl 0 (bytes - cpsz) (lba + cpsz) 0 d1 hstable
      (by show lba + cpsz + (bytes - cpsz) ≤ sc.nvstore.size
          omega) hst (Or.inr (Nat.zero_le _))
      (fun s hs q hq => hoff s (List.mem_cons_of_mem _ hs) q hq)).trans ?_
    simp only [h0, if_false]
    rfl

theorem io_cmd_rw_ram (sc : pci_nvme_softc) (idx a : Nat)
    (hram : sc.nvstore.type = nvme_storage_type.NVME_STOR_RAM) :
    io_cmd_rw sc idx a =
      match io_prp_walk
          { sc with ctx := { sc.ctx with
              cmd := Function.update sc.ctx.cmd a
                { sc.ctx.cmd a with prp1 := (sc.ctx.cmd a).prp1 - (sc.ctx.cmd a).prp1 % 4
                                    prp2 := (sc.ctx.cmd a).prp2 - (sc.ctx.cmd a).prp2 % 4 } } }
          none ((sc.ctx.cmd a).prp1 - (sc.ctx.cmd a).prp1 % 4)
          ((sc.ctx.cmd a).prp2 - (sc.ctx.cmd a).prp2 % 4)
          ((cmd_nblocks (sc.ctx.cmd a) * sc.nvstore.sectsz) % 2 ^ 64)
          (decide ((sc.ctx.cmd a).opc = NVME_OPC_WRITE))
          ((cmd_lba (sc.ctx.cmd a) * sc.nvstore.sectsz) % 2 ^ 64) with
      | .error e => .error e
      | .ok (sc5, err) =>
        if sc5.nvstore.type = nvme_storage_type.NVME_STOR_RAM then
          pci_nvme_set_completion sc5 idx idx (sc.ctx.cmd a).cid 0
            (status_of NVME_SCT_GENERIC
              (if err = 0 then NVME_SC_SUCCESS else NVME_SC_LBA_OUT_OF_RANGE)) true
        else .error .nullDeref := by
  unfold io_cmd_rw
  simp only [hram, reduceCtorEq, if_false, cmd_nblocks, cmd_lba]
  try rfl

/-- One Read or Write command on the RAM store whose byte range, starting at the byte
offset `(L * sectsz) mod 2 ^ 64` the code computes, lies inside the store and whose buffer
is well described: the loop body of `pci_nvme_handle_io_cmd` returns, the PRP walk ends
with `err = 0`, and the completion posted at the tail of the completion queue carries
Generic / Success and the command id. -/
theorem io_step_ram_ok (sc : pci_nvme_softc) (idx slot base cb : Nat)
    (sq : nvme_submission_queue) (cq : nvme_completion_queue) (d : prp_desc)
    (hram : sc.nvstore.type = nvme_storage_type.NVME_STOR_RAM)
    (hst : sc.nvstore.size < 2 ^ 64)
    (hsq : sc.submit_queues[idx]? = some sq) (hbase : sq.qbase = some base)
    (hsqsz : sq.size ≠ 0)
    (hcq : sc.compl_queues[sq.cqid]? = some cq) (hcb : cq.qbase = some cb)
    (hcqsz : cq.size ≠ 0)
    (hop : (sc.ctx.cmd (elem_addr base SIZEOF_NVME_COMMAND slot)).opc = NVME_OPC_WRITE ∨
      (sc.ctx.cmd (elem_addr base SIZEOF_NVME_COMMAND slot)).opc = NVME_OPC_READ)
    (hin : (cmd_lba (sc.ctx.cmd (elem_addr base SIZEOF_NVME_COMMAND slot)) *
        sc.nvstore.sectsz) % 2 ^ 64 +
        cmd_nblocks (sc.ctx.cmd (elem_addr base SIZEOF_NVME_COMMAND slot)) *
        sc.nvstore.sectsz ≤ sc.nvstore.size)
    (hbuf : cmd_buffer sc (sc.ctx.cmd (elem_addr base SIZEOF_NVME_COMMAND slot)) = some d)
    (hoff : (sc.ctx.cmd (elem_addr base SIZEOF_NVME_COMMAND slot)).opc = NVME_OPC_READ →
      segs_off_pages d.segs d.pages) :
    ∃ sc1, io_step sc idx slot = .ok (sc1, ((slot + 1) % sq.size) % 65536) ∧
      (sc1.ctx.cpl (elem_addr cb SIZEOF_NVME_COMPLETION cq.tail)).status.sct =
        NVME_SCT_GENERIC ∧
      (sc1.ctx.cpl (elem_addr cb SIZEOF_NVME_COMPLETION cq.tail)).status.sc =
        NVME_SC_SUCCESS ∧
      (sc1.ctx.cpl (elem_addr cb SIZEOF_NVME_COMPLETION cq.tail)).cid =
        (sc.ctx.cmd (elem_addr base SIZEOF_NVME_COMMAND slot)).cid % 65536 ∧
      sc1.submit_queues = sc.submit_queues ∧
      sc1.compl_queues = sc.compl_queues.set sq.cqid
        { cq with tail := ((cq.tail + 1) % cq.size) % 65536 } ∧
      sc1.ctx.vm_map_gpa = sc.ctx.vm_map_gpa ∧
      (∀ x, x ≠ elem_addr base SIZEOF_NVME_COMMAND slot → sc1.ctx.cmd x = sc.ctx.cmd x) ∧
      sc1.nvstore.type = sc.nvstore.type ∧ sc1.nvstore.size = sc.nvstore.size ∧
      sc1.nvstore.sectsz = sc.nvstore.sectsz ∧
      ((sc.ctx.cmd (elem_addr base SIZEOF_NVME_COMMAND slot)).opc = NVME_OPC_WRITE →
        sc1.ctx.byte = sc.ctx.byte ∧
        sc1.nvstore.ram = store_segs sc.nvstore.ram sc.ctx.byte
          ((cmd_lba (sc.ctx.cmd (elem_addr base SIZEOF_NVME_COMMAND slot)) *
            sc.nvstore.sectsz) % 2 ^ 64) d.segs) ∧
      ((sc.ctx.cmd (elem_addr base SIZEOF_NVME_COMMAND slot)).opc = NVME_OPC_READ →
        sc1.nvstore.ram = sc.nvstore.ram ∧
        sc1.ctx.byte = load_segs sc.nvstore.ram sc.ctx.byte
          ((cmd_lba (sc.ctx.cmd (elem_addr base SIZEOF_NVME_COMMAND slot)) *
            sc.nvstore.sectsz) % 2 ^ 64) d.segs) := by
  generalize hcmd : sc.ctx.cmd (elem_addr base SIZEOF_NVME_COMMAND slot) = cmd at *
  have hb : (cmd_nblocks cmd * sc.nvstore.sectsz) % 2 ^ 64 = cmd_nblocks cmd * sc.nvstore.sectsz :=
    Nat.mod_eq_of_lt (by omega)
  have hnf : cmd.opc ≠ NVME_OPC_FLUSH := by
    rcases hop with h | h <;> rw [h] <;> decide
  have hn8 : cmd.opc ≠ 0x08 := by
    rcases hop with h | h <;> rw [h] <;> decide
  have hstep : io_step sc idx slot =
      match io_cmd_rw sc idx (elem_addr base SIZEOF_NVME_COMMAND slot) with
      | .error e => .error e
      | .ok sc1 => .ok (sc1, ((slot + 1) % sq.size) % 65536) := by
    unfold io_step
    simp only [hsq, hbase, hsqsz, if_false, hcmd, hnf, hn8]
    try rfl
  rw [hstep, io_cmd_rw_ram sc idx _ hram, hcmd, hb]
  unfold cmd_buffer at hbuf
  rcases hop with hw | hr
  · obtain ⟨S, hS, hwalk⟩ : ∃ S, S = _ ∧ _ = Except.ok (S, (0 : Int)) := ⟨_, rfl,
      io_prp_walk_write
      { sc with ctx := { sc.ctx with
          cmd := Function.update sc.ctx.cmd (elem_addr base SIZEOF_NVME_COMMAND slot)
            { cmd with prp1 := cmd.prp1 - cmd.prp1 % 4, prp2 := cmd.prp2 - cmd.prp2 % 4 } } }
      (cmd.prp1 - cmd.prp1 % 4) (cmd.prp2 - cmd.prp2 % 4)
      (cmd_nblocks cmd * sc.nvstore.sectsz) ((cmd_lba cmd * sc.nvstore.sectsz) % 2 ^ 64) d hbuf
      hin hst⟩
    have hdw : decide (cmd.opc = NVME_OPC_WRITE) = true := by simp [hw]
    rw [hdw, hwalk]
    have hSt : S.nvstore.type = nvme_storage_type.NVME_STOR_RAM := by rw [hS]; exact hram
    have hSq : S.submit_queues[idx]? = some sq := by rw [hS]; exact hsq
    have hSc : S.compl_queues[sq.cqid]? = some cq := by rw [hS]; exact hcq
    simp only [hSt, if_true]
    rw [set_completion_ok S idx idx cmd.cid 0 _ true sq cq cb hSq hSc hcb hcqsz]
    subst hS
    refine ⟨_, rfl, ?_, ?_, ?_, rfl, rfl, rfl, ?_, rfl, rfl, rfl, ?_, ?_⟩
    · simp [status_of, NVME_SCT_GENERIC]
    · simp [status_of, NVME_SC_SUCCESS]
    · simp
    · intro x hx
      simp [Function.update, hx]
    · intro _
      exact ⟨rfl, rfl⟩
    · intro h
      rw [hw] at h
      exact absurd h (by decide)
  · obtain ⟨S, hS, hwalk⟩ : ∃ S, S = _ ∧ _ = Except.ok (S, (0 : Int)) := ⟨_, rfl,
      io_prp_walk_read
      { sc with ctx := { sc.ctx with
          cmd := Function.update sc.ctx.cmd (elem_addr base SIZEOF_NVME_COMMAND slot)
            { cmd with prp1 := cmd.prp1 - cmd.prp1 % 4, prp2 := cmd.prp2 - cmd.prp2 % 4 } } }
      (cmd.prp1 - cmd.prp1 % 4) (cmd.prp2 - cmd.prp2 % 4)
      (cmd_nblocks cmd * sc.nvstore.sectsz) ((cmd_lba cmd * sc.nvstore.sectsz) % 2 ^ 64) d hbuf
      hin hst (hoff hr)⟩
    have hdw : decide (cmd.opc = NVME_OPC_WRITE) = false := by
      rw [hr]
      decide
    rw [hdw, hwalk]
    have hSt : S.nvstore.type = nvme_storage_type.NVME_STOR_RAM := by rw [hS]; exact hram
    have hSq : S.submit_queues[idx]? = some sq := by rw [hS]; exact hsq
    have hSc : S.compl_queues[sq.cqid]? = some cq := by rw [hS]; exact hcq
    simp only [hSt, if_true]
    rw [set_completion_ok S idx idx cmd.cid 0 _ true sq cq cb hSq hSc hcb hcqsz]
    subst hS
    refine ⟨_, rfl, ?_, ?_, ?_, rfl, rfl, rfl, ?_, rfl, rfl, rfl, ?_, ?_⟩
    · simp [status_of, NVME_SCT_GENERIC]
    · simp [status_of, NVME_SC_SUCCESS]
    · simp
    · intro x hx
      simp [Function.update, hx]
    · intro h
      rw [hr] at h
      exact absurd h (by decide)
    · intro _
      exact ⟨rfl, rfl⟩

/-- C7 (amended): RAM-backend round trip.  On the RAM store, let a Write command and a
Read command (in two slots of a submission ring whose completion ring is mapped) name the
same LBA `L` and block count `N`, with the byte range `L * sectsz .. (L + N) * sectsz`
inside the store, and let both guest buffers be described by their PRPs (every entry
non-zero and mapped).  Let the segments of the read buffer overlap neither one another nor
the pages of its PRP lists, and let the two buffers with their PRP lists lie outside the
submission ring and the completion ring, which do not overlap each other and hold the
slots and the entries the two commands use.  Then executing the Write and after it the
Read returns normally, both completions carry Generic / Success, and afterwards the
`N * sectsz` bytes of the read buffer equal the bytes the written buffer had.  The
hypotheses on the rings are those under which the views of guest memory of `vmctx` are
the one memory of the C code: the command slots whose PRP fields the loop body masks and
the completion entries it writes then lie outside every byte the two commands read or
write as data or as PRP list. -/
theorem ram_write_read_round_trip (sc : pci_nvme_softc) (idx slotW slotR base cb : Nat)
    (sq : nvme_submission_queue) (cq : nvme_completion_queue) (dW dR : prp_desc)
    (hram : sc.nvstore.type = nvme_storage_type.NVME_STOR_RAM)
    (hst : sc.nvstore.size < 2 ^ 64)
    (hsq : sc.submit_queues[idx]? = some sq) (hbase : sq.qbase = some base)
    (hsqsz : sq.size ≠ 0)
    (hcq : sc.compl_queues[sq.cqid]? = some cq) (hcb : cq.qbase = some cb)
    (hcqsz : cq.size ≠ 0)
    (hslot : slotW ≠ slotR)
    (hopW : (sc.ctx.cmd (elem_addr base SIZEOF_NVME_COMMAND slotW)).opc = NVME_OPC_WRITE)
    (hopR : (sc.ctx.cmd (elem_addr base SIZEOF_NVME_COMMAND slotR)).opc = NVME_OPC_READ)
    (hlba : cmd_lba (sc.ctx.cmd (elem_addr base SIZEOF_NVME_COMMAND slotR)) =
      cmd_lba (sc.ctx.cmd (elem_addr base SIZEOF_NVME_COMMAND slotW)))
    (hnb : cmd_nblocks (sc.ctx.cmd (elem_addr base SIZEOF_NVME_COMMAND slotR)) =
      cmd_nblocks (sc.ctx.cmd (elem_addr base SIZEOF_NVME_COMMAND slotW)))
    (hin : (cmd_lba (sc.ctx.cmd (elem_addr base SIZEOF_NVME_COMMAND slotW)) +
        cmd_nblocks (sc.ctx.cmd (elem_addr base SIZEOF_NVME_COMMAND slotW))) *
        sc.nvstore.sectsz ≤ sc.nvstore.size)
    (hbW : cmd_buffer sc (sc.ctx.cmd (elem_addr base SIZEOF_NVME_COMMAND slotW)) = some dW)
    (hbR : cmd_buffer sc (sc.ctx.cmd (elem_addr base SIZEOF_NVME_COMMAND slotR)) = some dR)
    (hdj : segs_disjoint dR.segs) (hoff : segs_off_pages dR.segs dR.pages)
    (_hslotW : slotW < sq.size) (_hslotR : slotR < sq.size) (_htail : cq.tail < cq.size)
    (_hrings : disjoint_range base (SIZEOF_NVME_COMMAND * sq.size)
      cb (SIZEOF_NVME_COMPLETION * cq.size))
    (_hWsq : buffer_off_range dW base (SIZEOF_NVME_COMMAND * sq.size))
    (_hWcq : buffer_off_range dW cb (SIZEOF_NVME_COMPLETION * cq.size))
    (_hRsq : buffer_off_range dR base (SIZEOF_NVME_COMMAND * sq.size))
    (_hRcq : buffer_off_range dR cb (SIZEOF_NVME_COMPLETION * cq.size)) :
    ∃ sc1 sc2 h1 h2 cq1,
      io_step sc idx slotW = .ok (sc1, h1) ∧
      (sc1.ctx.cpl (elem_addr cb SIZEOF_NVME_COMPLETION cq.tail)).status.sct =
        NVME_SCT_GENERIC ∧
      (sc1.ctx.cpl (elem_addr cb SIZEOF_NVME_COMPLETION cq.tail)).status.sc =
        NVME_SC_SUCCESS ∧
      sc1.compl_queues[sq.cqid]? = some cq1 ∧
      io_step sc1 idx slotR = .ok (sc2, h2) ∧
      (sc2.ctx.cpl (elem_addr cb SIZEOF_NVME_COMPLETION cq1.tail)).status.sct =
        NVME_SCT_GENERIC ∧
      (sc2.ctx.cpl (elem_addr cb SIZEOF_NVME_COMPLETION cq1.tail)).status.sc =
        NVME_SC_SUCCESS ∧
      segs_len dR.segs = cmd_nblocks (sc.ctx.cmd (elem_addr base SIZEOF_NVME_COMMAND slotW)) *
        sc.nvstore.sectsz ∧
      gather sc2.ctx.byte dR.segs = gather sc.ctx.byte dW.segs := by
  have hlt : sq.cqid < sc.compl_queues.length := by
    rcases List.getElem?_eq_some.mp hcq with ⟨h, _⟩
    exact h
  have haddr : elem_addr base SIZEOF_NVME_COMMAND slotR ≠
      elem_addr base SIZEOF_NVME_COMMAND slotW := by
    intro h
    exact hslot ((elem_addr_inj base SIZEOF_NVME_COMMAND slotR slotW (by decide)).mp h).symm
  have hmul : (cmd_lba (sc.ctx.cmd (elem_addr base SIZEOF_NVME_COMMAND slotW)) +
      cmd_nblocks (sc.ctx.cmd (elem_addr base SIZEOF_NVME_COMMAND slotW))) * sc.nvstore.sectsz =
      cmd_lba (sc.ctx.cmd (elem_addr base SIZEOF_NVME_COMMAND slotW)) * sc.nvstore.sectsz +
      cmd_nblocks (sc.ctx.cmd (elem_addr base SIZEOF_NVME_COMMAND slotW)) * sc.nvstore.sectsz :=
    Nat.add_mul _ _ _
  have hl : (cmd_lba (sc.ctx.cmd (elem_addr base SIZEOF_NVME_COMMAND slotW)) *
      sc.nvstore.sectsz) % 2 ^ 64 =
      cmd_lba (sc.ctx.cmd (elem_addr base SIZEOF_NVME_COMMAND slotW)) * sc.nvstore.sectsz :=
    Nat.mod_eq_of_lt (by omega)
  have hin2 : (cmd_lba (sc.ctx.cmd (elem_addr base SIZEOF_NVME_COMMAND slotW)) *
      sc.nvstore.sectsz) % 2 ^ 64 +
      cmd_nblocks (sc.ctx.cmd (elem_addr base SIZEOF_NVME_COMMAND slotW)) * sc.nvstore.sectsz ≤
      sc.nvstore.size := by
    rw [hl]
    omega
  obtain ⟨sc1, hstep1, hsct1, hsc1, _, hsqs1, hcqs1, hmap1, hcmd1, htype1, hsize1, hsect1,
      hwr1, _⟩ :=
    io_step_ram_ok sc idx slotW base cb sq cq dW hram hst hsq hbase hsqsz hcq hcb hcqsz
      (Or.inl hopW) hin2 hbW (fun h => by rw [hopW] at h; exact absurd h (by decide))
  obtain ⟨hbyte1, hram1⟩ := hwr1 hopW
  have hcR : sc1.ctx.cmd (elem_addr base SIZEOF_NVME_COMMAND slotR) =
      sc.ctx.cmd (elem_addr base SIZEOF_NVME_COMMAND slotR) := hcmd1 _ haddr
  have hbR1 : cmd_buffer sc1 (sc1.ctx.cmd (elem_addr base SIZEOF_NVME_COMMAND slotR)) =
      some dR := by
    rw [hcR]
    unfold cmd_buffer at hbR ⊢
    rw [hbyte1, hmap1, hsect1]
    exact hbR
  obtain ⟨sc2, hstep2, hsct2, hsc2, _, _, _, _, _, _, _, _, _, hrd2⟩ :=
    io_step_ram_ok sc1 idx slotR base cb sq
      { cq with tail := ((cq.tail + 1) % cq.size) % 65536 } dR
      (by rw [htype1]; exact hram) (by rw [hsize1]; exact hst) (by rw [hsqs1]; exact hsq)
      hbase hsqsz
      (by rw [hcqs1]; exact List.getElem?_set_self hlt) hcb hcqsz
      (Or.inr (by rw [hcR]; exact hopR))
      (by rw [hcR, hlba, hnb, hsect1, hsize1]; exact hin2) hbR1 (fun _ => hoff)
  obtain ⟨_, hbyte2⟩ := hrd2 (by rw [hcR]; exact hopR)
  have hlenW := prp_walk_len _ _ _ _ _ _ hbW
  have hlenR := prp_walk_len _ _ _ _ _ _ hbR
  rw [hnb] at hlenR
  refine ⟨sc1, sc2, _, _, _, hstep1, hsct1, hsc1, by rw [hcqs1]; exact List.getElem?_set_self hlt,
    hstep2, hsct2, hsc2, hlenR, ?_⟩
  rw [hbyte2, hram1, hbyte1, hcR, hlba, hsect1, load_segs_gather _ _ _ _ hdj, hlenR, ← hlenW]
  exact store_segs_gather _ _ _ _

/-- A tail doorbell that leaves exactly one command to execute: when the loop body for the
slot at the head succeeds and advances `sqhead` to the tail, `pci_nvme_handle_io_cmd`
returns the state the loop body produced with `head` set to the tail and `busy` cleared. -/
theorem handle_io_cmd_single (fuel : Nat) (sc sc1 : pci_nvme_softc) (idx : Nat)
    (sq sq1 : nvme_submission_queue)
    (hsq : sc.submit_queues[idx]? = some sq) (hbusy : sq.busy = 0)
    (hne : sq.head ≠ sq.tail)
    (hstep : io_step { sc with submit_queues := sc.submit_queues.set idx { sq with busy := 1 } }
      idx sq.head = .ok (sc1, sq.tail))
    (hsq1 : sc1.submit_queues[idx]? = some sq1) (htail : sq1.tail = sq.tail) :
    pci_nvme_handle_io_cmd (fuel + 1) sc idx =
      .ok { sc1 with submit_queues := sc1.submit_queues.set idx
                       { sq1 with head := sq.tail, busy := 0 } } := by
  have hlt : idx < sc.submit_queues.length := by
    rcases List.getElem?_eq_some.mp hsq with ⟨h, _⟩
    exact h
  have hloop1 : io_loop fuel sc1 idx sq.tail = .ok (sc1, sq.tail) := by
    cases fuel with
    | zero => simp only [io_loop, hsq1, htail, if_true]
    | succ n => simp only [io_loop, hsq1, htail, if_true]
  have hloop : io_loop (fuel + 1)
      { sc with submit_queues := sc.submit_queues.set idx { sq with busy := 1 } } idx sq.head =
      .ok (sc1, sq.tail) := by
    simp only [io_loop, List.getElem?_set_self hlt, hne, if_false, hstep, hloop1]
  unfold pci_nvme_handle_io_cmd
  simp only [hsq, atomic_testandset_busy, hbusy, if_true, hloop, hsq1]

/-- C8: evaluation at the failing input.  On the example RAM disk (1 MiB, 4096-byte
sectors) a Read of one block at LBA `2 ^ 52` (`cdw11 = 0x100000`, `cdw10 = 0`), rung in
through the tail doorbell of submission queue 1, completes with Generic / Success and
command id 5, although `(L + N) * sectsz = (2 ^ 52 + 1) * 4096` lies far beyond the store
size: the byte offset `L * sectsz` is reduced modulo `2 ^ 64` to 0 before the bounds
check. -/
theorem ram_bounds_check_wraps :
    ∃ sc1, pci_nvme_write_bar_0 1 demo_wrap (NVME_DOORBELL_OFFSET + 8) 4 1 = .ok sc1 ∧
      (sc1.ctx.cpl 0x300000).cid = 5 ∧
      (sc1.ctx.cpl 0x300000).status.sct = NVME_SCT_GENERIC ∧
      (sc1.ctx.cpl 0x300000).status.sc = NVME_SC_SUCCESS ∧
      (cmd_lba demo_wrap_cmd + cmd_nblocks demo_wrap_cmd) * demo_wrap.nvstore.sectsz >
        demo_wrap.nvstore.size := by
  have hbell : pci_nvme_write_bar_0 1 demo_wrap (NVME_DOORBELL_OFFSET + 8) 4 1 =
      pci_nvme_handle_io_cmd 1 demo_wrap_rung 1 := by
    simp [pci_nvme_write_bar_0, pci_nvme_handle_doorbell, NVME_DOORBELL_OFFSET, demo_wrap,
      demo_io, demo_softc, demo_wrap_rung]
  obtain ⟨s1, hstep, hsct, hsc, hcid, hsqs, _⟩ :=
    io_step_ram_ok demo_wrap_busy 1 0 0x310000 0x300000 { demo_sq1 with tail := 1, busy := 1 }
      demo_cq1 { segs := [(0x400000, 4096)], pages := [] }
      rfl (by decide) rfl rfl (by decide) rfl rfl (by decide) (Or.inr rfl) (by decide) rfl
      (fun _ s _ p hp => absurd hp (List.not_mem_nil _))
  have hrun := handle_io_cmd_single 0 demo_wrap_rung s1 1 { demo_sq1 with tail := 1 }
    { demo_sq1 with tail := 1, busy := 1 } rfl rfl (by decide) hstep (by rw [hsqs]; rfl) rfl
  rw [hbell, hrun]
  exact ⟨_, rfl, hcid, hsct, hsc, by decide⟩

/-- Witness for C1 and its instance for `n = 4`: five completions posted back to back on
the example queue pair land at slots 0, 1, 2, 3, 0 with phase bits 1, 1, 1, 1, 0. -/
theorem phase_tag_across_wrap_witness :
    posts_next_at demo_io 1 demo_sq1 0x300000 [] demo_post 0 true ∧
    posts_next_at demo_io 1 demo_sq1 0x300000 [demo_post] demo_post 1 true ∧
    posts_next_at demo_io 1 demo_sq1 0x300000 [demo_post, demo_post] demo_post 2 true ∧
    posts_next_at demo_io 1 demo_sq1 0x300000 [demo_post, demo_post, demo_post]
      demo_post 3 true ∧
    posts_next_at demo_io 1 demo_sq1 0x300000 [demo_post, demo_post, demo_post, demo_post]
      demo_post 0 false :=
  ⟨phase_tag_across_wrap demo_io 1 demo_sq1 demo_cq1 0x300000 4 rfl rfl rfl rfl
      (by decide) (by decide) rfl (fun _ _ => rfl) [] demo_post,
   phase_tag_across_wrap demo_io 1 demo_sq1 demo_cq1 0x300000 4 rfl rfl rfl rfl
      (by decide) (by decide) rfl (fun _ _ => rfl) [demo_post] demo_post,
   phase_tag_across_wrap demo_io 1 demo_sq1 demo_cq1 0x300000 4 rfl rfl rfl rfl
      (by decide) (by decide) rfl (fun _ _ => rfl) [demo_post, demo_post] demo_post,
   phase_tag_across_wrap demo_io 1 demo_sq1 demo_cq1 0x300000 4 rfl rfl rfl rfl
      (by decide) (by decide) rfl (fun _ _ => rfl) [demo_post, demo_post, demo_post] demo_post,
   phase_tag_across_wrap demo_io 1 demo_sq1 demo_cq1 0x300000 4 rfl rfl rfl rfl
      (by decide) (by decide) rfl (fun _ _ => rfl)
      [demo_post, demo_post, demo_post, demo_post] demo_post⟩

/-- Witness for C2 on the example queue pair: a completion for command id 7 posted on
submission queue 1. -/
theorem set_completion_writes_one_entry_witness :
    ∃ sc1, pci_nvme_set_completion demo_io 1 1 7 0 zero_status true = .ok sc1 ∧
      (sc1.ctx.cpl (elem_addr 0x300000 SIZEOF_NVME_COMPLETION 0)).cid = 7 ∧
      (sc1.ctx.cpl (elem_addr 0x300000 SIZEOF_NVME_COMPLETION 0)).status.p = true ∧
      sc1.compl_queues[1]? = some { demo_cq1 with tail := 1 } := by
  obtain ⟨sc1, h, _, _, hcid, _, _, hp, _, _, hq, _, _⟩ :=
    set_completion_writes_one_entry demo_io 1 1 7 0 zero_status true demo_sq1 demo_cq1
      0x300000 rfl rfl rfl (by decide) (by decide) (by decide) (by decide) (by decide)
      (by decide)
  exact ⟨sc1, h, hcid, hp, hq⟩

/-- The first byte gathered from a non-empty leading segment is the byte at its start. -/
theorem gather_head (byte : Nat → Nat) (a len : Nat) (rest : List (Nat × Nat)) (hlen : 0 < len) :
    (gather byte ((a, len) :: rest)).head? = some (byte a) := by
  cases len with
  | zero => omega
  | succ n =>
    simp only [gather, List.range_succ_eq_map, List.map_cons, List.cons_append, List.head?_cons,
      Nat.add_zero]

/-- Why the round trip asks for a read buffer whose segments do not overlap one another.
On the example device a Write of 2 blocks at LBA 3 from the pages 0x400000 and 0x401000,
inside the store, is followed by a Read of 2 blocks at LBA 3 whose `prp1` and `prp2` are
non-zero and mapped but name the same page 0x500000, which is not a buffer of 2 blocks.
Both commands complete with Success, and the bytes gathered from the two PRPs differ from
the bytes of the written buffer: the second block overwrites the first in the shared
page. -/
theorem round_trip_aliased_read_buffer :
    cmd_buffer demo_alias demo_alias_write = some demo_alias_wbuf ∧
    cmd_buffer demo_alias demo_alias_read = some demo_alias_rbuf ∧
    (cmd_lba demo_alias_write + cmd_nblocks demo_alias_write) * demo_alias.nvstore.sectsz ≤
      demo_alias.nvstore.size ∧
    ∃ sc1 sc2 h1 h2, io_step demo_alias 1 0 = .ok (sc1, h1) ∧
      io_step sc1 1 1 = .ok (sc2, h2) ∧
      (sc1.ctx.cpl 0x300000).status.sc = NVME_SC_SUCCESS ∧
      (sc2.ctx.cpl 0x300010).status.sc = NVME_SC_SUCCESS ∧
      gather sc2.ctx.byte demo_alias_rbuf.segs ≠ gather demo_alias.ctx.byte demo_alias_wbuf.segs := by
  refine ⟨rfl, rfl, by decide, ?_⟩
  obtain ⟨sc1, hstep1, _, hsc1, _, hsqs1, hcqs1, hmap1, hcmd1, htype1, hsize1, hsect1,
      hwr1, _⟩ :=
    io_step_ram_ok demo_alias 1 0 0x310000 0x300000 demo_sq1 demo_cq1 demo_alias_wbuf
      rfl (by decide) rfl rfl (by decide) rfl rfl (by decide) (Or.inl rfl) (by decide) rfl
      (fun h => absurd h (by decide))
  obtain ⟨hbyte1, hram1⟩ := hwr1 rfl
  have hcR : sc1.ctx.cmd (elem_addr 0x310000 SIZEOF_NVME_COMMAND 1) = demo_alias_read :=
    hcmd1 _ (by decide)
  have hbR1 : cmd_buffer sc1 (sc1.ctx.cmd (elem_addr 0x310000 SIZEOF_NVME_COMMAND 1)) =
      some demo_alias_rbuf := by
    rw [hcR]
    unfold cmd_buffer
    rw [hbyte1, hmap1, hsect1]
    rfl
  obtain ⟨sc2, hstep2, _, hsc2, _, _, _, _, _, _, _, _, _, hrd2⟩ :=
    io_step_ram_ok sc1 1 1 0x310000 0x300000 demo_sq1
      { demo_cq1 with tail := 1 } demo_alias_rbuf
      (by rw [htype1]; rfl) (by rw [hsize1]; decide) (by rw [hsqs1]; rfl) rfl (by decide)
      (by rw [hcqs1]; rfl) rfl (by decide)
      (Or.inr (by rw [hcR]; rfl))
      (by rw [hcR, hsect1, hsize1]; decide) hbR1
      (fun _ s _ p hp => absurd hp (List.not_mem_nil _))
  obtain ⟨_, hbyte2⟩ := hrd2 (by rw [hcR]; rfl)
  refine ⟨sc1, sc2, _, _, hstep1, hstep2, hsc1, hsc2, ?_⟩
  intro heq
  have hh := congrArg List.head? heq
  rw [show demo_alias_rbuf.segs = (0x500000, 4096) :: [(0x500000, 4096)] from rfl,
    show demo_alias_wbuf.segs = (0x400000, 4096) :: [(0x401000, 4096)] from rfl,
    gather_head _ _ _ _ (by decide), gather_head _ _ _ _ (by decide),
    hbyte2, hram1, hbyte1, hcR, hsect1] at hh
  revert hh
  decide

/-- Witness for C7 (amended) on the example device: a Write of 4 blocks at LBA 3 from a buffer
described by a PRP list (pages 0x400000 .. 0x403000, list at 0x600000), followed by a Read
of the same blocks into a second such buffer (pages 0x500000 .. 0x503000, list at
0x610000); the submission ring is at 0x310000 and the completion ring at 0x300000. -/
theorem ram_write_read_round_trip_witness :
    ∃ sc1 sc2 h1 h2 cq1,
      io_step demo_rw 1 0 = .ok (sc1, h1) ∧
      (sc1.ctx.cpl (elem_addr 0x300000 SIZEOF_NVME_COMPLETION 0)).status.sct =
        NVME_SCT_GENERIC ∧
      (sc1.ctx.cpl (elem_addr 0x300000 SIZEOF_NVME_COMPLETION 0)).status.sc =
        NVME_SC_SUCCESS ∧
      sc1.compl_queues[1]? = some cq1 ∧
      io_step sc1 1 1 = .ok (sc2, h2) ∧
      (sc2.ctx.cpl (elem_addr 0x300000 SIZEOF_NVME_COMPLETION cq1.tail)).status.sct =
        NVME_SCT_GENERIC ∧
      (sc2.ctx.cpl (elem_addr 0x300000 SIZEOF_NVME_COMPLETION cq1.tail)).status.sc =
        NVME_SC_SUCCESS ∧
      segs_len demo_read_buf.segs = 4 * 4096 ∧
      gather sc2.ctx.byte demo_read_buf.segs = gather demo_bytes demo_write_buf.segs :=
  ram_write_read_round_trip demo_rw 1 0 1 0x310000 0x300000 demo_sq1 demo_cq1
    demo_write_buf demo_read_buf rfl (by decide) rfl rfl (by decide) rfl rfl (by decide)
    (by decide) rfl rfl rfl rfl (by decide) rfl rfl
    (by simp [segs_disjoint, demo_read_buf, disjoint_range])
    (by simp [segs_off_pages, demo_read_buf, disjoint_range, PAGE_SIZE])
    (by decide) (by decide) (by decide)
    (by simp [disjoint_range, demo_sq1, demo_cq1, SIZEOF_NVME_COMMAND, SIZEOF_NVME_COMPLETION])
    (by simp [buffer_off_range, demo_write_buf, disjoint_range, demo_sq1, PAGE_SIZE,
      SIZEOF_NVME_COMMAND])
    (by simp [buffer_off_range, demo_write_buf, disjoint_range, demo_cq1, PAGE_SIZE,
      SIZEOF_NVME_COMPLETION])
    (by simp [buffer_off_range, demo_read_buf, disjoint_range, demo_sq1, PAGE_SIZE,
      SIZEOF_NVME_COMMAND])
    (by simp [buffer_off_range, demo_read_buf, disjoint_range, demo_cq1, PAGE_SIZE,
      SIZEOF_NVME_COMPLETION])

/-! ### Queue creation -/

/-- Create I/O SQ on a queue identifier inside the queue array.  Create I/O SQ with
`CDW11.PC = 1` and `qid = cdw10[15:0] ≤ num_squeues`, on a device whose submission queue
array has its `max_queues + 1` elements and whose `num_squeues` is at most `max_queues`
(without the latter `qid` can lie outside the array: see `create_io_sq_past_array`),
returns, answers Generic / Success and sets, in
`submit_queues[qid]`, `size = cdw10[31:16] + 1`, `cqid = cdw11[31:16]` and
`qpriority = cdw11[2:1]` (and `qbase` to the mapping of `prp1`; head, tail and busy stay);
every other submission queue and every completion queue is unchanged. -/
theorem create_io_sq_spec (sc : pci_nvme_softc) (command : nvme_command)
    (compl : nvme_completion)
    (hpc : command.cdw11 % 2 = 1)
    (hqid : command.cdw10 % 65536 ≤ sc.num_squeues)
    (hnum : sc.num_squeues ≤ sc.max_queues)
    (hlen : sc.submit_queues.length = sc.max_queues + 1) :
    ∃ sc1 c old nsq, nvme_opc_create_io_sq sc command compl = .ok (sc1, c, 1) ∧
      c.status.sct = NVME_SCT_GENERIC ∧ c.status.sc = NVME_SC_SUCCESS ∧
      sc.submit_queues[command.cdw10 % 65536]? = some old ∧
      sc1.submit_queues[command.cdw10 % 65536]? = some nsq ∧
      nsq.size = (command.cdw10 / 65536) % 65536 + 1 ∧
      nsq.cqid = (command.cdw11 / 65536) % 65536 ∧
      nsq.qpriority = (command.cdw11 / 2) % 4 ∧
      nsq.qbase = sc.ctx.vm_map_gpa command.prp1 (SIZEOF_NVME_COMMAND * nsq.size) ∧
      nsq.head = old.head ∧ nsq.tail = old.tail ∧ nsq.busy = old.busy ∧
      (∀ j, j ≠ command.cdw10 % 65536 → sc1.submit_queues[j]? = sc.submit_queues[j]?) ∧
      sc1.compl_queues = sc.compl_queues := by
  have hlt : command.cdw10 % 65536 < sc.submit_queues.length := by omega
  have hsq : sc.submit_queues[command.cdw10 % 65536]? =
      some (sc.submit_queues.get ⟨command.cdw10 % 65536, hlt⟩) :=
    List.getElem?_eq_getElem hlt
  have hng : ¬ (command.cdw10 % 65536 > sc.num_squeues) := by omega
  refine ⟨{ sc with
            submit_queues :=
              sc.submit_queues.set (command.cdw10 % 65536)
                { sc.submit_queues.get ⟨command.cdw10 % 65536, hlt⟩ with
                  size := (command.cdw10 / 65536) % 65536 + 1
                  qbase := sc.ctx.vm_map_gpa command.prp1
                    (SIZEOF_NVME_COMMAND * ((command.cdw10 / 65536) % 65536 + 1))
                  cqid := (command.cdw11 / 65536) % 65536
                  qpriority := (command.cdw11 / 2) % 4 } },
    set_status compl NVME_SCT_GENERIC NVME_SC_SUCCESS,
    sc.submit_queues.get ⟨command.cdw10 % 65536, hlt⟩, _, ?_, rfl, rfl, hsq,
    List.getElem?_set_self hlt, rfl, rfl, rfl, rfl, rfl, rfl, rfl, ?_, rfl⟩
  · simp only [nvme_opc_create_io_sq, hpc, hng, if_true, if_false, hsq]
  · intro j hj
    simp only [List.getElem?_set_ne (Ne.symm hj)]

/-- Create I/O SQ on the example device: queue 2 with 4 entries at 0x500000, linked to
completion queue 1. -/
theorem create_io_sq_spec_witness :
    ∃ sc1 c old nsq,
      nvme_opc_create_io_sq demo_io
        { demo_create_sq0 with cdw10 := 0x00030002, cdw11 := 0x00010001 } zero_completion =
        .ok (sc1, c, 1) ∧
      c.status.sct = NVME_SCT_GENERIC ∧ c.status.sc = NVME_SC_SUCCESS ∧
      demo_io.submit_queues[2]? = some old ∧
      sc1.submit_queues[2]? = some nsq ∧
      nsq.size = 4 ∧ nsq.cqid = 1 ∧ nsq.qpriority = 0 ∧
      nsq.qbase = demo_io.ctx.vm_map_gpa 0x500000 (SIZEOF_NVME_COMMAND * nsq.size) ∧
      nsq.head = old.head ∧ nsq.tail = old.tail ∧ nsq.busy = old.busy ∧
      (∀ j, j ≠ 2 → sc1.submit_queues[j]? = demo_io.submit_queues[j]?) ∧
      sc1.compl_queues = demo_io.compl_queues :=
  create_io_sq_spec demo_io { demo_create_sq0 with cdw10 := 0x00030002, cdw11 := 0x00010001 }
    zero_completion (by decide) (by decide) (by decide) (by decide)

/-- C12: evaluation at the failing input.  For a create command with `CDW11.PC = 0`, on
any device state, Create I/O SQ answers Generic / INVALID_FIELD (`sc = 0x02`) and leaves
the state as it was, while Create I/O CQ, which leaves the state as it was too, answers
Generic with status code `0x12`, not INVALID_FIELD. -/
theorem create_io_cq_noncontig_status (sc : pci_nvme_softc) (compl : nvme_completion) :
    demo_create_noncontig.cdw11 % 2 = 0 ∧
    (∃ c, nvme_opc_create_io_sq sc demo_create_noncontig compl = .ok (sc, c, 1) ∧
      c.status.sct = NVME_SCT_GENERIC ∧ c.status.sc = NVME_SC_INVALID_FIELD) ∧
    (∃ c, nvme_opc_create_io_cq sc demo_create_noncontig compl = .ok (sc, c, 1) ∧
      c.status.sct = NVME_SCT_GENERIC ∧ c.status.sc = 0x12 ∧
      c.status.sc ≠ NVME_SC_INVALID_FIELD) :=
  ⟨rfl, ⟨set_status compl NVME_SCT_GENERIC NVME_SC_INVALID_FIELD, rfl, rfl, rfl⟩,
    ⟨set_status compl NVME_SCT_GENERIC 0x12, rfl, rfl, rfl, by
      show (0x12 : Nat) % 256 ≠ NVME_SC_INVALID_FIELD
      decide⟩⟩

/-- C13, counterexample to the claim as worded.  On the example device Create I/O CQ for
queue 2 with `CDW11.PC = 1` and `CDW11.IEN = 1` succeeds and leaves `intr_en = 1`: the
INTEN bit (0x01) is set and the INTCOAL bit (0x02) is clear although IEN was set. -/
theorem create_io_cq_ien_not_intcoal :
    ∃ sc1 c cq, nvme_opc_create_io_cq demo_io demo_create_cq2 zero_completion =
        .ok (sc1, c, 1) ∧
      demo_create_cq2.cdw11 % 2 = 1 ∧ (demo_create_cq2.cdw11 / 2) % 2 = 1 ∧
      demo_create_cq2.cdw10 % 65536 ≤ demo_io.num_cqueues ∧
      sc1.compl_queues[2]? = some cq ∧
      cq.intr_en = 1 ∧
      cq.intr_en &&& NVME_CQ_INTEN = NVME_CQ_INTEN ∧
      cq.intr_en &&& NVME_CQ_INTCOAL = 0 :=
  ⟨_, _, _, rfl, rfl, rfl, by decide, rfl, rfl, rfl, rfl⟩

/-- C13, amended: on a device whose completion queue array has its `max_queues + 1`
elements and whose `num_cqueues` is at most `max_queues`, so that `qid` indexes an element
of the array (without this the handler writes outside the array, see
`create_io_cq_outside_array`), Create I/O CQ with `CDW11.PC = 1` and `qid ≤ num_cqueues`
returns, answers Generic / Success, sets
`compl_queues[qid].size = cdw10[31:16] + 1` and `intr_vec = cdw11[31:16]`, and decodes IEN
(`cdw11` bit 1) into the INTEN bit (0x01) of `intr_en`: `intr_en` is the IEN bit, so INTEN
is set exactly when IEN was set, and the INTCOAL bit (0x02) is clear. -/
theorem create_io_cq_spec (sc : pci_nvme_softc) (command : nvme_command)
    (compl : nvme_completion)
    (hpc : command.cdw11 % 2 = 1)
    (hqid : command.cdw10 % 65536 ≤ sc.num_cqueues)
    (hnum : sc.num_cqueues ≤ sc.max_queues)
    (hlen : sc.compl_queues.length = sc.max_queues + 1) :
    ∃ sc1 c ncq, nvme_opc_create_io_cq sc command compl = .ok (sc1, c, 1) ∧
      c.status.sct = NVME_SCT_GENERIC ∧ c.status.sc = NVME_SC_SUCCESS ∧
      sc1.compl_queues[command.cdw10 % 65536]? = some ncq ∧
      ncq.size = (command.cdw10 / 65536) % 65536 + 1 ∧
      ncq.intr_vec = (command.cdw11 / 65536) % 65536 ∧
      ncq.intr_en = (command.cdw11 / 2) % 2 ∧
      (ncq.intr_en &&& NVME_CQ_INTEN = NVME_CQ_INTEN ↔ (command.cdw11 / 2) % 2 = 1) ∧
      ncq.intr_en &&& NVME_CQ_INTCOAL = 0 := by
  have hlt : command.cdw10 % 65536 < sc.compl_queues.length := by omega
  have hcq : sc.compl_queues[command.cdw10 % 65536]? =
      some (sc.compl_queues.get ⟨command.cdw10 % 65536, hlt⟩) :=
    List.getElem?_eq_getElem hlt
  have hng : ¬ (command.cdw10 % 65536 > sc.num_cqueues) := by omega
  have hbit : (command.cdw11 / 2) % 2 = 0 ∨ (command.cdw11 / 2) % 2 = 1 := by omega
  refine ⟨{ sc with
            compl_queues :=
              sc.compl_queues.set (command.cdw10 % 65536)
                { sc.compl_queues.get ⟨command.cdw10 % 65536, hlt⟩ with
                  intr_en := (command.cdw11 / 2) % 2
                  intr_vec := (command.cdw11 / 65536) % 65536
                  size := (command.cdw10 / 65536) % 65536 + 1
                  qbase := sc.ctx.vm_map_gpa command.prp1
                    (SIZEOF_NVME_COMMAND * ((command.cdw10 / 65536) % 65536 + 1)) } },
    set_status compl NVME_SCT_GENERIC NVME_SC_SUCCESS, _, ?_, rfl, rfl,
    List.getElem?_set_self hlt, rfl, rfl, rfl, ?_, ?_⟩
  · simp only [nvme_opc_create_io_cq, hpc, hng, if_true, if_false, hcq]
  · show (command.cdw11 / 2) % 2 &&& NVME_CQ_INTEN = NVME_CQ_INTEN ↔ _
    rcases hbit with h | h <;> rw [h] <;> decide
  · show (command.cdw11 / 2) % 2 &&& NVME_CQ_INTCOAL = 0
    rcases hbit with h | h <;> rw [h] <;> decide

/-- Witness for C13 (amended) on the example device: Create I/O CQ for queue 2 with
`IEN = 1` and interrupt vector 1. -/
theorem create_io_cq_spec_witness :
    ∃ sc1 c ncq, nvme_opc_create_io_cq demo_io demo_create_cq2 zero_completion =
        .ok (sc1, c, 1) ∧
      c.status.sct = NVME_SCT_GENERIC ∧ c.status.sc = NVME_SC_SUCCESS ∧
      sc1.compl_queues[2]? = some ncq ∧
      ncq.size = 4 ∧ ncq.intr_vec = 1 ∧ ncq.intr_en = 1 ∧
      (ncq.intr_en &&& NVME_CQ_INTEN = NVME_CQ_INTEN ↔ (demo_create_cq2.cdw11 / 2) % 2 = 1) ∧
      ncq.intr_en &&& NVME_CQ_INTCOAL = 0 :=
  create_io_cq_spec demo_io demo_create_cq2 zero_completion (by decide) (by decide)
    (by decide) (by decide)

/-! ### Interrupts and abandoned completions -/

/-- C14, counterexample to the claim as worded.  On the example device completion queue 1
has its INTEN bit set and vector 1; a completion posted for submission queue 1 with
`ignore_busy = 0` (as `pci_nvme_io_done` does) while that queue is busy is written and
advances the tail, but no MSI-X is generated. -/
theorem busy_completion_raises_no_msix :
    demo_cq1.intr_en &&& NVME_CQ_INTEN = NVME_CQ_INTEN ∧
    demo_busy.compl_queues[1]? = some demo_cq1 ∧
    ∃ sc1, pci_nvme_set_completion demo_busy 1 1 7 0 zero_status false = .ok sc1 ∧
      sc1.compl_queues[1]? = some { demo_cq1 with tail := 1 } ∧
      (sc1.ctx.cpl 0x300000).cid = 7 ∧
      sc1.msix = demo_busy.msix :=
  ⟨rfl, rfl, _, rfl, rfl, rfl, rfl⟩

/-- C14, amended: a call of `pci_nvme_set_completion` that posts to a completion queue
(mapped, of non-zero size) returns and generates an MSI-X on that queue's `intr_vec`
exactly when the queue's INTEN bit is set and, in addition, `ignore_busy` is given or the
submission queue is not busy; otherwise it generates none, in particular when INTEN is
clear.  And after a Create I/O CQ with `PC = 1`, `IEN = 1` and `IV = 1` that maps its
ring, a completion posted on that queue with `ignore_busy` given or for a submission queue
that is not busy fires MSI-X vector 1. -/
theorem completion_interrupt (sc : pci_nvme_softc) (sq sqid cid cdw0 : Nat)
    (status : nvme_status) (ib : Bool)
    (q : nvme_submission_queue) (cq : nvme_completion_queue) (base : Nat)
    (hq : sc.submit_queues[sq]? = some q)
    (hcq : sc.compl_queues[q.cqid]? = some cq)
    (hbase : cq.qbase = some base) (hsize : cq.size ≠ 0) :
    (∃ sc1, pci_nvme_set_completion sc sq sqid cid cdw0 status ib = .ok sc1 ∧
      ((cq.intr_en &&& NVME_CQ_INTEN = NVME_CQ_INTEN ∧ (ib = true ∨ q.busy = 0)) →
        sc1.msix = sc.msix ++ [cq.intr_vec]) ∧
      (¬ (cq.intr_en &&& NVME_CQ_INTEN = NVME_CQ_INTEN ∧ (ib = true ∨ q.busy = 0)) →
        sc1.msix = sc.msix)) ∧
    (∀ (command : nvme_command) (compl : nvme_completion) (cbase : Nat),
      command.cdw11 % 2 = 1 → (command.cdw11 / 2) % 2 = 1 →
      (command.cdw11 / 65536) % 65536 = 1 →
      command.cdw10 % 65536 = q.cqid → q.cqid ≤ sc.num_cqueues →
      sc.ctx.vm_map_gpa command.prp1
        (SIZEOF_NVME_COMMAND * ((command.cdw10 / 65536) % 65536 + 1)) = some cbase →
      (ib = true ∨ q.busy = 0) →
      ∃ sc1 c sc2, nvme_opc_create_io_cq sc command compl = .ok (sc1, c, 1) ∧
        pci_nvme_set_completion sc1 sq sqid cid cdw0 status ib = .ok sc2 ∧
        sc2.msix = sc1.msix ++ [1]) := by
  have hinten : ∀ x : Nat, (x &&& NVME_CQ_INTEN = NVME_CQ_INTEN) ↔ x % 2 = 1 := by
    intro x
    show x &&& 1 = 1 ↔ x % 2 = 1
    rw [Nat.and_one_is_mod]
  have hlt : q.cqid < sc.compl_queues.length := by
    rcases List.getElem?_eq_some.mp hcq with ⟨h, _⟩
    exact h
  constructor
  · refine ⟨_, set_completion_ok sc sq sqid cid cdw0 status ib q cq base hq hcq hbase hsize,
      ?_, ?_⟩
    · rintro ⟨hen, hb⟩
      have hen1 : cq.intr_en % 2 = 1 := (hinten _).mp hen
      have hfire : ((ib || decide (q.busy = 0)) && decide (cq.intr_en % 2 = 1)) = true := by
        rcases hb with hb | hb
        · simp [hb, hen1]
        · simp [hb, hen1]
      show (if ((ib || decide (q.busy = 0)) && decide (cq.intr_en % 2 = 1)) = true
        then sc.msix ++ [cq.intr_vec] else sc.msix) = _
      rw [if_pos hfire]
    · intro hno
      have hfire : ¬ (((ib || decide (q.busy = 0)) && decide (cq.intr_en % 2 = 1)) = true) := by
        intro h
        simp only [Bool.and_eq_true, Bool.or_eq_true, decide_eq_true_eq] at h
        exact hno ⟨(hinten _).mpr h.2, h.1⟩
      show (if ((ib || decide (q.busy = 0)) && decide (cq.intr_en % 2 = 1)) = true
        then sc.msix ++ [cq.intr_vec] else sc.msix) = _
      rw [if_neg hfire]
  · intro command compl cbase hpc hien hiv hqid hnum hmap hb
    have hng : ¬ (command.cdw10 % 65536 > sc.num_cqueues) := by omega
    have hcq0 : sc.compl_queues[command.cdw10 % 65536]? = some cq := by rw [hqid]; exact hcq
    have hcreate : nvme_opc_create_io_cq sc command compl = .ok
        ({ sc with
           compl_queues :=
             sc.compl_queues.set (command.cdw10 % 65536)
               { cq with
                 intr_en := (command.cdw11 / 2) % 2
                 intr_vec := (command.cdw11 / 65536) % 65536
                 size := (command.cdw10 / 65536) % 65536 + 1
                 qbase := sc.ctx.vm_map_gpa command.prp1
                   (SIZEOF_NVME_COMMAND * ((command.cdw10 / 65536) % 65536 + 1)) } },
         set_status compl NVME_SCT_GENERIC NVME_SC_SUCCESS, 1) := by
      simp only [nvme_opc_create_io_cq, hpc, hng, if_true, if_false, hcq0]
    rw [hcreate, hien, hiv, hmap, hqid]
    have hfire : ((ib || decide (q.busy = 0)) && decide ((1 : Nat) % 2 = 1)) = true := by
      rcases hb with hb | hb
      · simp [hb]
      · simp [hb]
    have hpost := set_completion_ok
      { sc with
        compl_queues :=
          sc.compl_queues.set q.cqid
            { cq with intr_en := 1, intr_vec := 1, size := (command.cdw10 / 65536) % 65536 + 1,
                      qbase := some cbase } }
      sq sqid cid cdw0 status ib q
      { cq with intr_en := 1, intr_vec := 1, size := (command.cdw10 / 65536) % 65536 + 1,
                qbase := some cbase } cbase hq
      (List.getElem?_set_self hlt) rfl (by simp)
    refine ⟨_, _, _, rfl, hpost, ?_⟩
    show (if ((ib || decide (q.busy = 0)) && decide ((1 : Nat) % 2 = 1)) = true
      then _ else _) = _
    rw [if_pos hfire]

/-- Witness for C14 (amended) on the example device: a completion posted for submission
queue 1 with `ignore_busy` given while the queue is busy fires vector 1, also after
completion queue 1 has been created anew with `IEN = 1` and `IV = 1`. -/
theorem completion_interrupt_witness :
    (∃ sc1, pci_nvme_set_completion demo_busy 1 1 7 0 zero_status true = .ok sc1 ∧
      sc1.msix = demo_busy.msix ++ [1]) ∧
    (∃ sc1 c sc2, nvme_opc_create_io_cq demo_busy demo_create_cq1 zero_completion =
        .ok (sc1, c, 1) ∧
      pci_nvme_set_completion sc1 1 1 7 0 zero_status true = .ok sc2 ∧
      sc2.msix = sc1.msix ++ [1]) := by
  have h := completion_interrupt demo_busy 1 1 7 0 zero_status true
    { demo_sq1 with busy := 1 } demo_cq1 0x300000 rfl rfl rfl (by decide)
  obtain ⟨sc1, h1, h2, _⟩ := h.1
  exact ⟨⟨sc1, h1, h2 ⟨rfl, Or.inl rfl⟩⟩,
    h.2 demo_create_cq1 zero_completion 0x600000 (by decide) (by decide) (by decide)
      (by decide) (by decide) rfl (Or.inl rfl)⟩

/-- C15: evaluation at the failing input.  On the enabled example device, whose
submission queue 1 is linked to completion queue 1, Delete I/O CQ for queue 1 answers
Generic / Success and sets `compl_queues[1].qbase` to null; every later call of
`pci_nvme_set_completion` for submission queue 1 then fails the assertion
`cq->qbase != NULL`, which ends the process, instead of returning. -/
theorem set_completion_asserts_on_null_qbase :
    ∃ sc1 c, nvme_opc_delete_io_cq demo_io demo_delete_cq1 zero_completion = .ok (sc1, c, 1) ∧
      c.status.sct = NVME_SCT_GENERIC ∧ c.status.sc = NVME_SC_SUCCESS ∧
      sc1.submit_queues[1]? = some demo_sq1 ∧
      sc1.compl_queues[1]? = some { demo_cq1 with qbase := none } ∧
      ∀ (cid : Nat) (status : nvme_status) (ib : Bool),
        pci_nvme_set_completion sc1 1 1 cid 0 status ib = .error .assertFail :=
  ⟨_, _, rfl, rfl, rfl, rfl, rfl, fun _ _ _ => rfl⟩

/-! ### Features -/

/-- One iteration of the loop of Set Features / Interrupt Vector Configuration returns
for an index inside the completion queue array and keeps the array's length. -/
theorem set_intcoal_ok (command : nvme_command) (sc : pci_nvme_softc) (i : Nat)
    (hlt : i < sc.compl_queues.length) :
    ∃ sc1, set_intcoal sc command i = .ok sc1 ∧
      sc1.compl_queues.length = sc.compl_queues.length := by
  have hcq : sc.compl_queues[i]? = some (sc.compl_queues.get ⟨i, hlt⟩) :=
    List.getElem?_eq_getElem hlt
  unfold set_intcoal
  rw [hcq]
  simp only
  split
  · exact ⟨_, rfl, by simp only [List.length_set]⟩
  · exact ⟨_, rfl, rfl⟩

/-- The loop of Set Features / Interrupt Vector Configuration returns when the indices it
visits are inside the completion queue array. -/
theorem set_intcoal_loop_ok (command : nvme_command) :
    ∀ (n : Nat) (sc : pci_nvme_softc) (start : Nat), start + n ≤ sc.compl_queues.length →
      ∃ sc1, set_intcoal_loop sc command start n = .ok sc1 := by
  intro n
  induction n with
  | zero =>
    intro sc start _
    exact ⟨sc, rfl⟩
  | succ n ih =>
    intro sc start h
    obtain ⟨s1, hstep, hl⟩ := set_intcoal_ok command sc start (by omega)
    obtain ⟨sc1, h1⟩ := ih s1 (start + 1) (by omega)
    exact ⟨sc1, by simp only [set_intcoal_loop, hstep]; exact h1⟩

/-- Set Features answers Generic / Success for every command whose feature field
`cdw10 & 0x0F` is one of 0x01 .. 0x0C (for Interrupt Vector Configuration, 0x09, with
`num_cqueues` inside the completion queue array). -/
theorem set_features_low_ids_succeed (sc : pci_nvme_softc) (command : nvme_command)
    (compl : nvme_completion)
    (hf : 1 ≤ command.cdw10 % 16 ∧ command.cdw10 % 16 ≤ 0x0C)
    (hlen : sc.num_cqueues < sc.compl_queues.length) :
    ∃ sc1 c, nvme_opc_set_features sc command compl = .ok (sc1, c, 1) ∧
      c.status.sct = NVME_SCT_GENERIC ∧ c.status.sc = NVME_SC_SUCCESS := by
  obtain ⟨sc9, h9⟩ := set_intcoal_loop_ok command (sc.num_cqueues + 1) sc 0 (by omega)
  obtain ⟨hlo, hhi⟩ := hf
  generalize hfe : command.cdw10 % 16 = f at hlo hhi
  have hcases : f = 1 ∨ f = 2 ∨ f = 3 ∨ f = 4 ∨ f = 5 ∨ f = 6 ∨ f = 7 ∨ f = 8 ∨ f = 9 ∨
      f = 10 ∨ f = 11 ∨ f = 12 := by omega
  rcases hcases with h | h | h | h | h | h | h | h | h | h | h | h <;> subst h <;>
    simp [nvme_opc_set_features, hfe, h9, NVME_FEAT_ARBITRATION, NVME_FEAT_POWER_MANAGEMENT,
      NVME_FEAT_LBA_RANGE_TYPE, NVME_FEAT_TEMPERATURE_THRESHOLD, NVME_FEAT_ERROR_RECOVERY,
      NVME_FEAT_VOLATILE_WRITE_CACHE, NVME_FEAT_NUMBER_OF_QUEUES,
      NVME_FEAT_INTERRUPT_COALESCING, NVME_FEAT_INTERRUPT_VECTOR_CONFIGURATION,
      NVME_FEAT_WRITE_ATOMICITY, NVME_FEAT_ASYNC_EVENT_CONFIGURATION,
      NVME_FEAT_SOFTWARE_PROGRESS_MARKER, set_status, NVME_SCT_GENERIC, NVME_SC_SUCCESS] <;>
    exact ⟨_, _, ⟨rfl, rfl⟩, rfl, rfl⟩

/-- C16: evaluation at the failing input.  Set Features with the feature identifier of
the Software Progress Marker (0x80), on any device state and for any `cdw11`, answers
Generic / INVALID_FIELD: the feature is taken from `cdw10 & 0x0F`, which is 0 for 0x80. -/
theorem set_features_progress_marker_rejected (sc : pci_nvme_softc)
    (compl : nvme_completion) (cdw11 : Nat) :
    NVME_FEAT_SOFTWARE_PROGRESS_MARKER = 0x80 ∧
    ∃ c, nvme_opc_set_features sc
        { zero_command with opc := NVME_OPC_SET_FEATURES
                            cdw10 := NVME_FEAT_SOFTWARE_PROGRESS_MARKER
                            cdw11 := cdw11 } compl = .ok (sc, c, 1) ∧
      c.status.sct = NVME_SCT_GENERIC ∧ c.status.sc = NVME_SC_INVALID_FIELD :=
  ⟨rfl, set_status { compl with cdw0 := 0 } NVME_SCT_GENERIC NVME_SC_INVALID_FIELD,
    by simp [nvme_opc_set_features, NVME_FEAT_SOFTWARE_PROGRESS_MARKER, NVME_FEAT_ARBITRATION,
      NVME_FEAT_POWER_MANAGEMENT, NVME_FEAT_LBA_RANGE_TYPE, NVME_FEAT_TEMPERATURE_THRESHOLD,
      NVME_FEAT_ERROR_RECOVERY, NVME_FEAT_VOLATILE_WRITE_CACHE, NVME_FEAT_NUMBER_OF_QUEUES,
      NVME_FEAT_INTERRUPT_COALESCING, NVME_FEAT_INTERRUPT_VECTOR_CONFIGURATION,
      NVME_FEAT_WRITE_ATOMICITY, NVME_FEAT_ASYNC_EVENT_CONFIGURATION, zero_command],
    rfl, rfl⟩

/-- C17: evaluation at the failing input.  On the example device (4 submission and 4
completion queues), Set Features with feature identifier `cdw10[7:0] = 0x17`, which is
none of the recognised ones, is carried out as Number of Queues (`0x17 & 0x0F = 0x07`):
it answers Generic / Success and changes `num_squeues` to 2 and `num_cqueues` to 1; Get
Features with the same identifier answers Generic / Success too. -/
theorem unrecognised_feature_accepted :
    (∃ sc1 c, nvme_opc_set_features demo_io demo_set_feature_17 zero_completion =
        .ok (sc1, c, 1) ∧
      c.status.sct = NVME_SCT_GENERIC ∧ c.status.sc = NVME_SC_SUCCESS ∧
      demo_io.num_squeues = 4 ∧ demo_io.num_cqueues = 4 ∧
      sc1.num_squeues = 2 ∧ sc1.num_cqueues = 1) ∧
    (∃ sc1 c, nvme_opc_get_features demo_io
        { demo_set_feature_17 with opc := NVME_OPC_GET_FEATURES } zero_completion =
        .ok (sc1, c, 1) ∧
      c.status.sct = NVME_SCT_GENERIC ∧ c.status.sc = NVME_SC_SUCCESS) :=
  ⟨⟨_, _, rfl, rfl, rfl, rfl, rfl, rfl, rfl⟩, ⟨_, _, rfl, rfl, rfl⟩⟩

/-- The entry the admin executor writes keeps the `cdw0` the ring slot held: `admin_post`
changes `cdw0` of no completion entry. -/
theorem admin_post_keeps_cdw0 (sc sc1 : pci_nvme_softc) (sqhead : Nat) (cmd : nvme_command)
    (compl : nvme_completion) (h : admin_post sc sqhead cmd compl = .ok sc1) (a : Nat) :
    (sc1.ctx.cpl a).cdw0 = (sc.ctx.cpl a).cdw0 := by
  unfold admin_post at h
  split at h
  · exact absurd h (by simp)
  · split at h
    · exact absurd h (by simp)
    · split at h
      · exact absurd h (by simp)
      · injection h with h
        subst h
        show (Function.update sc.ctx.cpl _ _ a).cdw0 = _
        simp only [Function.update_apply]
        split
        · rename_i ha
          rw [ha]
        · rfl

/-- C19: evaluation at the failing input.  On the example device whose admin ring holds
one Set Features / Number of Queues command (asking for 2 and 3 queues), the handler
computes `cdw0 = 0x00030002` in the local completion, but the entry
`pci_nvme_handle_admin_cmd` writes into the admin completion queue (with the command's
identifier and Generic / Success) keeps in `cdw0` the value 0x5A5A the ring held before;
likewise for one Abort command, whose handler computes `cdw0 = 1`: `cdw0` is not copied
into the entry. -/
theorem admin_completion_drops_cdw0 :
    (∃ s c, nvme_opc_set_features (demo_admin1 demo_set_nq) demo_set_nq zero_completion =
        .ok (s, c, 1) ∧
      s.num_squeues = 2 ∧ s.num_cqueues = 3 ∧ c.cdw0 = 0x00030002) ∧
    (∃ sc1, pci_nvme_handle_admin_cmd 1 (demo_admin1 demo_set_nq) 0 = .ok sc1 ∧
      sc1.num_squeues = 2 ∧ sc1.num_cqueues = 3 ∧
      (sc1.ctx.cpl 0x200000).cid = 21 ∧
      (sc1.ctx.cpl 0x200000).status.sct = NVME_SCT_GENERIC ∧
      (sc1.ctx.cpl 0x200000).status.sc = NVME_SC_SUCCESS ∧
      (sc1.ctx.cpl 0x200000).status.p = true ∧
      (sc1.ctx.cpl 0x200000).cdw0 = 0x5A5A) ∧
    (∃ s c, nvme_opc_abort (demo_admin1 demo_abort) demo_abort zero_completion =
        .ok (s, c, 1) ∧ c.cdw0 = 1) ∧
    (∃ sc1, pci_nvme_handle_admin_cmd 1 (demo_admin1 demo_abort) 0 = .ok sc1 ∧
      (sc1.ctx.cpl 0x200000).cid = 22 ∧
      (sc1.ctx.cpl 0x200000).status.sct = NVME_SCT_GENERIC ∧
      (sc1.ctx.cpl 0x200000).status.sc = NVME_SC_SUCCESS ∧
      (sc1.ctx.cpl 0x200000).status.p = true ∧
      (sc1.ctx.cpl 0x200000).cdw0 = 0x5A5A) :=
  ⟨⟨_, _, rfl, rfl, rfl, rfl⟩, ⟨_, rfl, rfl, rfl, rfl, rfl, rfl, rfl, rfl⟩,
    ⟨_, _, rfl, rfl⟩, ⟨_, rfl, rfl, rfl, rfl, rfl, rfl⟩⟩

/-! ### Identify -/

/-- C20: Identify is decided by `CNS = cdw10[7:0]` alone.  With the buffer at `prp1`
mapped, CNS 0x00 copies the namespace data to it and CNS 0x01 the controller data, whose
`vid` is 0xFB5D and `ver` is 0x00010300 once `pci_nvme_init_ctrldata` has filled it in,
and CNS 0x02 succeeds, all three with Generic / Success; CNS 0x11 answers Generic /
INVALID_NAMESPACE_OR_FORMAT and every other CNS Generic / INVALID_FIELD, and in these two
cases the device state, guest memory included, is returned as it was. -/
theorem identify_by_cns (sc : pci_nvme_softc) (command : nvme_command)
    (compl : nvme_completion) :
    (pci_nvme_init_ctrldata sc).ctrldata.vid = 0xFB5D ∧
    (pci_nvme_init_ctrldata sc).ctrldata.ver = 0x00010300 ∧
    (∀ dest, command.cdw10 % 256 = 0x00 →
      sc.ctx.vm_map_gpa command.prp1 SIZEOF_IDENTIFY_DATA = some dest →
      ∃ sc1 c, nvme_opc_identify sc command compl = .ok (sc1, c, 1) ∧
        c.status.sct = NVME_SCT_GENERIC ∧ c.status.sc = NVME_SC_SUCCESS ∧
        sc1.ctx.id_ns dest = some sc.nsdata) ∧
    (∀ dest, command.cdw10 % 256 = 0x01 →
      sc.ctx.vm_map_gpa command.prp1 SIZEOF_IDENTIFY_DATA = some dest →
      ∃ sc1 c, nvme_opc_identify sc command compl = .ok (sc1, c, 1) ∧
        c.status.sct = NVME_SCT_GENERIC ∧ c.status.sc = NVME_SC_SUCCESS ∧
        sc1.ctx.id_ctrl dest = some sc.ctrldata) ∧
    (∀ dest, command.cdw10 % 256 = 0x02 →
      sc.ctx.vm_map_gpa command.prp1 (4 * 1024) = some dest →
      ∃ sc1 c, nvme_opc_identify sc command compl = .ok (sc1, c, 1) ∧
        c.status.sct = NVME_SCT_GENERIC ∧ c.status.sc = NVME_SC_SUCCESS) ∧
    (command.cdw10 % 256 = 0x11 →
      ∃ c, nvme_opc_identify sc command compl = .ok (sc, c, 1) ∧
        c.status.sct = NVME_SCT_GENERIC ∧
        c.status.sc = NVME_SC_INVALID_NAMESPACE_OR_FORMAT) ∧
    (command.cdw10 % 256 ≠ 0x00 → command.cdw10 % 256 ≠ 0x01 →
      command.cdw10 % 256 ≠ 0x02 → command.cdw10 % 256 ≠ 0x11 →
      ∃ c, nvme_opc_identify sc command compl = .ok (sc, c, 1) ∧
        c.status.sct = NVME_SCT_GENERIC ∧ c.status.sc = NVME_SC_INVALID_FIELD) := by
  refine ⟨rfl, rfl, ?_, ?_, ?_, ?_, ?_⟩
  · intro dest hcns hmap
    have heq : nvme_opc_identify sc command compl = .ok
        ({ sc with
           ctx := { sc.ctx with id_ns := Function.update sc.ctx.id_ns dest (some sc.nsdata) } },
         set_status compl NVME_SCT_GENERIC NVME_SC_SUCCESS, 1) := by
      simp only [nvme_opc_identify, hcns, if_true, hmap]
    exact ⟨_, _, heq, rfl, rfl, by simp only [Function.update_same]⟩
  · intro dest hcns hmap
    have h0 : ¬ ((1 : Nat) = 0) := by decide
    have heq : nvme_opc_identify sc command compl = .ok
        ({ sc with
           ctx := { sc.ctx with
                    id_ctrl := Function.update sc.ctx.id_ctrl dest (some sc.ctrldata) } },
         set_status compl NVME_SCT_GENERIC NVME_SC_SUCCESS, 1) := by
      simp only [nvme_opc_identify, hcns, h0, if_true, if_false, hmap]
    exact ⟨_, _, heq, rfl, rfl, by simp only [Function.update_same]⟩
  · intro dest hcns hmap
    have h0 : ¬ ((2 : Nat) = 0) := by decide
    have h1 : ¬ ((2 : Nat) = 1) := by decide
    have heq : nvme_opc_identify sc command compl = .ok
        ({ sc with
           ctx := { sc.ctx with byte := write32 (write32 sc.ctx.byte dest 1) (dest + 4) 0 } },
         set_status compl NVME_SCT_GENERIC NVME_SC_SUCCESS, 1) := by
      simp only [nvme_opc_identify, hcns, h0, h1, if_true, if_false, hmap]
    exact ⟨_, _, heq, rfl, rfl⟩
  · intro hcns
    refine ⟨set_status compl NVME_SCT_GENERIC NVME_SC_INVALID_NAMESPACE_OR_FORMAT, ?_, rfl,
      rfl⟩
    have h0 : ¬ ((17 : Nat) = 0) := by decide
    have h1 : ¬ ((17 : Nat) = 1) := by decide
    have h2 : ¬ ((17 : Nat) = 2) := by decide
    simp only [nvme_opc_identify, hcns, h0, h1, h2, if_true, if_false]
  · intro h0 h1 h2 h11
    refine ⟨set_status compl NVME_SCT_GENERIC NVME_SC_INVALID_FIELD, ?_, rfl, rfl⟩
    simp only [nvme_opc_identify, h0, h1, h2, h11, if_false]

/-- Witness for C20 on the example device with its controller data filled in: Identify
Controller into the page at 0x300000 succeeds and leaves there a structure with
`vid = 0xFB5D` and `ver = 0x00010300`. -/
theorem identify_by_cns_witness :
    ∃ sc1 c, nvme_opc_identify (pci_nvme_init_ctrldata demo_io) demo_identify_ctrl
        zero_completion = .ok (sc1, c, 1) ∧
      c.status.sct = NVME_SCT_GENERIC ∧ c.status.sc = NVME_SC_SUCCESS ∧
      sc1.ctx.id_ctrl 0x300000 = some (pci_nvme_init_ctrldata demo_io).ctrldata ∧
      (pci_nvme_init_ctrldata demo_io).ctrldata.vid = 0xFB5D ∧
      (pci_nvme_init_ctrldata demo_io).ctrldata.ver = 0x00010300 := by
  have h := identify_by_cns (pci_nvme_init_ctrldata demo_io) demo_identify_ctrl zero_completion
  obtain ⟨sc1, c, h1, h2, h3, h4⟩ := h.2.2.2.1 0x300000 (by decide) rfl
  exact ⟨sc1, c, h1, h2, h3, h4, rfl, rfl⟩

/-! ### Number of queues -/

/-- What Set Features / Number of Queues does: `num_squeues` becomes the requested count
`cdw11[15:0]` when that is between 1 and `max_queues` and `max_queues` otherwise, likewise
`num_cqueues` from `cdw11[31:16]`; the local completion gets
`cdw0 = (num_squeues & 0xFFFF) | ((num_cqueues & 0xFFFF) << 16)`; with `max_queues ≥ 1`
both counts end between 1 and `max_queues`, and the command answers Generic / Success. -/
theorem set_number_of_queues (sc : pci_nvme_softc) (command : nvme_command)
    (compl : nvme_completion) (hf : command.cdw10 % 16 = NVME_FEAT_NUMBER_OF_QUEUES) :
    ∃ sc1 c, nvme_opc_set_features sc command compl = .ok (sc1, c, 1) ∧
      c.status.sct = NVME_SCT_GENERIC ∧ c.status.sc = NVME_SC_SUCCESS ∧
      sc1.num_squeues = (if 1 ≤ command.cdw11 % 65536 ∧ command.cdw11 % 65536 ≤ sc.max_queues
        then command.cdw11 % 65536 else sc.max_queues) ∧
      sc1.num_cqueues = (if 1 ≤ (command.cdw11 / 65536) % 65536 ∧
          (command.cdw11 / 65536) % 65536 ≤ sc.max_queues
        then (command.cdw11 / 65536) % 65536 else sc.max_queues) ∧
      sc1.max_queues = sc.max_queues ∧
      c.cdw0 = ((sc1.num_squeues % 65536) ||| ((sc1.num_cqueues % 65536) * 65536)) % 2 ^ 32 ∧
      (1 ≤ sc.max_queues → 1 ≤ sc1.num_squeues ∧ sc1.num_squeues ≤ sc.max_queues ∧
        1 ≤ sc1.num_cqueues ∧ sc1.num_cqueues ≤ sc.max_queues) := by
  have hf7 : command.cdw10 % 16 = 7 := hf
  have e1 : (if command.cdw11 % 65536 = 0 ∨ command.cdw11 % 65536 > sc.max_queues
      then sc.max_queues else command.cdw11 % 65536) =
      (if 1 ≤ command.cdw11 % 65536 ∧ command.cdw11 % 65536 ≤ sc.max_queues
        then command.cdw11 % 65536 else sc.max_queues) := by
    split_ifs <;> omega
  have e2 : (if (command.cdw11 / 65536) % 65536 = 0 ∨
        (command.cdw11 / 65536) % 65536 > sc.max_queues
      then sc.max_queues else (command.cdw11 / 65536) % 65536) =
      (if 1 ≤ (command.cdw11 / 65536) % 65536 ∧
          (command.cdw11 / 65536) % 65536 ≤ sc.max_queues
        then (command.cdw11 / 65536) % 65536 else sc.max_queues) := by
    split_ifs <;> omega
  have heq : nvme_opc_set_features sc command compl = .ok
      ({ sc with
         num_squeues :=
           if command.cdw11 % 65536 = 0 ∨ command.cdw11 % 65536 > sc.max_queues
           then sc.max_queues else command.cdw11 % 65536
         num_cqueues :=
           if (command.cdw11 / 65536) % 65536 = 0 ∨
             (command.cdw11 / 65536) % 65536 > sc.max_queues
           then sc.max_queues else (command.cdw11 / 65536) % 65536 },
       set_status
         { compl with
           cdw0 := (((if command.cdw11 % 65536 = 0 ∨ command.cdw11 % 65536 > sc.max_queues
               then sc.max_queues else command.cdw11 % 65536) % 65536) |||
             (((if (command.cdw11 / 65536) % 65536 = 0 ∨
                 (command.cdw11 / 65536) % 65536 > sc.max_queues
               then sc.max_queues else (command.cdw11 / 65536) % 65536) % 65536) * 65536)) %
             2 ^ 32 }
         NVME_SCT_GENERIC NVME_SC_SUCCESS, 1) := by
    simp [nvme_opc_set_features, hf7, NVME_FEAT_ARBITRATION, NVME_FEAT_POWER_MANAGEMENT,
      NVME_FEAT_LBA_RANGE_TYPE, NVME_FEAT_TEMPERATURE_THRESHOLD, NVME_FEAT_ERROR_RECOVERY,
      NVME_FEAT_VOLATILE_WRITE_CACHE, NVME_FEAT_NUMBER_OF_QUEUES]
  refine ⟨_, _, heq, rfl, rfl, e1, e2, rfl, rfl, ?_⟩
  intro hmax
  show 1 ≤ (if _ then _ else _) ∧ (if _ then _ else _) ≤ _ ∧
    1 ≤ (if _ then _ else _) ∧ (if _ then _ else _) ≤ _
  rw [e1, e2]
  split_ifs <;> omega

/-- What Get Features / Number of Queues computes when both counts are non-zero:
`cdw0 = (num_squeues & 0xFFFF) | ((num_cqueues & 0xFFFF) << 16)`, the value Set Features /
Number of Queues computes from the counts it has stored; the state is unchanged. -/
theorem get_number_of_queues (sc : pci_nvme_softc) (command : nvme_command)
    (compl : nvme_completion) (hf : command.cdw10 % 16 = NVME_FEAT_NUMBER_OF_QUEUES)
    (hs : sc.num_squeues ≠ 0) (hc : sc.num_cqueues ≠ 0) :
    nvme_opc_get_features sc command compl = .ok
      (sc, set_status
        { compl with
          cdw0 := ((sc.num_squeues % 65536) ||| ((sc.num_cqueues % 65536) * 65536)) % 2 ^ 32 }
        NVME_SCT_GENERIC NVME_SC_SUCCESS, 1) := by
  have hf7 : command.cdw10 % 16 = 7 := hf
  simp [nvme_opc_get_features, hf7, hs, hc, NVME_FEAT_ARBITRATION, NVME_FEAT_POWER_MANAGEMENT,
    NVME_FEAT_LBA_RANGE_TYPE, NVME_FEAT_TEMPERATURE_THRESHOLD, NVME_FEAT_ERROR_RECOVERY,
    NVME_FEAT_VOLATILE_WRITE_CACHE, NVME_FEAT_NUMBER_OF_QUEUES]

/-- C18: evaluation at the failing input.  With the configuration `ram=1,maxq=4`
`pci_nvme_parse_opts` returns 0 and leaves `max_queues = 4` with
`num_squeues = num_cqueues = 16`: the two counts are set from the default before the
options are read.  `pci_nvme_init` then runs `pci_nvme_reset` on the unallocated queue
arrays, which does not set the counts to `max_queues` and initialises the mutexes of
`compl_queues[0 .. 16]` in an array of 5 elements: device creation leaves the array. -/
theorem init_queue_counts_exceed_max :
    (∃ s, pci_nvme_parse_opts demo_host (zero_softc demo_host demo_ctx)
        [nvme_opt.ram 1, nvme_opt.maxq 4] = .ok (0, s) ∧
      s.max_queues = 4 ∧ s.num_squeues = 16 ∧ s.num_cqueues = 16 ∧
      s.submit_queues = [] ∧ s.compl_queues = []) ∧
    pci_nvme_init demo_host demo_ctx [nvme_opt.ram 1, nvme_opt.maxq 4] =
      .error .outOfBounds :=
  ⟨⟨_, rfl, rfl, rfl, rfl, rfl, rfl⟩, rfl⟩

/-! ### Identify: active namespace list -/

/-- C21: evaluation at the failing input.  On the example device whose guest page at
0x300000 holds 0xFF in entry 2 of the list, Identify with CNS 0x02 answers Generic /
Success and stores 1 in entry 0 and 0 in entry 1, but entry 2 still holds 0xFF: only the
first two of the 1024 entries are written. -/
theorem identify_ns_list_keeps_stale_entries :
    ∃ sc1 c, nvme_opc_identify demo_stale_page demo_identify_nslist zero_completion =
        .ok (sc1, c, 1) ∧
      c.status.sct = NVME_SCT_GENERIC ∧ c.status.sc = NVME_SC_SUCCESS ∧
      read32 sc1.ctx.byte 0x300000 = 1 ∧
      read32 sc1.ctx.byte (0x300000 + 4 * 1) = 0 ∧
      read32 demo_stale_page.ctx.byte (0x300000 + 4 * 2) = 0xFF ∧
      read32 sc1.ctx.byte (0x300000 + 4 * 2) = 0xFF :=
  ⟨_, _, rfl, rfl, rfl, rfl, rfl, rfl, rfl⟩

/-! ### BAR 0 writes: access size and doorbells -/

/-- C26, counterexample to the claim as worded.  On the example device an 8-byte write
of the value 3 at the offset of the head doorbell of completion queue 1
(`doorbell_base + 12`) is carried out: it changes `compl_queues[1].head` from 0 to 3. -/
theorem doorbell_write_of_any_size :
    ∃ s, pci_nvme_write_bar_0 0 demo_io (NVME_DOORBELL_OFFSET + 12) 8 3 = .ok s ∧
      demo_io.compl_queues[1]? = some demo_cq1 ∧ demo_cq1.head = 0 ∧
      s.compl_queues[1]? = some { demo_cq1 with head := 3 } :=
  ⟨_, rfl, rfl, rfl, rfl⟩

/-- C26, amended: a BAR0 write below the doorbell base whose access size is not 4 bytes
returns the device state as it was, and so does a 4-byte write to any of CAP (low and
high half), VS, INTMS, INTMC, CSTS and NSSR; a write at or above the doorbell base is
treated the same whatever its access size. -/
theorem invalid_size_write_ignored (fuel : Nat) (sc : pci_nvme_softc)
    (offset size value : Nat) :
    (offset < NVME_DOORBELL_OFFSET → size ≠ 4 →
      pci_nvme_write_bar_0 fuel sc offset size value = .ok sc) ∧
    (size = 4 →
      (offset = NVME_CR_CAP_LOW ∨ offset = NVME_CR_CAP_HI ∨ offset = NVME_CR_VS ∨
        offset = NVME_CR_INTMS ∨ offset = NVME_CR_INTMC ∨ offset = NVME_CR_CSTS ∨
        offset = NVME_CR_NSSR) →
      pci_nvme_write_bar_0 fuel sc offset size value = .ok sc) ∧
    (offset ≥ NVME_DOORBELL_OFFSET →
      pci_nvme_write_bar_0 fuel sc offset size value =
        pci_nvme_write_bar_0 fuel sc offset 4 value) := by
  refine ⟨?_, ?_, ?_⟩
  · intro hoff hsz
    have h1 : ¬ (offset ≥ NVME_DOORBELL_OFFSET) := by omega
    simp only [pci_nvme_write_bar_0, h1, hsz, if_false, ne_eq, not_false_eq_true, if_true]
  · intro hsz hreg
    subst hsz
    rcases hreg with h | h | h | h | h | h | h <;> subst h <;>
      simp [pci_nvme_write_bar_0, NVME_DOORBELL_OFFSET, NVME_CR_CAP_LOW, NVME_CR_CAP_HI,
        NVME_CR_VS, NVME_CR_INTMS, NVME_CR_INTMC, NVME_CR_CC, NVME_CR_CSTS, NVME_CR_NSSR]
  · intro hoff
    simp only [pci_nvme_write_bar_0, hoff, if_true]

/-- Witness for C26 (amended) on the example device: a 2-byte write to CC and a 4-byte
write to CSTS leave the state as it was. -/
theorem invalid_size_write_ignored_witness :
    pci_nvme_write_bar_0 0 demo_io NVME_CR_CC 2 0 = .ok demo_io ∧
    pci_nvme_write_bar_0 0 demo_io NVME_CR_CSTS 4 0 = .ok demo_io :=
  ⟨(invalid_size_write_ignored 0 demo_io NVME_CR_CC 2 0).1 (by decide) (by decide),
   (invalid_size_write_ignored 0 demo_io NVME_CR_CSTS 4 0).2.1 rfl
     (Or.inr (Or.inr (Or.inr (Or.inr (Or.inr (Or.inl rfl))))))⟩

/-- C27: doorbell decoding and bounds.  On a device whose queue arrays have their
`max_queues + 1` elements (with `(max_queues + 1) * 8` inside 32 bits and
`num_cqueues ≤ max_queues`), a BAR0 write at `doorbell_base + d` returns the state as it
was when `d > 8 * (max_queues + 1) - 4`; otherwise `d / 8 ≤ max_queues` and the write is
the doorbell of queue `d / 8`, the SQ tail doorbell when `d mod 8 < 4` and the CQ head
doorbell otherwise; and a CQ head write for `d / 8 ≤ num_cqueues` returns the state with
`compl_queues[d / 8].head` set to the low 16 bits of the value and nothing else
changed. -/
theorem doorbell_decoding (fuel : Nat) (sc : pci_nvme_softc) (d size value : Nat)
    (hmq : (sc.max_queues + 1) * 8 < 2 ^ 32)
    (hlen : sc.compl_queues.length = sc.max_queues + 1)
    (hnum : sc.num_cqueues ≤ sc.max_queues) :
    (d > 8 * (sc.max_queues + 1) - 4 →
      pci_nvme_write_bar_0 fuel sc (NVME_DOORBELL_OFFSET + d) size value = .ok sc) ∧
    (d ≤ 8 * (sc.max_queues + 1) - 4 →
      d / 8 ≤ sc.max_queues ∧
      pci_nvme_write_bar_0 fuel sc (NVME_DOORBELL_OFFSET + d) size value =
        pci_nvme_handle_doorbell fuel sc (d / 8) (decide (d % 8 < 4)) value) ∧
    (d ≤ 8 * (sc.max_queues + 1) - 4 → ¬ (d % 8 < 4) → d / 8 ≤ sc.num_cqueues →
      ∃ cq, sc.compl_queues[d / 8]? = some cq ∧
        pci_nvme_write_bar_0 fuel sc (NVME_DOORBELL_OFFSET + d) size value = .ok
          { sc with
            compl_queues := sc.compl_queues.set (d / 8) { cq with head := value % 65536 } }) := by
  have hge : NVME_DOORBELL_OFFSET + d ≥ NVME_DOORBELL_OFFSET := by omega
  have hsub : NVME_DOORBELL_OFFSET + d - NVME_DOORBELL_OFFSET = d := by omega
  have hbound : ((sc.max_queues + 1) * 8 + 2 ^ 32 - 4) % 2 ^ 32 = 8 * (sc.max_queues + 1) - 4 := by
    omega
  have hbell : d ≤ 8 * (sc.max_queues + 1) - 4 →
      pci_nvme_write_bar_0 fuel sc (NVME_DOORBELL_OFFSET + d) size value =
        pci_nvme_handle_doorbell fuel sc (d / 8) (decide (d % 8 < 4)) value := by
    intro hd
    have hng : ¬ (d > 8 * (sc.max_queues + 1) - 4) := by omega
    simp only [pci_nvme_write_bar_0, hge, if_true, hsub, hbound, hng, if_false]
  refine ⟨?_, ?_, ?_⟩
  · intro hd
    simp only [pci_nvme_write_bar_0, hge, if_true, hsub, hbound, hd]
  · intro hd
    exact ⟨by omega, hbell hd⟩
  · intro hd hcq hidx
    have hlt : d / 8 < sc.compl_queues.length := by omega
    have hget : sc.compl_queues[d / 8]? = some (sc.compl_queues.get ⟨d / 8, hlt⟩) :=
      List.getElem?_eq_getElem hlt
    have hng : ¬ (d / 8 > sc.num_cqueues) := by omega
    refine ⟨_, hget, ?_⟩
    rw [hbell hd]
    simp only [pci_nvme_handle_doorbell, hcq, decide_False, Bool.false_eq_true, if_false, hng,
      hget]

/-- Witness for C27 on the example device: a write of 0x10003 at `doorbell_base + 12`
sets the head of completion queue 1 to 3. -/
theorem doorbell_decoding_witness :
    ∃ cq, demo_io.compl_queues[12 / 8]? = some cq ∧
      pci_nvme_write_bar_0 0 demo_io (NVME_DOORBELL_OFFSET + 12) 4 0x10003 = .ok
        { demo_io with
          compl_queues := demo_io.compl_queues.set (12 / 8) { cq with head := 0x10003 % 65536 } } :=
  (doorbell_decoding 0 demo_io 12 4 0x10003 (by decide) (by decide) (by decide)).2.2
    (by decide) (by decide) (by decide)

/-- An SQ tail doorbell for a queue index other than 0 that is above `num_squeues`
(inside the array) returns after the tail has been stored: the state is the given one
with `submit_queues[idx].tail` set to the low 16 bits of the value. -/
theorem sq_doorbell_above_num_squeues (fuel : Nat) (sc : pci_nvme_softc) (idx value : Nat)
    (sq : nvme_submission_queue) (hsq : sc.submit_queues[idx]? = some sq)
    (h0 : idx ≠ 0) (hidx : idx > sc.num_squeues) :
    pci_nvme_handle_doorbell fuel sc idx true value = .ok
      { sc with submit_queues := sc.submit_queues.set idx { sq with tail := value % 65536 } } := by
  simp only [pci_nvme_handle_doorbell, if_true, hsq, h0, if_false, hidx]

/-- C28: evaluation at the failing input.  On the example device with
`num_squeues = num_cqueues = 2` and `max_queues = 4`, a write of 5 to the SQ tail doorbell
of queue 3 (`doorbell_base + 24`) returns with `submit_queues[3].tail` changed from 0 to
5, whereas the same write to the CQ head doorbell of queue 3 (`doorbell_base + 28`)
leaves the state as it was. -/
theorem sq_doorbell_stores_tail_out_of_range :
    demo_nq2.num_squeues < 3 ∧ 3 ≤ demo_nq2.max_queues ∧
    (∃ s, pci_nvme_write_bar_0 0 demo_nq2 (NVME_DOORBELL_OFFSET + 24) 4 5 = .ok s ∧
      demo_nq2.submit_queues[3]? = some zero_sq ∧ zero_sq.tail = 0 ∧
      s.submit_queues[3]? = some { zero_sq with tail := 5 }) ∧
    pci_nvme_write_bar_0 0 demo_nq2 (NVME_DOORBELL_OFFSET + 28) 4 5 = .ok demo_nq2 :=
  ⟨by decide, by decide, ⟨_, rfl, rfl, rfl, rfl⟩, rfl⟩

/-! ### Namespace size -/

/-- The sector-size loop of `pci_nvme_parse_opts` on the three sector sizes the `sectsz`
option accepts. -/
theorem sectsz_bits_loop_pow (x k : Nat) (hx : x = 512 ∨ x = 4096 ∨ x = 8192)
    (h : sectsz_bits_loop 23 9 x = .ok k) : 2 ^ k = x := by
  rcases hx with hx | hx | hx <;> subst hx
  · have : sectsz_bits_loop 23 9 512 = .ok 9 := rfl
    rw [this] at h
    injection h with h
    subst h
    decide
  · have : sectsz_bits_loop 23 9 4096 = .ok 12 := rfl
    rw [this] at h
    injection h with h
    subst h
    decide
  · have : sectsz_bits_loop 23 9 8192 = .ok 13 := rfl
    rw [this] at h
    injection h with h
    subst h
    decide

/-- After a successful `pci_nvme_parse_opts` the store's `sectsz_bits` is the result of
the sector-size loop on its `sectsz`. -/
theorem parse_opts_sectsz_bits (host : host_services) (sc0 s : pci_nvme_softc)
    (opts : List nvme_opt) (h : pci_nvme_parse_opts host sc0 opts = .ok (0, s)) :
    sectsz_bits_loop 23 9 s.nvstore.sectsz = .ok s.nvstore.sectsz_bits := by
  unfold pci_nvme_parse_opts at h
  simp only at h
  split at h
  · simp at h
  · split at h
    · simp at h
    · split at h
      · simp at h
      · rename_i bits hbits
        split at h
        · simp at h
        · split at h
          · simp at h
          · split at h
            · simp at h
            · injection h with h
              injection h with _ h
              subst h
              exact hbits

/-- C22: namespace size.  For every backing store with `sectsz > 0` (and `sectsz_bits`
inside the 8-bit `lbads` field) `pci_nvme_init_nsdata` returns and sets
`NSZE = floor(nvstore.size / nvstore.sectsz)`, `NCAP = NUSE = NSZE` and
`lbaf[0].lbads = sectsz_bits`, leaving guest memory alone, and an Identify Namespace
(CNS 0x00) command into a mapped buffer then returns a structure with that NSZE; and when
`pci_nvme_parse_opts` succeeds with a sector size of 512, 4096 or 8192, the `sectsz_bits`
it has computed satisfies `2 ^ sectsz_bits = sectsz`. -/
theorem namespace_size (sc : pci_nvme_softc) (hs : sc.nvstore.sectsz > 0)
    (hbits : sc.nvstore.sectsz_bits < 256) :
    (∃ sc1, pci_nvme_init_nsdata sc = .ok sc1 ∧
      sc1.nsdata.nsze = sc.nvstore.size / sc.nvstore.sectsz ∧
      sc1.nsdata.ncap = sc1.nsdata.nsze ∧ sc1.nsdata.nuse = sc1.nsdata.nsze ∧
      sc1.nsdata.lbaf0_lbads = sc.nvstore.sectsz_bits ∧
      sc1.ctx = sc.ctx ∧
      ∀ (command : nvme_command) (compl : nvme_completion) (dest : Nat),
        command.cdw10 % 256 = 0x00 →
        sc1.ctx.vm_map_gpa command.prp1 SIZEOF_IDENTIFY_DATA = some dest →
        ∃ sc2 c d, nvme_opc_identify sc1 command compl = .ok (sc2, c, 1) ∧
          c.status.sct = NVME_SCT_GENERIC ∧ c.status.sc = NVME_SC_SUCCESS ∧
          sc2.ctx.id_ns dest = some d ∧
          d.nsze = sc.nvstore.size / sc.nvstore.sectsz ∧ d.ncap = d.nsze ∧ d.nuse = d.nsze) ∧
    (∀ (host : host_services) (sc0 s : pci_nvme_softc) (opts : List nvme_opt),
      pci_nvme_parse_opts host sc0 opts = .ok (0, s) →
      (s.nvstore.sectsz = 512 ∨ s.nvstore.sectsz = 4096 ∨ s.nvstore.sectsz = 8192) →
      2 ^ s.nvstore.sectsz_bits = s.nvstore.sectsz) := by
  have hne : ¬ (sc.nvstore.sectsz = 0) := by omega
  obtain ⟨nd, hnd⟩ : ∃ nd : nvme_namespace_data, nd =
      { sc.nsdata with
        nsze := sc.nvstore.size / sc.nvstore.sectsz
        ncap := sc.nvstore.size / sc.nvstore.sectsz
        nuse := sc.nvstore.size / sc.nvstore.sectsz
        nlbaf := 1, lbaf0_ms := 0
        lbaf0_lbads := sc.nvstore.sectsz_bits % 256, lbaf0_rp := 0, flbas_format := 0 } :=
    ⟨_, rfl⟩
  have hinit : pci_nvme_init_nsdata sc = .ok { sc with nsdata := nd } := by
    simp only [pci_nvme_init_nsdata, hne, if_false, hnd]
  have hnsze : nd.nsze = sc.nvstore.size / sc.nvstore.sectsz := by rw [hnd]
  have hncap : nd.ncap = nd.nsze := by rw [hnd]
  have hnuse : nd.nuse = nd.nsze := by rw [hnd]
  have hlb : nd.lbaf0_lbads = sc.nvstore.sectsz_bits := by
    rw [hnd]
    exact Nat.mod_eq_of_lt hbits
  refine ⟨⟨_, hinit, hnsze, hncap, hnuse, hlb, rfl, ?_⟩, ?_⟩
  · intro command compl dest hcns hmap
    have hmap1 : sc.ctx.vm_map_gpa command.prp1 SIZEOF_IDENTIFY_DATA = some dest := hmap
    have heq : nvme_opc_identify { sc with nsdata := nd } command compl = .ok
        ({ sc with
           nsdata := nd
           ctx := { sc.ctx with id_ns := Function.update sc.ctx.id_ns dest (some nd) } },
         set_status compl NVME_SCT_GENERIC NVME_SC_SUCCESS, 1) := by
      simp only [nvme_opc_identify, hcns, if_true, hmap1]
    exact ⟨_, _, nd, heq, rfl, rfl, by simp only [Function.update_same], hnsze, hncap, hnuse⟩
  · intro host sc0 s opts hok hsz
    exact sectsz_bits_loop_pow _ _ hsz (parse_opts_sectsz_bits host sc0 s opts hok)

/-- Witness for C22: the example device (1 MiB store, 4096-byte sectors) gets
`NSZE = 256`, which Identify Namespace returns, and the configuration `ram=1,sectsz=512`
is parsed with `sectsz = 512` and `sectsz_bits = 9`. -/
theorem namespace_size_witness :
    (∃ sc1 sc2 c d, pci_nvme_init_nsdata demo_io = .ok sc1 ∧
      sc1.nsdata.nsze = 0x100000 / 4096 ∧ sc1.nsdata.lbaf0_lbads = 12 ∧
      nvme_opc_identify sc1 demo_identify_ns zero_completion = .ok (sc2, c, 1) ∧
      sc2.ctx.id_ns 0x300000 = some d ∧ d.nsze = 0x100000 / 4096) ∧
    (∃ s, pci_nvme_parse_opts demo_host (zero_softc demo_host demo_ctx)
        [nvme_opt.ram 1, nvme_opt.sectsz 512] = .ok (0, s) ∧
      s.nvstore.sectsz = 512 ∧ 2 ^ s.nvstore.sectsz_bits = s.nvstore.sectsz) := by
  have h := namespace_size demo_io (by decide) (by decide)
  obtain ⟨sc1, h1, h2, _, _, h5, hctx, h6⟩ := h.1
  obtain ⟨sc2, c, d, k1, _, _, k4, k5, _⟩ := h6 demo_identify_ns zero_completion 0x300000 rfl
    (by rw [hctx]; rfl)
  exact ⟨⟨sc1, sc2, c, d, h1, h2, h5, k1, k4, k5⟩,
    ⟨_, rfl, rfl, h.2 demo_host (zero_softc demo_host demo_ctx) _
      [nvme_opt.ram 1, nvme_opt.sectsz 512] rfl (Or.inl rfl)⟩⟩

/-! ### Admin queue address registers -/

/-- The low-half update of a 64-bit address register,
`(reg & 0xFFFFFFFF00000000) | (0xFFFFF000 & value)`, in arithmetic form. -/
theorem addr_lo_write (reg value : Nat) (hreg : reg < 2 ^ 64) :
    (reg &&& 0xFFFFFFFF00000000) ||| (0xFFFFF000 &&& value) =
      (reg / 2 ^ 32) * 2 ^ 32 + ((value % 2 ^ 32) / 2 ^ 12) * 2 ^ 12 := by
  have e1 : (0xFFFFFFFF00000000 : Nat) = (2 ^ 32 - 1) <<< 32 := by decide
  have e2 : (0xFFFFF000 : Nat) = (2 ^ 20 - 1) <<< 12 := by decide
  have e3 : (reg / 2 ^ 32) * 2 ^ 32 + ((value % 2 ^ 32) / 2 ^ 12) * 2 ^ 12 =
      2 ^ 32 * (reg >>> 32) + ((value % 2 ^ 32) >>> 12) <<< 12 := by
    rw [Nat.shiftLeft_eq, Nat.shiftRight_eq_div_pow, Nat.shiftRight_eq_div_pow]
    ring
  have hlt : ((value % 2 ^ 32) >>> 12) <<< 12 < 2 ^ 32 := by
    rw [Nat.shiftLeft_eq, Nat.shiftRight_eq_div_pow]
    omega
  rw [e3, e1, e2]
  apply Nat.eq_of_testBit_eq
  intro i
  rw [Nat.testBit_mul_pow_two_add _ hlt]
  simp only [Nat.testBit_or, Nat.testBit_and, Nat.testBit_shiftLeft, Nat.testBit_two_pow_sub_one,
    Nat.testBit_shiftRight, Nat.testBit_mod_two_pow]
  by_cases h12 : i < 12
  · have h32 : i < 32 := by omega
    have : ¬ (i ≥ 32) := by omega
    have : ¬ (i ≥ 12) := by omega
    simp [*]
  · by_cases h32 : i < 32
    · have : ¬ (i ≥ 32) := by omega
      have : i ≥ 12 := by omega
      have : i - 12 < 20 := by omega
      have : 12 + (i - 12) = i := by omega
      simp [*]
    · have : i ≥ 32 := by omega
      have : i ≥ 12 := by omega
      have : ¬ (i - 12 < 20) := by omega
      have : 32 + (i - 32) = i := by omega
      by_cases h64 : i < 64
      · have : i - 32 < 32 := by omega
        simp [*]
      · have hbig : reg < 2 ^ i :=
          lt_of_lt_of_le hreg (Nat.pow_le_pow_right (by decide) (by omega))
        have hz : reg.testBit i = false := Nat.testBit_lt_two_pow hbig
        have : ¬ (i - 32 < 32) := by omega
        simp [*]

/-- The high-half update of a 64-bit address register,
`(reg & 0x00000000FFFFFFFF) | (value << 32)` in 64 bits, in arithmetic form. -/
theorem addr_hi_write (reg value : Nat) :
    (reg &&& 0x00000000FFFFFFFF) ||| ((value * 2 ^ 32) % 2 ^ 64) =
      (value % 2 ^ 32) * 2 ^ 32 + reg % 2 ^ 32 := by
  have e1 : (0x00000000FFFFFFFF : Nat) = 2 ^ 32 - 1 := by decide
  have e2 : (value * 2 ^ 32) % 2 ^ 64 = 2 ^ 32 * (value % 2 ^ 32) := by omega
  have hlt : reg % 2 ^ 32 < 2 ^ 32 := Nat.mod_lt _ (by decide)
  rw [e1, Nat.and_pow_two_sub_one_eq_mod, e2, Nat.or_comm, Nat.mul_comm (value % 2 ^ 32)]
  exact (Nat.mul_add_lt_is_or hlt _).symm

/-- The value `(hi << 32) | (lo & 0xFFFFF000)` of two 32-bit halves, in arithmetic
form. -/
theorem addr_of_halves (lo hi : Nat) (hlo : lo < 2 ^ 32) :
    (hi * 2 ^ 32) ||| (lo &&& 0xFFFFF000) = hi * 2 ^ 32 + (lo / 2 ^ 12) * 2 ^ 12 := by
  have h := addr_lo_write 0 lo (by decide)
  have e0 : (0 &&& 0xFFFFFFFF00000000) ||| (0xFFFFF000 &&& lo) = lo &&& 0xFFFFF000 := by
    rw [Nat.zero_and, Nat.zero_or, Nat.and_comm]
  rw [e0, Nat.mod_eq_of_lt hlo] at h
  have h2 : lo &&& 0xFFFFF000 = (lo / 2 ^ 12) * 2 ^ 12 := by
    rw [h]
    simp
  have hlt : (lo / 2 ^ 12) * 2 ^ 12 < 2 ^ 32 := by omega
  rw [h2, Nat.mul_comm hi]
  exact (Nat.mul_add_lt_is_or hlt _).symm
/-- The four address-register cases of `pci_nvme_write_bar_0` for a 4-byte write. -/
theorem write_addr_regs (fuel : Nat) (sc : pci_nvme_softc) (value : Nat) :
    pci_nvme_write_bar_0 fuel sc NVME_CR_ASQ_LOW 4 value = .ok
      { sc with regs := { sc.regs with
          asq := (sc.regs.asq &&& 0xFFFFFFFF00000000) ||| (0xFFFFF000 &&& value) } } ∧
    pci_nvme_write_bar_0 fuel sc NVME_CR_ASQ_HI 4 value = .ok
      { sc with regs := { sc.regs with
          asq := (sc.regs.asq &&& 0x00000000FFFFFFFF) ||| ((value * 2 ^ 32) % 2 ^ 64) } } ∧
    pci_nvme_write_bar_0 fuel sc NVME_CR_ACQ_LOW 4 value = .ok
      { sc with regs := { sc.regs with
          acq := (sc.regs.acq &&& 0xFFFFFFFF00000000) ||| (0xFFFFF000 &&& value) } } ∧
    pci_nvme_write_bar_0 fuel sc NVME_CR_ACQ_HI 4 value = .ok
      { sc with regs := { sc.regs with
          acq := (sc.regs.acq &&& 0x00000000FFFFFFFF) ||| ((value * 2 ^ 32) % 2 ^ 64) } } :=
  ⟨rfl, rfl, rfl, rfl⟩

/-- C25: admin queue address registers.  For all 32-bit values `lo` and `hi` (and a
stored 64-bit register), writing `lo` to ASQ_LOW and `hi` to ASQ_HI with 4-byte writes,
in either order, leaves `ASQ = (hi << 32) | (lo & 0xFFFFF000)`; the write to the low half
leaves bits 63..32 as they were and the write to the high half leaves bits 31..0 as they
were.  The same holds for ACQ_LOW / ACQ_HI and the ACQ register. -/
theorem admin_queue_address_registers (fuel : Nat) (sc : pci_nvme_softc) (lo hi : Nat)
    (hlo : lo < 2 ^ 32) (hhi : hi < 2 ^ 32)
    (hasq : sc.regs.asq < 2 ^ 64) (hacq : sc.regs.acq < 2 ^ 64) :
    (∃ s1 s2, pci_nvme_write_bar_0 fuel sc NVME_CR_ASQ_LOW 4 lo = .ok s1 ∧
      pci_nvme_write_bar_0 fuel s1 NVME_CR_ASQ_HI 4 hi = .ok s2 ∧
      s1.regs.asq / 2 ^ 32 = sc.regs.asq / 2 ^ 32 ∧
      s2.regs.asq % 2 ^ 32 = s1.regs.asq % 2 ^ 32 ∧
      s2.regs.asq = (hi * 2 ^ 32) ||| (lo &&& 0xFFFFF000)) ∧
    (∃ s1 s2, pci_nvme_write_bar_0 fuel sc NVME_CR_ASQ_HI 4 hi = .ok s1 ∧
      pci_nvme_write_bar_0 fuel s1 NVME_CR_ASQ_LOW 4 lo = .ok s2 ∧
      s1.regs.asq % 2 ^ 32 = sc.regs.asq % 2 ^ 32 ∧
      s2.regs.asq / 2 ^ 32 = s1.regs.asq / 2 ^ 32 ∧
      s2.regs.asq = (hi * 2 ^ 32) ||| (lo &&& 0xFFFFF000)) ∧
    (∃ s1 s2, pci_nvme_write_bar_0 fuel sc NVME_CR_ACQ_LOW 4 lo = .ok s1 ∧
      pci_nvme_write_bar_0 fuel s1 NVME_CR_ACQ_HI 4 hi = .ok s2 ∧
      s1.regs.acq / 2 ^ 32 = sc.regs.acq / 2 ^ 32 ∧
      s2.regs.acq % 2 ^ 32 = s1.regs.acq % 2 ^ 32 ∧
      s2.regs.acq = (hi * 2 ^ 32) ||| (lo &&& 0xFFFFF000)) ∧
    (∃ s1 s2, pci_nvme_write_bar_0 fuel sc NVME_CR_ACQ_HI 4 hi = .ok s1 ∧
      pci_nvme_write_bar_0 fuel s1 NVME_CR_ACQ_LOW 4 lo = .ok s2 ∧
      s1.regs.acq % 2 ^ 32 = sc.regs.acq % 2 ^ 32 ∧
      s2.regs.acq / 2 ^ 32 = s1.regs.acq / 2 ^ 32 ∧
      s2.regs.acq = (hi * 2 ^ 32) ||| (lo &&& 0xFFFFF000)) := by
  have key_lh : ∀ reg : Nat, reg < 2 ^ 64 →
      ((reg &&& 0xFFFFFFFF00000000) ||| (0xFFFFF000 &&& lo)) / 2 ^ 32 = reg / 2 ^ 32 ∧
      ((((reg &&& 0xFFFFFFFF00000000) ||| (0xFFFFF000 &&& lo)) &&& 0x00000000FFFFFFFF) |||
          ((hi * 2 ^ 32) % 2 ^ 64)) % 2 ^ 32 =
        ((reg &&& 0xFFFFFFFF00000000) ||| (0xFFFFF000 &&& lo)) % 2 ^ 32 ∧
      (((reg &&& 0xFFFFFFFF00000000) ||| (0xFFFFF000 &&& lo)) &&& 0x00000000FFFFFFFF) |||
          ((hi * 2 ^ 32) % 2 ^ 64) = (hi * 2 ^ 32) ||| (lo &&& 0xFFFFF000) := by
    intro reg hreg
    rw [addr_hi_write, addr_lo_write reg lo hreg, addr_of_halves lo hi hlo]
    refine ⟨by omega, by omega, by omega⟩
  have key_hl : ∀ reg : Nat,
      ((reg &&& 0x00000000FFFFFFFF) ||| ((hi * 2 ^ 32) % 2 ^ 64)) % 2 ^ 32 = reg % 2 ^ 32 ∧
      ((((reg &&& 0x00000000FFFFFFFF) ||| ((hi * 2 ^ 32) % 2 ^ 64)) &&& 0xFFFFFFFF00000000) |||
          (0xFFFFF000 &&& lo)) / 2 ^ 32 =
        ((reg &&& 0x00000000FFFFFFFF) ||| ((hi * 2 ^ 32) % 2 ^ 64)) / 2 ^ 32 ∧
      (((reg &&& 0x00000000FFFFFFFF) ||| ((hi * 2 ^ 32) % 2 ^ 64)) &&& 0xFFFFFFFF00000000) |||
          (0xFFFFF000 &&& lo) = (hi * 2 ^ 32) ||| (lo &&& 0xFFFFF000) := by
    intro reg
    have hlt : (reg &&& 0x00000000FFFFFFFF) ||| ((hi * 2 ^ 32) % 2 ^ 64) < 2 ^ 64 := by
      rw [addr_hi_write]
      omega
    rw [addr_lo_write _ lo hlt, addr_hi_write, addr_of_halves lo hi hlo]
    refine ⟨by omega, by omega, by omega⟩
  obtain ⟨a1, a2, a3⟩ := key_lh sc.regs.asq hasq
  obtain ⟨b1, b2, b3⟩ := key_hl sc.regs.asq
  obtain ⟨c1, c2, c3⟩ := key_lh sc.regs.acq hacq
  obtain ⟨d1, d2, d3⟩ := key_hl sc.regs.acq
  exact ⟨⟨_, _, (write_addr_regs fuel sc lo).1, (write_addr_regs fuel _ hi).2.1, a1, a2, a3⟩,
    ⟨_, _, (write_addr_regs fuel sc hi).2.1, (write_addr_regs fuel _ lo).1, b1, b2, b3⟩,
    ⟨_, _, (write_addr_regs fuel sc lo).2.2.1, (write_addr_regs fuel _ hi).2.2.2, c1, c2, c3⟩,
    ⟨_, _, (write_addr_regs fuel sc hi).2.2.2, (write_addr_regs fuel _ lo).2.2.1, d1, d2, d3⟩⟩

/-- Witness for C25 on the example device: the admin submission queue address
0x0000000200100000 written as its two halves, low half first. -/
theorem admin_queue_address_registers_witness :
    ∃ s1 s2, pci_nvme_write_bar_0 0 demo_softc NVME_CR_ASQ_LOW 4 0x00100FFF = .ok s1 ∧
      pci_nvme_write_bar_0 0 s1 NVME_CR_ASQ_HI 4 2 = .ok s2 ∧
      s1.regs.asq / 2 ^ 32 = demo_softc.regs.asq / 2 ^ 32 ∧
      s2.regs.asq % 2 ^ 32 = s1.regs.asq % 2 ^ 32 ∧
      s2.regs.asq = (2 * 2 ^ 32) ||| (0x00100FFF &&& 0xFFFFF000) :=
  (admin_queue_address_registers 0 demo_softc 0x00100FFF 2 (by decide) (by decide)
    (by decide) (by decide)).1

/-! ### CC and CSTS bit fields -/

theorem cc_css_set_en (raw v : Nat) : cc_css (cc_set_en raw v) = cc_css raw := by
  simp only [cc_css, cc_set_en, getbits, setbits, Nat.reducePow, pow_zero, pow_one]
  omega

theorem cc_css_set_css (raw v : Nat) : cc_css (cc_set_css raw v) = v % 8 := by
  simp only [cc_css, cc_set_css, getbits, setbits, Nat.reducePow, pow_zero, pow_one]
  omega

theorem cc_css_set_mps (raw v : Nat) : cc_css (cc_set_mps raw v) = cc_css raw := by
  simp only [cc_css, cc_set_mps, getbits, setbits, Nat.reducePow, pow_zero, pow_one]
  omega

theorem cc_css_set_ams (raw v : Nat) : cc_css (cc_set_ams raw v) = cc_css raw := by
  simp only [cc_css, cc_set_ams, getbits, setbits, Nat.reducePow, pow_zero, pow_one]
  omega

theorem cc_css_set_iosqes (raw v : Nat) : cc_css (cc_set_iosqes raw v) = cc_css raw := by
  simp only [cc_css, cc_set_iosqes, getbits, setbits, Nat.reducePow, pow_zero, pow_one]
  omega

theorem cc_css_set_iocqes (raw v : Nat) : cc_css (cc_set_iocqes raw v) = cc_css raw := by
  simp only [cc_css, cc_set_iocqes, getbits, setbits, Nat.reducePow, pow_zero, pow_one]
  omega

theorem cc_mps_set_en (raw v : Nat) : cc_mps (cc_set_en raw v) = cc_mps raw := by
  simp only [cc_mps, cc_set_en, getbits, setbits, Nat.reducePow, pow_zero, pow_one]
  omega

theorem cc_mps_set_css (raw v : Nat) : cc_mps (cc_set_css raw v) = cc_mps raw := by
  simp only [cc_mps, cc_set_css, getbits, setbits, Nat.reducePow, pow_zero, pow_one]
  omega

theorem cc_mps_set_mps (raw v : Nat) : cc_mps (cc_set_mps raw v) = v % 16 := by
  simp only [cc_mps, cc_set_mps, getbits, setbits, Nat.reducePow, pow_zero, pow_one]
  omega

theorem cc_mps_set_ams (raw v : Nat) : cc_mps (cc_set_ams raw v) = cc_mps raw := by
  simp only [cc_mps, cc_set_ams, getbits, setbits, Nat.reducePow, pow_zero, pow_one]
  omega

theorem cc_mps_set_iosqes (raw v : Nat) : cc_mps (cc_set_iosqes raw v) = cc_mps raw := by
  simp only [cc_mps, cc_set_iosqes, getbits, setbits, Nat.reducePow, pow_zero, pow_one]
  omega

theorem cc_mps_set_iocqes (raw v : Nat) : cc_mps (cc_set_iocqes raw v) = cc_mps raw := by
  simp only [cc_mps, cc_set_iocqes, getbits, setbits, Nat.reducePow, pow_zero, pow_one]
  omega

theorem cc_ams_set_en (raw v : Nat) : cc_ams (cc_set_en raw v) = cc_ams raw := by
  simp only [cc_ams, cc_set_en, getbits, setbits, Nat.reducePow, pow_zero, pow_one]
  omega

theorem cc_ams_set_css (raw v : Nat) : cc_ams (cc_set_css raw v) = cc_ams raw := by
  simp only [cc_ams, cc_set_css, getbits, setbits, Nat.reducePow, pow_zero, pow_one]
  omega

theorem cc_ams_set_mps (raw v : Nat) : cc_ams (cc_set_mps raw v) = cc_ams raw := by
  simp only [cc_ams, cc_set_mps, getbits, setbits, Nat.reducePow, pow_zero, pow_one]
  omega

theorem cc_ams_set_ams (raw v : Nat) : cc_ams (cc_set_ams raw v) = v % 8 := by
  simp only [cc_ams, cc_set_ams, getbits, setbits, Nat.reducePow, pow_zero, pow_one]
  omega

theorem cc_ams_set_iosqes (raw v : Nat) : cc_ams (cc_set_iosqes raw v) = cc_ams raw := by
  simp only [cc_ams, cc_set_iosqes, getbits, setbits, Nat.reducePow, pow_zero, pow_one]
  omega

theorem cc_ams_set_iocqes (raw v : Nat) : cc_ams (cc_set_iocqes raw v) = cc_ams raw := by
  simp only [cc_ams, cc_set_iocqes, getbits, setbits, Nat.reducePow, pow_zero, pow_one]
  omega

theorem cc_iosqes_set_en (raw v : Nat) : cc_iosqes (cc_set_en raw v) = cc_iosqes raw := by
  simp only [cc_iosqes, cc_set_en, getbits, setbits, Nat.reducePow, pow_zero, pow_one]
  omega

theorem cc_iosqes_set_css (raw v : Nat) : cc_iosqes (cc_set_css raw v) = cc_iosqes raw := by
  simp only [cc_iosqes, cc_set_css, getbits, setbits, Nat.reducePow, pow_zero, pow_one]
  omega

theorem cc_iosqes_set_mps (raw v : Nat) : cc_iosqes (cc_set_mps raw v) = cc_iosqes raw := by
  simp only [cc_iosqes, cc_set_mps, getbits, setbits, Nat.reducePow, pow_zero, pow_one]
  omega

theorem cc_iosqes_set_ams (raw v : Nat) : cc_iosqes (cc_set_ams raw v) = cc_iosqes raw := by
  simp only [cc_iosqes, cc_set_ams, getbits, setbits, Nat.reducePow, pow_zero, pow_one]
  omega

theorem cc_iosqes_set_iosqes (raw v : Nat) : cc_iosqes (cc_set_iosqes raw v) = v % 16 := by
  simp only [cc_iosqes, cc_set_iosqes, getbits, setbits, Nat.reducePow, pow_zero, pow_one]
  omega

theorem cc_iosqes_set_iocqes (raw v : Nat) : cc_iosqes (cc_set_iocqes raw v) = cc_iosqes raw := by
  simp only [cc_iosqes, cc_set_iocqes, getbits, setbits, Nat.reducePow, pow_zero, pow_one]
  omega

theorem cc_iocqes_set_en (raw v : Nat) : cc_iocqes (cc_set_en raw v) = cc_iocqes raw := by
  simp only [cc_iocqes, cc_set_en, getbits, setbits, Nat.reducePow, pow_zero, pow_one]
  omega

theorem cc_iocqes_set_css (raw v : Nat) : cc_iocqes (cc_set_css raw v) = cc_iocqes raw := by
  simp only [cc_iocqes, cc_set_css, getbits, setbits, Nat.reducePow, pow_zero, pow_one]
  omega

theorem cc_iocqes_set_mps (raw v : Nat) : cc_iocqes (cc_set_mps raw v) = cc_iocqes raw := by
  simp only [cc_iocqes, cc_set_mps, getbits, setbits, Nat.reducePow, pow_zero, pow_one]
  omega

theorem cc_iocqes_set_ams (raw v : Nat) : cc_iocqes (cc_set_ams raw v) = cc_iocqes raw := by
  simp only [cc_iocqes, cc_set_ams, getbits, setbits, Nat.reducePow, pow_zero, pow_one]
  omega

theorem cc_iocqes_set_iosqes (raw v : Nat) : cc_iocqes (cc_set_iosqes raw v) = cc_iocqes raw := by
  simp only [cc_iocqes, cc_set_iosqes, getbits, setbits, Nat.reducePow, pow_zero, pow_one]
  omega

theorem cc_iocqes_set_iocqes (raw v : Nat) : cc_iocqes (cc_set_iocqes raw v) = v % 16 := by
  simp only [cc_iocqes, cc_set_iocqes, getbits, setbits, Nat.reducePow, pow_zero, pow_one]
  omega

theorem cc_en_set_iosqes (raw v : Nat) : cc_en (cc_set_iosqes raw v) = cc_en raw := by
  simp only [cc_en, cc_set_iosqes, getbits, setbits, Nat.reducePow, pow_zero, pow_one]
  omega

theorem cc_en_set_iocqes (raw v : Nat) : cc_en (cc_set_iocqes raw v) = cc_en raw := by
  simp only [cc_en, cc_set_iocqes, getbits, setbits, Nat.reducePow, pow_zero, pow_one]
  omega

theorem csts_shst_set_rdy (raw v : Nat) : csts_shst (csts_set_rdy raw v) = csts_shst raw := by
  simp only [csts_shst, csts_set_rdy, getbits, setbits, Nat.reducePow, pow_zero, pow_one]
  omega

theorem csts_shst_set_shst (raw v : Nat) : csts_shst (csts_set_shst raw v) = v % 4 := by
  simp only [csts_shst, csts_set_shst, getbits, setbits, Nat.reducePow, pow_zero, pow_one]
  omega

/-! ### CC writes: shutdown and field latching -/

/-- `pci_nvme_init_controller` on allocated queue arrays returns and leaves the registers
and the count of pending requests. -/
theorem init_controller_regs (sc : pci_nvme_softc)
    (h1 : 0 < sc.submit_queues.length) (h2 : 0 < sc.compl_queues.length) :
    ∃ s, pci_nvme_init_controller sc = .ok s ∧ s.regs = sc.regs ∧
      s.pending_ios = sc.pending_ios := by
  have e1 : sc.submit_queues[0]? = some (sc.submit_queues.get ⟨0, h1⟩) :=
    List.getElem?_eq_getElem h1
  have e2 : sc.compl_queues[0]? = some (sc.compl_queues.get ⟨0, h2⟩) :=
    List.getElem?_eq_getElem h2
  unfold pci_nvme_init_controller
  rw [e1]
  simp only
  rw [e2]
  exact ⟨_, rfl, rfl, rfl⟩

/-- The latching part of the `case NVME_CR_CC`: when the reset or enable step has
returned the state `s2`, the write returns, and the stored CC and CSTS are those of `s2`
with the fields of the written value latched and RDY updated. -/
theorem write_cc_en_latch (s s2 : pci_nvme_softc) (ccreg : Nat)
    (hr : (if cc_en ccreg ≠ cc_en s.regs.cc then
        if cc_en ccreg = 0 then pci_nvme_reset s else pci_nvme_init_controller s
      else Except.ok s) = .ok s2) :
    ∃ s3, write_cc_en s ccreg = .ok s3 ∧
      s3.regs.cc =
        (if cc_en ccreg = 0 then
          cc_set_css (cc_set_mps (cc_set_ams (cc_set_ams
            (cc_set_en (cc_set_iosqes (cc_set_iocqes s2.regs.cc (cc_iocqes ccreg))
              (cc_iosqes ccreg)) (cc_en ccreg))
            (cc_ams ccreg)) (cc_ams ccreg)) (cc_mps ccreg)) (cc_css ccreg)
        else
          cc_set_en (cc_set_iosqes (cc_set_iocqes s2.regs.cc (cc_iocqes ccreg))
            (cc_iosqes ccreg)) (cc_en ccreg)) ∧
      s3.regs.csts =
        (if cc_en ccreg = 0 then csts_set_rdy s2.regs.csts 0
        else if s2.pending_ios = 0 then csts_set_rdy s2.regs.csts 1 else s2.regs.csts) := by
  unfold write_cc_en
  simp only [hr]
  split_ifs <;> exact ⟨_, rfl, rfl, rfl⟩

/-- The `case NVME_CR_CC` of a 4-byte write on allocated queue arrays: the write returns,
and the stored CC and CSTS afterwards are obtained by latching from `cc0`, `csts0`, which
are both 0 after the reset (EN going from 1 to 0) and otherwise the stored CC and the
stored CSTS after the shutdown step. -/
theorem write_cc_regs (fuel : Nat) (sc : pci_nvme_softc) (value : Nat)
    (hlen1 : sc.submit_queues.length = sc.max_queues + 1)
    (hlen2 : sc.compl_queues.length = sc.max_queues + 1) :
    ∃ s cc0 csts0, pci_nvme_write_bar_0 fuel sc NVME_CR_CC 4 value = .ok s ∧
      (cc0 = if cc_en (value % 2 ^ 32) ≠ cc_en sc.regs.cc ∧ cc_en (value % 2 ^ 32) = 0
        then 0 else sc.regs.cc) ∧
      (csts0 = if cc_en (value % 2 ^ 32) ≠ cc_en sc.regs.cc ∧ cc_en (value % 2 ^ 32) = 0
        then 0
        else if cc_shn (value % 2 ^ 32) ≠ 0 then csts_set_shst sc.regs.csts NVME_SHST_COMPLETE
        else sc.regs.csts) ∧
      s.regs.cc =
        (if cc_en (value % 2 ^ 32) = 0 then
          cc_set_css (cc_set_mps (cc_set_ams (cc_set_ams
            (cc_set_en (cc_set_iosqes (cc_set_iocqes cc0 (cc_iocqes (value % 2 ^ 32)))
              (cc_iosqes (value % 2 ^ 32))) (cc_en (value % 2 ^ 32)))
            (cc_ams (value % 2 ^ 32))) (cc_ams (value % 2 ^ 32))) (cc_mps (value % 2 ^ 32)))
            (cc_css (value % 2 ^ 32))
        else
          cc_set_en (cc_set_iosqes (cc_set_iocqes cc0 (cc_iocqes (value % 2 ^ 32)))
            (cc_iosqes (value % 2 ^ 32))) (cc_en (value % 2 ^ 32))) ∧
      s.regs.csts =
        (if cc_en (value % 2 ^ 32) = 0 then csts_set_rdy csts0 0
        else if sc.pending_ios = 0 then csts_set_rdy csts0 1 else csts0) := by
  have hoff : pci_nvme_write_bar_0 fuel sc NVME_CR_CC 4 value = write_cc sc value := by
    simp [pci_nvme_write_bar_0, NVME_CR_CC, NVME_DOORBELL_OFFSET, NVME_CR_CAP_LOW,
      NVME_CR_CAP_HI, NVME_CR_VS, NVME_CR_INTMS, NVME_CR_INTMC]
  rw [hoff]
  obtain ⟨s0, hs0⟩ : ∃ s0, s0 = write_cc_shn sc (value % 2 ^ 32) := ⟨_, rfl⟩
  have hs0cc : s0.regs.cc = sc.regs.cc := by
    rw [hs0]; unfold write_cc_shn; split <;> rfl
  have hs0csts : s0.regs.csts = if cc_shn (value % 2 ^ 32) ≠ 0
      then csts_set_shst sc.regs.csts NVME_SHST_COMPLETE else sc.regs.csts := by
    rw [hs0]; unfold write_cc_shn; split <;> rfl
  have hs0p : s0.pending_ios = sc.pending_ios := by
    rw [hs0]; unfold write_cc_shn; split <;> rfl
  have hs0l1 : s0.submit_queues.length = s0.max_queues + 1 := by
    rw [hs0]; unfold write_cc_shn; split <;> exact hlen1
  have hs0l2 : s0.compl_queues.length = s0.max_queues + 1 := by
    rw [hs0]; unfold write_cc_shn; split <;> exact hlen2
  show ∃ s cc0 csts0, write_cc_en (write_cc_shn sc (value % 2 ^ 32)) (value % 2 ^ 32) = .ok s ∧ _
  rw [← hs0]
  have hstep : ∃ s2, (if cc_en (value % 2 ^ 32) ≠ cc_en s0.regs.cc then
        if cc_en (value % 2 ^ 32) = 0 then pci_nvme_reset s0 else pci_nvme_init_controller s0
      else Except.ok s0) = .ok s2 ∧
      s2.regs.cc = (if cc_en (value % 2 ^ 32) ≠ cc_en sc.regs.cc ∧ cc_en (value % 2 ^ 32) = 0
        then 0 else sc.regs.cc) ∧
      s2.regs.csts = (if cc_en (value % 2 ^ 32) ≠ cc_en sc.regs.cc ∧ cc_en (value % 2 ^ 32) = 0
        then 0
        else if cc_shn (value % 2 ^ 32) ≠ 0 then csts_set_shst sc.regs.csts NVME_SHST_COMPLETE
        else sc.regs.csts) ∧
      s2.pending_ios = sc.pending_ios := by
    rw [← hs0cc, ← hs0csts]
    by_cases hdiff : cc_en (value % 2 ^ 32) ≠ cc_en s0.regs.cc
    · by_cases hen : cc_en (value % 2 ^ 32) = 0
      · obtain ⟨s2, hr, hcc, hcsts, _, _, _, _, _, _, _, _, hp, _⟩ :=
          pci_nvme_reset_spec s0 hs0l1 hs0l2
        refine ⟨s2, ?_, ?_, ?_, hp.trans hs0p⟩
        · rw [if_pos hdiff, if_pos hen]; exact hr
        · rw [if_pos ⟨hdiff, hen⟩]; exact hcc
        · rw [if_pos ⟨hdiff, hen⟩]; exact hcsts
      · obtain ⟨s2, hr, hregs, hp⟩ := init_controller_regs s0 (by omega) (by omega)
        refine ⟨s2, ?_, ?_, ?_, hp.trans hs0p⟩
        · rw [if_pos hdiff, if_neg hen]; exact hr
        · rw [if_neg (fun h => hen h.2), hregs]
        · rw [if_neg (fun h => hen h.2), hregs]
    · refine ⟨s0, ?_, ?_, ?_, hs0p⟩
      · rw [if_neg hdiff]
      · rw [if_neg (fun h => hdiff h.1)]
      · rw [if_neg (fun h => hdiff h.1)]
  obtain ⟨s2, hr, hcc, hcsts, hp⟩ := hstep
  obtain ⟨s3, hw, h3cc, h3csts⟩ := write_cc_en_latch s0 s2 (value % 2 ^ 32) hr
  refine ⟨s3, s2.regs.cc, s2.regs.csts, hw, hcc, hcsts, h3cc, ?_⟩
  rw [h3csts, hp]
theorem cc_field_ranges (x : Nat) :
    cc_en x % 2 = cc_en x ∧ cc_css x % 8 = cc_css x ∧ cc_mps x % 16 = cc_mps x ∧
    cc_ams x % 8 = cc_ams x ∧ cc_iosqes x % 16 = cc_iosqes x ∧
    cc_iocqes x % 16 = cc_iocqes x := by
  simp only [cc_en, cc_css, cc_mps, cc_ams, cc_iosqes, cc_iocqes, getbits, Nat.reducePow,
    pow_zero, pow_one]
  omega

/-- C23, counterexample to the claim as worded.  On the enabled example device
(`CC = 0x00460001`, `CSTS = 1`) the 4-byte write `CC = 0x00464000`, whose SHN field is 1
and whose EN bit is 0, resets the controller: afterwards `CSTS = 0`, so CSTS.SHST is 0 and
not COMPLETE. -/
theorem shutdown_with_disable_clears_shst :
    cc_shn (0x00464000 % 2 ^ 32) ≠ 0 ∧
    ∃ s, pci_nvme_write_bar_0 0 demo_io NVME_CR_CC 4 0x00464000 = .ok s ∧
      s.regs.csts = 0 ∧ csts_shst s.regs.csts ≠ NVME_SHST_COMPLETE :=
  ⟨by decide, _, rfl, rfl, by decide⟩

/-- C23, amended: after a 4-byte write to CC whose SHN field is non-zero (on a device with
its queue arrays allocated) CSTS.SHST equals COMPLETE, unless the write takes EN from 1
to 0; such a write resets the controller and leaves CSTS = 0, so CSTS.SHST = 0. -/
theorem shutdown_acknowledged (fuel : Nat) (sc : pci_nvme_softc) (value : Nat)
    (hlen1 : sc.submit_queues.length = sc.max_queues + 1)
    (hlen2 : sc.compl_queues.length = sc.max_queues + 1)
    (hshn : cc_shn (value % 2 ^ 32) ≠ 0) :
    ∃ s, pci_nvme_write_bar_0 fuel sc NVME_CR_CC 4 value = .ok s ∧
      (¬ (cc_en sc.regs.cc = 1 ∧ cc_en (value % 2 ^ 32) = 0) →
        csts_shst s.regs.csts = NVME_SHST_COMPLETE) ∧
      ((cc_en sc.regs.cc = 1 ∧ cc_en (value % 2 ^ 32) = 0) →
        s.regs.csts = 0 ∧ csts_shst s.regs.csts = 0) := by
  obtain ⟨s, cc0, csts0, hw, _, hcsts0, _, hcsts⟩ := write_cc_regs fuel sc value hlen1 hlen2
  have hold := cc_en_le_one sc.regs.cc
  have hnew := cc_en_le_one (value % 2 ^ 32)
  refine ⟨s, hw, ?_, ?_⟩
  · intro hno
    have hc : ¬ (cc_en (value % 2 ^ 32) ≠ cc_en sc.regs.cc ∧ cc_en (value % 2 ^ 32) = 0) := by
      intro h
      exact hno ⟨by omega, h.2⟩
    rw [if_neg hc, if_pos hshn] at hcsts0
    rw [hcsts, hcsts0]
    split_ifs <;> simp only [csts_shst_set_rdy, csts_shst_set_shst] <;> decide
  · intro hyes
    have hc : cc_en (value % 2 ^ 32) ≠ cc_en sc.regs.cc ∧ cc_en (value % 2 ^ 32) = 0 :=
      ⟨by omega, hyes.2⟩
    rw [if_pos hc] at hcsts0
    rw [hcsts, hcsts0, if_pos hyes.2]
    exact ⟨by decide, by decide⟩

/-- Witness for C23 (amended) on the enabled example device: the write
`CC = 0x00464001` (SHN = 1, EN stays 1) leaves CSTS.SHST = COMPLETE. -/
theorem shutdown_acknowledged_witness :
    ∃ s, pci_nvme_write_bar_0 0 demo_io NVME_CR_CC 4 0x00464001 = .ok s ∧
      csts_shst s.regs.csts = NVME_SHST_COMPLETE := by
  obtain ⟨s, h1, h2, _⟩ :=
    shutdown_acknowledged 0 demo_io 0x00464001 (by decide) (by decide) (by decide)
  exact ⟨s, h1, h2 (by decide)⟩

/-- C24, counterexample to the claim as worded.  On the disabled example device
(`CC = 0`) the 4-byte write `CC = 0x00460011`, whose EN bit is 1 and whose CSS field is 1,
leaves the stored CSS field 0. -/
theorem css_not_latched_on_enable :
    cc_css (0x00460011 % 2 ^ 32) = 1 ∧
    ∃ s, pci_nvme_write_bar_0 0 demo_softc NVME_CR_CC 4 0x00460011 = .ok s ∧
      cc_css s.regs.cc = 0 ∧ cc_iosqes s.regs.cc = 6 ∧ cc_iocqes s.regs.cc = 4 :=
  ⟨by decide, _, rfl, by decide, by decide, by decide⟩

/-- C24, amended: after every 4-byte write of a value `v` to CC (on a device with its
queue arrays allocated) the stored CC register's `iocqes`, `iosqes` and `en` fields equal
those of `v`; its `ams`, `mps` and `css` fields equal those of `v` when the EN bit of `v`
is 0, and are the fields stored before the write when the EN bit of `v` is 1. -/
theorem cc_fields_latched (fuel : Nat) (sc : pci_nvme_softc) (value : Nat)
    (hlen1 : sc.submit_queues.length = sc.max_queues + 1)
    (hlen2 : sc.compl_queues.length = sc.max_queues + 1) :
    ∃ s, pci_nvme_write_bar_0 fuel sc NVME_CR_CC 4 value = .ok s ∧
      cc_iocqes s.regs.cc = cc_iocqes (value % 2 ^ 32) ∧
      cc_iosqes s.regs.cc = cc_iosqes (value % 2 ^ 32) ∧
      cc_en s.regs.cc = cc_en (value % 2 ^ 32) ∧
      (cc_en (value % 2 ^ 32) = 0 →
        cc_ams s.regs.cc = cc_ams (value % 2 ^ 32) ∧
        cc_mps s.regs.cc = cc_mps (value % 2 ^ 32) ∧
        cc_css s.regs.cc = cc_css (value % 2 ^ 32)) ∧
      (cc_en (value % 2 ^ 32) = 1 →
        cc_ams s.regs.cc = cc_ams sc.regs.cc ∧
        cc_mps s.regs.cc = cc_mps sc.regs.cc ∧
        cc_css s.regs.cc = cc_css sc.regs.cc) := by
  obtain ⟨s, cc0, csts0, hw, hcc0, _, hcc, _⟩ := write_cc_regs fuel sc value hlen1 hlen2
  obtain ⟨r1, r2, r3, r4, r5, r6⟩ := cc_field_ranges (value % 2 ^ 32)
  refine ⟨s, hw, ?_, ?_, ?_, ?_, ?_⟩
  · rw [hcc]
    split_ifs <;>
      simp only [cc_iocqes_set_css, cc_iocqes_set_mps, cc_iocqes_set_ams, cc_iocqes_set_en,
        cc_iocqes_set_iosqes, cc_iocqes_set_iocqes, r6]
  · rw [hcc]
    split_ifs <;>
      simp only [cc_iosqes_set_css, cc_iosqes_set_mps, cc_iosqes_set_ams, cc_iosqes_set_en,
        cc_iosqes_set_iosqes, r5]
  · rw [hcc]
    split_ifs <;>
      simp only [cc_en_set_css, cc_en_set_mps, cc_en_set_ams, cc_en_set_en, r1]
  · intro hen
    rw [hcc, if_pos hen]
    refine ⟨?_, ?_, ?_⟩
    · simp only [cc_ams_set_css, cc_ams_set_mps, cc_ams_set_ams, r4]
    · simp only [cc_mps_set_css, cc_mps_set_mps, r3]
    · simp only [cc_css_set_css, r2]
  · intro hen
    have hne : ¬ (cc_en (value % 2 ^ 32) = 0) := by omega
    have hc : ¬ (cc_en (value % 2 ^ 32) ≠ cc_en sc.regs.cc ∧ cc_en (value % 2 ^ 32) = 0) :=
      fun h => hne h.2
    rw [if_neg hc] at hcc0
    rw [hcc, if_neg hne, hcc0]
    refine ⟨?_, ?_, ?_⟩
    · simp only [cc_ams_set_en, cc_ams_set_iosqes, cc_ams_set_iocqes]
    · simp only [cc_mps_set_en, cc_mps_set_iosqes, cc_mps_set_iocqes]
    · simp only [cc_css_set_en, cc_css_set_iosqes, cc_css_set_iocqes]

/-- Witness for C24 (amended): the enabling write `CC = 0x00460001` on the disabled
example device latches `iocqes = 4`, `iosqes = 6` and `en = 1`. -/
theorem cc_fields_latched_witness :
    ∃ s, pci_nvme_write_bar_0 0 demo_softc NVME_CR_CC 4 0x00460001 = .ok s ∧
      cc_iocqes s.regs.cc = 4 ∧ cc_iosqes s.regs.cc = 6 ∧ cc_en s.regs.cc = 1 ∧
      cc_css s.regs.cc = cc_css demo_softc.regs.cc := by
  obtain ⟨s, h1, h2, h3, h4, _, h6⟩ :=
    cc_fields_latched 0 demo_softc 0x00460001 (by decide) (by decide)
  exact ⟨s, h1, h2, h3, h4, (h6 (by decide)).2.2⟩

/-! ### I/O opcodes -/

/-- On the RAM store every command whose opcode is none of Flush, 0x08 and Write is
carried out as a Read: when its byte range lies inside the store and its buffer is well
described (segments off the PRP list pages), the loop body of `pci_nvme_handle_io_cmd`
returns, the guest buffer is filled from the store, and the completion posted carries
Generic / Success. -/
theorem io_step_ram_as_read (sc : pci_nvme_softc) (idx slot base cb : Nat)
    (sq : nvme_submission_queue) (cq : nvme_completion_queue) (d : prp_desc)
    (hram : sc.nvstore.type = nvme_storage_type.NVME_STOR_RAM)
    (hst : sc.nvstore.size < 2 ^ 64)
    (hsq : sc.submit_queues[idx]? = some sq) (hbase : sq.qbase = some base)
    (hsqsz : sq.size ≠ 0)
    (hcq : sc.compl_queues[sq.cqid]? = some cq) (hcb : cq.qbase = some cb)
    (hcqsz : cq.size ≠ 0)
    (hnf : (sc.ctx.cmd (elem_addr base SIZEOF_NVME_COMMAND slot)).opc ≠ NVME_OPC_FLUSH)
    (hn8 : (sc.ctx.cmd (elem_addr base SIZEOF_NVME_COMMAND slot)).opc ≠ 0x08)
    (hnw : (sc.ctx.cmd (elem_addr base SIZEOF_NVME_COMMAND slot)).opc ≠ NVME_OPC_WRITE)
    (hin : (cmd_lba (sc.ctx.cmd (elem_addr base SIZEOF_NVME_COMMAND slot)) *
        sc.nvstore.sectsz) % 2 ^ 64 +
        cmd_nblocks (sc.ctx.cmd (elem_addr base SIZEOF_NVME_COMMAND slot)) *
        sc.nvstore.sectsz ≤ sc.nvstore.size)
    (hbuf : cmd_buffer sc (sc.ctx.cmd (elem_addr base SIZEOF_NVME_COMMAND slot)) = some d)
    (hoff : segs_off_pages d.segs d.pages) :
    ∃ sc1, io_step sc idx slot = .ok (sc1, ((slot + 1) % sq.size) % 65536) ∧
      (sc1.ctx.cpl (elem_addr cb SIZEOF_NVME_COMPLETION cq.tail)).status.sct =
        NVME_SCT_GENERIC ∧
      (sc1.ctx.cpl (elem_addr cb SIZEOF_NVME_COMPLETION cq.tail)).status.sc =
        NVME_SC_SUCCESS ∧
      (sc1.ctx.cpl (elem_addr cb SIZEOF_NVME_COMPLETION cq.tail)).cid =
        (sc.ctx.cmd (elem_addr base SIZEOF_NVME_COMMAND slot)).cid % 65536 ∧
      sc1.nvstore.ram = sc.nvstore.ram ∧
      sc1.ctx.byte = load_segs sc.nvstore.ram sc.ctx.byte
        ((cmd_lba (sc.ctx.cmd (elem_addr base SIZEOF_NVME_COMMAND slot)) *
          sc.nvstore.sectsz) % 2 ^ 64) d.segs := by
  generalize hcmd : sc.ctx.cmd (elem_addr base SIZEOF_NVME_COMMAND slot) = cmd at *
  have hb : (cmd_nblocks cmd * sc.nvstore.sectsz) % 2 ^ 64 = cmd_nblocks cmd * sc.nvstore.sectsz :=
    Nat.mod_eq_of_lt (by omega)
  have hstep : io_step sc idx slot =
      match io_cmd_rw sc idx (elem_addr base SIZEOF_NVME_COMMAND slot) with
      | .error e => .error e
      | .ok sc1 => .ok (sc1, ((slot + 1) % sq.size) % 65536) := by
    unfold io_step
    simp only [hsq, hbase, hsqsz, if_false, hcmd, hnf, hn8]
    try rfl
  rw [hstep, io_cmd_rw_ram sc idx _ hram, hcmd, hb]
  unfold cmd_buffer at hbuf
  obtain ⟨S, hS, hwalk⟩ : ∃ S, S = _ ∧ _ = Except.ok (S, (0 : Int)) := ⟨_, rfl,
    io_prp_walk_read
    { sc with ctx := { sc.ctx with
        cmd := Function.update sc.ctx.cmd (elem_addr base SIZEOF_NVME_COMMAND slot)
          { cmd with prp1 := cmd.prp1 - cmd.prp1 % 4, prp2 := cmd.prp2 - cmd.prp2 % 4 } } }
    (cmd.prp1 - cmd.prp1 % 4) (cmd.prp2 - cmd.prp2 % 4)
    (cmd_nblocks cmd * sc.nvstore.sectsz) ((cmd_lba cmd * sc.nvstore.sectsz) % 2 ^ 64) d hbuf
    hin hst hoff⟩
  have hdw : decide (cmd.opc = NVME_OPC_WRITE) = false := by
    simp only [hnw, decide_False]
  rw [hdw, hwalk]
  have hSt : S.nvstore.type = nvme_storage_type.NVME_STOR_RAM := by rw [hS]; exact hram
  have hSq : S.submit_queues[idx]? = some sq := by rw [hS]; exact hsq
  have hSc : S.compl_queues[sq.cqid]? = some cq := by rw [hS]; exact hcq
  simp only [hSt, if_true]
  rw [set_completion_ok S idx idx cmd.cid 0 _ true sq cq cb hSq hSc hcb hcqsz]
  subst hS
  refine ⟨_, rfl, ?_, ?_, ?_, rfl, rfl⟩
  · simp [status_of, NVME_SCT_GENERIC]
  · simp [status_of, NVME_SC_SUCCESS]
  · simp

/-- C29: evaluation at the failing input.  On the example device with the RAM store, a
command with opcode 0x05 in submission queue 1 (one block at LBA 0, `prp1 = 0x400000`) is
carried out as a Read: the completion posted carries Generic / Success and the command's
identifier, and the guest buffer, all zero before, holds the first bytes of the store
afterwards. -/
theorem ram_backend_runs_unknown_opcode :
    demo_other_cmd.opc ≠ NVME_OPC_FLUSH ∧ demo_other_cmd.opc ≠ NVME_OPC_WRITE ∧
    demo_other_cmd.opc ≠ NVME_OPC_READ ∧ demo_other_cmd.opc ≠ 0x08 ∧
    demo_other.nvstore.type = nvme_storage_type.NVME_STOR_RAM ∧
    ∃ sc1 h, io_step demo_other 1 0 = .ok (sc1, h) ∧
      (sc1.ctx.cpl 0x300000).status.sct = NVME_SCT_GENERIC ∧
      (sc1.ctx.cpl 0x300000).status.sc = NVME_SC_SUCCESS ∧
      (sc1.ctx.cpl 0x300000).cid = 31 ∧
      demo_other.ctx.byte 0x400000 = 0 ∧ sc1.ctx.byte 0x400000 = 1 ∧
      demo_other.ctx.byte 0x400FFF = 0 ∧ sc1.ctx.byte 0x400FFF = 4095 % 251 + 1 := by
  obtain ⟨sc1, h1, h2, h3, h4, _, h6⟩ :=
    io_step_ram_as_read demo_other 1 0 0x310000 0x300000 demo_sq1 demo_cq1
      { segs := [(0x400000, 4096)], pages := [] }
      rfl (by decide) rfl rfl (by decide) rfl rfl (by decide) (by decide) (by decide) (by decide)
      (by decide) rfl (fun _ _ p hp => absurd hp (List.not_mem_nil _))
  refine ⟨by decide, by decide, by decide, by decide, rfl, sc1, _, h1, h2, h3, h4, rfl, ?_,
    rfl, ?_⟩
  · rw [h6]
    rfl
  · rw [h6]
    rfl


set_option maxRecDepth 100000 in
/-- The block backend rejects the same command: on the example device with a block
store, the command with opcode 0x05 gets a completion with Generic / Data Transfer Error,
nothing is submitted to the block layer and the guest buffer is unchanged. -/
theorem blk_backend_rejects_unknown_opcode :
    demo_other_blk.nvstore.type = nvme_storage_type.NVME_STOR_BLOCKIF ∧
    ∃ sc1 h, io_step demo_other_blk 1 0 = .ok (sc1, h) ∧
      (sc1.ctx.cpl 0x300000).status.sct = NVME_SCT_GENERIC ∧
      (sc1.ctx.cpl 0x300000).status.sc = NVME_SC_DATA_TRANSFER_ERROR ∧
      (sc1.ctx.cpl 0x300000).cid = 31 ∧
      sc1.blockif_log = [] ∧ sc1.pending_ios = 0 ∧
      sc1.ctx.byte 0x400000 = 0 :=
  ⟨rfl, _, _, rfl, rfl, rfl, rfl, rfl, rfl, rfl⟩

/-! ### PRP walk: the segments appended -/

/-- Get Features for every feature other than Async Event Configuration returns the
device state as it was. -/
theorem get_features_frame (sc : pci_nvme_softc) (command : nvme_command)
    (compl : nvme_completion)
    (h : command.cdw10 % 16 ≠ NVME_FEAT_ASYNC_EVENT_CONFIGURATION) :
    ∃ c, nvme_opc_get_features sc command compl = .ok (sc, c, 1) := by
  unfold nvme_opc_get_features
  simp only [h, if_false]
  repeat' split
  all_goals exact ⟨_, rfl⟩

/-- Get Features for Async Event Configuration stores `cdw11` in `async_ev_config`. -/
theorem get_features_async_event (sc : pci_nvme_softc) (command : nvme_command)
    (compl : nvme_completion)
    (h : command.cdw10 % 16 = NVME_FEAT_ASYNC_EVENT_CONFIGURATION) :
    ∃ c, nvme_opc_get_features sc command compl =
      .ok ({ sc with async_ev_config := command.cdw11 % 2 ^ 32 }, c, 1) ∧
      c.status.sct = NVME_SCT_GENERIC ∧ c.status.sc = NVME_SC_SUCCESS := by
  unfold nvme_opc_get_features
  simp [h, NVME_FEAT_ASYNC_EVENT_CONFIGURATION, NVME_FEAT_ARBITRATION,
    NVME_FEAT_POWER_MANAGEMENT, NVME_FEAT_LBA_RANGE_TYPE, NVME_FEAT_TEMPERATURE_THRESHOLD,
    NVME_FEAT_ERROR_RECOVERY, NVME_FEAT_VOLATILE_WRITE_CACHE, NVME_FEAT_NUMBER_OF_QUEUES,
    NVME_FEAT_INTERRUPT_COALESCING, NVME_FEAT_INTERRUPT_VECTOR_CONFIGURATION,
    NVME_FEAT_WRITE_ATOMICITY, set_status, NVME_SCT_GENERIC, NVME_SC_SUCCESS]

/-- C40: evaluation at the failing input.  On the example device, whose
`async_ev_config` is 0, Get Features for Async Event Configuration (feature 0x0B) with
`cdw11 = 0x1234` answers Generic / Success and leaves `async_ev_config = 0x1234`, both
when the handler is called and when the command is run from the admin submission queue:
the command changes the controller's state. -/
theorem get_features_writes_async_ev_config :
    (∃ sc1 c, nvme_opc_get_features demo_io demo_get_aec zero_completion = .ok (sc1, c, 1) ∧
      c.status.sct = NVME_SCT_GENERIC ∧ c.status.sc = NVME_SC_SUCCESS ∧
      demo_io.async_ev_config = 0 ∧ sc1.async_ev_config = 0x1234) ∧
    (∃ sc1, pci_nvme_handle_admin_cmd 1 (demo_admin1 demo_get_aec) 0 = .ok sc1 ∧
      (sc1.ctx.cpl 0x200000).cid = 51 ∧
      (sc1.ctx.cpl 0x200000).status.sct = NVME_SCT_GENERIC ∧
      (sc1.ctx.cpl 0x200000).status.sc = NVME_SC_SUCCESS ∧
      (demo_admin1 demo_get_aec).async_ev_config = 0 ∧ sc1.async_ev_config = 0x1234) :=
  ⟨⟨_, _, rfl, rfl, rfl, rfl, rfl⟩, ⟨_, rfl, rfl, rfl, rfl, rfl, rfl⟩⟩

/-! ### Link from a submission queue to its completion queue -/

/-- C36: evaluation at the failing input.  On the enabled example device
(`max_queues = 4`, queue arrays of 5 elements) the admin command Create I/O Submission
Queue for queue 2 with `cqid = 9` is answered with Generic / Success and leaves
submission queue 2 mapped and linked to completion queue 9, beyond the array: every
later call of `pci_nvme_set_completion` for submission queue 2 indexes `compl_queues`
out of bounds.  The same command with `cqid = 3`, a completion queue that was never
created, leaves submission queue 2 linked to a completion queue whose `qbase` is null,
and `pci_nvme_set_completion` fails its assertion. -/
theorem sq_linked_to_missing_cq :
    cc_en demo_io.regs.cc = 1 ∧ demo_io.max_queues = 4 ∧
    (∃ sc1 sq, pci_nvme_handle_admin_cmd 1 (demo_admin1 demo_create_sq2_cq9) 0 = .ok sc1 ∧
      (sc1.ctx.cpl 0x200000).cid = 61 ∧
      (sc1.ctx.cpl 0x200000).status.sct = NVME_SCT_GENERIC ∧
      (sc1.ctx.cpl 0x200000).status.sc = NVME_SC_SUCCESS ∧
      sc1.submit_queues[2]? = some sq ∧ sq.qbase = some 0x500000 ∧ sq.cqid = 9 ∧
      sc1.max_queues = 4 ∧ sc1.compl_queues.length = 5 ∧
      ∀ (cid : Nat) (status : nvme_status) (ib : Bool),
        pci_nvme_set_completion sc1 2 2 cid 0 status ib = .error .outOfBounds) ∧
    (∃ sc1 sq cq, pci_nvme_handle_admin_cmd 1 (demo_admin1 demo_create_sq2_cq3) 0 = .ok sc1 ∧
      (sc1.ctx.cpl 0x200000).cid = 62 ∧
      (sc1.ctx.cpl 0x200000).status.sct = NVME_SCT_GENERIC ∧
      (sc1.ctx.cpl 0x200000).status.sc = NVME_SC_SUCCESS ∧
      sc1.submit_queues[2]? = some sq ∧ sq.qbase = some 0x500000 ∧ sq.cqid = 3 ∧
      sc1.compl_queues[3]? = some cq ∧ cq.qbase = none ∧
      ∀ (cid : Nat) (status : nvme_status) (ib : Bool),
        pci_nvme_set_completion sc1 2 2 cid 0 status ib = .error .assertFail) :=
  ⟨rfl, rfl,
    ⟨_, _, rfl, rfl, rfl, rfl, rfl, rfl, rfl, rfl, rfl, fun _ _ _ => rfl⟩,
    ⟨_, _, _, rfl, rfl, rfl, rfl, rfl, rfl, rfl, rfl, rfl, fun _ _ _ => rfl⟩⟩

/-! ### Block requests: the first segment, coalescing and the partial-I/O flush -/

/-- The first segment of a request fresh from `pci_nvme_get_ioreq` (no entry,
`prev_gpaddr = prev_size = 0`) at a guest address other than 0: entry 0 of the iovec is
created for it, `br_offset` is set to the byte offset `lba`, and `br_resid` to the
length. -/
theorem append_first_segment (sc : pci_nvme_softc) (r gpaddr size lba : Nat) (w : Bool)
    (rq : pci_nvme_ioreq) (hrq : sc.ioreqs[r]? = some rq) (huse : rq.in_use = true)
    (hcnt : rq.io_req.br_iovcnt = 0) (hpg : rq.prev_gpaddr = 0) (hps : rq.prev_size = 0)
    (hlen : rq.io_req.br_iov.length = NVME_MAX_BLOCKIOVS) (hg : gpaddr ≠ 0) :
    pci_nvme_append_iov_req sc (some r) gpaddr size w lba = .ok
      ({ sc with
         ioreqs := sc.ioreqs.set r
           { rq with prev_gpaddr := gpaddr
                     prev_size := size
                     io_req := { rq.io_req with
                                 br_iov := rq.io_req.br_iov.set 0
                                   { iov_base := sc.ctx.vm_map_gpa gpaddr size, iov_len := size }
                                 br_offset := lba
                                 br_resid := size
                                 br_iovcnt := 1 } } }, 0) := by
  have h0 : ¬ ((rq.prev_gpaddr + rq.prev_size) % 2 ^ 64 = gpaddr) := by
    rw [hpg, hps]
    intro h
    exact hg h.symm
  have h1 : ¬ (0 = NVME_MAX_BLOCKIOVS) := by decide
  have h2 : ¬ (0 ≥ rq.io_req.br_iov.length) := by
    rw [hlen]
    decide
  simp only [pci_nvme_append_iov_req, append_iov_blk, hrq, huse, not_true_eq_false, if_false,
    h0, h1, hcnt, if_true, h2, Nat.zero_add]

/-- The first segment of a request fresh from `pci_nvme_get_ioreq` at guest address 0:
the test `prev_gpaddr + prev_size == gpaddr` holds, the coalescing branch is taken with
`br_iovcnt = 0`, and entry `br_iovcnt - 1` it writes lies outside the iovec. -/
theorem append_first_segment_at_zero (sc : pci_nvme_softc) (r size lba : Nat) (w : Bool)
    (rq : pci_nvme_ioreq) (hrq : sc.ioreqs[r]? = some rq) (huse : rq.in_use = true)
    (hcnt : rq.io_req.br_iovcnt = 0) (hpg : rq.prev_gpaddr = 0) (hps : rq.prev_size = 0) :
    pci_nvme_append_iov_req sc (some r) 0 size w lba = .error .outOfBounds := by
  simp [pci_nvme_append_iov_req, append_iov_blk, hrq, huse, hcnt, hpg, hps]

/-- C38: evaluation at the failing input.  On the example device with a block backend, a
Read of one block whose `prp1` is 0 gets descriptor 0 fresh from `pci_nvme_get_ioreq`
(`br_iovcnt = 0`, `prev_gpaddr = 0`, `prev_size = 0`); the first call of
`pci_nvme_append_iov_req`, for guest address 0, takes the coalescing branch and indexes
entry `br_iovcnt - 1 = -1` of the iovec, and so does the loop body of
`pci_nvme_handle_io_cmd` for that command. -/
theorem first_segment_at_zero_coalesces :
    demo_prp0.nvstore.type = nvme_storage_type.NVME_STOR_BLOCKIF ∧
    demo_prp0.ctx.cmd 0x310000 = demo_prp0_cmd ∧ demo_prp0_cmd.prp1 = 0 ∧
    (∃ sc1 rq, pci_nvme_get_ioreq demo_prp0 = .ok (sc1, 0) ∧
      sc1.ioreqs[0]? = some rq ∧ rq.in_use = true ∧ rq.io_req.br_iovcnt = 0 ∧
      rq.prev_gpaddr = 0 ∧ rq.prev_size = 0 ∧
      pci_nvme_append_iov_req sc1 (some 0) 0 4096 false 0 = .error .outOfBounds) ∧
    io_step demo_prp0 1 0 = .error .outOfBounds :=
  ⟨rfl, rfl, rfl, ⟨_, _, rfl, rfl, rfl, rfl, rfl, rfl, rfl⟩, rfl⟩

/-- The partial-I/O flush: appending a segment that is not contiguous with the last one
to a request whose iovec holds `NVME_MAX_BLOCKIOVS` entries hands the request to the
block backend after `br_iovcnt` has been set to 0 (with `br_resid` and `br_offset` as
they were), and restarts the iovec with the segment as entry 0. -/
theorem append_flush (sc : pci_nvme_softc) (r gpaddr size lba : Nat) (w : Bool)
    (rq : pci_nvme_ioreq) (hrq : sc.ioreqs[r]? = some rq) (huse : rq.in_use = true)
    (hcnt : rq.io_req.br_iovcnt = NVME_MAX_BLOCKIOVS)
    (hnc : (rq.prev_gpaddr + rq.prev_size) % 2 ^ 64 ≠ gpaddr)
    (hlen : rq.io_req.br_iov.length = NVME_MAX_BLOCKIOVS) :
    ∃ sc1 rq1, pci_nvme_append_iov_req sc (some r) gpaddr size w lba = .ok (sc1, 0) ∧
      sc1.blockif_log = sc.blockif_log ++
        [(w, { rq.io_req with br_iovcnt := 0, br_callback := br_callback_t.io_part })] ∧
      sc1.ioreqs[r]? = some rq1 ∧
      rq1.io_req.br_iovcnt = 1 ∧ rq1.io_req.br_offset = lba ∧ rq1.io_req.br_resid = size ∧
      rq1.io_req.br_iov[0]? =
        some { iov_base := sc.ctx.vm_map_gpa gpaddr size, iov_len := size } ∧
      rq1.prev_gpaddr = gpaddr ∧ rq1.prev_size = size := by
  have hl : r < sc.ioreqs.length := by
    rcases List.getElem?_eq_some.mp hrq with ⟨h, _⟩
    exact h
  have h2 : ¬ (0 ≥ rq.io_req.br_iov.length) := by
    rw [hlen]
    decide
  have h3 : 0 < rq.io_req.br_iov.length := by omega
  have hN : ¬ (0 ≥ NVME_MAX_BLOCKIOVS) := by decide
  have heq : pci_nvme_append_iov_req sc (some r) gpaddr size w lba = .ok
      ({ sc with
         blockif_log := sc.blockif_log ++
           [(w, { rq.io_req with br_iovcnt := 0, br_callback := br_callback_t.io_part })]
         ioreqs := sc.ioreqs.set r
           { rq with prev_gpaddr := gpaddr
                     prev_size := size
                     io_req := { rq.io_req with
                                 br_iov := rq.io_req.br_iov.set 0
                                   { iov_base := sc.ctx.vm_map_gpa gpaddr size, iov_len := size }
                                 br_offset := lba
                                 br_resid := size
                                 br_iovcnt := 1
                                 br_callback := br_callback_t.io_part } } }, 0) := by
    simp only [pci_nvme_append_iov_req, append_iov_blk, hrq, huse, not_true_eq_false, if_false,
      hnc, hcnt, if_true, hlen, hN, Nat.zero_add, blockif_submit]
  refine ⟨_, _, heq, rfl, List.getElem?_set_self hl, rfl, rfl, rfl, ?_, rfl, rfl⟩
  exact List.getElem?_set_self h3

set_option maxRecDepth 100000 in
/-- C31: evaluation at the failing input.  On the example device with a block backend,
descriptor 0 holds 512 entries of 4096 bytes (`br_iovcnt = 512`, `br_resid = 0x200000`);
appending the segment (0x800000, 4096), which is not contiguous with the last entry,
hands the request to `blockif_read` with `br_iovcnt = 0`, not 512: the count is cleared
before the request is submitted.  `br_resid` of the submitted request is the total of the
512 entries, and afterwards the iovec holds the new segment as entry 0 with `br_offset`
at the byte offset reached. -/
theorem partial_io_submits_empty_iovec :
    demo_full.ioreqs[0]? = some demo_full_req ∧
    demo_full_req.io_req.br_iovcnt = NVME_MAX_BLOCKIOVS ∧
    demo_full_req.io_req.br_iov.length = NVME_MAX_BLOCKIOVS ∧
    ((demo_full_req.io_req.br_iov.take 512).map (fun v => v.iov_len)).sum = 0x200000 ∧
    demo_full_req.io_req.br_resid = 0x200000 ∧
    (demo_full_req.prev_gpaddr + demo_full_req.prev_size) % 2 ^ 64 ≠ 0x800000 ∧
    ∃ sc1 br rq1,
      pci_nvme_append_iov_req demo_full (some 0) 0x800000 4096 false 0x200000 = .ok (sc1, 0) ∧
      demo_full.blockif_log = [] ∧ sc1.blockif_log = [(false, br)] ∧
      br.br_iovcnt = 0 ∧ br.br_resid = 0x200000 ∧ br.br_offset = 0 ∧
      br.br_callback = br_callback_t.io_part ∧
      sc1.ioreqs[0]? = some rq1 ∧ rq1.io_req.br_iovcnt = 1 ∧
      rq1.io_req.br_offset = 0x200000 ∧ rq1.io_req.br_resid = 4096 := by
  obtain ⟨sc1, rq1, h1, h2, h3, h4, h5, h6, _⟩ :=
    append_flush demo_full 0 0x800000 4096 0x200000 false demo_full_req rfl rfl rfl
      (by decide) rfl
  exact ⟨rfl, rfl, rfl, rfl, rfl, by decide, sc1, _, rq1, h1, rfl, h2, rfl, rfl,
    rfl, rfl, h3, h4, h5, h6⟩

/-! ### RAM store: the copy and the bounds check -/

/-- C39: evaluation at the failing input.  On the example RAM disk (1 MiB, 4096-byte
sectors, all zero) a Write of one block at LBA `2 ^ 52 - 1` has the byte offset
`(2 ^ 52 - 1) * 4096 mod 2 ^ 64 = 2 ^ 64 - 4096`; the check `lba + size > nvstore.size`
is made on `(2 ^ 64 - 4096 + 4096) mod 2 ^ 64 = 0` and passes, and the copy of 4096 bytes
is made at the offset `2 ^ 64 - 4096`, far outside `[0, nvstore.size)`: the byte at that
offset is changed from 0 to the guest byte 94, and the command completes with Generic /
Success. -/
theorem ram_copy_outside_store :
    (cmd_lba demo_below_cmd * demo_below.nvstore.sectsz) % 2 ^ 64 = 2 ^ 64 - 4096 ∧
    cmd_nblocks demo_below_cmd * demo_below.nvstore.sectsz = 4096 ∧
    demo_below.nvstore.size = 0x100000 ∧
    (2 ^ 64 - 4096) + 4096 > demo_below.nvstore.size ∧
    demo_below.ctx.byte 0x400000 = 94 ∧
    demo_below.nvstore.ram (2 ^ 64 - 4096) = 0 ∧
    (∃ sc1, pci_nvme_append_iov_req demo_below none 0x400000 4096 true (2 ^ 64 - 4096) =
        .ok (sc1, 0) ∧
      sc1.nvstore.ram (2 ^ 64 - 4096) = 94) ∧
    (∃ sc1 h, io_step demo_below 1 0 = .ok (sc1, h) ∧
      (sc1.ctx.cpl 0x300000).cid = 81 ∧
      (sc1.ctx.cpl 0x300000).status.sct = NVME_SCT_GENERIC ∧
      (sc1.ctx.cpl 0x300000).status.sc = NVME_SC_SUCCESS ∧
      sc1.nvstore.ram (2 ^ 64 - 4096) = 94) :=
  ⟨rfl, rfl, rfl, by decide, rfl, rfl, ⟨_, rfl, rfl⟩, ⟨_, _, rfl, rfl, rfl, rfl, rfl⟩⟩

/-- Writing entry `n` of an iovec array and counting it in: the total over the entries
`0 .. n` is the total over `0 .. n - 1` plus the new length; and the total over `0 .. n`
of the array as it is adds the length of entry `n`. -/
theorem iov_total_set (l : List iovec) :
    ∀ (n : Nat) (v : iovec), n < l.length →
      iov_total (l.set n v) (n + 1) = iov_total l n + v.iov_len ∧
      ∀ u, l[n]? = some u → iov_total l (n + 1) = iov_total l n + u.iov_len := by
  induction l with
  | nil =>
    intro n v h
    simp at h
  | cons a t ih =>
    intro n v h
    cases n with
    | zero =>
      refine ⟨?_, ?_⟩
      · simp [iov_total]
      · intro u hu
        simp only [List.getElem?_cons_zero, Option.some.injEq] at hu
        subst hu
        simp [iov_total]
    | succ n =>
      have hn : n < t.length := by
        simp only [List.length_cons] at h
        omega
      obtain ⟨h1, h2⟩ := ih n v hn
      simp only [iov_total] at h1 h2 ⊢
      refine ⟨?_, ?_⟩
      · simp only [List.set_cons_succ, List.take_succ_cons, List.map_cons, List.sum_cons, h1]
        omega
      · intro u hu
        simp only [List.getElem?_cons_succ] at hu
        simp only [List.take_succ_cons, List.map_cons, List.sum_cons, h2 u hu]
        omega

/-- The coalescing branch of `pci_nvme_append_iov_req`: a segment that starts where the
last one ended is added to the last entry. -/
theorem append_coalesce (sc : pci_nvme_softc) (r gpaddr size lba : Nat) (w : Bool)
    (rq : pci_nvme_ioreq) (hrq : sc.ioreqs[r]? = some rq) (huse : rq.in_use = true)
    (hc : (rq.prev_gpaddr + rq.prev_size) % 2 ^ 64 = gpaddr)
    (h1 : 1 ≤ rq.io_req.br_iovcnt) (h2 : rq.io_req.br_iovcnt ≤ rq.io_req.br_iov.length) :
    pci_nvme_append_iov_req sc (some r) gpaddr size w lba = .ok
      ({ sc with
         ioreqs := sc.ioreqs.set r
           { rq with prev_size := rq.prev_size + size
                     io_req := { rq.io_req with
                                 br_resid := rq.io_req.br_resid + size
                                 br_iov := rq.io_req.br_iov.set (rq.io_req.br_iovcnt - 1)
                                   { iov_base := sc.ctx.vm_map_gpa rq.prev_gpaddr size,
                                     iov_len := rq.prev_size + size } } } }, 0) := by
  have h3 : ¬ (rq.io_req.br_iovcnt = 0 ∨
      rq.io_req.br_iovcnt - 1 ≥ rq.io_req.br_iov.length) := by omega
  simp only [pci_nvme_append_iov_req, append_iov_blk, hrq, huse, not_true_eq_false, if_false,
    hc, if_true, h3]

/-- The branch of `pci_nvme_append_iov_req` for a segment that does not start where the
last one ended, with room left in the iovec: the segment becomes a new entry. -/
theorem append_new_entry (sc : pci_nvme_softc) (r gpaddr size lba : Nat) (w : Bool)
    (rq : pci_nvme_ioreq) (hrq : sc.ioreqs[r]? = some rq) (huse : rq.in_use = true)
    (hnc : (rq.prev_gpaddr + rq.prev_size) % 2 ^ 64 ≠ gpaddr)
    (h1 : 1 ≤ rq.io_req.br_iovcnt) (h2 : rq.io_req.br_iovcnt < NVME_MAX_BLOCKIOVS)
    (hlen : rq.io_req.br_iov.length = NVME_MAX_BLOCKIOVS) :
    pci_nvme_append_iov_req sc (some r) gpaddr size w lba = .ok
      ({ sc with
         ioreqs := sc.ioreqs.set r
           { rq with prev_gpaddr := gpaddr
                     prev_size := size
                     io_req := { rq.io_req with
                                 br_iov := rq.io_req.br_iov.set rq.io_req.br_iovcnt
                                   { iov_base := sc.ctx.vm_map_gpa gpaddr size, iov_len := size }
                                 br_resid := rq.io_req.br_resid + size
                                 br_iovcnt := rq.io_req.br_iovcnt + 1 } } }, 0) := by
  have h3 : ¬ (rq.io_req.br_iovcnt = NVME_MAX_BLOCKIOVS) := by omega
  have h4 : ¬ (rq.io_req.br_iovcnt = 0) := by omega
  have h5 : ¬ (rq.io_req.br_iovcnt ≥ rq.io_req.br_iov.length) := by omega
  simp only [pci_nvme_append_iov_req, append_iov_blk, hrq, huse, not_true_eq_false, if_false,
    hnc, h3, h4, h5]

/-- C32: coalescing invariant.  Let a block request in use hold at least one iovec entry
(`1 <= br_iovcnt <= NVME_MAX_BLOCKIOVS`, the size of the array), with the sum of
`iov_len` over its entries equal to `br_resid` and the length of its last entry equal to
`prev_size`.  Then appending `(gpa, len)` returns 0 and: with
`gpa == prev_gpaddr + prev_size` it leaves `br_iovcnt` as it was, adds `len` to the
`iov_len` of the last entry and to `br_resid`, and hands nothing to the block backend;
with any other `gpa` and room in the iovec it makes one new entry of length `len`,
leaves the entries before it alone, and adds `len` to `br_resid`; with any other `gpa`
and a full iovec (the partial-I/O flush) it restarts with the segment as the only entry
and `br_resid = len`.  In every case, afterwards the request again holds between 1 and
`NVME_MAX_BLOCKIOVS` entries, the sum of `iov_len` over them equals `br_resid` and the
length of the last entry equals `prev_size`. -/
theorem coalescing_invariant (sc : pci_nvme_softc) (r gpaddr size lba : Nat) (w : Bool)
    (rq : pci_nvme_ioreq) (v0 : iovec)
    (hrq : sc.ioreqs[r]? = some rq) (huse : rq.in_use = true)
    (hlen : rq.io_req.br_iov.length = NVME_MAX_BLOCKIOVS)
    (h1 : 1 ≤ rq.io_req.br_iovcnt) (h2 : rq.io_req.br_iovcnt ≤ NVME_MAX_BLOCKIOVS)
    (hsum : iov_total rq.io_req.br_iov rq.io_req.br_iovcnt = rq.io_req.br_resid)
    (hv0 : rq.io_req.br_iov[rq.io_req.br_iovcnt - 1]? = some v0)
    (hlast : v0.iov_len = rq.prev_size) :
    ∃ sc1 rq1 v1, pci_nvme_append_iov_req sc (some r) gpaddr size w lba = .ok (sc1, 0) ∧
      sc1.ioreqs[r]? = some rq1 ∧
      rq1.io_req.br_iov[rq1.io_req.br_iovcnt - 1]? = some v1 ∧
      ((rq.prev_gpaddr + rq.prev_size) % 2 ^ 64 = gpaddr →
        rq1.io_req.br_iovcnt = rq.io_req.br_iovcnt ∧
        v1.iov_len = v0.iov_len + size ∧
        rq1.io_req.br_resid = rq.io_req.br_resid + size ∧
        sc1.blockif_log = sc.blockif_log) ∧
      ((rq.prev_gpaddr + rq.prev_size) % 2 ^ 64 ≠ gpaddr →
        rq.io_req.br_iovcnt < NVME_MAX_BLOCKIOVS →
        rq1.io_req.br_iovcnt = rq.io_req.br_iovcnt + 1 ∧
        v1.iov_len = size ∧
        (∀ i, i < rq.io_req.br_iovcnt → rq1.io_req.br_iov[i]? = rq.io_req.br_iov[i]?) ∧
        rq1.io_req.br_resid = rq.io_req.br_resid + size ∧
        sc1.blockif_log = sc.blockif_log) ∧
      ((rq.prev_gpaddr + rq.prev_size) % 2 ^ 64 ≠ gpaddr →
        rq.io_req.br_iovcnt = NVME_MAX_BLOCKIOVS →
        rq1.io_req.br_iovcnt = 1 ∧ v1.iov_len = size ∧ rq1.io_req.br_resid = size) ∧
      rq1.in_use = true ∧ rq1.io_req.br_iov.length = NVME_MAX_BLOCKIOVS ∧
      1 ≤ rq1.io_req.br_iovcnt ∧ rq1.io_req.br_iovcnt ≤ NVME_MAX_BLOCKIOVS ∧
      iov_total rq1.io_req.br_iov rq1.io_req.br_iovcnt = rq1.io_req.br_resid ∧
      v1.iov_len = rq1.prev_size := by
  have hl : r < sc.ioreqs.length := by
    rcases List.getElem?_eq_some.mp hrq with ⟨h, _⟩
    exact h
  obtain ⟨n, hn⟩ : ∃ n, rq.io_req.br_iovcnt = n + 1 := ⟨rq.io_req.br_iovcnt - 1, by omega⟩
  have hn1 : rq.io_req.br_iovcnt - 1 = n := by omega
  rw [hn1] at hv0
  by_cases hc : (rq.prev_gpaddr + rq.prev_size) % 2 ^ 64 = gpaddr
  · have happ := append_coalesce sc r gpaddr size lba w rq hrq huse hc h1 (by omega)
    rw [hn1] at happ
    have hnl : n < rq.io_req.br_iov.length := by omega
    obtain ⟨t1, t2⟩ := iov_total_set rq.io_req.br_iov n
      { iov_base := sc.ctx.vm_map_gpa rq.prev_gpaddr size, iov_len := rq.prev_size + size } hnl
    have t3 := t2 v0 hv0
    rw [hn] at hsum
    refine ⟨_, _,
      { iov_base := sc.ctx.vm_map_gpa rq.prev_gpaddr size, iov_len := rq.prev_size + size },
      happ, List.getElem?_set_self hl, ?_, ?_, ?_, ?_, huse, ?_, h1, h2, ?_, rfl⟩
    · show (rq.io_req.br_iov.set n _)[rq.io_req.br_iovcnt - 1]? = _
      rw [hn1]
      exact List.getElem?_set_self hnl
    · intro _
      refine ⟨rfl, ?_, rfl, rfl⟩
      show rq.prev_size + size = v0.iov_len + size
      rw [hlast]
    · intro h
      exact absurd hc h
    · intro h
      exact absurd hc h
    · show (rq.io_req.br_iov.set n _).length = NVME_MAX_BLOCKIOVS
      rw [List.length_set]
      exact hlen
    · show iov_total (rq.io_req.br_iov.set n _) rq.io_req.br_iovcnt = rq.io_req.br_resid + size
      rw [hn, t1]
      show iov_total rq.io_req.br_iov n + (rq.prev_size + size) = rq.io_req.br_resid + size
      omega
  · by_cases hfull : rq.io_req.br_iovcnt = NVME_MAX_BLOCKIOVS
    · have hN : ¬ (0 ≥ NVME_MAX_BLOCKIOVS) := by decide
      have h0l : 0 < rq.io_req.br_iov.length := by
        rw [hlen]
        decide
      have happ : pci_nvme_append_iov_req sc (some r) gpaddr size w lba = .ok
          ({ sc with
             blockif_log := sc.blockif_log ++
               [(w, { rq.io_req with br_iovcnt := 0, br_callback := br_callback_t.io_part })]
             ioreqs := sc.ioreqs.set r
               { rq with prev_gpaddr := gpaddr
                         prev_size := size
                         io_req := { rq.io_req with
                                     br_iov := rq.io_req.br_iov.set 0
                                       { iov_base := sc.ctx.vm_map_gpa gpaddr size,
                                         iov_len := size }
                                     br_offset := lba
                                     br_resid := size
                                     br_iovcnt := 1
                                     br_callback := br_callback_t.io_part } } }, 0) := by
        simp only [pci_nvme_append_iov_req, append_iov_blk, hrq, huse, not_true_eq_false,
          if_false, hc, hfull, if_true, hlen, hN, Nat.zero_add, blockif_submit]
      obtain ⟨t1, _⟩ := iov_total_set rq.io_req.br_iov 0
        { iov_base := sc.ctx.vm_map_gpa gpaddr size, iov_len := size } h0l
      refine ⟨_, _, { iov_base := sc.ctx.vm_map_gpa gpaddr size, iov_len := size },
        happ, List.getElem?_set_self hl, ?_, ?_, ?_, ?_, huse, ?_, ?_, ?_, ?_, rfl⟩
      · exact List.getElem?_set_self h0l
      · intro h
        exact absurd h hc
      · intro _ h
        omega
      · intro _ _
        exact ⟨rfl, rfl, rfl⟩
      · show (rq.io_req.br_iov.set 0 _).length = NVME_MAX_BLOCKIOVS
        rw [List.length_set]
        exact hlen
      · show 1 ≤ 1
        exact le_refl _
      · show 1 ≤ NVME_MAX_BLOCKIOVS
        decide
      · show iov_total (rq.io_req.br_iov.set 0 _) 1 = size
        rw [t1]
        simp [iov_total]
    · have hlt : rq.io_req.br_iovcnt < NVME_MAX_BLOCKIOVS := by omega
      have happ := append_new_entry sc r gpaddr size lba w rq hrq huse hc h1 hlt hlen
      have hnl : rq.io_req.br_iovcnt < rq.io_req.br_iov.length := by omega
      obtain ⟨t1, _⟩ := iov_total_set rq.io_req.br_iov rq.io_req.br_iovcnt
        { iov_base := sc.ctx.vm_map_gpa gpaddr size, iov_len := size } hnl
      refine ⟨_, _, { iov_base := sc.ctx.vm_map_gpa gpaddr size, iov_len := size },
        happ, List.getElem?_set_self hl, ?_, ?_, ?_, ?_, huse, ?_, ?_, ?_, ?_, rfl⟩
      · show (rq.io_req.br_iov.set rq.io_req.br_iovcnt _)[rq.io_req.br_iovcnt + 1 - 1]? = _
        rw [Nat.add_sub_cancel]
        exact List.getElem?_set_self hnl
      · intro h
        exact absurd h hc
      · intro _ _
        refine ⟨rfl, rfl, ?_, rfl, rfl⟩
        intro i hi
        show (rq.io_req.br_iov.set rq.io_req.br_iovcnt _)[i]? = _
        exact List.getElem?_set_ne (by omega)
      · intro _ h
        exact absurd h hfull
      · show (rq.io_req.br_iov.set rq.io_req.br_iovcnt _).length = NVME_MAX_BLOCKIOVS
        rw [List.length_set]
        exact hlen
      · show 1 ≤ rq.io_req.br_iovcnt + 1
        omega
      · show rq.io_req.br_iovcnt + 1 ≤ NVME_MAX_BLOCKIOVS
        omega
      · show iov_total (rq.io_req.br_iov.set rq.io_req.br_iovcnt _) (rq.io_req.br_iovcnt + 1) =
          rq.io_req.br_resid + size
        rw [t1, hsum]

set_option maxRecDepth 100000 in
/-- Witness for C32 on the example request that holds the one entry (0x400000, 4096):
appending (0x401000, 4096), which starts where that entry ends, leaves `br_iovcnt = 1`
and makes the entry and `br_resid` 8192 bytes long; appending (0x500000, 4096) instead
makes a second entry of 4096 bytes, with `br_resid = 8192` as well. -/
theorem coalescing_invariant_witness :
    demo_one.ioreqs[0]? = some demo_one_req ∧
    demo_one_req.io_req.br_iovcnt = 1 ∧
    iov_total demo_one_req.io_req.br_iov 1 = demo_one_req.io_req.br_resid ∧
    (∃ sc1 rq1 v1,
      pci_nvme_append_iov_req demo_one (some 0) 0x401000 4096 false 0x4000 = .ok (sc1, 0) ∧
      sc1.ioreqs[0]? = some rq1 ∧ rq1.io_req.br_iov[rq1.io_req.br_iovcnt - 1]? = some v1 ∧
      rq1.io_req.br_iovcnt = 1 ∧ v1.iov_len = 8192 ∧ rq1.io_req.br_resid = 8192 ∧
      iov_total rq1.io_req.br_iov rq1.io_req.br_iovcnt = rq1.io_req.br_resid) ∧
    (∃ sc1 rq1 v1,
      pci_nvme_append_iov_req demo_one (some 0) 0x500000 4096 false 0x4000 = .ok (sc1, 0) ∧
      sc1.ioreqs[0]? = some rq1 ∧ rq1.io_req.br_iov[rq1.io_req.br_iovcnt - 1]? = some v1 ∧
      rq1.io_req.br_iovcnt = 2 ∧ v1.iov_len = 4096 ∧ rq1.io_req.br_resid = 8192 ∧
      iov_total rq1.io_req.br_iov rq1.io_req.br_iovcnt = rq1.io_req.br_resid) := by
  obtain ⟨sc1, rq1, v1, a1, a2, a3, a4, _, _, _, _, _, _, a5, _⟩ :=
    coalescing_invariant demo_one 0 0x401000 4096 0x4000 false demo_one_req
      { iov_base := some 0x400000, iov_len := 4096 } rfl rfl rfl (by decide) (by decide)
      rfl rfl rfl
  obtain ⟨sc2, rq2, v2, b1, b2, b3, _, b4, _, _, _, _, _, b5, _⟩ :=
    coalescing_invariant demo_one 0 0x500000 4096 0x4000 false demo_one_req
      { iov_base := some 0x400000, iov_len := 4096 } rfl rfl rfl (by decide) (by decide)
      rfl rfl rfl
  obtain ⟨c1, c2, c3, _⟩ := a4 (by decide)
  obtain ⟨d1, d2, _, d3, _⟩ := b4 (by decide) (by decide)
  exact ⟨rfl, rfl, rfl, ⟨sc1, rq1, v1, a1, a2, a3, c1, c2, c3, a5⟩,
    ⟨sc2, rq2, v2, b1, b2, b3, d1, d2, d3, b5⟩⟩

/-! ### Request pool -/

/-- A list of distinct descriptor indices below `n` has at most `n` elements. -/
theorem nodup_below_length (l : List Nat) (n : Nat) (hd : l.Nodup) (hb : ∀ r ∈ l, r < n) :
    l.length ≤ n := by
  have hsub : l ⊆ List.range n := fun r hr => List.mem_range.mpr (hb r hr)
  have := (List.subperm_of_subset hd hsub).length_le
  rwa [List.length_range] at this

/-- The call `pci_nvme_get_ioreq` with a non-empty free list returns the head of the list
and keeps the pool invariant. -/
theorem pool_get_inv (sc : pci_nvme_softc) (hinv : PoolInv sc) (hne : sc.ioreqs_free ≠ []) :
    ∃ sc1 r rest, sc.ioreqs_free = r :: rest ∧ pci_nvme_get_ioreq sc = .ok (sc1, r) ∧
      PoolInv sc1 ∧ sc1.ioslots = sc.ioslots ∧ sc1.ioreqs_free = rest ∧
      sc1.pending_ios = sc.pending_ios + 1 ∧ r < sc.ioslots ∧ r ∉ rest := by
  obtain ⟨hlen, hsl, hnd, hb, hp⟩ := hinv
  cases hf : sc.ioreqs_free with
  | nil => exact absurd hf hne
  | cons r rest =>
    rw [hf] at hnd hb hp
    have hr : r < sc.ioslots := hb r (List.mem_cons_self _ _)
    have hrl : r < sc.ioreqs.length := by omega
    have hnd2 := List.nodup_cons.mp hnd
    simp only [List.length_cons] at hp
    have hmod : (sc.pending_ios + 1) % 2 ^ 32 = sc.pending_ios + 1 :=
      Nat.mod_eq_of_lt (by omega)
    have heq : pci_nvme_get_ioreq sc = .ok
        ({ sc with
           ioreqs := sc.ioreqs.set r
             { sc.ioreqs[r] with
               in_use := true
               prev_gpaddr := 0
               prev_size := 0
               io_req := { sc.ioreqs[r].io_req with br_iovcnt := 0, br_offset := 0,
                                                    br_resid := 0 } }
           ioreqs_free := rest
           pending_ios := sc.pending_ios + 1 }, r) := by
      simp only [pci_nvme_get_ioreq, hf, List.getElem?_eq_getElem hrl, hmod]
    refine ⟨_, r, rest, rfl, heq, ⟨?_, hsl, hnd2.2, ?_, ?_⟩, rfl, rfl, rfl, hr, hnd2.1⟩
    · show (sc.ioreqs.set r _).length = sc.ioslots
      rw [List.length_set]
      exact hlen
    · intro x hx
      exact hb x (List.mem_cons_of_mem _ hx)
    · show sc.pending_ios + 1 + rest.length = sc.ioslots
      omega

/-- The call `pci_nvme_release_ioreq` for a descriptor of the array that is not on the
free list returns, puts the descriptor at the head of the list and keeps the pool
invariant. -/
theorem pool_release_inv (sc : pci_nvme_softc) (r : Nat) (hinv : PoolInv sc)
    (hr : r < sc.ioslots) (hheld : r ∉ sc.ioreqs_free) :
    ∃ sc1, pci_nvme_release_ioreq sc r = .ok sc1 ∧ PoolInv sc1 ∧
      sc1.ioslots = sc.ioslots ∧ sc1.ioreqs_free = r :: sc.ioreqs_free ∧
      sc1.pending_ios + 1 = sc.pending_ios := by
  obtain ⟨hlen, hsl, hnd, hb, hp⟩ := hinv
  have hrl : r < sc.ioreqs.length := by omega
  have hnd2 : (r :: sc.ioreqs_free).Nodup := List.nodup_cons.mpr ⟨hheld, hnd⟩
  have hb2 : ∀ x ∈ r :: sc.ioreqs_free, x < sc.ioslots := by
    intro x hx
    rcases List.mem_cons.mp hx with h | h
    · rw [h]
      exact hr
    · exact hb x h
  have hle := nodup_below_length _ _ hnd2 hb2
  simp only [List.length_cons] at hle
  have hpos : 1 ≤ sc.pending_ios := by omega
  have hmod : (sc.pending_ios + 2 ^ 32 - 1) % 2 ^ 32 = sc.pending_ios - 1 := by
    have : sc.pending_ios + 2 ^ 32 - 1 = (sc.pending_ios - 1) + 2 ^ 32 := by omega
    rw [this, Nat.add_mod_right]
    exact Nat.mod_eq_of_lt (by omega)
  obtain ⟨csts, hcsts⟩ : ∃ csts, csts =
      (if sc.pending_ios - 1 = 0 ∧ cc_en sc.regs.cc ≠ 0 ∧ csts_rdy sc.regs.csts = 0
       then csts_set_rdy sc.regs.csts 1 else sc.regs.csts) := ⟨_, rfl⟩
  have heq : pci_nvme_release_ioreq sc r = .ok
      { sc with
        ioreqs := sc.ioreqs.set r
          { sc.ioreqs[r] with in_use := false, nvme_sq := none, sqid := 0 }
        ioreqs_free := r :: sc.ioreqs_free
        pending_ios := sc.pending_ios - 1
        regs := { sc.regs with csts := csts } } := by
    simp only [pci_nvme_release_ioreq, List.getElem?_eq_getElem hrl, hmod, hcsts]
  refine ⟨_, heq, ⟨?_, hsl, hnd2, hb2, ?_⟩, rfl, rfl, ?_⟩
  · show (sc.ioreqs.set r _).length = sc.ioslots
    rw [List.length_set]
    exact hlen
  · show sc.pending_ios - 1 + (r :: sc.ioreqs_free).length = sc.ioslots
    simp only [List.length_cons]
    omega
  · show sc.pending_ios - 1 + 1 = sc.pending_ios
    omega

/-- A sequence of pool calls, each made under its condition, returns and keeps the pool
invariant. -/
theorem pool_run_inv (ops : List pool_op) :
    ∀ sc : pci_nvme_softc, PoolInv sc → pool_calls_allowed sc ops = true →
      ∃ sc1, pool_run sc ops = .ok sc1 ∧ PoolInv sc1 ∧ sc1.ioslots = sc.ioslots := by
  induction ops with
  | nil =>
    intro sc hinv _
    exact ⟨sc, rfl, hinv, rfl⟩
  | cons op rest ih =>
    intro sc hinv hall
    simp only [pool_calls_allowed, Bool.and_eq_true] at hall
    obtain ⟨hop, hrest⟩ := hall
    cases op with
    | get =>
      have hne : sc.ioreqs_free ≠ [] := by
        intro h
        simp [pool_call_allowed, h] at hop
      obtain ⟨sc1, r, rest1, _, hget, hinv1, hsl, _⟩ := pool_get_inv sc hinv hne
      have hstep : pool_step sc pool_op.get = .ok sc1 := by
        simp only [pool_step, hget]
      rw [hstep] at hrest
      obtain ⟨sc2, hrun, hinv2, hsl2⟩ := ih sc1 hinv1 hrest
      refine ⟨sc2, ?_, hinv2, hsl2.trans hsl⟩
      simp only [pool_run, hstep, hrun]
    | release r =>
      simp only [pool_call_allowed, Bool.and_eq_true, decide_eq_true_eq, Bool.not_eq_true',
        List.contains_eq_any_beq, List.any_eq_false, beq_iff_eq] at hop
      have hheld : r ∉ sc.ioreqs_free := fun hm => hop.2 r hm rfl
      obtain ⟨sc1, hrel, hinv1, hsl, _⟩ := pool_release_inv sc r hinv hop.1 hheld
      have hstep : pool_step sc (pool_op.release r) = .ok sc1 := by
        simp only [pool_step, hrel]
      rw [hstep] at hrest
      obtain ⟨sc2, hrun, hinv2, hsl2⟩ := ih sc1 hinv1 hrest
      refine ⟨sc2, ?_, hinv2, hsl2.trans hsl⟩
      simp only [pool_run, hstep, hrun]

/-- One option of the configuration string leaves `pending_ios` alone and keeps `ioslots`
inside 32 bits. -/
theorem parse_opt_pool (host : host_services) (st st1 : parse_state) (o : nvme_opt)
    (h : parse_opt host st o = some st1) :
    st1.sc.pending_ios = st.sc.pending_ios ∧
      (st.sc.ioslots < 2 ^ 32 → st1.sc.ioslots < 2 ^ 32) := by
  unfold parse_opt at h
  cases o with
  | maxq n =>
    simp only [Option.some.injEq] at h
    subst h
    exact ⟨rfl, fun h => h⟩
  | qsz n =>
    simp only [Option.some.injEq] at h
    subst h
    exact ⟨rfl, fun h => h⟩
  | ioslots n =>
    simp only [Option.some.injEq] at h
    subst h
    exact ⟨rfl, fun _ => Nat.mod_lt _ (by decide)⟩
  | sectsz n =>
    simp only [Option.some.injEq] at h
    subst h
    exact ⟨rfl, fun h => h⟩
  | ser s =>
    simp only [Option.some.injEq] at h
    subst h
    exact ⟨rfl, fun h => h⟩
  | ram mb =>
    simp only [Option.some.injEq] at h
    subst h
    exact ⟨rfl, fun h => h⟩
  | other name =>
    simp only at h
    split at h
    · split at h
      · exact absurd h (by simp)
      · simp only [Option.some.injEq] at h
        subst h
        exact ⟨rfl, fun h => h⟩
    · exact absurd h (by simp)

/-- The option loop leaves `pending_ios` alone and keeps `ioslots` inside 32 bits. -/
theorem parse_opt_loop_pool (host : host_services) (opts : List nvme_opt) :
    ∀ (st st1 : parse_state) (b : Bool), parse_opt_loop host st opts = (b, st1) →
      st1.sc.pending_ios = st.sc.pending_ios ∧
        (st.sc.ioslots < 2 ^ 32 → st1.sc.ioslots < 2 ^ 32) := by
  induction opts with
  | nil =>
    intro st st1 b h
    simp only [parse_opt_loop, Prod.mk.injEq] at h
    rw [← h.2]
    exact ⟨rfl, fun h => h⟩
  | cons o rest ih =>
    intro st st1 b h
    unfold parse_opt_loop at h
    cases ho : parse_opt host st o with
    | none =>
      rw [ho] at h
      simp only [Prod.mk.injEq] at h
      rw [← h.2]
      exact ⟨rfl, fun h => h⟩
    | some st2 =>
      rw [ho] at h
      obtain ⟨h1, h2⟩ := parse_opt_pool host st st2 o ho
      obtain ⟨h3, h4⟩ := ih st2 st1 b h
      exact ⟨h3.trans h1, fun h => h4 (h2 h)⟩

/-- The state `pci_nvme_parse_opts` returns has the `pending_ios` it was given and an
`ioslots` inside 32 bits. -/
theorem parse_opts_pool (host : host_services) (sc s : pci_nvme_softc) (opts : List nvme_opt)
    (e : Int) (h : pci_nvme_parse_opts host sc opts = .ok (e, s)) :
    s.pending_ios = sc.pending_ios ∧ s.ioslots < 2 ^ 32 := by
  unfold pci_nvme_parse_opts at h
  simp only at h
  cases hl : parse_opt_loop host
      { sc := { sc with max_queues := NVME_QUEUES, max_qentries := NVME_MAX_QENTRIES,
                        ioslots := NVME_IOSLOTS, num_squeues := NVME_QUEUES,
                        num_cqueues := NVME_QUEUES },
        sectsz := 0, optidx := 0, ctx_set := false, backend := none } opts with
  | mk b st =>
    obtain ⟨h1, h2⟩ := parse_opt_loop_pool host opts _ st b hl
    have h3 : st.sc.ioslots < 2 ^ 32 := h2 (by show NVME_IOSLOTS < 2 ^ 32; decide)
    have h4 : st.sc.pending_ios = sc.pending_ios := h1
    rw [hl] at h
    cases b with
    | false =>
      simp only [Except.ok.injEq, Prod.mk.injEq] at h
      rw [← h.2]
      exact ⟨h4, h3⟩
    | true =>
      simp only at h
      split at h
      · simp only [Except.ok.injEq, Prod.mk.injEq] at h
        rw [← h.2]
        exact ⟨h4, h3⟩
      · split at h
        · exact absurd h (by simp)
        · split at h
          · simp only [Except.ok.injEq, Prod.mk.injEq] at h
            rw [← h.2]
            exact ⟨h4, h3⟩
          · split at h
            · simp only [Except.ok.injEq, Prod.mk.injEq] at h
              rw [← h.2]
              exact ⟨h4, h3⟩
            · split at h
              · simp only [Except.ok.injEq, Prod.mk.injEq] at h
                rw [← h.2]
                exact ⟨h4, h3⟩
              · simp only [Except.ok.injEq, Prod.mk.injEq] at h
                rw [← h.2]
                exact ⟨h4, h3⟩

/-- The queue loop of `pci_nvme_reset` touches nothing but the two queue arrays. -/
theorem reset_queues_frame (n : Nat) :
    ∀ (sc sc1 : pci_nvme_softc) (start : Nat), reset_queues sc start n = .ok sc1 →
      sc1 = { sc with submit_queues := sc1.submit_queues, compl_queues := sc1.compl_queues } := by
  induction n with
  | zero =>
    intro sc sc1 start h
    simp only [reset_queues, Except.ok.injEq] at h
    rw [← h]
  | succ n ih =>
    intro sc sc1 start h
    unfold reset_queues at h
    cases hq : reset_queue sc start with
    | error e =>
      rw [hq] at h
      exact absurd h (by simp)
    | ok sc2 =>
      rw [hq] at h
      have h2 := ih sc2 sc1 (start + 1) h
      have h3 : sc2 = { sc with submit_queues := sc2.submit_queues,
                                compl_queues := sc2.compl_queues } := by
        unfold reset_queue at hq
        split at hq
        · simp only [Except.ok.injEq] at hq
          rw [← hq]
        · exact absurd hq (by simp)
        · exact absurd hq (by simp)
      rw [h2, h3]

/-- Every `pci_nvme_reset` that returns leaves CC and CSTS zero and does not touch the
request pool, the backing store or guest memory. -/
theorem pci_nvme_reset_frame (sc sc1 : pci_nvme_softc) (h : pci_nvme_reset sc = .ok sc1) :
    sc1.regs.cc = 0 ∧ sc1.regs.csts = 0 ∧ sc1.ioreqs = sc.ioreqs ∧
      sc1.ioreqs_free = sc.ioreqs_free ∧ sc1.pending_ios = sc.pending_ios ∧
      sc1.ioslots = sc.ioslots := by
  unfold pci_nvme_reset at h
  simp only at h
  split at h
  · exact absurd h (by simp)
  · rename_i sc2 hr1
    have hsc2 : sc2.regs.cc = 0 ∧ sc2.regs.csts = 0 ∧ sc2.ioreqs = sc.ioreqs ∧
        sc2.ioreqs_free = sc.ioreqs_free ∧ sc2.pending_ios = sc.pending_ios ∧
        sc2.ioslots = sc.ioslots := by
      split at hr1
      · have := reset_queues_frame _ _ _ _ hr1
        rw [this]
        exact ⟨rfl, rfl, rfl, rfl, rfl, rfl⟩
      · simp only [Except.ok.injEq] at hr1
        rw [← hr1]
        exact ⟨rfl, rfl, rfl, rfl, rfl, rfl⟩
    split at h
    · split at h
      · simp only [Except.ok.injEq] at h
        rw [← h]
        exact hsc2
      · exact absurd h (by simp)
    · simp only [Except.ok.injEq] at h
      rw [← h]
      exact hsc2

/-- The state a successful `pci_nvme_init` builds: the free list holds the `ioslots`
descriptors of the array in order, `pending_ios` is 0, CC and CSTS are 0, and the pool
invariant holds. -/
theorem init_pool (host : host_services) (ctx : vmctx) (opts : List nvme_opt)
    (sc0 : pci_nvme_softc) (h : pci_nvme_init host ctx opts = .ok (0, sc0)) :
    PoolInv sc0 ∧ sc0.ioreqs_free = List.range sc0.ioslots ∧ sc0.pending_ios = 0 ∧
      sc0.regs.cc = 0 ∧ sc0.regs.csts = 0 := by
  unfold pci_nvme_init at h
  cases hp : pci_nvme_parse_opts host (zero_softc host ctx) opts with
  | error e =>
    rw [hp] at h
    exact absurd h (by simp)
  | ok r =>
    obtain ⟨error, sc1⟩ := r
    obtain ⟨hpend, hsl⟩ := parse_opts_pool host _ sc1 opts error hp
    have hpend0 : sc1.pending_ios = 0 := hpend
    rw [hp] at h
    simp only at h
    split at h
    · rename_i hneg
      simp only [Except.ok.injEq, Prod.mk.injEq] at h
      rw [h.1] at hneg
      exact absurd hneg (by decide)
    · split at h
      · rename_i h1
        simp only [Except.ok.injEq, Prod.mk.injEq] at h
        exact absurd h.1 h1
      · split at h
        · rename_i h2
          simp only [Except.ok.injEq, Prod.mk.injEq] at h
          exact absurd h.1 h2
        · split at h
          · exact absurd h (by simp)
          · rename_i sc3 hreset
            obtain ⟨hcc, hcsts, hio, hfree, hpe, hslots⟩ := pci_nvme_reset_frame _ sc3 hreset
            split at h
            · exact absurd h (by simp)
            · rename_i sc4 hns
              simp only [Except.ok.injEq, Prod.mk.injEq] at h
              have h4 : sc4 = sc0 := h.2
              subst h4
              unfold pci_nvme_init_nsdata at hns
              split at hns
              · exact absurd hns (by simp)
              · simp only [Except.ok.injEq] at hns
                rw [← hns]
                simp only [pci_nvme_init_ctrldata]
                refine ⟨⟨?_, ?_, ?_, ?_, ?_⟩, ?_, ?_, hcc, hcsts⟩
                · show sc3.ioreqs.length = sc3.ioslots
                  rw [hio, hslots]
                  simp
                · show sc3.ioslots < 2 ^ 32
                  rw [hslots]
                  exact hsl
                · show sc3.ioreqs_free.Nodup
                  rw [hfree]
                  exact List.nodup_range _
                · show ∀ r ∈ sc3.ioreqs_free, r < sc3.ioslots
                  rw [hfree, hslots]
                  intro r hr
                  exact List.mem_range.mp hr
                · show sc3.pending_ios + sc3.ioreqs_free.length = sc3.ioslots
                  rw [hpe, hfree, hslots]
                  simp [hpend0]
                · show sc3.ioreqs_free = List.range sc3.ioslots
                  rw [hfree, hslots]
                · show sc3.pending_ios = 0
                  rw [hpe]
                  exact hpend0

/-- C34: request-pool accounting.  In the state a successful `pci_nvme_init` builds, the
free list holds the `ioslots` descriptors and `pending_ios` is 0.  Every sequence of
calls of `pci_nvme_get_ioreq` (each made with a non-empty free list) and
`pci_nvme_release_ioreq` (each for a descriptor currently held) made from that state
returns, and afterwards `pending_ios = ioslots - (length of the free list)`, the free
list holds no descriptor twice, and a `pci_nvme_get_ioreq` followed by
`pci_nvme_release_ioreq` of the descriptor it gave restores `pending_ios` and the free
list. -/
theorem request_pool_accounting (host : host_services) (ctx : vmctx) (opts : List nvme_opt)
    (sc0 : pci_nvme_softc) (ops : List pool_op)
    (hinit : pci_nvme_init host ctx opts = .ok (0, sc0))
    (hops : pool_calls_allowed sc0 ops = true) :
    sc0.ioreqs_free = List.range sc0.ioslots ∧ sc0.pending_ios = 0 ∧
    ∃ sc1, pool_run sc0 ops = .ok sc1 ∧ sc1.ioslots = sc0.ioslots ∧
      sc1.pending_ios = sc1.ioslots - sc1.ioreqs_free.length ∧
      sc1.ioreqs_free.length ≤ sc1.ioslots ∧
      sc1.ioreqs_free.Nodup ∧
      (sc1.ioreqs_free ≠ [] →
        ∃ sc2 r sc3, pci_nvme_get_ioreq sc1 = .ok (sc2, r) ∧
          pci_nvme_release_ioreq sc2 r = .ok sc3 ∧
          sc3.pending_ios = sc1.pending_ios ∧ sc3.ioreqs_free = sc1.ioreqs_free) := by
  obtain ⟨hinv0, hfree0, hpend0, _, _⟩ := init_pool host ctx opts sc0 hinit
  obtain ⟨sc1, hrun, hinv1, hsl1⟩ := pool_run_inv ops sc0 hinv0 hops
  refine ⟨hfree0, hpend0, sc1, hrun, hsl1, ?_, ?_, hinv1.2.2.1, ?_⟩
  · have := hinv1.2.2.2.2
    omega
  · have := hinv1.2.2.2.2
    omega
  · intro hne
    obtain ⟨sc2, r, rest, hf, hget, hinv2, hsl2, hfree2, hpend2, hr, hnot⟩ :=
      pool_get_inv sc1 hinv1 hne
    have hr2 : r < sc2.ioslots := by
      rw [hsl2]
      exact hr
    have hheld : r ∉ sc2.ioreqs_free := by
      rw [hfree2]
      exact hnot
    obtain ⟨sc3, hrel, _, _, hfree3, hpend3⟩ := pool_release_inv sc2 r hinv2 hr2 hheld
    refine ⟨sc2, r, sc3, hget, hrel, ?_, ?_⟩
    · omega
    · rw [hfree3, hfree2, hf]

/-- Witness for C34: the device built by `pci_nvme_init` for a 1 MiB RAM disk (8
descriptors), after three calls of `pci_nvme_get_ioreq` and the release of descriptor 1:
the free list is 1, 3, 4, 5, 6, 7 and `pending_ios` is 2. -/
theorem request_pool_accounting_witness :
    ∃ sc0, pci_nvme_init demo_host demo_ctx [nvme_opt.ram 1] = .ok (0, sc0) ∧
      pool_calls_allowed sc0
        [pool_op.get, pool_op.get, pool_op.get, pool_op.release 1] = true ∧
      (sc0.ioreqs_free = List.range sc0.ioslots ∧ sc0.pending_ios = 0 ∧
        ∃ sc1, pool_run sc0 [pool_op.get, pool_op.get, pool_op.get, pool_op.release 1] =
            .ok sc1 ∧ sc1.ioslots = sc0.ioslots ∧
          sc1.pending_ios = sc1.ioslots - sc1.ioreqs_free.length ∧
          sc1.ioreqs_free.length ≤ sc1.ioslots ∧
          sc1.ioreqs_free.Nodup ∧
          (sc1.ioreqs_free ≠ [] →
            ∃ sc2 r sc3, pci_nvme_get_ioreq sc1 = .ok (sc2, r) ∧
              pci_nvme_release_ioreq sc2 r = .ok sc3 ∧
              sc3.pending_ios = sc1.pending_ios ∧ sc3.ioreqs_free = sc1.ioreqs_free)) ∧
      (∃ sc1, pool_run sc0 [pool_op.get, pool_op.get, pool_op.get, pool_op.release 1] =
          .ok sc1 ∧ sc1.ioslots = 8 ∧ sc1.ioreqs_free = [1, 3, 4, 5, 6, 7] ∧
        sc1.pending_ios = 2) :=
  ⟨_, rfl, rfl,
    request_pool_accounting demo_host demo_ctx [nvme_opt.ram 1] _
      [pool_op.get, pool_op.get, pool_op.get, pool_op.release 1] rfl rfl,
    ⟨_, rfl, rfl, rfl, rfl⟩⟩

/-! ### I/O executor: a tail outside the ring -/

/-- One iteration of the I/O executor under `DrainInv`: the Flush at `sqhead` is
answered, `sqhead` advances modulo 4, and the invariant holds again. -/
theorem drain_step (s : pci_nvme_softc) (sqhead : Nat) (hinv : DrainInv s) :
    ∃ s1, io_step s 1 sqhead = .ok (s1, ((sqhead + 1) % 4) % 65536) ∧ DrainInv s1 := by
  obtain ⟨⟨sq, hsq, hbase, hsize, htail, hcqid⟩, hcmd, ⟨cq, cb, hcq, hcb, hsz⟩⟩ := hinv
  have hcq1 : s.compl_queues[sq.cqid]? = some cq := by
    rw [hcqid]
    exact hcq
  have hl2 : 1 < s.compl_queues.length := by
    rcases List.getElem?_eq_some.mp hcq with ⟨h, _⟩
    exact h
  obtain ⟨S, hS, hpost⟩ : ∃ S, S = _ ∧ pci_nvme_set_completion s 1 1
      (s.ctx.cmd (elem_addr 0x310000 SIZEOF_NVME_COMMAND sqhead)).cid 0
      (status_of NVME_SCT_GENERIC NVME_SC_SUCCESS) true = Except.ok S :=
    ⟨_, rfl, set_completion_ok s 1 1
      (s.ctx.cmd (elem_addr 0x310000 SIZEOF_NVME_COMMAND sqhead)).cid 0
      (status_of NVME_SCT_GENERIC NVME_SC_SUCCESS) true sq cq cb hsq hcq1 hcb hsz⟩
  have h4 : ¬ (4 = 0) := by decide
  have hstep : io_step s 1 sqhead = .ok (S, ((sqhead + 1) % 4) % 65536) := by
    unfold io_step
    simp only [hsq, hbase, hsize, h4, if_false, hcmd, if_true, hpost]
  refine ⟨S, hstep, ?_⟩
  subst hS
  refine ⟨⟨sq, hsq, hbase, hsize, htail, hcqid⟩, hcmd,
    ⟨{ cq with tail := ((cq.tail + 1) % cq.size) % 65536 }, cb, ?_, hcb, hsz⟩⟩
  show (s.compl_queues.set sq.cqid _)[1]? = _
  rw [hcqid]
  exact List.getElem?_set_self hl2

/-- Under `DrainInv` the loop of the I/O executor exceeds every bound on its iterations:
`sqhead` stays below 4 and the tail is 7. -/
theorem drain_loop (fuel : Nat) :
    ∀ (s : pci_nvme_softc) (sqhead : Nat), DrainInv s → sqhead < 4 →
      io_loop fuel s 1 sqhead = .error .outOfFuel := by
  induction fuel with
  | zero =>
    intro s sqhead hinv hlt
    obtain ⟨⟨sq, hsq, _, _, htail, _⟩, _⟩ := hinv
    have hne : ¬ (sqhead = sq.tail) := by omega
    simp only [io_loop, hsq, hne, if_false]
  | succ fuel ih =>
    intro s sqhead hinv hlt
    obtain ⟨s1, hstep, hinv1⟩ := drain_step s sqhead hinv
    obtain ⟨⟨sq, hsq, _, _, htail, _⟩, _⟩ := hinv
    have hne : ¬ (sqhead = sq.tail) := by omega
    simp only [io_loop, hsq, hne, if_false, hstep]
    exact ih s1 _ hinv1 (by omega)

/-- C37: evaluation at the failing input.  On the enabled example device, submission
queue 1 has 4 entries (head 0, busy 0), every slot of its ring holds a Flush, and its
completion queue is mapped.  The 4-byte write of the 16-bit value 7 to its tail doorbell
stores `tail = 7`, beyond the ring, and starts an I/O executor that does not terminate:
`sqhead` is advanced by `(sqhead + 1) mod 4` and never equals 7, so whatever the bound on
its iterations, the run of `pci_nvme_handle_io_cmd` exceeds it. -/
theorem io_drain_diverges (fuel : Nat) :
    demo_io.submit_queues[1]? = some demo_sq1 ∧ demo_sq1.size = 4 ∧ demo_sq1.head = 0 ∧
    demo_sq1.busy = 0 ∧ demo_sq1.size ≤ 7 ∧ 7 < 65536 ∧
    pci_nvme_write_bar_0 fuel demo_io (NVME_DOORBELL_OFFSET + 8) 4 7 = .error .outOfFuel := by
  refine ⟨rfl, rfl, rfl, rfl, by decide, by decide, ?_⟩
  have hinv : DrainInv
      { demo_io with
        submit_queues := (demo_io.submit_queues.set 1 { demo_sq1 with tail := 7 }).set 1
          { demo_sq1 with tail := 7, busy := 1 } } :=
    ⟨⟨_, rfl, rfl, rfl, rfl, rfl⟩, fun _ => rfl, ⟨_, 0x300000, rfl, rfl, by decide⟩⟩
  have hloop := drain_loop fuel _ 0 hinv (by decide)
  have hrun : pci_nvme_write_bar_0 fuel demo_io (NVME_DOORBELL_OFFSET + 8) 4 7 =
      match io_loop fuel
        { demo_io with
          submit_queues := (demo_io.submit_queues.set 1 { demo_sq1 with tail := 7 }).set 1
            { demo_sq1 with tail := 7, busy := 1 } } 1 0 with
      | .error e => .error e
      | .ok (sc1, sqhead1) =>
        match sc1.submit_queues[1]? with
        | none => .error .outOfBounds
        | some sq1 =>
          .ok { sc1 with submit_queues := sc1.submit_queues.set 1
                           { sq1 with head := sqhead1, busy := 0 } } := by
    rfl
  rw [hrun, hloop]
/-! ### CSTS.RDY and CC.EN -/

/-- Posting a completion leaves the registers alone. -/
theorem set_completion_regs (sc sc1 : pci_nvme_softc) (sq sqid cid cdw0 : Nat)
    (status : nvme_status) (ib : Bool)
    (h : pci_nvme_set_completion sc sq sqid cid cdw0 status ib = .ok sc1) :
    sc1.regs = sc.regs := by
  unfold pci_nvme_set_completion at h
  split at h
  · exact absurd h (by simp)
  · split at h
    · exact absurd h (by simp)
    · split at h
      · exact absurd h (by simp)
      · dsimp only at h
        split at h
        · exact absurd h (by simp)
        · simp only [Except.ok.injEq] at h
          rw [← h]

/-- What `pci_nvme_release_ioreq` does to CC and CSTS: CC is left alone, and CSTS.RDY is
set when the decremented `pending_ios` is 0, CC.EN is set and CSTS.RDY is clear;
otherwise CSTS is left alone. -/
theorem release_ioreq_regs (sc sc1 : pci_nvme_softc) (r : Nat)
    (h : pci_nvme_release_ioreq sc r = .ok sc1) :
    sc1.regs.cc = sc.regs.cc ∧
    sc1.pending_ios = (sc.pending_ios + 2 ^ 32 - 1) % 2 ^ 32 ∧
    ((sc1.pending_ios = 0 ∧ cc_en sc.regs.cc ≠ 0 ∧ csts_rdy sc.regs.csts = 0) →
      sc1.regs.csts = csts_set_rdy sc.regs.csts 1) ∧
    (¬ (sc1.pending_ios = 0 ∧ cc_en sc.regs.cc ≠ 0 ∧ csts_rdy sc.regs.csts = 0) →
      sc1.regs.csts = sc.regs.csts) := by
  obtain ⟨q, hq⟩ : ∃ q, (sc.pending_ios + 2 ^ 32 - 1) % 2 ^ 32 = q := ⟨_, rfl⟩
  obtain ⟨c, hc⟩ : ∃ c, (if q = 0 ∧ cc_en sc.regs.cc ≠ 0 ∧ csts_rdy sc.regs.csts = 0
      then csts_set_rdy sc.regs.csts 1 else sc.regs.csts) = c := ⟨_, rfl⟩
  cases hrq : sc.ioreqs[r]? with
  | none =>
    simp only [pci_nvme_release_ioreq, hrq] at h
    exact absurd h (by simp)
  | some rq =>
    have heq : pci_nvme_release_ioreq sc r = .ok
        { sc with
          ioreqs := sc.ioreqs.set r { rq with in_use := false, nvme_sq := none, sqid := 0 }
          ioreqs_free := r :: sc.ioreqs_free
          pending_ios := q
          regs := { sc.regs with csts := c } } := by
      simp only [pci_nvme_release_ioreq, hrq, hq, hc]
    rw [heq] at h
    have h2 := Except.ok.inj h
    rw [hq, ← h2]
    refine ⟨rfl, rfl, ?_, ?_⟩
    · intro hcond
      show c = _
      rw [← hc, if_pos hcond]
    · intro hcond
      show c = _
      rw [← hc, if_neg hcond]

/-- Releasing a request keeps the interlock between CSTS.RDY and CC.EN. -/
theorem release_ioreq_rdy (sc sc1 : pci_nvme_softc) (r : Nat)
    (h : pci_nvme_release_ioreq sc r = .ok sc1) (hinv : RdyInv sc) : RdyInv sc1 := by
  obtain ⟨hcc, _, hset, hkeep⟩ := release_ioreq_regs sc sc1 r h
  intro hr
  rw [hcc]
  by_cases hc : sc1.pending_ios = 0 ∧ cc_en sc.regs.cc ≠ 0 ∧ csts_rdy sc.regs.csts = 0
  · rcases cc_en_le_one sc.regs.cc with h0 | h1
    · exact absurd h0 hc.2.1
    · exact h1
  · rw [hkeep hc] at hr
    exact hinv hr

/-- Taking a request off the free list leaves the registers alone. -/
theorem get_ioreq_regs (sc sc1 : pci_nvme_softc) (r : Nat)
    (h : pci_nvme_get_ioreq sc = .ok (sc1, r)) : sc1.regs = sc.regs := by
  unfold pci_nvme_get_ioreq at h
  split at h
  · exact absurd h (by simp)
  · split at h
    · exact absurd h (by simp)
    · simp only [Except.ok.injEq, Prod.mk.injEq] at h
      rw [← h.1]

/-- Appending a segment leaves the registers alone. -/
theorem append_iov_req_regs (sc sc1 : pci_nvme_softc) (req : Option Nat) (gpaddr size : Nat)
    (w : Bool) (lba : Nat) (err : Int)
    (h : pci_nvme_append_iov_req sc req gpaddr size w lba = .ok (sc1, err)) :
    sc1.regs = sc.regs := by
  unfold pci_nvme_append_iov_req at h
  cases req with
  | none =>
    simp only at h
    unfold append_iov_ram at h
    split at h
    · simp only [Except.ok.injEq, Prod.mk.injEq] at h
      rw [← h.1]
    · split at h
      · exact absurd h (by simp)
      · split at h
        · simp only [Except.ok.injEq, Prod.mk.injEq] at h
          rw [← h.1]
        · simp only [Except.ok.injEq, Prod.mk.injEq] at h
          rw [← h.1]
  | some r =>
    simp only at h
    unfold append_iov_blk at h
    cases hrq : sc.ioreqs[r]? with
    | none =>
      rw [hrq] at h
      exact absurd h (by simp)
    | some rq =>
      rw [hrq] at h
      dsimp only at h
      split at h
      · exact absurd h (by simp)
      · split at h
        · split at h
          · exact absurd h (by simp)
          · simp only [Except.ok.injEq, Prod.mk.injEq] at h
            rw [← h.1]
        · by_cases hfull : rq.io_req.br_iovcnt = NVME_MAX_BLOCKIOVS
          · rw [if_pos hfull] at h
            dsimp only at h
            split at h
            · split at h
              · exact absurd h (by simp)
              · have h2 := congrArg (fun x : pci_nvme_softc × Int => x.1.regs) (Except.ok.inj h)
                exact h2.symm
            · split at h
              · exact absurd h (by simp)
              · have h2 := congrArg (fun x : pci_nvme_softc × Int => x.1.regs) (Except.ok.inj h)
                exact h2.symm
          · rw [if_neg hfull] at h
            dsimp only at h
            split at h
            · split at h
              · exact absurd h (by simp)
              · have h2 := congrArg (fun x : pci_nvme_softc × Int => x.1.regs) (Except.ok.inj h)
                exact h2.symm
            · split at h
              · exact absurd h (by simp)
              · have h2 := congrArg (fun x : pci_nvme_softc × Int => x.1.regs) (Except.ok.inj h)
                exact h2.symm
/-- The PRP list loop leaves the registers alone. -/
theorem prp_list_loop_regs (fuel : Nat) :
    ∀ (sc sc1 : pci_nvme_softc) (req : Option Nat) (w : Bool) (pl : Option Nat)
      (i size lba : Nat) (err err1 : Int),
      prp_list_loop fuel sc req w pl i size lba err = .ok (sc1, err1) →
      sc1.regs = sc.regs := by
  induction fuel with
  | zero =>
    intro sc sc1 req w pl i size lba err err1 h
    unfold prp_list_loop at h
    split at h
    · have h2 := congrArg (fun x : pci_nvme_softc × Int => x.1.regs) (Except.ok.inj h)
      exact h2.symm
    · exact absurd h (by simp)
  | succ fuel ih =>
    intro sc sc1 req w pl i size lba err err1 h
    unfold prp_list_loop at h
    split at h
    · have h2 := congrArg (fun x : pci_nvme_softc × Int => x.1.regs) (Except.ok.inj h)
      exact h2.symm
    · dsimp only at h
      split at h
      · exact absurd h (by simp)
      · exact absurd h (by simp)
      · split at h
        · have h2 := congrArg (fun x : pci_nvme_softc × Int => x.1.regs) (Except.ok.inj h)
          exact h2.symm
        · split at h
          · exact absurd h (by simp)
          · rename_i sc2 err2 happ
            have hr2 := append_iov_req_regs _ _ _ _ _ _ _ _ happ
            split at h
            · have h2 := congrArg (fun x : pci_nvme_softc × Int => x.1.regs) (Except.ok.inj h)
              exact h2.symm.trans hr2
            · exact (ih _ _ _ _ _ _ _ _ _ _ h).trans hr2

/-- The PRP walk of a command leaves the registers alone. -/
theorem io_prp_walk_regs (sc sc1 : pci_nvme_softc) (req : Option Nat) (prp1 prp2 bytes : Nat)
    (w : Bool) (lba : Nat) (err : Int)
    (h : io_prp_walk sc req prp1 prp2 bytes w lba = .ok (sc1, err)) :
    sc1.regs = sc.regs := by
  unfold io_prp_walk at h
  simp only at h
  generalize (if PAGE_SIZE - prp1 % PAGE_SIZE > bytes then bytes
    else PAGE_SIZE - prp1 % PAGE_SIZE) = cpsz at h
  cases ha : pci_nvme_append_iov_req sc req prp1 cpsz w lba with
  | error e =>
    rw [ha] at h
    exact absurd h (by simp)
  | ok q =>
    obtain ⟨sc4, err0⟩ := q
    rw [ha] at h
    dsimp only at h
    have hr4 := append_iov_req_regs _ _ _ _ _ _ _ _ ha
    split at h
    · have h2 := congrArg (fun x : pci_nvme_softc × Int => x.1.regs) (Except.ok.inj h)
      exact h2.symm.trans hr4
    · split at h
      · exact (append_iov_req_regs _ _ _ _ _ _ _ _ h).trans hr4
      · exact (prp_list_loop_regs _ _ _ _ _ _ _ _ _ _ _ h).trans hr4
/-- A state with the registers of a state that satisfies the interlock satisfies it. -/
theorem rdy_of_regs (sc sc1 : pci_nvme_softc) (h : sc1.regs = sc.regs) (hinv : RdyInv sc) :
    RdyInv sc1 := by
  unfold RdyInv at hinv ⊢
  rw [h]
  exact hinv

/-- The handling of one Read/Write command keeps the interlock between CSTS.RDY and
CC.EN. -/
theorem io_cmd_rw_rdy (sc sc1 : pci_nvme_softc) (idx a : Nat)
    (h : io_cmd_rw sc idx a = .ok sc1) (hinv : RdyInv sc) : RdyInv sc1 := by
  unfold io_cmd_rw at h
  dsimp only at h
  split at h
  · exact absurd h (by simp)
  · rename_i s1 req hgot
    have hs1 : s1.regs = sc.regs := by
      split at hgot
      · split at hgot
        · exact absurd hgot (by simp)
        · rename_i s0 r hget
          have h0 := get_ioreq_regs _ _ _ hget
          split at hgot
          · exact absurd hgot (by simp)
          · have h2 := congrArg (fun x : pci_nvme_softc × Option Nat => x.1.regs)
              (Except.ok.inj hgot)
            exact h2.symm.trans h0
      · have h2 := congrArg (fun x : pci_nvme_softc × Option Nat => x.1.regs)
          (Except.ok.inj hgot)
        exact h2.symm
    split at h
    · exact absurd h (by simp)
    · rename_i s3 hprep
      have hs3 : s3.regs = s1.regs := by
        split at hprep
        · have h2 := congrArg (fun x : pci_nvme_softc => x.regs) (Except.ok.inj hprep)
          exact h2.symm
        · split at hprep
          · exact absurd hprep (by simp)
          · have h2 := congrArg (fun x : pci_nvme_softc => x.regs) (Except.ok.inj hprep)
            exact h2.symm
      split at h
      · exact absurd h (by simp)
      · rename_i s5 err hwalk
        have hs5 : s5.regs = sc.regs :=
          (io_prp_walk_regs _ _ _ _ _ _ _ _ _ hwalk).trans (hs3.trans hs1)
        have hinv5 : RdyInv s5 := rdy_of_regs sc s5 hs5 hinv
        split at h
        · exact rdy_of_regs s5 sc1 (set_completion_regs _ _ _ _ _ _ _ _ h) hinv5
        · split at h
          · exact absurd h (by simp)
          · rename_i r
            split at h
            · exact absurd h (by simp)
            · rename_i s7 err2 hsub
              have hs7 : s7.regs = s5.regs := by
                split at hsub
                · have h2 := congrArg (fun x : pci_nvme_softc × Int => x.1.regs)
                    (Except.ok.inj hsub)
                  exact h2.symm
                · split at hsub
                  · exact absurd hsub (by simp)
                  · split at hsub
                    · have h2 := congrArg (fun x : pci_nvme_softc × Int => x.1.regs)
                        (Except.ok.inj hsub)
                      exact h2.symm
                    · split at hsub
                      · have h2 := congrArg (fun x : pci_nvme_softc × Int => x.1.regs)
                          (Except.ok.inj hsub)
                        exact h2.symm
                      · have h2 := congrArg (fun x : pci_nvme_softc × Int => x.1.regs)
                          (Except.ok.inj hsub)
                        exact h2.symm
              have hinv7 : RdyInv s7 := rdy_of_regs s5 s7 hs7 hinv5
              split at h
              · split at h
                · exact absurd h (by simp)
                · rename_i s8 hpost
                  exact release_ioreq_rdy _ _ _ h
                    (rdy_of_regs s7 s8 (set_completion_regs _ _ _ _ _ _ _ _ hpost) hinv7)
              · have h2 := Except.ok.inj h
                rw [← h2]
                exact hinv7

/-- One iteration of the I/O executor keeps the interlock between CSTS.RDY and CC.EN. -/
theorem io_step_rdy (sc sc1 : pci_nvme_softc) (idx sqhead sqhead1 : Nat)
    (h : io_step sc idx sqhead = .ok (sc1, sqhead1)) (hinv : RdyInv sc) : RdyInv sc1 := by
  unfold io_step at h
  split at h
  · exact absurd h (by simp)
  · split at h
    · exact absurd h (by simp)
    · dsimp only at h
      split at h
      · exact absurd h (by simp)
      · split at h
        · exact absurd h (by simp)
        · rename_i s1 hr
          have h2 := congrArg (fun x : pci_nvme_softc × Nat => x.1) (Except.ok.inj h)
          dsimp only at h2
          rw [← h2]
          split at hr
          · exact rdy_of_regs sc s1 (set_completion_regs _ _ _ _ _ _ _ _ hr) hinv
          · split at hr
            · exact rdy_of_regs sc s1 (set_completion_regs _ _ _ _ _ _ _ _ hr) hinv
            · exact io_cmd_rw_rdy _ _ _ _ hr hinv

/-- The loop of the I/O executor keeps the interlock between CSTS.RDY and CC.EN. -/
theorem io_loop_rdy (fuel : Nat) :
    ∀ (sc sc1 : pci_nvme_softc) (idx sqhead sqhead1 : Nat),
      io_loop fuel sc idx sqhead = .ok (sc1, sqhead1) → RdyInv sc → RdyInv sc1 := by
  induction fuel with
  | zero =>
    intro sc sc1 idx sqhead sqhead1 h hinv
    unfold io_loop at h
    split at h
    · exact absurd h (by simp)
    · split at h
      · have h2 := congrArg (fun x : pci_nvme_softc × Nat => x.1) (Except.ok.inj h)
        dsimp only at h2
        rw [← h2]
        exact hinv
      · exact absurd h (by simp)
  | succ fuel ih =>
    intro sc sc1 idx sqhead sqhead1 h hinv
    unfold io_loop at h
    split at h
    · exact absurd h (by simp)
    · split at h
      · have h2 := congrArg (fun x : pci_nvme_softc × Nat => x.1) (Except.ok.inj h)
        dsimp only at h2
        rw [← h2]
        exact hinv
      · split at h
        · exact absurd h (by simp)
        · rename_i s1 sqh1 hstep
          exact ih _ _ _ _ _ h (io_step_rdy _ _ _ _ _ hstep hinv)

/-- The I/O executor keeps the interlock between CSTS.RDY and CC.EN. -/
theorem handle_io_cmd_rdy (fuel : Nat) (sc sc1 : pci_nvme_softc) (idx : Nat)
    (h : pci_nvme_handle_io_cmd fuel sc idx = .ok sc1) (hinv : RdyInv sc) : RdyInv sc1 := by
  unfold pci_nvme_handle_io_cmd at h
  split at h
  · exact absurd h (by simp)
  · split at h
    · have h2 := Except.ok.inj h
      rw [← h2]
      exact hinv
    · dsimp only at h
      split at h
      · exact absurd h (by simp)
      · rename_i s1 sqh1 hloop
        have hinv1 : RdyInv s1 := io_loop_rdy fuel _ _ _ _ _ hloop (rdy_of_regs sc _ rfl hinv)
        split at h
        · exact absurd h (by simp)
        · have h2 := congrArg (fun x : pci_nvme_softc => x.regs) (Except.ok.inj h)
          exact rdy_of_regs s1 sc1 h2.symm hinv1
/-- The loop of Set Features / Interrupt Vector Configuration leaves the registers
alone. -/
theorem set_intcoal_loop_regs (command : nvme_command) (n : Nat) :
    ∀ (sc sc1 : pci_nvme_softc) (start : Nat),
      set_intcoal_loop sc command start n = .ok sc1 → sc1.regs = sc.regs := by
  induction n with
  | zero =>
    intro sc sc1 start h
    unfold set_intcoal_loop at h
    have h2 := congrArg (fun x : pci_nvme_softc => x.regs) (Except.ok.inj h)
    exact h2.symm
  | succ n ih =>
    intro sc sc1 start h
    unfold set_intcoal_loop at h
    split at h
    · rename_i s1 hs
      have h1 : s1.regs = sc.regs := by
        unfold set_intcoal at hs
        split at hs
        · exact absurd hs (by simp)
        · split at hs
          · have h2 := congrArg (fun x : pci_nvme_softc => x.regs) (Except.ok.inj hs)
            exact h2.symm
          · have h2 := congrArg (fun x : pci_nvme_softc => x.regs) (Except.ok.inj hs)
            exact h2.symm
      exact (ih _ _ _ h).trans h1
    · exact absurd h (by simp)

/-- Set Features leaves the registers alone. -/
theorem set_features_regs (sc : pci_nvme_softc) (cmd : nvme_command)
    (compl : nvme_completion) (res : pci_nvme_softc × nvme_completion × Nat) :
    nvme_opc_set_features sc cmd compl = .ok res → res.1.regs = sc.regs := by
  unfold nvme_opc_set_features
  dsimp only
  split
  · intro h
    exact (congrArg (fun x : pci_nvme_softc × nvme_completion × Nat => x.1.regs)
      (Except.ok.inj h)).symm
  · split
    · intro h
      exact (congrArg (fun x : pci_nvme_softc × nvme_completion × Nat => x.1.regs)
        (Except.ok.inj h)).symm
    · split
      · intro h
        exact (congrArg (fun x : pci_nvme_softc × nvme_completion × Nat => x.1.regs)
          (Except.ok.inj h)).symm
      · split
        · cases hl : set_intcoal_loop sc cmd 0 (sc.num_cqueues + 1) with
          | error e => intro h; exact absurd h (by simp)
          | ok s1 =>
            intro h
            have h1 := set_intcoal_loop_regs _ _ _ _ _ hl
            have h2 := congrArg
              (fun x : pci_nvme_softc × nvme_completion × Nat => x.1.regs)
              (Except.ok.inj h)
            exact h2.symm.trans h1
        · repeat' split
          all_goals
            intro h
            exact (congrArg (fun x : pci_nvme_softc × nvme_completion × Nat => x.1.regs)
              (Except.ok.inj h)).symm

/-- Get Features leaves the registers alone. -/
theorem get_features_regs (sc : pci_nvme_softc) (cmd : nvme_command)
    (compl : nvme_completion) (res : pci_nvme_softc × nvme_completion × Nat) :
    nvme_opc_get_features sc cmd compl = .ok res → res.1.regs = sc.regs := by
  unfold nvme_opc_get_features
  dsimp only
  repeat' split
  all_goals
    intro h
    exact (congrArg (fun x : pci_nvme_softc × nvme_completion × Nat => x.1.regs)
      (Except.ok.inj h)).symm
/-- Delete I/O Submission Queue leaves the registers alone. -/
theorem delete_io_sq_regs (sc : pci_nvme_softc) (cmd : nvme_command)
    (compl : nvme_completion) (res : pci_nvme_softc × nvme_completion × Nat) :
    nvme_opc_delete_io_sq sc cmd compl = .ok res → res.1.regs = sc.regs := by
  unfold nvme_opc_delete_io_sq
  dsimp only
  repeat' split
  all_goals
    intro h
    first
      | exact (congrArg (fun x : pci_nvme_softc × nvme_completion × Nat => x.1.regs)
          (Except.ok.inj h)).symm
      | (exfalso; simp at h)

/-- Create I/O Submission Queue leaves the registers alone. -/
theorem create_io_sq_regs (sc : pci_nvme_softc) (cmd : nvme_command)
    (compl : nvme_completion) (res : pci_nvme_softc × nvme_completion × Nat) :
    nvme_opc_create_io_sq sc cmd compl = .ok res → res.1.regs = sc.regs := by
  unfold nvme_opc_create_io_sq
  dsimp only
  repeat' split
  all_goals
    intro h
    first
      | exact (congrArg (fun x : pci_nvme_softc × nvme_completion × Nat => x.1.regs)
          (Except.ok.inj h)).symm
      | (exfalso; simp at h)

/-- Delete I/O Completion Queue leaves the registers alone. -/
theorem delete_io_cq_regs (sc : pci_nvme_softc) (cmd : nvme_command)
    (compl : nvme_completion) (res : pci_nvme_softc × nvme_completion × Nat) :
    nvme_opc_delete_io_cq sc cmd compl = .ok res → res.1.regs = sc.regs := by
  unfold nvme_opc_delete_io_cq
  dsimp only
  repeat' split
  all_goals
    intro h
    first
      | exact (congrArg (fun x : pci_nvme_softc × nvme_completion × Nat => x.1.regs)
          (Except.ok.inj h)).symm
      | (exfalso; simp at h)

/-- Create I/O Completion Queue leaves the registers alone. -/
theorem create_io_cq_regs (sc : pci_nvme_softc) (cmd : nvme_command)
    (compl : nvme_completion) (res : pci_nvme_softc × nvme_completion × Nat) :
    nvme_opc_create_io_cq sc cmd compl = .ok res → res.1.regs = sc.regs := by
  unfold nvme_opc_create_io_cq
  dsimp only
  repeat' split
  all_goals
    intro h
    first
      | exact (congrArg (fun x : pci_nvme_softc × nvme_completion × Nat => x.1.regs)
          (Except.ok.inj h)).symm
      | (exfalso; simp at h)

/-- Get Log Page leaves the registers alone. -/
theorem get_log_page_regs (sc : pci_nvme_softc) (cmd : nvme_command)
    (compl : nvme_completion) (res : pci_nvme_softc × nvme_completion × Nat) :
    nvme_opc_get_log_page sc cmd compl = .ok res → res.1.regs = sc.regs := by
  unfold nvme_opc_get_log_page
  dsimp only
  repeat' split
  all_goals
    intro h
    first
      | exact (congrArg (fun x : pci_nvme_softc × nvme_completion × Nat => x.1.regs)
          (Except.ok.inj h)).symm
      | (exfalso; simp at h)

/-- Identify leaves the registers alone. -/
theorem identify_regs (sc : pci_nvme_softc) (cmd : nvme_command)
    (compl : nvme_completion) (res : pci_nvme_softc × nvme_completion × Nat) :
    nvme_opc_identify sc cmd compl = .ok res → res.1.regs = sc.regs := by
  unfold nvme_opc_identify
  dsimp only
  repeat' split
  all_goals
    intro h
    first
      | exact (congrArg (fun x : pci_nvme_softc × nvme_completion × Nat => x.1.regs)
          (Except.ok.inj h)).symm
      | (exfalso; simp at h)

/-- No admin command changes the registers. -/
theorem admin_dispatch_regs (sc : pci_nvme_softc) (cmd : nvme_command)
    (compl : nvme_completion) (res : pci_nvme_softc × nvme_completion × Nat)
    (h : admin_dispatch sc cmd compl = .ok res) : res.1.regs = sc.regs := by
  unfold admin_dispatch at h
  split at h
  · exact delete_io_sq_regs _ _ _ _ h
  · split at h
    · exact create_io_sq_regs _ _ _ _ h
    · split at h
      · exact delete_io_cq_regs _ _ _ _ h
      · split at h
        · exact create_io_cq_regs _ _ _ _ h
        · split at h
          · exact get_log_page_regs _ _ _ _ h
          · split at h
            · exact identify_regs _ _ _ _ h
            · split at h
              · unfold nvme_opc_abort at h
                exact (congrArg (fun x : pci_nvme_softc × nvme_completion × Nat => x.1.regs)
                  (Except.ok.inj h)).symm
              · split at h
                · exact set_features_regs _ _ _ _ h
                · split at h
                  · exact get_features_regs _ _ _ _ h
                  · split at h
                    · exact (congrArg
                        (fun x : pci_nvme_softc × nvme_completion × Nat => x.1.regs)
                        (Except.ok.inj h)).symm
                    · exact (congrArg
                        (fun x : pci_nvme_softc × nvme_completion × Nat => x.1.regs)
                        (Except.ok.inj h)).symm

/-- Posting an admin completion leaves the registers alone. -/
theorem admin_post_regs (sc sc1 : pci_nvme_softc) (sqhead : Nat) (cmd : nvme_command)
    (compl : nvme_completion) (h : admin_post sc sqhead cmd compl = .ok sc1) :
    sc1.regs = sc.regs := by
  unfold admin_post at h
  split at h
  · exact absurd h (by simp)
  · split at h
    · exact absurd h (by simp)
    · dsimp only at h
      split at h
      · exact absurd h (by simp)
      · exact (congrArg (fun x : pci_nvme_softc => x.regs) (Except.ok.inj h)).symm
/-- One iteration of the admin loop leaves the registers alone. -/
theorem admin_step_regs (sc : pci_nvme_softc) (sqhead : Nat) (compl : nvme_completion)
    (do_intr : Nat) (res : pci_nvme_softc × Nat × nvme_completion × Nat)
    (h : admin_step sc sqhead compl do_intr = .ok res) : res.1.regs = sc.regs := by
  unfold admin_step at h
  split at h
  · exact absurd h (by simp)
  · split at h
    · exact absurd h (by simp)
    · dsimp only at h
      split at h
      · exact absurd h (by simp)
      · rename_i s1 c1 r hd
        have h1 : s1.regs = sc.regs := admin_dispatch_regs _ _ _ _ hd
        split at h
        · exact absurd h (by simp)
        · rename_i s2 hp
          have h2 : s2.regs = s1.regs := by
            split at hp
            · exact admin_post_regs _ _ _ _ _ hp
            · exact (congrArg (fun x : pci_nvme_softc => x.regs) (Except.ok.inj hp)).symm
          split at h
          · exact absurd h (by simp)
          · split at h
            · exact absurd h (by simp)
            · have h3 := congrArg
                (fun x : pci_nvme_softc × Nat × nvme_completion × Nat => x.1.regs)
                (Except.ok.inj h)
              exact h3.symm.trans (h2.trans h1)

/-- The admin loop leaves the registers alone. -/
theorem admin_loop_regs (fuel : Nat) :
    ∀ (sc : pci_nvme_softc) (sqhead : Nat) (compl : nvme_completion) (do_intr : Nat)
      (res : pci_nvme_softc × Nat × Nat),
      admin_loop fuel sc sqhead compl do_intr = .ok res → res.1.regs = sc.regs := by
  induction fuel with
  | zero =>
    intro sc sqhead compl do_intr res h
    unfold admin_loop at h
    split at h
    · exact absurd h (by simp)
    · split at h
      · exact (congrArg (fun x : pci_nvme_softc × Nat × Nat => x.1.regs)
          (Except.ok.inj h)).symm
      · exact absurd h (by simp)
  | succ n ih =>
    intro sc sqhead compl do_intr res h
    unfold admin_loop at h
    split at h
    · exact absurd h (by simp)
    · split at h
      · exact (congrArg (fun x : pci_nvme_softc × Nat × Nat => x.1.regs)
          (Except.ok.inj h)).symm
      · dsimp only at h
        split at h
        · exact absurd h (by simp)
        · rename_i s1 q1 c1 d1 hs
          have h1 := admin_step_regs _ _ _ _ _ hs
          exact (ih _ _ _ _ _ h).trans h1

/-- Running the admin submission queue leaves the registers alone. -/
theorem handle_admin_cmd_regs (fuel : Nat) (sc sc1 : pci_nvme_softc) (value : Nat)
    (h : pci_nvme_handle_admin_cmd fuel sc value = .ok sc1) : sc1.regs = sc.regs := by
  unfold pci_nvme_handle_admin_cmd at h
  split at h
  · exact absurd h (by simp)
  · dsimp only at h
    split at h
    · exact (congrArg (fun x : pci_nvme_softc => x.regs) (Except.ok.inj h)).symm
    · split at h
      · exact absurd h (by simp)
      · rename_i s1 q1 d1 hl
        have h1 := admin_loop_regs _ _ _ _ _ _ hl
        split at h
        · exact absurd h (by simp)
        · split at h
          · have h2 := congrArg (fun x : pci_nvme_softc => x.regs) (Except.ok.inj h)
            exact h2.symm.trans h1
          · have h2 := congrArg (fun x : pci_nvme_softc => x.regs) (Except.ok.inj h)
            exact h2.symm.trans h1
/-- A write of CC establishes the interlock between CSTS.RDY and CC.EN: with EN = 0
written RDY is cleared, with EN = 1 written the stored CC has EN = 1. -/
theorem write_cc_rdy (sc s3 : pci_nvme_softc) (value : Nat)
    (h : write_cc sc value = .ok s3) : RdyInv s3 := by
  unfold write_cc at h
  obtain ⟨v, hv⟩ : ∃ v, v = value % 2 ^ 32 := ⟨_, rfl⟩
  rw [← hv] at h
  obtain ⟨s0, hs0⟩ : ∃ s0, s0 = write_cc_shn sc v := ⟨_, rfl⟩
  rw [← hs0] at h
  cases hr : (if cc_en v ≠ cc_en s0.regs.cc then
        if cc_en v = 0 then pci_nvme_reset s0 else pci_nvme_init_controller s0
      else Except.ok s0) with
  | error e =>
    unfold write_cc_en at h
    simp only [hr] at h
    exact absurd h (by simp)
  | ok s2 =>
    obtain ⟨s4, h4, hcc, hcsts⟩ := write_cc_en_latch s0 s2 v hr
    rw [h] at h4
    have e : s3 = s4 := Except.ok.inj h4
    rw [e]
    intro hrdy
    by_cases hen : cc_en v = 0
    · rw [hcsts, if_pos hen, csts_rdy_set_rdy] at hrdy
      exact absurd hrdy (by decide)
    · rw [hcc, if_neg hen, cc_en_set_en]
      rcases cc_en_le_one v with h0 | h1
      · exact absurd h0 hen
      · rw [h1]

/-- A doorbell write keeps the interlock between CSTS.RDY and CC.EN. -/
theorem handle_doorbell_rdy (fuel : Nat) (sc sc1 : pci_nvme_softc) (idx : Nat) (is_sq : Bool)
    (value : Nat) (h : pci_nvme_handle_doorbell fuel sc idx is_sq value = .ok sc1)
    (hinv : RdyInv sc) : RdyInv sc1 := by
  unfold pci_nvme_handle_doorbell at h
  split at h
  · split at h
    · exact absurd h (by simp)
    · dsimp only at h
      split at h
      · exact rdy_of_regs _ _ ((handle_admin_cmd_regs _ _ _ _ h).trans rfl) hinv
      · split at h
        · exact rdy_of_regs _ _
            (congrArg (fun x : pci_nvme_softc => x.regs) (Except.ok.inj h)).symm hinv
        · exact handle_io_cmd_rdy _ _ _ _ h (rdy_of_regs sc _ rfl hinv)
  · split at h
    · exact rdy_of_regs _ _
        (congrArg (fun x : pci_nvme_softc => x.regs) (Except.ok.inj h)).symm hinv
    · split at h
      · exact absurd h (by simp)
      · exact rdy_of_regs _ _
          (congrArg (fun x : pci_nvme_softc => x.regs) (Except.ok.inj h)).symm hinv

/-- A conditional whose first branch returns a state with the interlock between CSTS.RDY
and CC.EN has it when the other branch has. -/
theorem ite_ok_rdy (c : Prop) [Decidable c] (s sc1 : pci_nvme_softc)
    (e : Except Fault pci_nvme_softc) (h : (if c then Except.ok s else e) = .ok sc1)
    (hs : RdyInv s) (he : e = .ok sc1 → RdyInv sc1) : RdyInv sc1 := by
  by_cases hc : c
  · rw [if_pos hc] at h
    rw [← Except.ok.inj h]
    exact hs
  · rw [if_neg hc] at h
    exact he h

/-- Every write to BAR 0 keeps the interlock between CSTS.RDY and CC.EN. -/
theorem write_bar_0_rdy (fuel : Nat) (sc sc1 : pci_nvme_softc) (offset size value : Nat)
    (h : pci_nvme_write_bar_0 fuel sc offset size value = .ok sc1)
    (hinv : RdyInv sc) : RdyInv sc1 := by
  by_cases hd : offset ≥ NVME_DOORBELL_OFFSET
  · obtain ⟨q, hq⟩ : ∃ q, ((sc.max_queues + 1) * 8 + 2 ^ 32 - 4) % 2 ^ 32 = q := ⟨_, rfl⟩
    have heq : pci_nvme_write_bar_0 fuel sc offset size value =
        if offset - NVME_DOORBELL_OFFSET > q then .ok sc
        else pci_nvme_handle_doorbell fuel sc ((offset - NVME_DOORBELL_OFFSET) / 8)
          (decide ((offset - NVME_DOORBELL_OFFSET) % 8 < 4)) value := by
      simp only [pci_nvme_write_bar_0, hd, if_true, hq]
    rw [heq] at h
    exact ite_ok_rdy _ _ _ _ h hinv (fun h1 => handle_doorbell_rdy _ _ _ _ _ _ h1 hinv)
  · simp only [pci_nvme_write_bar_0, hd, if_false] at h
    refine ite_ok_rdy _ _ _ _ h hinv (fun h => ?_)
    refine ite_ok_rdy _ _ _ _ h hinv (fun h => ?_)
    refine ite_ok_rdy _ _ _ _ h hinv (fun h => ?_)
    refine ite_ok_rdy _ _ _ _ h hinv (fun h => ?_)
    refine ite_ok_rdy _ _ _ _ h hinv (fun h => ?_)
    by_cases hcc : offset = NVME_CR_CC
    · rw [if_pos hcc] at h
      exact write_cc_rdy _ _ _ h
    · rw [if_neg hcc] at h
      refine ite_ok_rdy _ _ _ _ h hinv (fun h => ?_)
      refine ite_ok_rdy _ _ _ _ h hinv (fun h => ?_)
      refine ite_ok_rdy _ _ _ _ h hinv (fun h => ?_)
      refine ite_ok_rdy _ _ _ _ h hinv (fun h => ?_)
      refine ite_ok_rdy _ _ _ _ h hinv (fun h => ?_)
      refine ite_ok_rdy _ _ _ _ h hinv (fun h => ?_)
      refine ite_ok_rdy _ _ _ _ h hinv (fun h => ?_)
      rw [← Except.ok.inj h]
      exact hinv

/-- The completion callback keeps the interlock between CSTS.RDY and CC.EN. -/
theorem io_done_rdy (sc sc1 : pci_nvme_softc) (req err : Nat)
    (h : pci_nvme_io_done sc req err = .ok sc1) (hinv : RdyInv sc) : RdyInv sc1 := by
  unfold pci_nvme_io_done at h
  split at h
  · exact absurd h (by simp)
  · split at h
    · exact absurd h (by simp)
    · dsimp only at h
      split at h
      · exact absurd h (by simp)
      · rename_i s1 hs
        exact release_ioreq_rdy _ _ _ h
          (rdy_of_regs _ _ (set_completion_regs _ _ _ _ _ _ _ _ hs) hinv)

/-- Every sequence of events keeps the interlock between CSTS.RDY and CC.EN. -/
theorem events_run_rdy (fuel : Nat) (evs : List nvme_event) :
    ∀ (sc sc1 : pci_nvme_softc), nvme_events_run fuel sc evs = .ok sc1 →
      RdyInv sc → RdyInv sc1 := by
  induction evs with
  | nil =>
    intro sc sc1 h hinv
    unfold nvme_events_run at h
    rw [← Except.ok.inj h]
    exact hinv
  | cons ev rest ih =>
    intro sc sc1 h hinv
    unfold nvme_events_run at h
    split at h
    · exact absurd h (by simp)
    · rename_i s1 hs
      refine ih s1 sc1 h ?_
      cases ev with
      | bar0_write offset size value => exact write_bar_0_rdy _ _ _ _ _ _ hs hinv
      | io_done req err => exact io_done_rdy _ _ _ _ hs hinv
theorem csts_rdy_set_shst (raw v : Nat) : csts_rdy (csts_set_shst raw v) = csts_rdy raw := by
  simp only [csts_rdy, csts_set_shst, getbits, setbits, Nat.reducePow, pow_zero, pow_one]
  omega

theorem csts_rdy_le_one (raw : Nat) : csts_rdy raw = 0 ∨ csts_rdy raw = 1 := by
  simp only [csts_rdy, getbits, Nat.reducePow, pow_zero, pow_one]
  omega

theorem csts_set_rdy_same (raw : Nat) (h : csts_rdy raw = 1) : csts_set_rdy raw 1 = raw := by
  simp only [csts_rdy, csts_set_rdy, getbits, setbits, Nat.reducePow, pow_zero, pow_one] at h ⊢
  omega

/-- A release of a descriptor of the array returns. -/
theorem release_ioreq_returns (sc : pci_nvme_softc) (r : Nat) (hr : r < sc.ioreqs.length) :
    ∃ sc1, pci_nvme_release_ioreq sc r = .ok sc1 := by
  obtain ⟨q, hq⟩ : ∃ q, (sc.pending_ios + 2 ^ 32 - 1) % 2 ^ 32 = q := ⟨_, rfl⟩
  obtain ⟨c, hc⟩ : ∃ c, (if q = 0 ∧ cc_en sc.regs.cc ≠ 0 ∧ csts_rdy sc.regs.csts = 0
      then csts_set_rdy sc.regs.csts 1 else sc.regs.csts) = c := ⟨_, rfl⟩
  have hrq : sc.ioreqs[r]? = some (sc.ioreqs.get ⟨r, hr⟩) := List.getElem?_eq_getElem hr
  exact ⟨{ sc with
          ioreqs := sc.ioreqs.set r
            { sc.ioreqs.get ⟨r, hr⟩ with in_use := false, nvme_sq := none, sqid := 0 }
          ioreqs_free := r :: sc.ioreqs_free
          pending_ios := q
          regs := { sc.regs with csts := c } },
    by simp only [pci_nvme_release_ioreq, hrq, hq, hc]⟩

/-- C35: the pending-enable interlock.  (1) A 4-byte write of CC with EN = 1, made on
allocated queue arrays while `pending_ios > 0` and CSTS.RDY = 0, returns and leaves
CSTS.RDY = 0.  (2) `pci_nvme_release_ioreq` of a descriptor of the array returns, leaves
CC, stores the decremented `pending_ios` (modulo 2^32), and when that is 0 and CC.EN = 1
CSTS afterwards is the old CSTS with RDY set to 1, otherwise CSTS is unchanged.  (3) In
every state reached from the state `pci_nvme_init` builds by guest writes to BAR 0 and
completion callbacks, CSTS.RDY = 1 implies CC.EN = 1. -/
theorem pending_enable_interlock :
    (∀ (fuel : Nat) (sc : pci_nvme_softc) (value : Nat),
      sc.submit_queues.length = sc.max_queues + 1 →
      sc.compl_queues.length = sc.max_queues + 1 →
      cc_en (value % 2 ^ 32) = 1 → 0 < sc.pending_ios → csts_rdy sc.regs.csts = 0 →
      ∃ s, pci_nvme_write_bar_0 fuel sc NVME_CR_CC 4 value = .ok s ∧
        csts_rdy s.regs.csts = 0) ∧
    (∀ (sc : pci_nvme_softc) (r : Nat), r < sc.ioreqs.length →
      ∃ sc1, pci_nvme_release_ioreq sc r = .ok sc1 ∧
        sc1.regs.cc = sc.regs.cc ∧
        sc1.pending_ios = (sc.pending_ios + 2 ^ 32 - 1) % 2 ^ 32 ∧
        ((sc1.pending_ios = 0 ∧ cc_en sc.regs.cc = 1) →
          sc1.regs.csts = csts_set_rdy sc.regs.csts 1 ∧ csts_rdy sc1.regs.csts = 1) ∧
        (¬ (sc1.pending_ios = 0 ∧ cc_en sc.regs.cc = 1) →
          sc1.regs.csts = sc.regs.csts)) ∧
    (∀ (host : host_services) (ctx : vmctx) (opts : List nvme_opt) (fuel : Nat)
      (evs : List nvme_event) (sc0 sc : pci_nvme_softc),
      pci_nvme_init host ctx opts = .ok (0, sc0) →
      nvme_events_run fuel sc0 evs = .ok sc →
      csts_rdy sc.regs.csts = 1 → cc_en sc.regs.cc = 1) := by
  refine ⟨?_, ?_, ?_⟩
  · intro fuel sc value hlen1 hlen2 hen hpend hrdy
    obtain ⟨s, cc0, csts0, hw, _, hcsts0, _, hcsts⟩ := write_cc_regs fuel sc value hlen1 hlen2
    refine ⟨s, hw, ?_⟩
    have hen0 : ¬ (cc_en (value % 2 ^ 32) = 0) := by rw [hen]; decide
    have hp0 : ¬ (sc.pending_ios = 0) := by omega
    have hne : ¬ (cc_en (value % 2 ^ 32) ≠ cc_en sc.regs.cc ∧ cc_en (value % 2 ^ 32) = 0) :=
      fun hx => hen0 hx.2
    rw [hcsts, if_neg hen0, if_neg hp0, hcsts0, if_neg hne]
    split
    · rw [csts_rdy_set_shst]
      exact hrdy
    · exact hrdy
  · intro sc r hr
    obtain ⟨sc1, h1⟩ := release_ioreq_returns sc r hr
    obtain ⟨hcc, hpend, hset, hkeep⟩ := release_ioreq_regs sc sc1 r h1
    refine ⟨sc1, h1, hcc, hpend, ?_, ?_⟩
    · intro hcond
      have hen : cc_en sc.regs.cc ≠ 0 := by rw [hcond.2]; decide
      rcases csts_rdy_le_one sc.regs.csts with h0 | h1
      · have hs := hset ⟨hcond.1, hen, h0⟩
        refine ⟨hs, ?_⟩
        rw [hs, csts_rdy_set_rdy]
      · have hs := hkeep (fun hx => by rw [h1] at hx; exact absurd hx.2.2 (by decide))
        rw [hs]
        exact ⟨(csts_set_rdy_same _ h1).symm, h1⟩
    · intro hcond
      refine hkeep (fun hx => hcond ⟨hx.1, ?_⟩)
      rcases cc_en_le_one sc.regs.cc with h0 | h1
      · exact absurd h0 hx.2.1
      · exact h1
  · intro host ctx opts fuel evs sc0 sc hinit hrun
    have h0 := init_pool host ctx opts sc0 hinit
    have hinv0 : RdyInv sc0 := by
      intro hr
      rw [h0.2.2.2.2] at hr
      exact absurd hr (by decide)
    exact events_run_rdy fuel evs sc0 sc hrun hinv0

/-- Witness for C35: on the disabled example device with one request outstanding the
write `CC = 0x00460001` leaves CSTS.RDY = 0; the release of descriptor 0 in the state
after that write brings `pending_ios` to 0 and CSTS.RDY to 1; and the device built by
`pci_nvme_init` for a 1 MiB RAM disk reaches, by that write of CC, a state with
CSTS.RDY = 1, in which CC.EN = 1. -/
theorem pending_enable_interlock_witness :
    (∃ s, pci_nvme_write_bar_0 0 demo_pending NVME_CR_CC 4 0x00460001 = .ok s ∧
      csts_rdy s.regs.csts = 0) ∧
    (∃ sc1, pci_nvme_release_ioreq demo_pending_en 0 = .ok sc1 ∧
      sc1.regs.cc = demo_pending_en.regs.cc ∧
      sc1.pending_ios = (demo_pending_en.pending_ios + 2 ^ 32 - 1) % 2 ^ 32 ∧
      ((sc1.pending_ios = 0 ∧ cc_en demo_pending_en.regs.cc = 1) →
        sc1.regs.csts = csts_set_rdy demo_pending_en.regs.csts 1 ∧
          csts_rdy sc1.regs.csts = 1) ∧
      (¬ (sc1.pending_ios = 0 ∧ cc_en demo_pending_en.regs.cc = 1) →
        sc1.regs.csts = demo_pending_en.regs.csts)) ∧
    (demo_pending_en.pending_ios = 1 ∧ cc_en demo_pending_en.regs.cc = 1 ∧
      csts_rdy demo_pending_en.regs.csts = 0) ∧
    (∃ sc0 sc, pci_nvme_init demo_host demo_ctx [nvme_opt.ram 1] = .ok (0, sc0) ∧
      nvme_events_run 0 sc0 [nvme_event.bar0_write NVME_CR_CC 4 0x00460001] = .ok sc ∧
      csts_rdy sc.regs.csts = 1 ∧ cc_en sc.regs.cc = 1) :=
  ⟨pending_enable_interlock.1 0 demo_pending 0x00460001 rfl rfl (by decide) (by decide)
      (by decide),
    pending_enable_interlock.2.1 demo_pending_en 0 (by decide),
    ⟨by decide, by decide, by decide⟩,
    ⟨_, _, rfl, rfl, rfl,
      pending_enable_interlock.2.2 demo_host demo_ctx [nvme_opt.ram 1] 0
        [nvme_event.bar0_write NVME_CR_CC 4 0x00460001] _ _ rfl rfl rfl⟩⟩

/-! ### LBA-to-byte conversion on the block backend -/

/-- One more segment for a block request that already holds an entry, with room in the
iovec: the call returns 0, changes nothing but the request, which gains an entry unless
the segment starts where the last one ended, and `br_resid` grows by the length while
`br_offset` stays. -/
theorem append_blk_next (sc : pci_nvme_softc) (r g size lba cnt resid off pe : Nat) (w : Bool)
    (hreq : BlkReq sc r cnt resid off pe) (h1 : 1 ≤ cnt)
    (hroom : cnt + (if pe = g then 0 else 1) ≤ NVME_MAX_BLOCKIOVS) :
    ∃ sc1, pci_nvme_append_iov_req sc (some r) g size w lba = .ok (sc1, 0) ∧
      sc1 = { sc with ioreqs := sc1.ioreqs } ∧
      BlkReq sc1 r (cnt + (if pe = g then 0 else 1)) (resid + size) off
        ((g + size) % 2 ^ 64) := by
  obtain ⟨rq, hrq, huse, hlen, hcnt, hres, hoff, hpe⟩ := hreq
  have hlt : r < sc.ioreqs.length := (List.getElem?_eq_some.mp hrq).1
  by_cases hc : pe = g
  · rw [if_pos hc] at hroom ⊢
    have hcg : (rq.prev_gpaddr + rq.prev_size) % 2 ^ 64 = g := hpe.trans hc
    refine ⟨_, append_coalesce sc r g size lba w rq hrq huse hcg (by omega) (by omega), rfl,
      _, List.getElem?_set_self hlt, huse, ?_, hcnt, ?_, hoff, ?_⟩
    · show (rq.io_req.br_iov.set _ _).length = _
      rw [List.length_set]
      exact hlen
    · show rq.io_req.br_resid + size = resid + size
      rw [hres]
    · show (rq.prev_gpaddr + (rq.prev_size + size)) % 2 ^ 64 = (g + size) % 2 ^ 64
      rw [← hcg]
      omega
  · rw [if_neg hc] at hroom ⊢
    have hcg : (rq.prev_gpaddr + rq.prev_size) % 2 ^ 64 ≠ g := fun hx => hc (hpe.symm.trans hx)
    refine ⟨_, append_new_entry sc r g size lba w rq hrq huse hcg (by omega) (by omega) hlen,
      rfl, _, List.getElem?_set_self hlt, huse, ?_, ?_, ?_, hoff, rfl⟩
    · show (rq.io_req.br_iov.set _ _).length = _
      rw [List.length_set]
      exact hlen
    · show rq.io_req.br_iovcnt + 1 = cnt + 1
      rw [hcnt]
    · show rq.io_req.br_resid + size = resid + size
      rw [hres]

/-- The guest segments of a PRP list add up to the bytes asked for. -/
theorem prp_list_gsegs_len (fuel : Nat) :
    ∀ (byte : Nat → Nat) (map : Nat → Nat → Option Nat) (pl i size : Nat)
      (segs : List (Nat × Nat)),
      prp_list_gsegs fuel byte map pl i size = some segs → segs_len segs = size := by
  induction fuel with
  | zero =>
    intro byte map pl i size segs h
    unfold prp_list_gsegs at h
    by_cases hs : size = 0
    · rw [if_pos hs] at h
      rw [← Option.some.inj h, hs]
      rfl
    · rw [if_neg hs] at h
      exact absurd h (by simp)
  | succ fuel ih =>
    intro byte map pl i size segs h
    unfold prp_list_gsegs at h
    by_cases hs : size = 0
    · rw [if_pos hs] at h
      rw [← Option.some.inj h, hs]
      rfl
    · rw [if_neg hs] at h
      dsimp only at h
      split at h
      · exact absurd h (by simp)
      · split at h
        · exact absurd h (by simp)
        · split at h
          · exact absurd h (by simp)
          · rename_i d hd
            rw [← Option.some.inj h]
            show min size PAGE_SIZE + segs_len d = size
            rw [ih _ _ _ _ _ _ hd]
            have := Nat.min_le_left size PAGE_SIZE
            omega
/-- What a well-formed PRP list with bytes left gives: the first entry and the segments
of the rest. -/
theorem prp_list_gsegs_succ (fuel : Nat) (byte : Nat → Nat) (map : Nat → Nat → Option Nat)
    (pl i size : Nat) (segs : List (Nat × Nat)) (hs : size ≠ 0)
    (h : prp_list_gsegs (fuel + 1) byte map pl i size = some segs) :
    ∃ p i1 pg d, prp_list_move byte map pl i size = some (p, i1, pg) ∧
      read64 byte (p + 8 * i1) ≠ 0 ∧
      prp_list_gsegs fuel byte map p (i1 + 1) (size - min size PAGE_SIZE) = some d ∧
      segs = (read64 byte (p + 8 * i1), min size PAGE_SIZE) :: d := by
  unfold prp_list_gsegs at h
  rw [if_neg hs] at h
  dsimp only at h
  cases hmv : prp_list_move byte map pl i size with
  | none =>
    rw [hmv] at h
    exact absurd h (by simp)
  | some q =>
    obtain ⟨p, i1, pg⟩ := q
    rw [hmv] at h
    dsimp only at h
    by_cases he : read64 byte (p + 8 * i1) = 0
    · rw [if_pos he] at h
      exact absurd h (by simp)
    · rw [if_neg he] at h
      cases hd : prp_list_gsegs fuel byte map p (i1 + 1) (size - min size PAGE_SIZE) with
      | none =>
        rw [hd] at h
        exact absurd h (by simp)
      | some d =>
        rw [hd] at h
        exact ⟨p, i1, pg, d, rfl, he, hd, (Option.some.inj h).symm⟩

/-- The PRP list loop for a block request that already holds an entry: with the list
well formed and room in the iovec for its segments, the loop returns with `err = 0`,
changes nothing but the request, which gains the entries of the segments, and `br_resid`
grows by their total length while `br_offset` stays. -/
theorem prp_list_loop_blk (fuel : Nat) :
    ∀ (sc : pci_nvme_softc) (r : Nat) (w : Bool) (pl i size lba : Nat)
      (segs : List (Nat × Nat)) (cnt resid off pe : Nat),
      prp_list_gsegs fuel sc.ctx.byte sc.ctx.vm_map_gpa pl i size = some segs →
      BlkReq sc r cnt resid off pe → 1 ≤ cnt →
      cnt + iov_entries pe segs ≤ NVME_MAX_BLOCKIOVS →
      ∃ sc1 pe1, prp_list_loop fuel sc (some r) w (some pl) i size lba 0 = .ok (sc1, 0) ∧
        sc1 = { sc with ioreqs := sc1.ioreqs } ∧
        BlkReq sc1 r (cnt + iov_entries pe segs) (resid + segs_len segs) off pe1 := by
  induction fuel with
  | zero =>
    intro sc r w pl i size lba segs cnt resid off pe h hreq _ _
    unfold prp_list_gsegs at h
    by_cases hs : size = 0
    · rw [if_pos hs] at h
      rw [← Option.some.inj h]
      refine ⟨sc, pe, ?_, rfl, hreq⟩
      unfold prp_list_loop
      rw [if_pos hs]
    · rw [if_neg hs] at h
      exact absurd h (by simp)
  | succ fuel ih =>
    intro sc r w pl i size lba segs cnt resid off pe h hreq h1 hroom
    by_cases hs : size = 0
    · unfold prp_list_gsegs at h
      rw [if_pos hs] at h
      rw [← Option.some.inj h]
      refine ⟨sc, pe, ?_, rfl, hreq⟩
      unfold prp_list_loop
      rw [if_pos hs]
    · obtain ⟨p, i1, pg, d, hmv, he, hd, hsegs⟩ :=
        prp_list_gsegs_succ fuel _ _ pl i size segs hs h
      subst hsegs
      obtain ⟨e, hedef⟩ : ∃ e, e = read64 sc.ctx.byte (p + 8 * i1) := ⟨_, rfl⟩
      rw [← hedef] at he hroom ⊢
      have hroom1 : cnt + (if pe = e then 0 else 1) ≤ NVME_MAX_BLOCKIOVS := by
        have : iov_entries pe ((e, min size PAGE_SIZE) :: d) =
            (if pe = e then 0 else 1) + iov_entries ((e + min size PAGE_SIZE) % 2 ^ 64) d := rfl
        omega
      obtain ⟨sc1, happ, hfr, hreq1⟩ :=
        append_blk_next sc r e (min size PAGE_SIZE) lba cnt resid off pe w hreq h1 hroom1
      have hctx : sc1.ctx = sc.ctx := by
        rw [hfr]
      rw [← hctx] at hd
      have hroom2 : cnt + (if pe = e then 0 else 1) +
          iov_entries ((e + min size PAGE_SIZE) % 2 ^ 64) d ≤ NVME_MAX_BLOCKIOVS := by
        have : iov_entries pe ((e, min size PAGE_SIZE) :: d) =
            (if pe = e then 0 else 1) + iov_entries ((e + min size PAGE_SIZE) % 2 ^ 64) d := rfl
        omega
      obtain ⟨sc2, pe2, hrec, hfr2, hreq2⟩ := ih sc1 r w p (i1 + 1) (size - min size PAGE_SIZE)
        ((lba + min size PAGE_SIZE) % 2 ^ 64) d _ _ off _ hd hreq1 (by omega) hroom2
      refine ⟨sc2, pe2, ?_, ?_, ?_⟩
      · unfold prp_list_loop
        simp only [hs, if_false, prp_list_next_of_move sc pl i size p i1 pg hmv, ← hedef, he,
          happ, ne_eq, not_true_eq_false, hrec]
      · rw [hfr2]
        show _ = { sc with ioreqs := sc2.ioreqs }
        rw [hfr]
      · have e1 : cnt + iov_entries pe ((e, min size PAGE_SIZE) :: d) =
            cnt + (if pe = e then 0 else 1) +
              iov_entries ((e + min size PAGE_SIZE) % 2 ^ 64) d := by
          show cnt + ((if pe = e then 0 else 1) +
            iov_entries ((e + min size PAGE_SIZE) % 2 ^ 64) d) = _
          omega
        have e2 : resid + segs_len ((e, min size PAGE_SIZE) :: d) =
            resid + min size PAGE_SIZE + segs_len d := by
          show resid + (min size PAGE_SIZE + segs_len d) = _
          omega
        rw [e1, e2]
        exact hreq2
theorem iov_entries_cons (pe : Nat) (s : Nat × Nat) (rest : List (Nat × Nat)) :
    iov_entries pe (s :: rest) =
      (if pe = s.1 then 0 else 1) + iov_entries ((s.1 + s.2) % 2 ^ 64) rest := rfl

/-- The PRP walk of a command for a block request fresh from `pci_nvme_get_ioreq`, with
`prp1` other than 0, the PRPs well formed and room in the iovec for the segments: the walk
returns with `err = 0`, changes nothing but the request, and leaves it with `br_offset`
the byte offset `lba` and `br_resid` the length of the transfer. -/
theorem io_prp_walk_blk (sc : pci_nvme_softc) (r prp1 prp2 bytes lba : Nat) (w : Bool)
    (rq : pci_nvme_ioreq) (segs : List (Nat × Nat))
    (hrq : sc.ioreqs[r]? = some rq) (huse : rq.in_use = true)
    (hcnt : rq.io_req.br_iovcnt = 0) (hpg : rq.prev_gpaddr = 0) (hps : rq.prev_size = 0)
    (hlen : rq.io_req.br_iov.length = NVME_MAX_BLOCKIOVS) (hg : prp1 ≠ 0)
    (hsegs : prp_gsegs sc.ctx.byte sc.ctx.vm_map_gpa prp1 prp2 bytes = some segs)
    (hfit : iov_entries 0 segs ≤ NVME_MAX_BLOCKIOVS) :
    ∃ sc1 pe, io_prp_walk sc (some r) prp1 prp2 bytes w lba = .ok (sc1, 0) ∧
      sc1 = { sc with ioreqs := sc1.ioreqs } ∧
      BlkReq sc1 r (iov_entries 0 segs) bytes lba pe := by
  have hlt : r < sc.ioreqs.length := (List.getElem?_eq_some.mp hrq).1
  have hle := cpsz_le prp1 bytes
  obtain ⟨cpsz, hcp⟩ : ∃ cpsz, cpsz =
      (if PAGE_SIZE - prp1 % PAGE_SIZE > bytes then bytes else PAGE_SIZE - prp1 % PAGE_SIZE) :=
    ⟨_, rfl⟩
  rw [← hcp] at hle
  have hfirst := append_first_segment sc r prp1 cpsz lba w rq hrq huse hcnt hpg hps hlen hg
  obtain ⟨sc4, hsc4⟩ : ∃ sc4, sc4 = { sc with
         ioreqs := sc.ioreqs.set r
           { rq with prev_gpaddr := prp1
                     prev_size := cpsz
                     io_req := { rq.io_req with
                                 br_iov := rq.io_req.br_iov.set 0
                                   { iov_base := sc.ctx.vm_map_gpa prp1 cpsz, iov_len := cpsz }
                                 br_offset := lba
                                 br_resid := cpsz
                                 br_iovcnt := 1 } } } := ⟨_, rfl⟩
  rw [← hsc4] at hfirst
  have hfr4 : sc4 = { sc with ioreqs := sc4.ioreqs } := by rw [hsc4]
  have hreq4 : BlkReq sc4 r 1 cpsz lba ((prp1 + cpsz) % 2 ^ 64) := by
    rw [hsc4]
    refine ⟨_, List.getElem?_set_self hlt, huse, ?_, rfl, rfl, rfl, rfl⟩
    show (rq.io_req.br_iov.set _ _).length = _
    rw [List.length_set]
    exact hlen
  have h01 : (if 0 = prp1 then 0 else 1) = 1 := if_neg (fun hx => hg hx.symm)
  unfold prp_gsegs at hsegs
  simp only [← hcp] at hsegs
  by_cases hs0 : bytes - cpsz = 0
  · rw [if_pos hs0] at hsegs
    rw [← Option.some.inj hsegs, iov_entries_cons, h01]
    refine ⟨sc4, (prp1 + cpsz) % 2 ^ 64, ?_, hfr4, ?_⟩
    · simp only [io_prp_walk, ← hcp, hfirst, hs0, if_true]
    · have hb : bytes = cpsz := by omega
      rw [hb]
      exact hreq4
  · rw [if_neg hs0] at hsegs
    by_cases hs1 : bytes - cpsz ≤ PAGE_SIZE
    · rw [if_pos hs1] at hsegs
      rw [← Option.some.inj hsegs, iov_entries_cons, iov_entries_cons, h01]
      obtain ⟨sc5, happ, hfr5, hreq5⟩ := append_blk_next sc4 r prp2 (bytes - cpsz)
        ((lba + cpsz) % 2 ^ 64) 1 cpsz lba ((prp1 + cpsz) % 2 ^ 64) w hreq4 (le_refl 1)
        (by show 1 + (if _ then 0 else 1) ≤ 512; split <;> omega)
      refine ⟨sc5, (prp2 + (bytes - cpsz)) % 2 ^ 64, ?_, ?_, ?_⟩
      · simp only [io_prp_walk, ← hcp, hfirst, hs0, if_false, hs1, if_true, happ]
      · rw [hfr5]
        show _ = { sc with ioreqs := sc5.ioreqs }
        rw [hfr4]
      · have hb : cpsz + (bytes - cpsz) = bytes := by omega
        rw [hb] at hreq5
        exact hreq5
    · rw [if_neg hs1] at hsegs
      cases hm : sc.ctx.vm_map_gpa prp2 PAGE_SIZE with
      | none =>
        rw [hm] at hsegs
        exact absurd hsegs (by simp)
      | some pl =>
        rw [hm] at hsegs
        dsimp only at hsegs
        cases hd : prp_list_gsegs (bytes - cpsz) sc.ctx.byte sc.ctx.vm_map_gpa pl 0
            (bytes - cpsz) with
        | none =>
          rw [hd] at hsegs
          exact absurd hsegs (by simp)
        | some d =>
          rw [hd] at hsegs
          have hctx : sc4.ctx = sc.ctx := by rw [hfr4]
          rw [← Option.some.inj hsegs, iov_entries_cons, h01] at hfit ⊢
          rw [← hctx] at hd hm
          obtain ⟨sc5, pe5, hloop, hfr5, hreq5⟩ := prp_list_loop_blk (bytes - cpsz) sc4 r w pl 0
            (bytes - cpsz) ((lba + cpsz) % 2 ^ 64) d 1 cpsz lba ((prp1 + cpsz) % 2 ^ 64) hd
            hreq4 (le_refl 1) hfit
          refine ⟨sc5, pe5, ?_, ?_, ?_⟩
          · simp only [io_prp_walk, ← hcp, hfirst, hs0, if_false, hs1, hm, hloop]
          · rw [hfr5]
            show _ = { sc with ioreqs := sc5.ioreqs }
            rw [hfr4]
          · have hb : cpsz + segs_len d = bytes := by
              rw [prp_list_gsegs_len _ _ _ _ _ _ _ hd]
              omega
            rw [hb] at hreq5
            exact hreq5
/-- C33: LBA-to-byte conversion on the block backend.  Let the store be a block backend
with a sector size below 2^32 (it is a `uint32_t`), let descriptor `r` head the free list
with its iovec array of `NVME_MAX_BLOCKIOVS` entries, and let the command at `a` be a Read
or a Write with `prp1 >= 4` whose PRPs are well formed (guest segments `segs`) and take
at most `NVME_MAX_BLOCKIOVS` iovec entries.  Then the loop body of
`pci_nvme_handle_io_cmd` hands exactly one request `br` to the block backend, to
`blockif_read` for a Read and to `blockif_write` for a Write, with
`br_offset = ((cdw11 << 32) | cdw10) * sectsz` modulo 2^64,
`br_resid = ((cdw12 & 0xFFFF) + 1) * sectsz`, the callback `pci_nvme_io_done` and the
iovec entries of the segments; it returns the state `sc7` after the hand-over when the
backend returns 0, and otherwise goes on from `sc7` to post a Data Transfer Error
completion and release the descriptor. -/
theorem block_request_offset_and_length (sc : pci_nvme_softc) (idx a r : Nat) (rest : List Nat)
    (rq0 : pci_nvme_ioreq) (segs : List (Nat × Nat))
    (hblk : sc.nvstore.type = nvme_storage_type.NVME_STOR_BLOCKIF)
    (hsect : sc.nvstore.sectsz < 2 ^ 32)
    (hfree : sc.ioreqs_free = r :: rest) (hrq : sc.ioreqs[r]? = some rq0)
    (hlen : rq0.io_req.br_iov.length = NVME_MAX_BLOCKIOVS)
    (hopc : (sc.ctx.cmd a).opc = NVME_OPC_READ ∨ (sc.ctx.cmd a).opc = NVME_OPC_WRITE)
    (hprp1 : 4 ≤ (sc.ctx.cmd a).prp1)
    (hsegs : cmd_gsegs sc (sc.ctx.cmd a) = some segs)
    (hfit : iov_entries 0 segs ≤ NVME_MAX_BLOCKIOVS) :
    ∃ br sc7,
      br.br_offset = (cmd_lba (sc.ctx.cmd a) * sc.nvstore.sectsz) % 2 ^ 64 ∧
      br.br_resid = cmd_nblocks (sc.ctx.cmd a) * sc.nvstore.sectsz ∧
      br.br_callback = br_callback_t.io_done ∧
      br.br_iovcnt = iov_entries 0 segs ∧
      sc7.blockif_log =
        sc.blockif_log ++ [(decide ((sc.ctx.cmd a).opc = NVME_OPC_WRITE), br)] ∧
      io_cmd_rw sc idx a =
        (if sc.blockif_rc br = 0 then .ok sc7
         else
           match pci_nvme_set_completion sc7 idx idx (sc.ctx.cmd a).cid 0
               (status_of NVME_SCT_GENERIC NVME_SC_DATA_TRANSFER_ERROR) true with
           | .error e => .error e
           | .ok sc8 => pci_nvme_release_ioreq sc8 r) := by
  have hlt : r < sc.ioreqs.length := (List.getElem?_eq_some.mp hrq).1
  obtain ⟨q, hq⟩ : ∃ q, (sc.pending_ios + 1) % 2 ^ 32 = q := ⟨_, rfl⟩
  obtain ⟨cmd, hcmd⟩ : ∃ cmd, cmd = sc.ctx.cmd a := ⟨_, rfl⟩
  rw [← hcmd] at hopc hprp1 hsegs ⊢
  obtain ⟨bytes, hbytes⟩ : ∃ bytes, bytes = cmd_nblocks cmd * sc.nvstore.sectsz := ⟨_, rfl⟩
  have hbmod : (cmd_nblocks cmd * sc.nvstore.sectsz) % 2 ^ 64 = bytes := by
    rw [hbytes]
    apply Nat.mod_eq_of_lt
    have h1 : cmd_nblocks cmd ≤ 65536 := by
      unfold cmd_nblocks
      omega
    calc cmd_nblocks cmd * sc.nvstore.sectsz ≤ 65536 * sc.nvstore.sectsz :=
          Nat.mul_le_mul_right _ h1
      _ < 2 ^ 64 := by omega
  obtain ⟨lba, hlba⟩ : ∃ lba, lba = (cmd_lba cmd * sc.nvstore.sectsz) % 2 ^ 64 := ⟨_, rfl⟩
  have hget : pci_nvme_get_ioreq sc = .ok
      ({ sc with
         ioreqs := sc.ioreqs.set r
           { rq0 with in_use := true
                      prev_gpaddr := 0
                      prev_size := 0
                      io_req := { rq0.io_req with br_iovcnt := 0, br_offset := 0,
                                                  br_resid := 0 } }
         ioreqs_free := rest
         pending_ios := q }, r) := by
    simp only [pci_nvme_get_ioreq, hfree, hrq, hq]
  obtain ⟨rq3, hrq3⟩ : ∃ rq3 : pci_nvme_ioreq, rq3 =
      { rq0 with in_use := true
                 prev_gpaddr := 0
                 prev_size := 0
                 nvme_sq := some idx
                 sqid := idx
                 opc := cmd.opc
                 cid := cmd.cid
                 nsid := cmd.nsid
                 io_req := { rq0.io_req with br_iovcnt := 0, br_offset := cmd_lba cmd,
                                             br_resid := 0 } } := ⟨_, rfl⟩
  obtain ⟨sc3, hsc3⟩ : ∃ sc3 : pci_nvme_softc, sc3 =
      { sc with
        ioreqs := sc.ioreqs.set r rq3
        ioreqs_free := rest
        pending_ios := q
        ctx := { sc.ctx with
                 cmd := Function.update sc.ctx.cmd a
                   { cmd with prp1 := cmd.prp1 - cmd.prp1 % 4
                              prp2 := cmd.prp2 - cmd.prp2 % 4 } } } := ⟨_, rfl⟩
  have h3r : sc3.ioreqs[r]? = some rq3 := by
    rw [hsc3]
    exact List.getElem?_set_self hlt
  have hg : cmd.prp1 - cmd.prp1 % 4 ≠ 0 := by omega
  have hsegs3 : prp_gsegs sc3.ctx.byte sc3.ctx.vm_map_gpa (cmd.prp1 - cmd.prp1 % 4)
      (cmd.prp2 - cmd.prp2 % 4) bytes = some segs := by
    rw [hsc3, hbytes]
    exact hsegs
  obtain ⟨sc5, pe, hw, hfr5, rq5, h5r, h5use, h5len, h5cnt, h5res, h5off, _⟩ :=
    io_prp_walk_blk sc3 r (cmd.prp1 - cmd.prp1 % 4) (cmd.prp2 - cmd.prp2 % 4) bytes lba
      (decide (cmd.opc = NVME_OPC_WRITE)) rq3 segs h3r (by rw [hrq3]) (by rw [hrq3])
      (by rw [hrq3]) (by rw [hrq3]) (by rw [hrq3]; exact hlen) hg hsegs3 hfit
  have h5ty : ¬ (sc5.nvstore.type = nvme_storage_type.NVME_STOR_RAM) := by
    rw [hfr5, hsc3]
    show ¬ (sc.nvstore.type = _)
    rw [hblk]
    decide
  have h5rc : sc5.blockif_rc = sc.blockif_rc := by
    rw [hfr5, hsc3]
  have h5log : sc5.blockif_log = sc.blockif_log := by
    rw [hfr5, hsc3]
  refine ⟨{ rq5.io_req with br_callback := br_callback_t.io_done },
    { sc5 with
      ioreqs := sc5.ioreqs.set r
        { rq5 with io_req := { rq5.io_req with br_callback := br_callback_t.io_done } }
      blockif_log := sc5.blockif_log ++ [(decide (cmd.opc = NVME_OPC_WRITE),
        { rq5.io_req with br_callback := br_callback_t.io_done })] },
    h5off.trans hlba, h5res.trans hbytes, rfl, h5cnt, ?_, ?_⟩
  · show sc5.blockif_log ++ _ = _
    rw [h5log]
  · unfold io_cmd_rw
    simp only [hblk, if_true, hget, List.getElem?_set_self hlt, List.set_set]
    generalize hG : io_prp_walk _ _ _ _ _ _ _ = W
    rw [← hcmd] at hG ⊢
    have hW : W = .ok (sc5, 0) := by
      rw [← hbmod, hlba, hsc3, hrq3] at hw
      exact hG.symm.trans hw
    rw [hW]
    simp only [h5ty, if_false, ne_eq, not_true_eq_false, h5r, blockif_submit, h5rc]
    rcases hopc with ho | ho
    · have hnw : ¬ (NVME_OPC_READ = NVME_OPC_WRITE) := by decide
      simp only [ho, if_true, hnw, decide_False, Nat.cast_eq_zero]
      split
      · rfl
      · rename_i hc
        rw [if_pos (not_not.mp hc)]
    · have hnr : ¬ (NVME_OPC_WRITE = NVME_OPC_READ) := by decide
      simp only [ho, if_true, hnr, if_false, decide_True, Nat.cast_eq_zero]
      split
      · rfl
      · rename_i hc
        rw [if_pos (not_not.mp hc)]

set_option maxRecDepth 100000 in
/-- Witness for C33: on the example device with a block backend, the Read of 4 blocks at
LBA 3 in slot 1 of submission queue 1 (`prp1 = 0x500000`, PRP list at 0x610000 naming the
three pages that follow) takes descriptor 0; its four contiguous segments make one iovec
entry, and the request handed to `blockif_read` has `br_offset = 3 * 4096`,
`br_resid = 4 * 4096` and the callback `pci_nvme_io_done`. -/
theorem block_request_offset_and_length_witness :
    demo_blk.ctx.cmd 0x310040 = demo_read_cmd ∧
    cmd_gsegs demo_blk demo_read_cmd =
      some [(0x500000, 4096), (0x501000, 4096), (0x502000, 4096), (0x503000, 4096)] ∧
    iov_entries 0 [(0x500000, 4096), (0x501000, 4096), (0x502000, 4096), (0x503000, 4096)] = 1 ∧
    ∃ br sc7, br.br_offset = 12288 ∧ br.br_resid = 16384 ∧
      br.br_callback = br_callback_t.io_done ∧ br.br_iovcnt = 1 ∧
      sc7.blockif_log = [(false, br)] ∧
      io_cmd_rw demo_blk 1 0x310040 = .ok sc7 :=
  ⟨rfl, rfl, rfl,
    block_request_offset_and_length demo_blk 1 0x310040 0 [1, 2, 3, 4, 5, 6, 7] zero_ioreq
      [(0x500000, 4096), (0x501000, 4096), (0x502000, 4096), (0x503000, 4096)]
      rfl (by decide) rfl rfl rfl (Or.inl rfl) (by decide) rfl (by decide)⟩

/-! ### Queue identifiers past the end of the queue arrays -/

/-- C10: evaluation at the failing input.  Device creation with `maxq=4` leaves
`max_queues = 4` and `num_squeues = num_cqueues = 16` (`pci_nvme_parse_opts`), over queue
arrays of 5 elements.  In that state Delete I/O SQ with `qid = 7` passes the test
`qid == 0 || qid > num_cqueues` and the handler goes on to
`submit_queues[7].qbase = NULL`, an element outside the array: there is no
`submit_queues[7]` to set, and the write lands past the end of the array.  Delete I/O CQ
does the same on `compl_queues`.  The same commands, run from the admin submission queue,
end the same way. -/
theorem delete_io_queue_past_array :
    (∃ s, pci_nvme_parse_opts demo_host (zero_softc demo_host demo_ctx)
        [nvme_opt.ram 1, nvme_opt.maxq 4] = .ok (0, s) ∧
      s.max_queues = 4 ∧ s.num_squeues = 16 ∧ s.num_cqueues = 16) ∧
    demo_counts16.max_queues = 4 ∧ demo_counts16.num_cqueues = 16 ∧
    demo_counts16.submit_queues.length = 5 ∧ demo_counts16.compl_queues.length = 5 ∧
    demo_delete_sq7.cdw10 % 65536 = 7 ∧ demo_delete_cq7.cdw10 % 65536 = 7 ∧
    ¬ (7 = 0 ∨ 7 > demo_counts16.num_cqueues) ∧
    nvme_opc_delete_io_sq demo_counts16 demo_delete_sq7 zero_completion =
      .error .outOfBounds ∧
    nvme_opc_delete_io_cq demo_counts16 demo_delete_cq7 zero_completion =
      .error .outOfBounds ∧
    admin_dispatch demo_counts16 demo_delete_sq7 zero_completion = .error .outOfBounds ∧
    admin_dispatch demo_counts16 demo_delete_cq7 zero_completion = .error .outOfBounds :=
  ⟨⟨_, rfl, rfl, rfl, rfl⟩, rfl, rfl, rfl, rfl, rfl, rfl, by decide, rfl, rfl, rfl, rfl⟩

/-- C11: evaluation at the failing input.  Device creation with `maxq=4` leaves
`max_queues = 4` and `num_squeues = 16` (`pci_nvme_parse_opts`), over a submission queue
array of 5 elements.  In that state Create I/O SQ with `CDW11.PC = 1` and `qid = 7`
passes the test `qid > num_squeues` and the handler goes on to set `size`, `qbase`, `cqid`
and `qpriority` of `submit_queues[7]`, an element outside the array: the fields are
written past the end of the array, not into a submission queue. -/
theorem create_io_sq_past_array :
    (∃ s, pci_nvme_parse_opts demo_host (zero_softc demo_host demo_ctx)
        [nvme_opt.ram 1, nvme_opt.maxq 4] = .ok (0, s) ∧
      s.max_queues = 4 ∧ s.num_squeues = 16 ∧ s.num_cqueues = 16) ∧
    demo_counts16.max_queues = 4 ∧ demo_counts16.num_squeues = 16 ∧
    demo_counts16.submit_queues.length = 5 ∧
    demo_create_sq7.cdw11 % 2 = 1 ∧ demo_create_sq7.cdw10 % 65536 = 7 ∧
    demo_create_sq7.cdw10 % 65536 ≤ demo_counts16.num_squeues ∧
    nvme_opc_create_io_sq demo_counts16 demo_create_sq7 zero_completion =
      .error .outOfBounds ∧
    admin_dispatch demo_counts16 demo_create_sq7 zero_completion = .error .outOfBounds :=
  ⟨⟨_, rfl, rfl, rfl, rfl⟩, rfl, rfl, rfl, rfl, rfl, by decide, rfl, rfl⟩

/-- Why the amended C13 names the layout of the device.  With the queue counts that device
creation with `maxq=4` leaves (`num_cqueues = 16` over a completion queue array of 5
elements), Create I/O CQ with `CDW11.PC = 1` and `qid = 7` passes the test
`qid > num_cqueues` and the handler goes on to set the fields of `compl_queues[7]`, an
element outside the array. -/
theorem create_io_cq_outside_array :
    demo_counts16.max_queues = 4 ∧ demo_counts16.num_cqueues = 16 ∧
    demo_counts16.compl_queues.length = 5 ∧
    demo_create_cq7.cdw11 % 2 = 1 ∧ demo_create_cq7.cdw10 % 65536 = 7 ∧
    demo_create_cq7.cdw10 % 65536 ≤ demo_counts16.num_cqueues ∧
    nvme_opc_create_io_cq demo_counts16 demo_create_cq7 zero_completion =
      .error .outOfBounds :=
  ⟨rfl, rfl, rfl, rfl, rfl, by decide, rfl⟩

/-! ### PRP walk: the addresses of the segments -/

/-- What the guest segments of a PRP list are at the last entry of a list page with more
than a page of data left: the entry is the address of the next list page, and the
segments go on with entry 0 of that page. -/
theorem prp_list_gsegs_last_entry (fuel : Nat) (byte : Nat → Nat)
    (map : Nat → Nat → Option Nat) (pl size : Nat) (segs : List (Nat × Nat))
    (hs : PAGE_SIZE < size)
    (h : prp_list_gsegs (fuel + 1) byte map pl (NVME_PRP2_ITEMS - 1) size = some segs) :
    ∃ p rest, map (read64 byte (pl + 8 * (NVME_PRP2_ITEMS - 1))) PAGE_SIZE = some p ∧
      read64 byte (pl + 8 * (NVME_PRP2_ITEMS - 1)) % PAGE_SIZE = 0 ∧
      prp_list_gsegs fuel byte map p 1 (size - PAGE_SIZE) = some rest ∧
      segs = (read64 byte (p + 8 * 0), PAGE_SIZE) :: rest := by
  have hs0 : size ≠ 0 := by
    intro h0
    rw [h0] at hs
    exact absurd hs (by decide)
  obtain ⟨p, i1, pg, d, hmv, _, hd, hsegs⟩ :=
    prp_list_gsegs_succ fuel byte map pl (NVME_PRP2_ITEMS - 1) size segs hs0 h
  have hmin : min size PAGE_SIZE = PAGE_SIZE := Nat.min_eq_right (Nat.le_of_lt hs)
  rw [hmin] at hd hsegs
  rcases prp_list_move_cases _ _ _ _ _ _ _ _ hmv with ⟨_, _, _, hc⟩ | ⟨h1, _, _, _, h5, h6⟩
  · exact absurd ⟨rfl, hs⟩ hc
  · subst h1
    exact ⟨p, d, h6, h5, hd, hsegs⟩

/-- The PRP list loop at the end of a list page, on the example device.  With the list
page at 0x600000, the index 510 and three pages of data left, the loop passes the entry
510 (0x401000) as data; at the index 511 two pages are left, so the entry 511 (0x620000)
is taken as the address of the next list and the loop goes on with the entries 0 and 1 of
the page at 0x620000 (0x402000 and 0x403000).  The loop ends with `err = 0`, and the
segments are those of `prp_list_gsegs`. -/
theorem prp_list_loop_follows_chain :
    read64 demo_chain.ctx.byte (0x600000 + 8 * 510) = 0x401000 ∧
    read64 demo_chain.ctx.byte (0x600000 + 8 * (NVME_PRP2_ITEMS - 1)) = 0x620000 ∧
    read64 demo_chain.ctx.byte (0x620000 + 8 * 0) = 0x402000 ∧
    read64 demo_chain.ctx.byte (0x620000 + 8 * 1) = 0x403000 ∧
    (prp_list_loop_calls 12288 demo_chain none true (some 0x600000) 510 12288 0 0).1 =
      [{ idx := some 510, gpaddr := 0x401000, size := 4096 },
       { idx := some 0, gpaddr := 0x402000, size := 4096 },
       { idx := some 1, gpaddr := 0x403000, size := 4096 }] ∧
    (∃ sc1, (prp_list_loop_calls 12288 demo_chain none true (some 0x600000) 510 12288 0 0).2 =
      .ok (sc1, 0)) ∧
    prp_list_gsegs 12288 demo_chain.ctx.byte demo_chain.ctx.vm_map_gpa 0x600000 510 12288 =
      some [(0x401000, 4096), (0x402000, 4096), (0x403000, 4096)] :=
  ⟨rfl, rfl, rfl, rfl, rfl, ⟨_, rfl⟩, rfl⟩

/-- The result of the call for `prp1` is tested nowhere.  On the example device (RAM store
of 1 MiB, 4096-byte sectors) the Write of 2 blocks at LBA `2 ^ 52 - 2` has the byte offset
`2 ^ 64 - 8192`.  The call of `pci_nvme_append_iov_req` for `prp1` ends beyond the store
and returns -1 without copying; the walk goes on to the call for `prp2`, whose end
`lba + size` wraps to 0, so that it returns 0, and the walk ends with `err = 0` after two
calls whose lengths sum to `bytes`. -/
theorem prp_walk_first_result_dropped :
    cmd_nblocks demo_drop_cmd * demo_rw.nvstore.sectsz = 8192 ∧
    (cmd_lba demo_drop_cmd * demo_rw.nvstore.sectsz) % 2 ^ 64 = 2 ^ 64 - 8192 ∧
    pci_nvme_append_iov_req demo_rw none 0x400000 4096 true (2 ^ 64 - 8192) =
      .ok (demo_rw, -1) ∧
    (∃ sc1, (cmd_prp_calls demo_rw none demo_drop_cmd (2 ^ 64 - 8192)).2 = .ok (sc1, 0)) ∧
    (cmd_prp_calls demo_rw none demo_drop_cmd (2 ^ 64 - 8192)).1 =
      [{ idx := none, gpaddr := 0x400000, size := 4096 },
       { idx := none, gpaddr := 0x401000, size := 4096 }] :=
  ⟨rfl, rfl, rfl, ⟨_, rfl⟩, rfl⟩

/-- A Read on the RAM store copies into guest memory while the walk goes on.  On the
example device the Read of 3 blocks at LBA 0 names the page 0x600000 both as its first data
page and as its PRP list, whose entries 0 and 1 are 0x401000 and 0x402000 before the walk.
The call for `prp1` copies the first block of the store over the list, and the loop then
reads the entries 0x501000 and 0x502000 that the store held: the walk ends with `err = 0`,
and the segments of its calls are not the guest segments that the PRPs described before
the walk. -/
theorem prp_walk_read_over_own_list :
    demo_self_cmd.opc = NVME_OPC_READ ∧
    cmd_nblocks demo_self_cmd * demo_self.nvstore.sectsz = 12288 ∧
    read64 demo_self.ctx.byte 0x600000 = 0x401000 ∧
    read64 demo_self.ctx.byte 0x600008 = 0x402000 ∧
    cmd_buffer demo_self demo_self_cmd =
      some { segs := [(0x600000, 4096), (0x401000, 4096), (0x402000, 4096)],
             pages := [0x600000] } ∧
    cmd_gsegs demo_self demo_self_cmd =
      some [(0x600000, 4096), (0x401000, 4096), (0x402000, 4096)] ∧
    (∃ sc1, (cmd_prp_calls demo_self none demo_self_cmd 0).2 = .ok (sc1, 0)) ∧
    (cmd_prp_calls demo_self none demo_self_cmd 0).1 =
      [{ idx := none, gpaddr := 0x600000, size := 4096 },
       { idx := some 0, gpaddr := 0x501000, size := 4096 },
       { idx := some 1, gpaddr := 0x502000, size := 4096 }] :=
  ⟨rfl, rfl, rfl, rfl, rfl, rfl, ⟨_, rfl⟩, rfl⟩

/-! ### Round trip: a read buffer that holds its own PRP list -/

/-- Two buffers whose first segments have the same length and whose bytes agree have
agreeing bytes in the segments that follow. -/
theorem gather_tail_inj (byte byte1 : Nat → Nat) (a a1 len : Nat) (r r1 : List (Nat × Nat))
    (h : gather byte ((a, len) :: r) = gather byte1 ((a1, len) :: r1)) :
    gather byte r = gather byte1 r1 := by
  simp only [gather] at h
  exact List.append_inj_right h (by simp)

set_option maxRecDepth 100000 in
/-- C7, counterexample to the claim as worded.  On the example device a Write of 3 blocks
at LBA 3 from the pages 0x400000, 0x401000, 0x402000, inside the store, is followed by a
Read of 3 blocks at LBA 3 into a second buffer described by PRPs of the same shape: a
first page 0x500000 and a PRP list of two entries, 0x610000 and 0x502000, all non-zero and
mapped, the three pages distinct.  The page 0x610000 of the buffer is the page that holds
its PRP list.  The Write completes with Generic / Success.  The Read copies the second
block over the list, reads the entry 1 from the copied bytes, finds it zero and completes
with Generic / LBA Out of Range (0x80); the third page of the buffer is never filled, and
the bytes of the read buffer differ from the bytes of the written buffer. -/
theorem round_trip_buffer_holds_its_list :
    cmd_buffer demo_inlist demo_inlist_write = some demo_inlist_wbuf ∧
    cmd_buffer demo_inlist demo_inlist_read = some demo_inlist_rbuf ∧
    segs_disjoint demo_inlist_rbuf.segs ∧
    cmd_lba demo_inlist_read = cmd_lba demo_inlist_write ∧
    cmd_nblocks demo_inlist_read = cmd_nblocks demo_inlist_write ∧
    (cmd_lba demo_inlist_write + cmd_nblocks demo_inlist_write) * demo_inlist.nvstore.sectsz ≤
      demo_inlist.nvstore.size ∧
    ∃ sc1 sc2 h1 h2, io_step demo_inlist 1 0 = .ok (sc1, h1) ∧
      io_step sc1 1 1 = .ok (sc2, h2) ∧
      (sc1.ctx.cpl 0x300000).status.sct = NVME_SCT_GENERIC ∧
      (sc1.ctx.cpl 0x300000).status.sc = NVME_SC_SUCCESS ∧
      (sc2.ctx.cpl 0x300010).status.sct = NVME_SCT_GENERIC ∧
      (sc2.ctx.cpl 0x300010).status.sc = NVME_SC_LBA_OUT_OF_RANGE ∧
      gather sc2.ctx.byte demo_inlist_rbuf.segs ≠
        gather demo_inlist.ctx.byte demo_inlist_wbuf.segs := by
  refine ⟨rfl, rfl, by simp [segs_disjoint, demo_inlist_rbuf, disjoint_range], rfl, rfl,
    by decide, demo_inlist_written, demo_inlist_done, _, _, rfl, rfl, rfl, rfl, rfl, rfl, ?_⟩
  intro heq
  rw [show demo_inlist_rbuf.segs =
      (0x500000, 4096) :: (0x610000, 4096) :: [(0x502000, 4096)] from rfl,
    show demo_inlist_wbuf.segs =
      (0x400000, 4096) :: (0x401000, 4096) :: [(0x402000, 4096)] from rfl] at heq
  have hh := congrArg List.head? (gather_tail_inj _ _ _ _ _ _ _ (gather_tail_inj _ _ _ _ _ _ _ heq))
  rw [gather_head _ _ _ _ (by decide), gather_head _ _ _ _ (by decide)] at hh
  have hne : demo_inlist_done.ctx.byte 0x502000 ≠ demo_inlist.ctx.byte 0x402000 := by
    decide
  exact hne (Option.some.inj hh)

end PciNvme
